import Mathlib

/-!
# Dx8to12: dynamic resource streaming and frame synchronisation

A shallow embedding of the ring allocator (`dynamic_ring_buffer.cpp`), the
coalescing range set (`utils/range_set.h`) and the static and dynamic buffer
lock paths (`buffer.cpp`), followed by theorems about them.

Conventions of the embedding:

* `size_t` and `uint64_t` values are `Nat`, `uint32_t`/`UINT`/`DWORD` values are
  `Nat`, `int` values are `Int`; every conversion and every operation that can
  leave the machine range is wrapped explicitly (`toInt32`, `toUInt32`,
  `toSizeT`).
* `ASSERT(e)` with a false `e` and `FAIL(...)` end the call with a `Fault`.
* Memory is a map from byte offsets to bytes, one map per resource.
-/

namespace Dx8to12

/-! ## Machine integers -/

/-- Value of an integer after conversion to a 32-bit two's-complement `int`. -/
def toInt32 (x : Int) : Int := (x + 2 ^ 31) % 2 ^ 32 - 2 ^ 31

/-- Value of an integer after conversion to `uint32_t`. -/
def toUInt32 (x : Int) : Nat := (x % 2 ^ 32).toNat

/-- Value of an integer after conversion to the 64-bit `size_t`. -/
def toSizeT (x : Int) : Nat := (x % 2 ^ 64).toNat

/-- Largest `int`, `INT32_MAX`. -/
def INT32_MAX : Nat := 2 ^ 31 - 1

/-- How a call ends when it does not return normally. -/
inductive Fault where
  /-- an `ASSERT` whose condition is false -/
  | assertion
  /-- a `FAIL`, which aborts the process -/
  | fatal
  deriving DecidableEq, Repr

/-- Macro `ASSERT(cond)` followed by the rest of the function. -/
def ASSERT {α : Type} (cond : Bool) (rest : Except Fault α) : Except Fault α :=
  if cond then rest else Except.error Fault.assertion

/-! ## util.h -/

/-- Function `HasFlag(value, flag)`: `ASSERT(flag != 0); return (value & flag) == flag;`. -/
def HasFlag (value flag : Nat) : Except Fault Bool :=
  ASSERT (flag != 0) <| Except.ok ((value &&& flag) == flag)

/-- Function `IsPow2(uint32_t n)`: `(n & (n - 1)) == 0`, the subtraction wrapping at 32 bits. -/
def IsPow2 (n : Nat) : Bool := (n &&& toUInt32 ((n : Int) - 1)) == 0

/-- Function `AlignUp(int offset, int alignment)`:
`(offset + alignment - 1) & ~(alignment - 1)` on 32-bit two's-complement
patterns. -/
def AlignUp (offset alignment : Int) : Int :=
  toInt32 (Int.ofNat (toUInt32 (offset + alignment - 1) &&&
    (2 ^ 32 - 1 - toUInt32 (alignment - 1))))

/-! ## Memory and resources -/

/-- One byte of memory (`char`, `BYTE`). -/
abbrev Byte := UInt8

/-- Contents of a linear resource, by byte offset. -/
abbrev Memory := Int → Byte

/-- Function `memcpy(dest, src.data(), src.size())` into the memory `m`, `dest` being a
byte offset of `m`. -/
def memcpy (m : Memory) (dest : Int) (src : List Byte) : Memory :=
  fun i => if dest ≤ i ∧ i < dest + src.length then src.getD (i - dest).toNat 0 else m i

/-- The `n` bytes of `m` from offset `src` on. -/
def readBytes (m : Memory) (src : Int) (n : Nat) : List Byte :=
  (List.range n).map (fun (i : Nat) => m (src + (i : Int)))

/-- An `ID3D12Resource` holding a buffer: its device address, its contents and
how many `Map` calls are not yet matched by an `Unmap`. -/
structure Resource where
  gpu_va : Int
  mem : Memory
  map_count : Nat

/-! ## dynamic_ring_buffer.h / dynamic_ring_buffer.cpp -/

/-- Type `DynamicRingBuffer::Allocation`. -/
structure Allocation where
  frame : Nat
  offset : Int
  size : Int
  deriving DecidableEq, Repr

/-- The value-initialised allocation `{}`. -/
def Allocation.zero : Allocation := { frame := 0, offset := 0, size := 0 }

/-- Fields of `class DynamicRingBuffer`. -/
structure DynamicRingBuffer where
  buffer_ : Resource
  cpu_ptr_ : Int
  gpu_ptr_ : Int
  max_size_ : Nat
  head_ : Nat
  tail_ : Nat
  frame_heads_ : List (Nat × Nat)
  current_frame_ : Nat

/-- Field `const uint32_t min_align_ = 256;`. -/
def min_align_ : Nat := 256

/-- Constructor `DynamicRingBuffer(device, size)`. The committed resource the
device creates (`buffer`), the address `Map` returns (`cpu_ptr`) and the SDK
constant `D3D12_DEFAULT_RESOURCE_PLACEMENT_ALIGNMENT` (`placement`) come from
outside the sources and are parameters. -/
def DynamicRingBuffer.create (placement : Nat) (buffer : Resource) (cpu_ptr : Int)
    (size : Nat) : DynamicRingBuffer :=
  { buffer_ := { buffer with map_count := buffer.map_count + 1 }
    cpu_ptr_ := cpu_ptr
    gpu_ptr_ := buffer.gpu_va
    max_size_ := toSizeT ((size : Int) + placement - 1) &&&
      (2 ^ 64 - 1 - toSizeT ((placement : Int) - 1))
    head_ := 0
    tail_ := 0
    frame_heads_ := []
    current_frame_ := 0 }

/-- The placement step of `Allocate`: where the allocation goes and the new
tail, or `none` when `is_oom` is set. -/
def DynamicRingBuffer.place (self : DynamicRingBuffer) (num_bytes : Nat) (align : Nat) :
    Option (Int × Nat) :=
  let aligned : Int := AlignUp (toInt32 self.tail_) (toInt32 align)
  let aligned_end : Nat := toSizeT (aligned + num_bytes)
  if self.tail_ ≥ self.head_ then
    if aligned_end ≤ self.max_size_ then some (aligned, aligned_end)
    else if self.head_ ≥ num_bytes then some (0, num_bytes)
    else none
  else if aligned_end ≤ self.head_ then some (aligned, aligned_end)
  else none

/-- Method `DynamicRingBuffer::Allocate(num_bytes, align)`. -/
def DynamicRingBuffer.Allocate (self : DynamicRingBuffer) (num_bytes : Nat) (align : Nat) :
    Except Fault (Allocation × DynamicRingBuffer) :=
  ASSERT (decide (self.head_ ≤ self.max_size_) && decide (self.tail_ ≤ self.max_size_)) <|
  ASSERT (IsPow2 align) <|
  let align := max align min_align_
  match self.place num_bytes align with
  | none => Except.error Fault.fatal
  | some (offset, tail) =>
    let alloc : Allocation :=
      { frame := self.current_frame_, offset := offset, size := toInt32 num_bytes }
    ASSERT (decide (toInt32 (alloc.offset + alloc.size) ≤ toInt32 self.max_size_)) <|
    Except.ok (alloc, { self with tail_ := tail })

/-- Method `DynamicRingBuffer::GetCpuPtrFor(alloc)`. -/
def DynamicRingBuffer.GetCpuPtrFor (self : DynamicRingBuffer) (alloc : Allocation) :
    Except Fault Int :=
  ASSERT (decide (alloc.frame = self.current_frame_)) <|
  ASSERT (decide (toInt32 (alloc.offset + alloc.size) ≤ toInt32 self.max_size_)) <|
  Except.ok (self.cpu_ptr_ + alloc.offset)

/-- Method `DynamicRingBuffer::GetGpuPtrFor(alloc)`; `GpuPtr::WithOffset` adds the
offset to the 64-bit address. -/
def DynamicRingBuffer.GetGpuPtrFor (self : DynamicRingBuffer) (alloc : Allocation) :
    Except Fault Int :=
  ASSERT (decide (alloc.frame = self.current_frame_)) <|
  ASSERT (decide (toInt32 (alloc.offset + alloc.size) ≤ toInt32 self.max_size_)) <|
  Except.ok (self.gpu_ptr_ + alloc.offset)

/-- Method `DynamicRingBuffer::SetCurrentFrame(frame)`. -/
def DynamicRingBuffer.SetCurrentFrame (self : DynamicRingBuffer) (frame : Nat) :
    DynamicRingBuffer :=
  if frame > self.current_frame_ then
    { self with current_frame_ := frame, frame_heads_ := self.frame_heads_ ++ [(frame, self.tail_)] }
  else self

/-- The loop of `HasCompletedFrame`: pop the front while its frame is `<= frame`. -/
def popCompleted (frame : Nat) : List (Nat × Nat) → List (Nat × Nat)
  | [] => []
  | e :: rest => if e.1 ≤ frame then popCompleted frame rest else e :: rest

/-- Method `DynamicRingBuffer::HasCompletedFrame(frame)`. -/
def DynamicRingBuffer.HasCompletedFrame (self : DynamicRingBuffer) (frame : Nat) :
    DynamicRingBuffer :=
  match popCompleted frame self.frame_heads_ with
  | [] => { self with frame_heads_ := [], head_ := 0, tail_ := 0 }
  | e :: rest => { self with frame_heads_ := e :: rest, head_ := e.2 }

/-! ## utils/range_set.h -/

/-- Type `RangeSet::Range`. -/
structure Range where
  offset : Int
  size : Int
  deriving DecidableEq, Repr

/-- Method `std::lower_bound(ranges.begin(), ranges.end(), range)` under
`Range::operator<`, taken by its contract: the index of the first stored range
whose offset is not less than `value.offset`, the length when there is none. -/
def lower_bound : List Range → Range → Nat
  | [], _ => 0
  | r :: rest, value => if r.offset < value.offset then lower_bound rest value + 1 else 0

/-- The `class RangeSet`. -/
structure RangeSet where
  ranges : List Range
  deriving DecidableEq, Repr

/-- Method `RangeSet::insert(range)`. -/
def RangeSet.insert (self : RangeSet) (range : Range) : Except Fault RangeSet :=
  let iter := lower_bound self.ranges range
  let coalesce_prev : Option Range :=
    if iter ≠ 0 then
      (self.ranges.get? (iter - 1)).filter
        (fun prev => decide (toInt32 (prev.offset + prev.size) ≥ range.offset))
    else none
  match coalesce_prev with
  | some prev =>
    ASSERT (toInt32 (prev.offset + prev.size) == range.offset) <|
    Except.ok { ranges := self.ranges.set (iter - 1)
                  { prev with size := toInt32 (prev.size + range.size) } }
  | none =>
    match self.ranges.get? iter with
    | some next =>
      if toInt32 (range.offset + range.size) ≥ next.offset then
        if next = range then Except.ok self
        else
          ASSERT (toInt32 (range.offset + range.size) == next.offset) <|
          Except.ok { ranges := self.ranges.set iter
                        { offset := range.offset, size := toInt32 (next.size + range.size) } }
      else Except.ok { ranges := self.ranges.take iter ++ range :: self.ranges.drop iter }
    | none => Except.ok { ranges := self.ranges.take iter ++ range :: self.ranges.drop iter }

/-! ## device.h / device.cpp: the parts the buffers use -/

/-- Which `ID3D12Resource` a recorded command names. -/
inductive ResourceRef where
  /-- the ring allocator's backing resource -/
  | ring
  /-- the backing resource of the buffer object at address `this` -/
  | buffer (this : Nat)
  deriving DecidableEq, Repr

/-- The `struct D3D12_VERTEX_BUFFER_VIEW` as `PrepareDrawCall` fills it. -/
structure D3D12_VERTEX_BUFFER_VIEW where
  BufferLocation : Int
  SizeInBytes : Nat
  StrideInBytes : Nat
  deriving DecidableEq, Repr

/-- Commands recorded on `cmd_list_`. -/
inductive Command where
  /-- Command `CopyBufferRegion(dest, dest_offset, src, src_offset, num_bytes)` -/
  | CopyBufferRegion (dest : ResourceRef) (dest_offset : Nat) (src : ResourceRef)
      (src_offset : Nat) (num_bytes : Nat)
  /-- Command `ResourceBarrier` returning `dest` from copy destination to common -/
  | TransitionToCommon (dest : ResourceRef)
  /-- Command `ResourceBarrier` taking subresource `subresource` of the texture
  object at address `texture` from `state_before` to `state_after` -/
  | TransitionBarrier (texture : Nat) (subresource : Nat) (state_before state_after : Nat)
  /-- Command `RSSetViewports(1, &viewport_)` -/
  | RSSetViewports
  /-- Command `RSSetScissorRects(1, &scissors)` -/
  | RSSetScissorRects
  /-- Command `SetDescriptorHeaps` with the two descriptor heaps of the device -/
  | SetDescriptorHeaps
  /-- Command `OMSetRenderTargets` with the render target object and, if one is
  bound, the depth target object -/
  | OMSetRenderTargets (render_target : Nat) (depth_target : Option Nat)
  /-- Command `IASetPrimitiveTopology(topology)` -/
  | IASetPrimitiveTopology (topology : Nat)
  /-- Command `IASetVertexBuffers(0, views.size(), views)` -/
  | IASetVertexBuffers (views : List D3D12_VERTEX_BUFFER_VIEW)
  /-- Command `SetPipelineState(pso)` -/
  | SetPipelineState (pso : Nat)
  /-- Command `SetGraphicsRootSignature(main_root_sig_)` -/
  | SetGraphicsRootSignature
  /-- Command `SetGraphicsRootConstantBufferView(slot, address)` -/
  | SetGraphicsRootConstantBufferView (slot : Nat) (address : Int)
  /-- Command `SetGraphicsRootDescriptorTable(slot, handle)` -/
  | SetGraphicsRootDescriptorTable (slot : Nat) (handle : Nat)
  deriving DecidableEq, Repr

/-- The fields of `class Device` the ring allocator and the buffers use.
`buffers_to_persist_` holds the addresses of the registered buffers. -/
structure Device where
  next_fence_ : Nat
  dynamic_ring_buffer_ : DynamicRingBuffer
  buffers_to_persist_ : List Nat
  cmd_list_ : List Command

/-- Method `Device::CurrentFrame()`. -/
def Device.CurrentFrame (self : Device) : Nat := self.next_fence_

/-- Method `Device::MarkBufferForPersist(buffer)`: insertion into an unordered set. -/
def Device.MarkBufferForPersist (self : Device) (buffer : Nat) : Device :=
  if buffer ∈ self.buffers_to_persist_ then self
  else { self with buffers_to_persist_ := buffer :: self.buffers_to_persist_ }

/-- Method `Device::CopyBuffer(dest, dest_offset, src, src_offset, num_bytes)`: the
`int64_t` arguments are cast to `UINT64`. -/
def Device.CopyBuffer (self : Device) (dest : ResourceRef) (dest_offset : Int)
    (src : ResourceRef) (src_offset : Int) (num_bytes : Int) : Device :=
  { self with cmd_list_ := self.cmd_list_ ++
      [Command.CopyBufferRegion dest (toSizeT dest_offset) src (toSizeT src_offset)
         (toSizeT num_bytes),
       Command.TransitionToCommon dest] }

/-- What the GPU does when it executes `CopyBufferRegion`: `num_bytes` bytes of
`src` from `src_offset` on replace the bytes of `dest` from `dest_offset` on. -/
def executeCopy (dest : Resource) (dest_offset : Nat) (src : Resource) (src_offset : Nat)
    (num_bytes : Nat) : Resource :=
  { dest with mem := memcpy dest.mem dest_offset (readBytes src.mem src_offset num_bytes) }

/-! ## buffer.h / buffer.cpp -/

/-- The lock flag bits `D3DLOCK_DISCARD` and `D3DLOCK_NOOVERWRITE` of the
DirectX 8 SDK header, which is not among the sources: parameters. -/
structure LockFlagBits where
  D3DLOCK_DISCARD : Nat
  D3DLOCK_NOOVERWRITE : Nat
  deriving DecidableEq, Repr

/-- Modelled from the spec: the default alignment of `Allocate`, the SDK constant
`D3D12_CONSTANT_BUFFER_DATA_PLACEMENT_ALIGNMENT`, which is not among the
sources; "Alignment defaults to a minimum platform alignment". -/
def D3D12_CONSTANT_BUFFER_DATA_PLACEMENT_ALIGNMENT : Nat := min_align_

/-- A `BYTE*` handed out by `Lock`: the memory it points into and where. -/
inductive BytePtr where
  /-- Pointer `speculative_write_cache_.data() + index` -/
  | cache (index : Int)
  /-- a host address inside the mapping of the ring, `cpu_ptr_ + offset` -/
  | ring (address : Int)
  /-- the pointer `Map` returns for the buffer's own resource, plus `offset` -/
  | resource (offset : Int)
  deriving DecidableEq, Repr

/-- Fields of `class Buffer` the lock paths use; `this` is the address of the
object, under which the device registers it. -/
structure Buffer where
  this : Nat
  resource_ : Resource
  size_ : Int

/-- Fields `class DynamicBuffer` adds. -/
structure DynamicBuffer extends Buffer where
  speculative_write_cache_ : List Byte
  is_speculative_write_persisted_ : Bool
  current_ring_alloc_ : Allocation
  prev_lock_frame_ : Nat
  written_ranges_ : RangeSet

/-- Method `Buffer::Lock(OffsetToLock, SizeToLock, ppbData, Flags)`; the result is
`*ppbData`. The `D3D12_RANGE` built from the offset and the size tells `Map`
which bytes the CPU may read and does not change the pointer `Map` returns. -/
def Buffer.Lock (K : LockFlagBits) (self : Buffer) (OffsetToLock SizeToLock Flags : Nat) :
    Except Fault (BytePtr × Buffer) :=
  ASSERT (decide (OffsetToLock ≤ INT32_MAX)) <|
  ASSERT (decide (SizeToLock ≤ INT32_MAX)) <|
  match HasFlag Flags K.D3DLOCK_DISCARD with
  | Except.error e => Except.error e
  | Except.ok is_discard =>
    ASSERT (!is_discard) <|
    ASSERT (decide (toInt32 SizeToLock ≤ self.size_)) <|
    Except.ok (BytePtr.resource OffsetToLock,
      { self with resource_ := { self.resource_ with map_count := self.resource_.map_count + 1 } })

/-- Method `Buffer::Unlock()`. -/
def Buffer.Unlock (self : Buffer) : Buffer :=
  { self with resource_ := { self.resource_ with map_count := self.resource_.map_count - 1 } }

/-- Method `Buffer::GetGpuPtr()`. -/
def Buffer.GetGpuPtr (self : Buffer) : Int := self.resource_.gpu_va

/-- Method `DynamicBuffer::PersistSpeculativeWrite(alloc_size)`. -/
def DynamicBuffer.PersistSpeculativeWrite (dev : Device) (self : DynamicBuffer)
    (alloc_size : Int) : Except Fault (Device × DynamicBuffer) :=
  match dev.dynamic_ring_buffer_.Allocate (toSizeT alloc_size)
      D3D12_CONSTANT_BUFFER_DATA_PLACEMENT_ALIGNMENT with
  | Except.error e => Except.error e
  | Except.ok (alloc, ring) =>
    match ring.GetCpuPtrFor alloc with
    | Except.error e => Except.error e
    | Except.ok dest =>
      let ring : DynamicRingBuffer :=
        { ring with buffer_ := { ring.buffer_ with
            mem := memcpy ring.buffer_.mem (dest - ring.cpu_ptr_) self.speculative_write_cache_ } }
      Except.ok ({ dev with dynamic_ring_buffer_ := ring },
        { self with current_ring_alloc_ := alloc
                    prev_lock_frame_ := dev.CurrentFrame
                    is_speculative_write_persisted_ := true })

/-- The `if (is_discard)` block of `DynamicBuffer::Lock`. -/
def DynamicBuffer.lockDiscard (dev : Device) (self : DynamicBuffer) (offset size_to_lock : Int) :
    Except Fault (BytePtr × Device × DynamicBuffer) :=
  ASSERT (offset == 0) <|
  let self : DynamicBuffer :=
    { self with current_ring_alloc_ := Allocation.zero
                speculative_write_cache_ := List.replicate (toSizeT size_to_lock) 0
                is_speculative_write_persisted_ := false }
  match (RangeSet.mk []).insert { offset := offset, size := size_to_lock } with
  | Except.error e => Except.error e
  | Except.ok ranges =>
    Except.ok (BytePtr.cache 0, dev, { self with written_ranges_ := ranges })

/-- The promotion at the start of the no-overwrite block of
`DynamicBuffer::Lock`: `if (!speculative_write_cache_.empty()) { ... }`. -/
def DynamicBuffer.promoteForAppend (dev : Device) (self : DynamicBuffer) :
    Except Fault (Device × DynamicBuffer) :=
  if !self.speculative_write_cache_.isEmpty then
    match DynamicBuffer.PersistSpeculativeWrite dev self self.size_ with
    | Except.error e => Except.error e
    | Except.ok (dev, self) => Except.ok (dev, { self with speculative_write_cache_ := [] })
  else Except.ok (dev, self)

/-- The `else` block of `DynamicBuffer::Lock`, the no-overwrite append. -/
def DynamicBuffer.lockAppend (dev : Device) (self : DynamicBuffer) (is_nooverwrite : Bool)
    (offset size_to_lock : Int) : Except Fault (BytePtr × Device × DynamicBuffer) :=
  ASSERT is_nooverwrite <|
  ASSERT (self.prev_lock_frame_ == dev.CurrentFrame) <|
  match DynamicBuffer.promoteForAppend dev self with
  | Except.error e => Except.error e
  | Except.ok (dev, self) =>
    match dev.dynamic_ring_buffer_.GetCpuPtrFor self.current_ring_alloc_ with
    | Except.error e => Except.error e
    | Except.ok ring_ptr =>
      match self.written_ranges_.insert { offset := offset, size := size_to_lock } with
      | Except.error e => Except.error e
      | Except.ok ranges =>
        Except.ok (BytePtr.ring (ring_ptr + offset), dev, { self with written_ranges_ := ranges })

/-- The part of `DynamicBuffer::Lock` after the flags are read. -/
def DynamicBuffer.lockWith (K : LockFlagBits) (dev : Device) (self : DynamicBuffer)
    (OffsetToLock SizeToLock Flags : Nat) (is_discard is_nooverwrite : Bool) :
    Except Fault (BytePtr × Device × DynamicBuffer) :=
  if is_nooverwrite && decide (self.prev_lock_frame_ < dev.CurrentFrame) then
    match Buffer.Lock K self.toBuffer OffsetToLock SizeToLock Flags with
    | Except.error e => Except.error e
    | Except.ok (ptr, base) => Except.ok (ptr, dev, { self with toBuffer := base })
  else
    let dev := dev.MarkBufferForPersist self.this
    let self : DynamicBuffer := { self with prev_lock_frame_ := dev.CurrentFrame }
    if is_discard then
      DynamicBuffer.lockDiscard dev self (toInt32 OffsetToLock) (toInt32 SizeToLock)
    else
      DynamicBuffer.lockAppend dev self is_nooverwrite (toInt32 OffsetToLock) (toInt32 SizeToLock)

/-- Method `DynamicBuffer::Lock(OffsetToLock, SizeToLock, ppbData, Flags)`; the result
is `*ppbData` with the device and the buffer after the call. The two
`safe_cast<int>` calls assert that their argument is at most `INT32_MAX`. -/
def DynamicBuffer.Lock (K : LockFlagBits) (dev : Device) (self : DynamicBuffer)
    (OffsetToLock SizeToLock Flags : Nat) : Except Fault (BytePtr × Device × DynamicBuffer) :=
  ASSERT (decide (OffsetToLock ≤ INT32_MAX)) <|
  ASSERT (decide (SizeToLock ≤ INT32_MAX)) <|
  let SizeToLock : Nat := if SizeToLock = 0 then toUInt32 self.size_ else SizeToLock
  ASSERT (decide (OffsetToLock ≤ INT32_MAX)) <|
  ASSERT (decide (SizeToLock ≤ INT32_MAX)) <|
  match HasFlag Flags K.D3DLOCK_DISCARD with
  | Except.error e => Except.error e
  | Except.ok is_discard =>
    match HasFlag Flags K.D3DLOCK_NOOVERWRITE with
    | Except.error e => Except.error e
    | Except.ok is_nooverwrite =>
      DynamicBuffer.lockWith K dev self OffsetToLock SizeToLock Flags is_discard is_nooverwrite

/-- Method `DynamicBuffer::Unlock()`. -/
def DynamicBuffer.Unlock (dev : Device) (self : DynamicBuffer) : DynamicBuffer :=
  if self.prev_lock_frame_ < dev.CurrentFrame then { self with toBuffer := self.toBuffer.Unlock }
  else self

/-- Method `DynamicBuffer::GetGpuPtr()`. -/
def DynamicBuffer.GetGpuPtr (dev : Device) (self : DynamicBuffer) :
    Except Fault (Int × Device × DynamicBuffer) :=
  if !self.is_speculative_write_persisted_ && !self.speculative_write_cache_.isEmpty then
    match DynamicBuffer.PersistSpeculativeWrite dev self
        (toInt32 self.speculative_write_cache_.length) with
    | Except.error e => Except.error e
    | Except.ok (dev, self) =>
      match dev.dynamic_ring_buffer_.GetGpuPtrFor self.current_ring_alloc_ with
      | Except.error e => Except.error e
      | Except.ok ptr => Except.ok (ptr, dev, self)
  else if self.prev_lock_frame_ < dev.CurrentFrame then
    Except.ok (self.toBuffer.GetGpuPtr, dev, self)
  else
    match dev.dynamic_ring_buffer_.GetGpuPtrFor self.current_ring_alloc_ with
    | Except.error e => Except.error e
    | Except.ok ptr => Except.ok (ptr, dev, self)

/-- Method `DynamicBuffer::PersistDynamicChanges()`. -/
def DynamicBuffer.PersistDynamicChanges (dev : Device) (self : DynamicBuffer) :
    Except Fault (Device × DynamicBuffer) :=
  match DynamicBuffer.GetGpuPtr dev self with
  | Except.error e => Except.error e
  | Except.ok (_, dev, self) =>
    ASSERT (self.current_ring_alloc_.frame == dev.CurrentFrame) <|
    ASSERT (decide (self.current_ring_alloc_.size > 0)) <|
    ASSERT (self.written_ranges_.ranges.length == 1) <|
    let dev := self.written_ranges_.ranges.foldl
      (fun (d : Device) (r : Range) =>
        d.CopyBuffer (ResourceRef.buffer self.this) 0 ResourceRef.ring
          (toInt32 (self.current_ring_alloc_.offset + r.offset)) r.size) dev
    Except.ok (dev, { self with written_ranges_ := { ranges := [] }
                                current_ring_alloc_ := Allocation.zero })

/-- The application writes `bytes` through a pointer `Lock` returned. Writes
past the end of the speculative cache are not modelled. -/
def store (dev : Device) (self : DynamicBuffer) (ptr : BytePtr) (bytes : List Byte) :
    Device × DynamicBuffer :=
  match ptr with
  | BytePtr.cache index =>
    let old : Memory := fun i => self.speculative_write_cache_.getD i.toNat 0
    let written : List Byte :=
      (List.range self.speculative_write_cache_.length).map
        (fun (j : Nat) => memcpy old index bytes (j : Int))
    (dev, { self with speculative_write_cache_ := written })
  | BytePtr.ring address =>
    let ring := dev.dynamic_ring_buffer_
    ({ dev with dynamic_ring_buffer_ := { ring with buffer_ := { ring.buffer_ with
        mem := memcpy ring.buffer_.mem (address - ring.cpu_ptr_) bytes } } }, self)
  | BytePtr.resource offset =>
    (dev, { self with resource_ := { self.resource_ with
        mem := memcpy self.resource_.mem offset bytes } })

/-- What a pointer `Lock` returned reads at distance `i`. -/
def load (dev : Device) (self : DynamicBuffer) (ptr : BytePtr) (i : Nat) : Byte :=
  match ptr with
  | BytePtr.cache index => self.speculative_write_cache_.getD (index + i).toNat 0
  | BytePtr.ring address =>
    dev.dynamic_ring_buffer_.buffer_.mem (address - dev.dynamic_ring_buffer_.cpu_ptr_ + i)
  | BytePtr.resource offset => self.resource_.mem (offset + i)

/-! ## Call sequences on the ring allocator -/

/-- One call on a `DynamicRingBuffer`. -/
inductive RingCall where
  | Allocate (num_bytes align : Nat)
  | SetCurrentFrame (frame : Nat)
  | HasCompletedFrame (frame : Nat)
  deriving DecidableEq, Repr

/-- A ring allocator together with the allocations that are live: made in a
frame `F` and not yet followed by a `HasCompletedFrame(N)` with `N >= F`.
`within_budget` records that the live bytes never exceeded `max_size_`. -/
structure RingTrace where
  ring : DynamicRingBuffer
  live : List Allocation
  within_budget : Bool

/-- Total bytes of a list of allocations. -/
def liveBytes (live : List Allocation) : Int := (live.map (fun a => a.size)).sum

/-- One call, with the bookkeeping of the live allocations. -/
def RingTrace.step (t : RingTrace) : RingCall → Except Fault RingTrace
  | RingCall.Allocate num_bytes align =>
    match t.ring.Allocate num_bytes align with
    | Except.error e => Except.error e
    | Except.ok (alloc, ring) =>
      Except.ok { ring := ring, live := alloc :: t.live
                  within_budget := t.within_budget &&
                    decide (liveBytes (alloc :: t.live) ≤ ring.max_size_) }
  | RingCall.SetCurrentFrame frame => Except.ok { t with ring := t.ring.SetCurrentFrame frame }
  | RingCall.HasCompletedFrame frame =>
    Except.ok { t with ring := t.ring.HasCompletedFrame frame
                       live := t.live.filter (fun a => decide (frame < a.frame)) }

/-- A sequence of calls, stopping at the first fault. -/
def RingTrace.run (t : RingTrace) : List RingCall → Except Fault RingTrace
  | [] => Except.ok t
  | c :: rest =>
    match t.step c with
    | Except.error e => Except.error e
    | Except.ok t => t.run rest

/-- Two allocations share a byte of `[offset, offset + size)`. -/
def Allocation.overlaps (a b : Allocation) : Bool :=
  decide (0 < a.size) && decide (0 < b.size) &&
    decide (a.offset < b.offset + b.size) && decide (b.offset < a.offset + a.size)

/-- States of the allocator that calls can produce from a constructed one. -/
inductive Reachable : DynamicRingBuffer → Prop where
  | create (placement : Nat) (buffer : Resource) (cpu_ptr : Int) (size : Nat) :
      Reachable (DynamicRingBuffer.create placement buffer cpu_ptr size)
  | allocate {s s1 : DynamicRingBuffer} {num_bytes align : Nat} {alloc : Allocation} :
      Reachable s → s.Allocate num_bytes align = Except.ok (alloc, s1) → Reachable s1
  | setCurrentFrame {s : DynamicRingBuffer} (frame : Nat) :
      Reachable s → Reachable (s.SetCurrentFrame frame)
  | hasCompletedFrame {s : DynamicRingBuffer} (frame : Nat) :
      Reachable s → Reachable (s.HasCompletedFrame frame)

/-- The history is ordered by strictly increasing frame numbers, none of them
past the current frame. -/
def HistoryOrdered (s : DynamicRingBuffer) : Prop :=
  s.frame_heads_.Pairwise (fun a b => a.1 < b.1) ∧ ∀ e ∈ s.frame_heads_, e.1 ≤ s.current_frame_

/-- A ring of 65536 bytes over a resource at device address 4096 mapped at host
address 1000. -/
def ring64k : DynamicRingBuffer :=
  DynamicRingBuffer.create 65536 { gpu_va := 4096, mem := fun _ => 0, map_count := 0 } 1000 65536

/-- Frames 1 to 3 of a device-style call sequence: frame 1 allocates 40000
bytes, frame 2 allocates 20000, frame 1 completes, frame 3 allocates 40000 and
then 1000 bytes. -/
def wrapCalls : List RingCall :=
  [RingCall.SetCurrentFrame 1, RingCall.Allocate 40000 256,
   RingCall.HasCompletedFrame 0, RingCall.SetCurrentFrame 2, RingCall.Allocate 20000 256,
   RingCall.HasCompletedFrame 1, RingCall.SetCurrentFrame 3, RingCall.Allocate 40000 256,
   RingCall.Allocate 1000 256]

/-! ## Abbreviations used by the theorems -/

/-- The ring after `PersistSpeculativeWrite` copied `cache` into `alloc`. -/
def ringWithCopy (ring : DynamicRingBuffer) (alloc : Allocation) (cache : List Byte) :
    DynamicRingBuffer :=
  { ring with buffer_ := { ring.buffer_ with
      mem := memcpy ring.buffer_.mem alloc.offset cache } }

/-- The size a lock covers: `if (SizeToLock == 0) SizeToLock = size_;`. -/
def lockedSize (self : DynamicBuffer) (SizeToLock : Nat) : Nat :=
  if SizeToLock = 0 then toUInt32 self.size_ else SizeToLock

/-- The buffer a Discard lock of `n` bytes leaves behind. -/
def afterDiscard (dev : Device) (self : DynamicBuffer) (n : Nat) : DynamicBuffer :=
  { self with prev_lock_frame_ := dev.CurrentFrame
              current_ring_alloc_ := Allocation.zero
              speculative_write_cache_ := List.replicate n 0
              is_speculative_write_persisted_ := false
              written_ranges_ := { ranges := [{ offset := 0, size := n }] } }

/-! ## Concrete inputs -/

/-- The lock flag bits with the values of the DirectX 8 SDK. -/
def sdkLockBits : LockFlagBits := { D3DLOCK_DISCARD := 0x2000, D3DLOCK_NOOVERWRITE := 0x1000 }

/-- A device recording frame 1 over `ring64k`. -/
def device1 : Device :=
  { next_fence_ := 1, dynamic_ring_buffer_ := ring64k.SetCurrentFrame 1,
    buffers_to_persist_ := [], cmd_list_ := [] }

/-- A dynamic buffer of 1024 bytes at address 5, never locked, its resource at
device address 900000 filled with the byte 9. -/
def buffer1k : DynamicBuffer :=
  { this := 5, resource_ := { gpu_va := 900000, mem := fun _ => 9, map_count := 0 },
    size_ := 1024, speculative_write_cache_ := [], is_speculative_write_persisted_ := false,
    current_ring_alloc_ := Allocation.zero, prev_lock_frame_ := 0,
    written_ranges_ := { ranges := [] } }

/-- A dynamic buffer of 4 bytes, otherwise like `buffer1k`. -/
def buffer4 : DynamicBuffer := { buffer1k with size_ := 4 }

/-- The state `RingBacked` of a dynamic buffer: its cache is empty and marked
persisted, its contents live in the ring allocation `alloc` made this frame, and
the ring (mapped at `cpu0`, at device address `gpu0`, its tail at `tail0`)
accepts `alloc`. -/
def RingBacked (cpu0 gpu0 : Int) (tail0 : Nat) (alloc : Allocation) (dev : Device)
    (self : DynamicBuffer) : Prop :=
  self.speculative_write_cache_ = [] ∧
  self.is_speculative_write_persisted_ = true ∧
  self.current_ring_alloc_ = alloc ∧
  self.prev_lock_frame_ = dev.CurrentFrame ∧
  dev.dynamic_ring_buffer_.GetCpuPtrFor alloc = Except.ok (cpu0 + alloc.offset) ∧
  dev.dynamic_ring_buffer_.GetGpuPtrFor alloc = Except.ok (gpu0 + alloc.offset) ∧
  dev.dynamic_ring_buffer_.cpu_ptr_ = cpu0 ∧
  dev.dynamic_ring_buffer_.tail_ = tail0

/-- Two no-overwrite locks of `buffer1k` in frame 1, its first locks of the
frame, at offsets 0 and 4, each followed by a write of 4 bytes, then
`GetGpuPtr`. -/
def appendOnFirstTouch : Except Fault (Int × Device × DynamicBuffer) :=
  match DynamicBuffer.Lock sdkLockBits device1 buffer1k 0 4 0x1000 with
  | Except.error e => Except.error e
  | Except.ok (p1, dev1, self1) =>
    match DynamicBuffer.Lock sdkLockBits (store dev1 self1 p1 [1, 2, 3, 4]).1
        (store dev1 self1 p1 [1, 2, 3, 4]).2 4 4 0x1000 with
    | Except.error e => Except.error e
    | Except.ok (p2, dev2, self2) =>
      DynamicBuffer.GetGpuPtr (store dev2 self2 p2 [5, 6, 7, 8]).1
        (store dev2 self2 p2 [5, 6, 7, 8]).2

/-- The buffer `buffer1k` after a Discard lock of 4 bytes in frame 1 and a write
of the bytes 1, 2, 3, 4 into the cache. -/
def buffer1kDiscarded : DynamicBuffer :=
  { afterDiscard device1 buffer1k 4 with speculative_write_cache_ := [1, 2, 3, 4] }

/-- The result of a call that returned, `fallback` otherwise. -/
def resultOr {α : Type} (fallback : α) : Except Fault α → α
  | Except.ok a => a
  | Except.error _ => fallback

/-- First append after the Discard: a no-overwrite lock of bytes 4 to 8 of
`buffer1kDiscarded`. -/
def append1 : BytePtr × Device × DynamicBuffer :=
  resultOr (BytePtr.cache 0, device1, buffer1kDiscarded)
    (DynamicBuffer.Lock sdkLockBits (device1.MarkBufferForPersist 5) buffer1kDiscarded
      4 4 0x1000)

/-- Second append: after the write of 5, 6, 7, 8 a no-overwrite lock of bytes 8
to 12. -/
def append2 : BytePtr × Device × DynamicBuffer :=
  resultOr (BytePtr.cache 0, device1, buffer1kDiscarded)
    (DynamicBuffer.Lock sdkLockBits (store append1.2.1 append1.2.2 append1.1 [5, 6, 7, 8]).1
      (store append1.2.1 append1.2.2 append1.1 [5, 6, 7, 8]).2 8 4 0x1000)

/-- Call of `GetGpuPtr` after the write of 9, 10, 11, 12. -/
def append3 : Int × Device × DynamicBuffer :=
  resultOr (0, device1, buffer1kDiscarded)
    (DynamicBuffer.GetGpuPtr (store append2.2.1 append2.2.2 append2.1 [9, 10, 11, 12]).1
      (store append2.2.1 append2.2.2 append2.1 [9, 10, 11, 12]).2)

/-! ## The allocation algorithm in the words of the specification -/

/-- Reference rounding: the least multiple of `a` that is not below `t`, for a
positive `a`. -/
def AlignUp_reference (t a : Nat) : Nat := (t + a - 1) / a * a

/-- Reference algorithm of `Allocate(num_bytes, align)` over unbounded natural
numbers, with `a = max(align, 256)`: when `tail >= head` place the aligned
allocation at the tail if it ends at or before `max_size`, otherwise wrap to
offset 0 if `head >= num_bytes`, otherwise out of space; when `tail < head`
place it at the aligned tail if it ends at or before `head`, otherwise out of
space. The allocation carries the current frame and the size `num_bytes`. -/
def Allocate_reference (self : DynamicRingBuffer) (num_bytes align : Nat) :
    Except Fault (Allocation × DynamicRingBuffer) :=
  let a := max align 256
  let offset := AlignUp_reference self.tail_ a
  if self.tail_ ≥ self.head_ then
    if offset + num_bytes ≤ self.max_size_ then
      Except.ok ({ frame := self.current_frame_, offset := offset, size := num_bytes },
        { self with tail_ := offset + num_bytes })
    else if self.head_ ≥ num_bytes then
      Except.ok ({ frame := self.current_frame_, offset := 0, size := num_bytes },
        { self with tail_ := num_bytes })
    else Except.error Fault.fatal
  else if offset + num_bytes ≤ self.head_ then
    Except.ok ({ frame := self.current_frame_, offset := offset, size := num_bytes },
      { self with tail_ := offset + num_bytes })
  else Except.error Fault.fatal

/-- A ring whose `max_size_` is 1024 bytes (size 1024, placement alignment
1024), over a resource at device address 4096 mapped at host address 1000. -/
def ring1k : DynamicRingBuffer :=
  DynamicRingBuffer.create 1024 { gpu_va := 4096, mem := fun _ => 0, map_count := 0 } 1000 1024

/-- The ring `ring1k` in frame 1 after `Allocate(600)`. -/
def ring1kFrame1 : DynamicRingBuffer :=
  { (ring1k.SetCurrentFrame 1) with tail_ := 600 }

/-- Every cursor of the allocator is inside the buffer: `head_`, `tail_` and
each tail recorded in the history. -/
def InBounds (s : DynamicRingBuffer) : Prop :=
  s.head_ ≤ s.max_size_ ∧ s.tail_ ≤ s.max_size_ ∧ ∀ e ∈ s.frame_heads_, e.2 ≤ s.max_size_

/-! ## device_limits.h, device.h / device.cpp: frame submission -/

/-- Constant `kNumBackBuffers` of device_limits.h. -/
def kNumBackBuffers : Nat := 2

/-- Enumerator `DIRTY_FLAG_CMD_LIST_CLOSED` of `Device::DirtyFlags`. -/
def DIRTY_FLAG_CMD_LIST_CLOSED : Nat := 0x00000001

/-- Enumerator `DIRTY_FLAG_LIGHTS`: the eighth flag, each one the previous
shifted left by one. -/
def DIRTY_FLAG_LIGHTS : Nat := DIRTY_FLAG_CMD_LIST_CLOSED <<< 7

/-- Enumerator `DIRTY_FLAG_ALL = DIRTY_FLAG_LIGHTS | (DIRTY_FLAG_LIGHTS - 1)`. -/
def DIRTY_FLAG_ALL : Nat := DIRTY_FLAG_LIGHTS ||| (DIRTY_FLAG_LIGHTS - 1)

/-- Enumerator `DIRTY_FLAG_ALL_RESOURCES = DIRTY_FLAG_ALL & ~DIRTY_FLAG_CMD_LIST_CLOSED`,
the complement taken on 32 bits. -/
def DIRTY_FLAG_ALL_RESOURCES : Nat :=
  DIRTY_FLAG_ALL &&& (2 ^ 32 - 1 - DIRTY_FLAG_CMD_LIST_CLOSED)

/-- The fields of `class GpuTexture` that `TransitionTexture` uses: the address
of the object and `current_state_`. -/
structure GpuTexture where
  this : Nat
  current_state_ : Nat
  deriving DecidableEq, Repr

/-- What the device hands to the command queue and the swap chain, in order. -/
inductive QueueOp where
  /-- Call `cmd_queue_->ExecuteCommandLists(1, &cmd_list)` with the commands recorded -/
  | ExecuteCommandLists (commands : List Command)
  /-- Call `swap_chain_->Present(1, 0)` -/
  | Present
  /-- Call `cmd_queue_->Signal(cmd_list_done_fence_, value)` -/
  | Signal (value : Nat)
  deriving DecidableEq, Repr

/-- What the GPU and the swap chain, which are outside the sources, answer
during one `SubmitAndWait` or `WaitForFrame`: the index
`swap_chain_->GetCurrentBackBufferIndex()` returns, the value
`cmd_list_done_fence_->GetCompletedValue()` returns, and whether
`WaitForSingleObjectEx(..., 60 * 1000, FALSE)` ran into its timeout. -/
structure Outside where
  GetCurrentBackBufferIndex : Nat
  GetCompletedValue : Nat
  wait_timed_out : Bool
  deriving DecidableEq, Repr

/-- The fields of `class Device` that drive frame submission, on top of those
in `Device`. The two `std::array`s of `kNumBackBuffers` elements are functions
of the index; the functions below take the array size as `K`. The field
`cmd_list_done_fence_` holds the completed value of the fence as the device
last read it or waited for it; `cmd_queue_` lists what was handed to the queue
and the swap chain; `buffers` gives the buffer object at an address held in
`buffers_to_persist_`, `none` for a static `Buffer`. -/
structure FrameScheduler extends Device where
  dirty_flags_ : Nat
  current_back_buffer_ : Nat
  fence_values_ : Nat → Nat
  frame_resources_to_free_ : Nat → List Nat
  back_buffers_ : List GpuTexture
  cmd_list_done_fence_ : Nat
  cmd_queue_ : List QueueOp
  buffers : Nat → Option DynamicBuffer

/-- Method `Device::MarkResourceAsUsed(resource)`:
`frame_resources_to_free_.at(current_back_buffer_).push_back(resource)`; `at`
throws for an index outside the array. -/
def FrameScheduler.MarkResourceAsUsed (K : Nat) (self : FrameScheduler) (resource : Nat) :
    Except Fault FrameScheduler :=
  if self.current_back_buffer_ < K then
    Except.ok { self with frame_resources_to_free_ := fun i =>
      if i = self.current_back_buffer_ then self.frame_resources_to_free_ i ++ [resource]
      else self.frame_resources_to_free_ i }
  else Except.error Fault.fatal

/-- Method `Device::TransitionTexture(texture, subresource, state_after)` for a
back buffer: `texture` is the index in `back_buffers_` of the object the
pointer names; an index outside the vector stops the model. -/
def FrameScheduler.TransitionTexture (K : Nat) (self : FrameScheduler) (texture : Nat)
    (subresource : Nat) (state_after : Nat) : Except Fault FrameScheduler :=
  match self.back_buffers_.get? texture with
  | none => Except.error Fault.fatal
  | some tex =>
    if tex.current_state_ = state_after then Except.ok self
    else
      let recorded : List Command := self.cmd_list_ ++
        [Command.TransitionBarrier tex.this subresource tex.current_state_ state_after]
      let textures : List GpuTexture :=
        self.back_buffers_.set texture { tex with current_state_ := state_after }
      FrameScheduler.MarkResourceAsUsed K
        { self with cmd_list_ := recorded, back_buffers_ := textures } tex.this

/-- The loop `for (auto buffer : buffers_to_persist_) buffer->PersistDynamicChanges();`
of `SubmitAndWait`, in list order. The call is virtual: a static `Buffer` ends
in its `FAIL`. -/
def persistAll (dev : Device) (buffers : Nat → Option DynamicBuffer) :
    List Nat → Except Fault (Device × (Nat → Option DynamicBuffer))
  | [] => Except.ok (dev, buffers)
  | b :: rest =>
    match buffers b with
    | none => Except.error Fault.fatal
    | some buffer =>
      match DynamicBuffer.PersistDynamicChanges dev buffer with
      | Except.error e => Except.error e
      | Except.ok (dev1, buffer1) =>
        persistAll dev1 (fun a => if a = b then some buffer1 else buffers a) rest

/-- Method `Device::FreeFrameResources(frame_number)`. -/
def FrameScheduler.FreeFrameResources (K : Nat) (self : FrameScheduler) (frame_number : Nat) :
    FrameScheduler :=
  let ring : DynamicRingBuffer :=
    (self.dynamic_ring_buffer_.HasCompletedFrame frame_number).SetCurrentFrame
      self.toDevice.CurrentFrame
  { self with
    frame_resources_to_free_ := fun i =>
      if i < K ∧ self.fence_values_ i ≤ frame_number then []
      else self.frame_resources_to_free_ i
    dynamic_ring_buffer_ := ring }

/-- First part of `Device::SubmitAndWait(should_present)`, up to the `Signal`:
the assertion, the transition of the back buffer, the persist loop, `Close`,
`ExecuteCommandLists`, `Present`, and
`fence_values_.at(current_back_buffer_) = next_fence_++` with its `Signal`.
`PRESENT` is the SDK constant `D3D12_RESOURCE_STATE_PRESENT`. -/
def FrameScheduler.submitCommands (K PRESENT : Nat) (self : FrameScheduler)
    (should_present : Bool) : Except Fault FrameScheduler :=
  ASSERT (self.dirty_flags_ &&& DIRTY_FLAG_CMD_LIST_CLOSED == 0) <|
  match (if should_present then
      FrameScheduler.TransitionTexture K self self.current_back_buffer_ 0 PRESENT
    else Except.ok self) with
  | Except.error e => Except.error e
  | Except.ok self =>
    match persistAll self.toDevice self.buffers self.buffers_to_persist_ with
    | Except.error e => Except.error e
    | Except.ok (dev, buffers) =>
      if self.current_back_buffer_ < K then
        let executed : List QueueOp :=
          QueueOp.ExecuteCommandLists dev.cmd_list_ ::
            (if should_present then [QueueOp.Present] else [])
        Except.ok { self with
          toDevice := { dev with buffers_to_persist_ := []
                                 next_fence_ := (dev.next_fence_ + 1) % 2 ^ 64 }
          buffers := buffers
          dirty_flags_ := self.dirty_flags_ ||| DIRTY_FLAG_CMD_LIST_CLOSED
          fence_values_ := fun i =>
            if i = self.current_back_buffer_ then dev.next_fence_ else self.fence_values_ i
          cmd_queue_ := self.cmd_queue_ ++ executed ++ [QueueOp.Signal dev.next_fence_] }
      else Except.error Fault.fatal

/-- Last part of `Device::SubmitAndWait`: the command allocator and the command
list are reset, `dirty_flags_ ^= DIRTY_FLAG_CMD_LIST_CLOSED` and
`dirty_flags_ |= DIRTY_FLAG_ALL_RESOURCES`. -/
def FrameScheduler.resetCommandList (self : FrameScheduler) : FrameScheduler :=
  { self with
    cmd_list_ := []
    dirty_flags_ := (self.dirty_flags_ ^^^ DIRTY_FLAG_CMD_LIST_CLOSED) |||
      DIRTY_FLAG_ALL_RESOURCES }

/-- The wait of `Device::WaitForFrame`: `SetEventOnCompletion` and
`WaitForSingleObjectEx`, whose result the code does not look at. Without a
timeout the fence has reached `frame_number`. -/
def FrameScheduler.waitOnFence (self : FrameScheduler) (frame_number : Nat) (o : Outside) :
    FrameScheduler :=
  if o.wait_timed_out then self else { self with cmd_list_done_fence_ := frame_number }

mutual
/-- Method `Device::SubmitAndWait(should_present)`; `none` when the calls nest
deeper than `fuel`. The answers of `o` are those of this call, `o2` is handed
on. An index from the swap chain outside the arrays stops the model. -/
def FrameScheduler.SubmitAndWait (K PRESENT : Nat) :
    Nat → FrameScheduler → Bool → Outside → Outside → Option (Except Fault FrameScheduler)
  | 0, _, _, _, _ => none
  | fuel + 1, self, should_present, o, o2 =>
    match FrameScheduler.submitCommands K PRESENT self should_present with
    | Except.error e => some (Except.error e)
    | Except.ok self =>
      let self := { self with current_back_buffer_ := o.GetCurrentBackBufferIndex }
      if self.current_back_buffer_ < K then
        match FrameScheduler.WaitForFrame K PRESENT fuel self
            (self.fence_values_ self.current_back_buffer_) o o2 with
        | none => none
        | some (Except.error e) => some (Except.error e)
        | some (Except.ok self) => some (Except.ok self.resetCommandList)
      else some (Except.error Fault.fatal)
/-- Method `Device::WaitForFrame(frame_number)`; `none` when the calls nest
deeper than `fuel`. The answers of `o` are those of this call, `o2` those of the
`SubmitAndWait(false)` it may make. -/
def FrameScheduler.WaitForFrame (K PRESENT : Nat) :
    Nat → FrameScheduler → Nat → Outside → Outside → Option (Except Fault FrameScheduler)
  | 0, _, _, _, _ => none
  | fuel + 1, self, frame_number, o, o2 =>
    if frame_number ≤ self.next_fence_ then
      let self := { self with cmd_list_done_fence_ := o.GetCompletedValue }
      if self.cmd_list_done_fence_ < frame_number then
        if (frame_number + 1) % 2 ^ 64 = self.next_fence_ ∧
            self.dirty_flags_ &&& DIRTY_FLAG_CMD_LIST_CLOSED = 0 then
          match FrameScheduler.SubmitAndWait K PRESENT fuel self false o2 o2 with
          | none => none
          | some (Except.error e) => some (Except.error e)
          | some (Except.ok self) =>
            some (Except.ok (FrameScheduler.FreeFrameResources K self frame_number))
        else
          some (Except.ok (FrameScheduler.FreeFrameResources K
            (self.waitOnFence frame_number o) frame_number))
      else some (Except.ok (FrameScheduler.FreeFrameResources K self frame_number))
    else some (Except.error Fault.assertion)
end

/-- The state `Device::Init` sets up before it calls `Reset`: `next_fence_` 1,
`fence_values_` zero, the command list open (`DIRTY_FLAG_ALL` with the closed
bit flipped), a fence created at 0, back buffer 0 current, two back buffers in
resource state 4, the 65536-byte ring in frame 1. -/
def schedulerInit : FrameScheduler :=
  { next_fence_ := 1
    dynamic_ring_buffer_ := ring64k.SetCurrentFrame 1
    buffers_to_persist_ := []
    cmd_list_ := []
    dirty_flags_ := DIRTY_FLAG_ALL ^^^ DIRTY_FLAG_CMD_LIST_CLOSED
    current_back_buffer_ := 0
    fence_values_ := fun _ => 0
    frame_resources_to_free_ := fun _ => []
    back_buffers_ := [{ this := 100, current_state_ := 4 }, { this := 101, current_state_ := 4 }]
    cmd_list_done_fence_ := 0
    cmd_queue_ := []
    buffers := fun _ => none }

/-- The state of a call that returned, `fallback` otherwise. -/
def stateOr (fallback : FrameScheduler) :
    Option (Except Fault FrameScheduler) → FrameScheduler
  | some (Except.ok s) => s
  | _ => fallback

/-- The state in which `WaitForFrame(frame_number)` calls `FreeFrameResources`
when it does not submit: the fence as read by `GetCompletedValue`, and waited
for if that value is below `frame_number`. -/
def FrameScheduler.afterWait (self : FrameScheduler) (frame_number : Nat) (o : Outside) :
    FrameScheduler :=
  if o.GetCompletedValue < frame_number then
    FrameScheduler.waitOnFence { self with cmd_list_done_fence_ := o.GetCompletedValue }
      frame_number o
  else { self with cmd_list_done_fence_ := o.GetCompletedValue }

/-- The device after `Device::Init`: on `schedulerInit`, `Reset` has made its
`SubmitAndWait(false)`; the swap chain still shows back buffer 0 and the wait
for fence value 1 returned without a timeout. Frame 2 is being recorded. -/
def afterReset : FrameScheduler :=
  stateOr schedulerInit
    (FrameScheduler.SubmitAndWait kNumBackBuffers 0 2 schedulerInit false
      ⟨0, 0, false⟩ ⟨0, 0, false⟩)

/-- The device `afterReset` once the resource at address 77 was passed to
`MarkResourceAsUsed` during the recording of frame 2. -/
def frame2Marked : FrameScheduler :=
  resultOr afterReset (FrameScheduler.MarkResourceAsUsed kNumBackBuffers afterReset 77)

/-- Enumerator `DIRTY_FLAG_OM = DIRTY_FLAG_CMD_LIST_CLOSED << 1`. -/
def DIRTY_FLAG_OM : Nat := DIRTY_FLAG_CMD_LIST_CLOSED <<< 1

/-- Enumerator `DIRTY_FLAG_TRANSFORMS = DIRTY_FLAG_OM << 1`. -/
def DIRTY_FLAG_TRANSFORMS : Nat := DIRTY_FLAG_OM <<< 1

/-- Enumerator `DIRTY_FLAG_VS_CBUFFER = DIRTY_FLAG_TRANSFORMS << 1`. -/
def DIRTY_FLAG_VS_CBUFFER : Nat := DIRTY_FLAG_TRANSFORMS <<< 1

/-- Enumerator `DIRTY_FLAG_PS_CBUFFER = DIRTY_FLAG_VS_CBUFFER << 1`. -/
def DIRTY_FLAG_PS_CBUFFER : Nat := DIRTY_FLAG_VS_CBUFFER <<< 1

/-- Enumerator `DIRTY_FLAG_PS_TEXTURES = DIRTY_FLAG_PS_CBUFFER << 1`. -/
def DIRTY_FLAG_PS_TEXTURES : Nat := DIRTY_FLAG_PS_CBUFFER <<< 1

/-- Enumerator `DIRTY_FLAG_PS_SAMPLERS = DIRTY_FLAG_PS_TEXTURES << 1`. -/
def DIRTY_FLAG_PS_SAMPLERS : Nat := DIRTY_FLAG_PS_TEXTURES <<< 1

/-- The seven flags of the state categories, in the order of the enumeration;
`DIRTY_FLAG_LIGHTS` is `DIRTY_FLAG_PS_SAMPLERS << 1`. -/
def resourceFlags : List Nat :=
  [DIRTY_FLAG_OM, DIRTY_FLAG_TRANSFORMS, DIRTY_FLAG_VS_CBUFFER, DIRTY_FLAG_PS_CBUFFER,
   DIRTY_FLAG_PS_TEXTURES, DIRTY_FLAG_PS_SAMPLERS, DIRTY_FLAG_LIGHTS]

/-- The ring allocator works in the frame the device is recording. -/
def RingInStep (s : Device) : Prop :=
  s.dynamic_ring_buffer_.current_frame_ = s.CurrentFrame

/-- The written ranges of a dynamic buffer as the lock paths leave them: the
frame of the last lock is not ahead of the device; a buffer not yet locked in
the device's frame has no written range and no cache waiting for promotion;
otherwise the first written range starts at offset 0 (the first lock of a frame
that records a range is a Discard lock, which asserts `offset == 0`). -/
def WrittenFromZero (dev : Device) (self : DynamicBuffer) : Prop :=
  self.prev_lock_frame_ ≤ dev.CurrentFrame ∧
  ((self.prev_lock_frame_ < dev.CurrentFrame ∧ self.written_ranges_.ranges = [] ∧
      (self.is_speculative_write_persisted_ = true ∨ self.speculative_write_cache_ = [])) ∨
    ∃ r rest, self.written_ranges_.ranges = r :: rest ∧ r.offset = 0)

/-- The speculative cache of a dynamic buffer holds at most `size_` bytes. -/
def CacheFits (self : DynamicBuffer) : Prop :=
  (self.speculative_write_cache_.length : Int) ≤ self.size_

/-- A sequence of `RangeSet::insert` calls, in order, stopping at the first
failed assertion. -/
def RangeSet.insertAll (self : RangeSet) : List Range → Except Fault RangeSet
  | [] => Except.ok self
  | range :: rest =>
    match self.insert range with
    | Except.error e => Except.error e
    | Except.ok next => next.insertAll rest

/-- The stored ranges have strictly increasing offsets: the order
`Range::operator<` that `std::lower_bound` relies on. -/
def OffsetsIncreasing (ranges : List Range) : Prop :=
  ranges.Pairwise (fun a b => a.offset < b.offset)

/-! ## utils/murmur_hash.cpp -/

/-- Function `rotl32(x, r)` on a `uint32_t`. -/
def rotl32 (x r : Nat) : Nat := ((x <<< r) ||| (x >>> (32 - r))) % 2 ^ 32

/-- Function `getblock32(p, i)`: the `i`-th little-endian 32-bit word of `p`. -/
def getblock32 (p : List Byte) (i : Nat) : Nat :=
  (p.getD (4 * i) 0).toNat + (p.getD (4 * i + 1) 0).toNat <<< 8 +
    (p.getD (4 * i + 2) 0).toNat <<< 16 + (p.getD (4 * i + 3) 0).toNat <<< 24

/-- Function `fmix32(h)`. -/
def fmix32 (h : Nat) : Nat :=
  let h := h ^^^ (h >>> 16)
  let h := h * 0x85ebca6b % 2 ^ 32
  let h := h ^^^ (h >>> 13)
  let h := h * 0xc2b2ae35 % 2 ^ 32
  h ^^^ (h >>> 16)

/-- Function `MurmurHash3_x86_32(key, len, seed, out)`; the result is `*out`. The
body loop visits the blocks `0 .. nblocks - 1` in order; the `switch` on
`len & 3` falls through from 3 to 1. -/
def MurmurHash3_x86_32 (key : List Byte) (len seed : Nat) : Nat :=
  let nblocks := len / 4
  let c1 := 0xcc9e2d51
  let c2 := 0x1b873593
  let h1 := (List.range nblocks).foldl
    (fun (h1 : Nat) (i : Nat) =>
      let k1 := getblock32 key i
      let k1 := k1 * c1 % 2 ^ 32
      let k1 := rotl32 k1 15
      let k1 := k1 * c2 % 2 ^ 32
      let h1 := h1 ^^^ k1
      let h1 := rotl32 h1 13
      (h1 * 5 + 0xe6546b64) % 2 ^ 32) seed
  let tail : Nat → Nat := fun i => (key.getD (nblocks * 4 + i) 0).toNat
  let k1 := 0
  let k1 := if len &&& 3 = 3 then k1 ^^^ (tail 2 <<< 16) else k1
  let k1 := if len &&& 3 ≥ 2 then k1 ^^^ (tail 1 <<< 8) else k1
  let h1 := if len &&& 3 ≥ 1 then
      h1 ^^^ (rotl32 ((k1 ^^^ tail 0) * c1 % 2 ^ 32) 15 * c2 % 2 ^ 32)
    else h1
  let h1 := h1 ^^^ (len % 2 ^ 32)
  fmix32 h1

/-- Function `MurmurHashTo32(value, size)` over the `size` bytes `value`. -/
def MurmurHashTo32 (value : List Byte) : Nat := MurmurHash3_x86_32 value value.length 0

/-! ## render_state.h / render_state.cpp: the pipeline-state cache key -/

/-- What the key uses of `struct RenderState`, kept abstract: its defaulted
`operator==` (a member-wise comparison, `float` members included) and its object
representation, the `sizeof(rs)` bytes that `std::hash<RenderState>` hashes. -/
structure RenderStateOps (RenderState : Type) where
  operator_eq : RenderState → RenderState → Bool
  bytes : RenderState → List Byte

/-- The `struct PSOState`. An element of `input_elements` is the object
representation of a `D3D12_INPUT_ELEMENT_DESC`; `vs` and `ps` are the addresses
of the shader blobs; `prim_type` and `dsv_format` are the enum values. -/
structure PSOState (RenderState : Type) where
  rs : RenderState
  input_elements : List (List Byte)
  vs : Nat
  ps : Nat
  prim_type : Nat
  dsv_format : Nat

/-- Method `PSOState::operator==(other)`; `memcmp` compares the first
`input_elements.size()` elements of both vectors byte by byte. -/
def PSOState.operator_eq {RenderState : Type} (R : RenderStateOps RenderState)
    (self other : PSOState RenderState) : Bool :=
  self.vs == other.vs && self.ps == other.ps && R.operator_eq self.rs other.rs &&
    self.input_elements.length == other.input_elements.length &&
    self.dsv_format == other.dsv_format &&
    decide (self.input_elements.flatten =
      (other.input_elements.take self.input_elements.length).flatten)

/-- The 32-bit value `x` as four little-endian bytes. -/
def le32 (x : Nat) : List Byte :=
  [UInt8.ofNat (x % 256), UInt8.ofNat (x / 2 ^ 8 % 256), UInt8.ofNat (x / 2 ^ 16 % 256),
    UInt8.ofNat (x / 2 ^ 24 % 256)]

/-- The array `hash_elements` of `std::hash<PSOState>::operator()`; `blob p` is
the `sizeof(pso_state.vs)` bytes stored at the address `p`. -/
def PSOState.hash_elements {RenderState : Type} (R : RenderStateOps RenderState)
    (blob : Nat → List Byte) (pso_state : PSOState RenderState) : List Nat :=
  [MurmurHashTo32 (R.bytes pso_state.rs),
    MurmurHashTo32 pso_state.input_elements.flatten,
    MurmurHashTo32 (blob pso_state.vs),
    MurmurHashTo32 (blob pso_state.ps),
    MurmurHashTo32 (le32 pso_state.prim_type),
    pso_state.dsv_format % 2 ^ 32]

/-- Method `std::hash<PSOState>::operator()(pso_state)`. -/
def PSOState.hash {RenderState : Type} (R : RenderStateOps RenderState)
    (blob : Nat → List Byte) (pso_state : PSOState RenderState) : Nat :=
  MurmurHashTo32 ((PSOState.hash_elements R blob pso_state).map le32).flatten

/-- A render state given by its bytes, compared byte by byte. -/
def bytesRenderState : RenderStateOps (List Byte) :=
  { operator_eq := fun a b => decide (a = b), bytes := fun a => a }

/-- Memory in which every shader blob starts with eight zero bytes. -/
def zeroBlobs : Nat → List Byte := fun _ => List.replicate 8 0

/-- A key whose primitive type is 1, the value of `D3DPT_POINTLIST` in the
DirectX 8 SDK. -/
def psoKeyPoints : PSOState (List Byte) :=
  { rs := [1, 0, 0, 0], input_elements := [List.replicate 32 0], vs := 100, ps := 200,
    prim_type := 1, dsv_format := 40 }

/-- The key `psoKeyPoints` with the primitive type 4, the value of
`D3DPT_TRIANGLELIST` in the DirectX 8 SDK. -/
def psoKeyTriangles : PSOState (List Byte) := { psoKeyPoints with prim_type := 4 }

/-! ## device.h / device.cpp: `BeginScene` and `PrepareDrawCall` -/

/-- Constant `kMaxTexStages` of device_limits.h. -/
def kMaxTexStages : Nat := 8

/-- Constant `kMaxActiveLights` of device_limits.h. -/
def kMaxActiveLights : Nat := 8

/-- Constant `Device::kFirstShaderHandle`. -/
def kFirstShaderHandle : Nat := 0x10000

/-- The two results `PrepareDrawCall` returns. -/
inductive HRESULT where
  /-- Result `S_OK` -/
  | S_OK
  /-- Result `D3DERR_INVALIDCALL` -/
  | D3DERR_INVALIDCALL
  deriving DecidableEq, Repr

/-- The fields of `class VertexShader` a draw call reads: the address of the
object and `decl.buffer_strides`. -/
structure VertexShader where
  this : Nat
  buffer_strides : List Int
  deriving DecidableEq, Repr

/-- The fields of a bound `GpuTexture` a draw call reads: the address of the
object and `srv_handle()`. -/
structure BoundTexture where
  this : Nat
  srv_handle : Nat
  deriving DecidableEq, Repr

/-- Constants of the SDK headers, which are not among the sources, and the
device members `Device::Init` fixes: parameters. -/
structure DrawConstants where
  D3DPT_TRIANGLEFAN : Nat
  D3D12_RESOURCE_STATE_RENDER_TARGET : Nat
  D3DLIGHT_SPOT : Nat
  textures_start_bindslot_ : Nat
  deriving DecidableEq, Repr

/-- What a draw call takes from the parts of the device that are not modelled:
the pipeline state `CreatePSO(PrimitiveType)` returns (or its `FAIL`), the
bytes the four constant-buffer blocks compute from the transforms, the shader
constants, the lights and the material, and the GPU handles the two descriptor
heaps give for a CPU handle. -/
structure DrawInputs where
  CreatePSO : Nat → Except Fault Nat
  VertexCBuffer : List Byte
  bound_vs_cregs_ : List Byte
  LightsCBuffer : List Byte
  PixelCBuffer : List Byte
  srv_GetGPUHandleFor : Nat → Nat
  sampler_GetGPUHandleFor : Nat → Nat

/-- The fields of `class Device` a draw call uses, on top of those in
`FrameScheduler`. The buffer objects are named by their addresses: `buffers`
gives the `DynamicBuffer` at an address, `static_buffers` the static `Buffer`.
`lights_` gives the type of a light; `texture_stage_states_` holds the
`SamplerDesc` of each stage, by a number; `sampler_cache_` pairs a `SamplerDesc`
with its GPU handle; `sampler_heap_` is the free list of the sampler heap. -/
structure DrawDevice extends FrameScheduler where
  static_buffers : Nat → Option Buffer
  bound_render_target_ : Option GpuTexture
  bound_depth_target_ : Option Nat
  vertex_shaders_ : Nat → Option VertexShader
  pixel_shaders_ : Nat → Option Nat
  bound_vertex_shader_ : Nat
  bound_pixel_shader_ : Nat
  bound_vertex_streams_ : List (Option Nat)
  bound_textures_ : List (Option BoundTexture)
  texture_stage_states_ : List Nat
  sampler_cache_ : List (Nat × Nat)
  sampler_heap_ : List Nat
  enabled_lights_ : List Nat
  lights_ : Nat → Nat
  vs_cbuffer_ : Nat
  lights_cbuffer_ : Nat
  ps_cbuffer_ : Nat
  vs_creg_cbuffer_ : Nat

/-- A call `cmd_list_->...` that records `command`. -/
def DrawDevice.record (self : DrawDevice) (command : Command) : DrawDevice :=
  { self with cmd_list_ := self.cmd_list_ ++ [command] }

/-- Method `Device::MarkResourceAsUsed(resource)` on the draw state. -/
def DrawDevice.MarkResourceAsUsed (K : Nat) (self : DrawDevice) (resource : Nat) :
    Except Fault DrawDevice :=
  match FrameScheduler.MarkResourceAsUsed K self.toFrameScheduler resource with
  | Except.error e => Except.error e
  | Except.ok scheduler => Except.ok { self with toFrameScheduler := scheduler }

/-- The call `TransitionTexture(render_target, 0, D3D12_RESOURCE_STATE_RENDER_TARGET)`
of `BeginScene` with the choice of `render_target` before it: the bound render
target if there is one, `back_buffers_.at(current_back_buffer_)` otherwise. The
result carries the address of the render target. -/
def DrawDevice.transitionRenderTarget (K : Nat) (C : DrawConstants) (self : DrawDevice) :
    Except Fault (DrawDevice × Nat) :=
  match self.bound_render_target_ with
  | some tex =>
    if tex.current_state_ = C.D3D12_RESOURCE_STATE_RENDER_TARGET then Except.ok (self, tex.this)
    else
      let recorded : DrawDevice :=
        { self.record (Command.TransitionBarrier tex.this 0 tex.current_state_
            C.D3D12_RESOURCE_STATE_RENDER_TARGET) with
          bound_render_target_ :=
            some { tex with current_state_ := C.D3D12_RESOURCE_STATE_RENDER_TARGET } }
      match DrawDevice.MarkResourceAsUsed K recorded tex.this with
      | Except.error e => Except.error e
      | Except.ok self => Except.ok (self, tex.this)
  | none =>
    match self.back_buffers_.get? self.current_back_buffer_ with
    | none => Except.error Fault.fatal
    | some tex =>
      match FrameScheduler.TransitionTexture K self.toFrameScheduler self.current_back_buffer_ 0
          C.D3D12_RESOURCE_STATE_RENDER_TARGET with
      | Except.error e => Except.error e
      | Except.ok scheduler => Except.ok ({ self with toFrameScheduler := scheduler }, tex.this)

/-- The part of `Device::BeginScene()` before its last statement: the viewport,
the scissor rectangle, the descriptor heaps and the render targets. -/
def DrawDevice.setRenderTargets (K : Nat) (C : DrawConstants) (self : DrawDevice) :
    Except Fault DrawDevice :=
  let self := ((self.record Command.RSSetViewports).record Command.RSSetScissorRects).record
    Command.SetDescriptorHeaps
  match DrawDevice.transitionRenderTarget K C self with
  | Except.error e => Except.error e
  | Except.ok (self, render_target) =>
    match (match self.bound_depth_target_ with
      | some depth => DrawDevice.MarkResourceAsUsed K self depth
      | none => Except.ok self) with
    | Except.error e => Except.error e
    | Except.ok self =>
      DrawDevice.MarkResourceAsUsed K
        (self.record (Command.OMSetRenderTargets render_target self.bound_depth_target_))
        render_target

/-- Method `Device::BeginScene()`, which ends in `dirty_flags_ ^= DIRTY_FLAG_OM`;
its result is always `S_OK`. -/
def DrawDevice.BeginScene (K : Nat) (C : DrawConstants) (self : DrawDevice) :
    Except Fault DrawDevice :=
  match DrawDevice.setRenderTargets K C self with
  | Except.error e => Except.error e
  | Except.ok self => Except.ok { self with dirty_flags_ := self.dirty_flags_ ^^^ DIRTY_FLAG_OM }

/-- The virtual call `buffer->GetGpuPtr()` on the buffer object at the address
`buffer`: `DynamicBuffer::GetGpuPtr` or `Buffer::GetGpuPtr`; an address that
holds no buffer stops the model. -/
def DrawDevice.GetGpuPtr (self : DrawDevice) (buffer : Nat) : Except Fault (Int × DrawDevice) :=
  match self.buffers buffer with
  | some dynamic =>
    match DynamicBuffer.GetGpuPtr self.toDevice dynamic with
    | Except.error e => Except.error e
    | Except.ok (address, dev, dynamic) =>
      Except.ok (address, { self with
        toDevice := dev
        buffers := fun a => if a = buffer then some dynamic else self.buffers a })
  | none =>
    match self.static_buffers buffer with
    | some static => Except.ok (static.GetGpuPtr, self)
    | none => Except.error Fault.fatal

/-- The loop over `bound_vertex_streams_` of `PrepareDrawCall`, from stream `i`
on: `streams` are the streams left, `strides` their entries of
`decl.buffer_strides`, `views` the views of the streams before `i`. The result
carries `vbuffer_views` and `max_index`. -/
def DrawDevice.bindVertexStreams (K : Nat) (start_vertex num_vertices : Int) :
    List (Option Nat) → List Int → Nat → DrawDevice → List D3D12_VERTEX_BUFFER_VIEW → Nat →
      Except Fault (DrawDevice × List D3D12_VERTEX_BUFFER_VIEW × Nat)
  | [], _, _, self, views, max_index => Except.ok (self, views, max_index)
  | d3d_buffer :: streams, strides, i, self, views, max_index =>
    match (if strides.headD 0 > 0 then d3d_buffer else none) with
    | some buffer =>
      match DrawDevice.GetGpuPtr self buffer with
      | Except.error e => Except.error e
      | Except.ok (address, self) =>
        let view : D3D12_VERTEX_BUFFER_VIEW :=
          { BufferLocation := address
            SizeInBytes := toUInt32 (toInt32 (strides.headD 0 * (start_vertex + num_vertices)))
            StrideInBytes := toUInt32 (strides.headD 0) }
        match DrawDevice.MarkResourceAsUsed K self buffer with
        | Except.error e => Except.error e
        | Except.ok self =>
          DrawDevice.bindVertexStreams K start_vertex num_vertices streams strides.tail (i + 1)
            self (views ++ [view]) (if i > max_index then i else max_index)
    | none =>
      DrawDevice.bindVertexStreams K start_vertex num_vertices streams strides.tail (i + 1)
        self (views ++ [{ BufferLocation := 0, SizeInBytes := 0, StrideInBytes := 0 }]) max_index

/-- The part of `PrepareDrawCall` between the output-merger block and the
constant-buffer blocks: the topology, the shaders, the vertex streams and the
pipeline state. -/
def DrawDevice.bindPipeline (K : Nat) (I : DrawInputs) (self : DrawDevice)
    (PrimitiveType : Nat) (start_vertex num_vertices : Int) : Except Fault DrawDevice :=
  let self := self.record (Command.IASetPrimitiveTopology PrimitiveType)
  ASSERT (self.bound_vertex_shader_ != 0) <|
  match self.vertex_shaders_ self.bound_vertex_shader_ with
  | none => Except.error Fault.fatal
  | some vertex_shader =>
    match (if self.bound_vertex_shader_ ≥ kFirstShaderHandle then
        DrawDevice.MarkResourceAsUsed K self vertex_shader.this
      else Except.ok self) with
    | Except.error e => Except.error e
    | Except.ok self =>
      match (if self.bound_pixel_shader_ ≠ 0 then
          match self.pixel_shaders_ self.bound_pixel_shader_ with
          | none => Except.error Fault.fatal
          | some pixel_shader => DrawDevice.MarkResourceAsUsed K self pixel_shader
        else Except.ok self) with
      | Except.error e => Except.error e
      | Except.ok self =>
        match DrawDevice.bindVertexStreams K start_vertex num_vertices
            self.bound_vertex_streams_ vertex_shader.buffer_strides 0 self [] 0 with
        | Except.error e => Except.error e
        | Except.ok (self, vbuffer_views, max_index) =>
          let self := self.record (Command.IASetVertexBuffers (vbuffer_views.take (max_index + 1)))
          match I.CreatePSO PrimitiveType with
          | Except.error e => Except.error e
          | Except.ok pso => Except.ok (self.record (Command.SetPipelineState pso))

/-- The body the four constant-buffer blocks of `PrepareDrawCall` share:
`Lock(0, size, &cbuffer, D3DLOCK_DISCARD)` on the buffer object at the address
`buffer`, the assertions made while the lock is held (`checks`), the write of
`bytes` through the pointer, and `Unlock()`. `Device::Init` creates the four
buffers as `DynamicBuffer`; an address that holds none stops the model. -/
def DrawDevice.uploadConstants (L : LockFlagBits) (self : DrawDevice) (buffer : Nat)
    (bytes : List Byte) (checks : Bool) : Except Fault DrawDevice :=
  match self.buffers buffer with
  | none => Except.error Fault.fatal
  | some cbuffer =>
    match DynamicBuffer.Lock L self.toDevice cbuffer 0 bytes.length L.D3DLOCK_DISCARD with
    | Except.error e => Except.error e
    | Except.ok (ptr, dev, cbuffer) =>
      ASSERT checks <|
      let written := store dev cbuffer ptr bytes
      Except.ok { self with
        toDevice := written.1
        buffers := fun a =>
          if a = buffer then some (DynamicBuffer.Unlock written.1 written.2)
          else self.buffers a }

/-- The assertions of the lights block: `enabled_lights_.size() <= kMaxActiveLights`
and, for each enabled light, a type other than `D3DLIGHT_SPOT`. -/
def DrawDevice.lightsChecks (C : DrawConstants) (self : DrawDevice) : Bool :=
  decide (self.enabled_lights_.length ≤ kMaxActiveLights) &&
    self.enabled_lights_.all (fun light_index => self.lights_ light_index != C.D3DLIGHT_SPOT)

/-- The calls `SetGraphicsRootConstantBufferView(slot, buffer->GetGpuPtr())` of
`PrepareDrawCall`, for the pairs of a slot and a buffer address in `views`. -/
def DrawDevice.setConstantBufferViews : List (Nat × Nat) → DrawDevice → Except Fault DrawDevice
  | [], self => Except.ok self
  | (slot, buffer) :: views, self =>
    match DrawDevice.GetGpuPtr self buffer with
    | Except.error e => Except.error e
    | Except.ok (address, self) =>
      DrawDevice.setConstantBufferViews views
        (self.record (Command.SetGraphicsRootConstantBufferView slot address))

/-- The part of `PrepareDrawCall` between the constant-buffer blocks and the
texture block: the root signature and the four constant-buffer views. -/
def DrawDevice.setRoots (self : DrawDevice) : Except Fault DrawDevice :=
  DrawDevice.setConstantBufferViews
    [(0, self.vs_cbuffer_), (1, self.ps_cbuffer_), (2, self.lights_cbuffer_),
      (3, self.vs_creg_cbuffer_)]
    (self.record Command.SetGraphicsRootSignature)

/-- The loop of the texture block of `PrepareDrawCall`, from stage `i` on, over
the first `kMaxTexStages` entries of `bound_textures_`. -/
def DrawDevice.setTextures (K : Nat) (C : DrawConstants) (I : DrawInputs) :
    List (Option BoundTexture) → Nat → DrawDevice → Except Fault DrawDevice
  | [], _, self => Except.ok self
  | none :: textures, i, self => DrawDevice.setTextures K C I textures (i + 1) self
  | some texture :: textures, i, self =>
    match DrawDevice.MarkResourceAsUsed K
        (self.record (Command.SetGraphicsRootDescriptorTable (C.textures_start_bindslot_ + i)
          (I.srv_GetGPUHandleFor texture.srv_handle))) texture.this with
    | Except.error e => Except.error e
    | Except.ok self => DrawDevice.setTextures K C I textures (i + 1) self

/-- The lookup `sampler_cache_.find(desc)`. -/
def findSampler (desc : Nat) : List (Nat × Nat) → Option Nat
  | [] => none
  | (key, handle) :: cache => if key = desc then some handle else findSampler desc cache

/-- The loop of the sampler block of `PrepareDrawCall`, from stage `i` on, over
the `SamplerDesc`s of the first `kMaxTexStages` stages. On a miss
`sampler_heap_.Allocate()` asserts that the free list is not empty and takes
its last entry. -/
def DrawDevice.setSamplers (C : DrawConstants) (I : DrawInputs) :
    List Nat → Nat → DrawDevice → Except Fault DrawDevice
  | [], _, self => Except.ok self
  | desc :: descs, i, self =>
    match (match findSampler desc self.sampler_cache_ with
      | some handle => Except.ok (handle, self)
      | none =>
        match self.sampler_heap_.getLast? with
        | none => Except.error Fault.assertion
        | some cpu_handle =>
          Except.ok (I.sampler_GetGPUHandleFor cpu_handle,
            { self with
              sampler_heap_ := self.sampler_heap_.dropLast
              sampler_cache_ :=
                (desc, I.sampler_GetGPUHandleFor cpu_handle) :: self.sampler_cache_ })) with
    | Except.error e => Except.error e
    | Except.ok (handle, self) =>
      ASSERT (handle != 0) <|
      DrawDevice.setSamplers C I descs (i + 1)
        (self.record (Command.SetGraphicsRootDescriptorTable
          (C.textures_start_bindslot_ + kMaxTexStages + i) handle))

/-- A block `if (dirty_flags_ & flag) { body; dirty_flags_ ^= flag; }` of
`PrepareDrawCall`. -/
def DrawDevice.dirtyBlock (flag : Nat) (body : DrawDevice → Except Fault DrawDevice)
    (self : DrawDevice) : Except Fault DrawDevice :=
  if self.dirty_flags_ &&& flag ≠ 0 then
    match body self with
    | Except.error e => Except.error e
    | Except.ok self => Except.ok { self with dirty_flags_ := self.dirty_flags_ ^^^ flag }
  else Except.ok self

/-- Method `Device::PrepareDrawCall(PrimitiveType, start_vertex, num_vertices)`;
the result is the `HRESULT` with the device after the call. -/
def DrawDevice.PrepareDrawCall (K : Nat) (L : LockFlagBits) (C : DrawConstants)
    (I : DrawInputs) (self : DrawDevice) (PrimitiveType : Nat)
    (start_vertex num_vertices : Int) : Except Fault (HRESULT × DrawDevice) :=
  if PrimitiveType > C.D3DPT_TRIANGLEFAN then Except.ok (HRESULT.D3DERR_INVALIDCALL, self)
  else
    ASSERT (PrimitiveType != C.D3DPT_TRIANGLEFAN) <|
    match (if self.dirty_flags_ &&& DIRTY_FLAG_OM ≠ 0 then DrawDevice.BeginScene K C self
      else Except.ok self) with
    | Except.error e => Except.error e
    | Except.ok self =>
    match DrawDevice.bindPipeline K I self PrimitiveType start_vertex num_vertices with
    | Except.error e => Except.error e
    | Except.ok self =>
    match DrawDevice.dirtyBlock DIRTY_FLAG_TRANSFORMS
        (fun s => DrawDevice.uploadConstants L s s.vs_cbuffer_ I.VertexCBuffer true) self with
    | Except.error e => Except.error e
    | Except.ok self =>
    match DrawDevice.dirtyBlock DIRTY_FLAG_VS_CBUFFER
        (fun s => DrawDevice.uploadConstants L s s.vs_creg_cbuffer_ I.bound_vs_cregs_ true)
        self with
    | Except.error e => Except.error e
    | Except.ok self =>
    match DrawDevice.dirtyBlock DIRTY_FLAG_LIGHTS
        (fun s => DrawDevice.uploadConstants L s s.lights_cbuffer_ I.LightsCBuffer
          (DrawDevice.lightsChecks C s)) self with
    | Except.error e => Except.error e
    | Except.ok self =>
    match DrawDevice.dirtyBlock DIRTY_FLAG_PS_CBUFFER
        (fun s => DrawDevice.uploadConstants L s s.ps_cbuffer_ I.PixelCBuffer true) self with
    | Except.error e => Except.error e
    | Except.ok self =>
    match DrawDevice.setRoots self with
    | Except.error e => Except.error e
    | Except.ok self =>
    match DrawDevice.dirtyBlock DIRTY_FLAG_PS_TEXTURES
        (fun s => DrawDevice.setTextures K C I (s.bound_textures_.take kMaxTexStages) 0 s)
        self with
    | Except.error e => Except.error e
    | Except.ok self =>
    match DrawDevice.dirtyBlock DIRTY_FLAG_PS_SAMPLERS
        (fun s => DrawDevice.setSamplers C I (s.texture_stage_states_.take kMaxTexStages) 0 s)
        self with
    | Except.error e => Except.error e
    | Except.ok self => Except.ok (HRESULT.S_OK, self)

/-- A block in the words of the specification: if the bit `flag` is set in
`entry`, the flags the call started with, do `body` and clear the bit. -/
def DrawDevice.clearBlock (entry flag : Nat) (body : DrawDevice → Except Fault DrawDevice)
    (self : DrawDevice) : Except Fault DrawDevice :=
  if entry &&& flag ≠ 0 then
    match body self with
    | Except.error e => Except.error e
    | Except.ok self =>
      Except.ok { self with dirty_flags_ := self.dirty_flags_ ^^^ (self.dirty_flags_ &&& flag) }
  else Except.ok self

/-- The draw preparation in the words of the specification: with `entry` the
dirty flags on entry, each state category is uploaded if and only if its bit is
set in `entry`, and its bit is then cleared; the steps between the blocks are
those of `PrepareDrawCall`. -/
def DrawDevice.PrepareDrawCall_reference (K : Nat) (L : LockFlagBits) (C : DrawConstants)
    (I : DrawInputs) (entry : Nat) (self : DrawDevice) (PrimitiveType : Nat)
    (start_vertex num_vertices : Int) : Except Fault (HRESULT × DrawDevice) :=
  if PrimitiveType > C.D3DPT_TRIANGLEFAN then Except.ok (HRESULT.D3DERR_INVALIDCALL, self)
  else
    ASSERT (PrimitiveType != C.D3DPT_TRIANGLEFAN) <|
    match DrawDevice.clearBlock entry DIRTY_FLAG_OM (DrawDevice.setRenderTargets K C) self with
    | Except.error e => Except.error e
    | Except.ok self =>
    match DrawDevice.bindPipeline K I self PrimitiveType start_vertex num_vertices with
    | Except.error e => Except.error e
    | Except.ok self =>
    match DrawDevice.clearBlock entry DIRTY_FLAG_TRANSFORMS
        (fun s => DrawDevice.uploadConstants L s s.vs_cbuffer_ I.VertexCBuffer true) self with
    | Except.error e => Except.error e
    | Except.ok self =>
    match DrawDevice.clearBlock entry DIRTY_FLAG_VS_CBUFFER
        (fun s => DrawDevice.uploadConstants L s s.vs_creg_cbuffer_ I.bound_vs_cregs_ true)
        self with
    | Except.error e => Except.error e
    | Except.ok self =>
    match DrawDevice.clearBlock entry DIRTY_FLAG_LIGHTS
        (fun s => DrawDevice.uploadConstants L s s.lights_cbuffer_ I.LightsCBuffer
          (DrawDevice.lightsChecks C s)) self with
    | Except.error e => Except.error e
    | Except.ok self =>
    match DrawDevice.clearBlock entry DIRTY_FLAG_PS_CBUFFER
        (fun s => DrawDevice.uploadConstants L s s.ps_cbuffer_ I.PixelCBuffer true) self with
    | Except.error e => Except.error e
    | Except.ok self =>
    match DrawDevice.setRoots self with
    | Except.error e => Except.error e
    | Except.ok self =>
    match DrawDevice.clearBlock entry DIRTY_FLAG_PS_TEXTURES
        (fun s => DrawDevice.setTextures K C I (s.bound_textures_.take kMaxTexStages) 0 s)
        self with
    | Except.error e => Except.error e
    | Except.ok self =>
    match DrawDevice.clearBlock entry DIRTY_FLAG_PS_SAMPLERS
        (fun s => DrawDevice.setSamplers C I (s.texture_stage_states_.take kMaxTexStages) 0 s)
        self with
    | Except.error e => Except.error e
    | Except.ok self => Except.ok (HRESULT.S_OK, self)

/-- A sequence of steps of `PrepareDrawCall`, each with the dirty flag that
guards it (`none` for a step outside the blocks), run as the code runs them: a
guarded step is a `dirtyBlock`. The first failure ends the sequence. -/
def DrawDevice.runSteps :
    List (Option Nat × (DrawDevice → Except Fault DrawDevice)) → DrawDevice →
      Except Fault DrawDevice
  | [], self => Except.ok self
  | (none, step) :: steps, self =>
    match step self with
    | Except.error e => Except.error e
    | Except.ok self => DrawDevice.runSteps steps self
  | (some flag, step) :: steps, self =>
    match DrawDevice.dirtyBlock flag step self with
    | Except.error e => Except.error e
    | Except.ok self => DrawDevice.runSteps steps self

/-- The same sequence run in the words of the specification: a guarded step
is a `clearBlock` on the flags `entry` the call started with. -/
def DrawDevice.runSteps_reference (entry : Nat) :
    List (Option Nat × (DrawDevice → Except Fault DrawDevice)) → DrawDevice →
      Except Fault DrawDevice
  | [], self => Except.ok self
  | (none, step) :: steps, self =>
    match step self with
    | Except.error e => Except.error e
    | Except.ok self => DrawDevice.runSteps_reference entry steps self
  | (some flag, step) :: steps, self =>
    match DrawDevice.clearBlock entry flag step self with
    | Except.error e => Except.error e
    | Except.ok self => DrawDevice.runSteps_reference entry steps self

/-- The flags that guard a step of the sequence, or-ed together. -/
def stepsMask : List (Option Nat × (DrawDevice → Except Fault DrawDevice)) → Nat
  | [] => 0
  | (none, _) :: steps => stepsMask steps
  | (some flag, _) :: steps => flag ||| stepsMask steps

/-- The steps of `PrepareDrawCall` after its two tests of the primitive type,
in order, each with its guard. -/
def DrawDevice.drawSteps (K : Nat) (L : LockFlagBits) (C : DrawConstants) (I : DrawInputs)
    (PrimitiveType : Nat) (start_vertex num_vertices : Int) :
    List (Option Nat × (DrawDevice → Except Fault DrawDevice)) :=
  [(some DIRTY_FLAG_OM, DrawDevice.setRenderTargets K C),
    (none, fun s => DrawDevice.bindPipeline K I s PrimitiveType start_vertex num_vertices),
    (some DIRTY_FLAG_TRANSFORMS,
      fun s => DrawDevice.uploadConstants L s s.vs_cbuffer_ I.VertexCBuffer true),
    (some DIRTY_FLAG_VS_CBUFFER,
      fun s => DrawDevice.uploadConstants L s s.vs_creg_cbuffer_ I.bound_vs_cregs_ true),
    (some DIRTY_FLAG_LIGHTS,
      fun s => DrawDevice.uploadConstants L s s.lights_cbuffer_ I.LightsCBuffer
        (DrawDevice.lightsChecks C s)),
    (some DIRTY_FLAG_PS_CBUFFER,
      fun s => DrawDevice.uploadConstants L s s.ps_cbuffer_ I.PixelCBuffer true),
    (none, DrawDevice.setRoots),
    (some DIRTY_FLAG_PS_TEXTURES,
      fun s => DrawDevice.setTextures K C I (s.bound_textures_.take kMaxTexStages) 0 s),
    (some DIRTY_FLAG_PS_SAMPLERS,
      fun s => DrawDevice.setSamplers C I (s.texture_stage_states_.take kMaxTexStages) 0 s)]

/-- The constants of the DirectX SDK headers: `D3DPT_TRIANGLEFAN` 6,
`D3D12_RESOURCE_STATE_RENDER_TARGET` 4, `D3DLIGHT_SPOT` 2; the textures start
at root slot 4. -/
def sdkDraw : DrawConstants :=
  { D3DPT_TRIANGLEFAN := 6, D3D12_RESOURCE_STATE_RENDER_TARGET := 4, D3DLIGHT_SPOT := 2,
    textures_start_bindslot_ := 4 }

/-- Inputs of a draw call: pipeline state 900, four bytes for each constant
buffer. -/
def drawInputs : DrawInputs :=
  { CreatePSO := fun _ => Except.ok 900
    VertexCBuffer := [1, 2, 3, 4]
    bound_vs_cregs_ := [5, 6, 7, 8]
    LightsCBuffer := [9, 10, 11, 12]
    PixelCBuffer := [13, 14, 15, 16]
    srv_GetGPUHandleFor := fun handle => handle + 5000
    sampler_GetGPUHandleFor := fun handle => handle + 7000 }

/-- The device `afterReset` (every category dirty, frame 2 being recorded) ready
for a draw: the four constant buffers are dynamic buffers of 4 bytes at the
addresses 10 to 13, a static vertex buffer at address 20 is bound to stream 0
with stride 12, a depth target, one texture and one texture stage are set, and
the sampler heap has two free descriptors. -/
def drawReady : DrawDevice :=
  { toFrameScheduler :=
      { afterReset with
        buffers := fun a =>
          if 10 ≤ a ∧ a ≤ 13 then some { buffer4 with this := a } else none }
    static_buffers := fun a =>
      if a = 20 then
        some { this := 20, resource_ := { gpu_va := 800000, mem := fun _ => 0, map_count := 0 },
               size_ := 36 }
      else none
    bound_render_target_ := none
    bound_depth_target_ := some 30
    vertex_shaders_ := fun handle =>
      if handle = 1 then some { this := 50, buffer_strides := [12] } else none
    pixel_shaders_ := fun _ => none
    bound_vertex_shader_ := 1
    bound_pixel_shader_ := 0
    bound_vertex_streams_ := [some 20]
    bound_textures_ := [some { this := 60, srv_handle := 7 }]
    texture_stage_states_ := [3]
    sampler_cache_ := []
    sampler_heap_ := [5, 6]
    enabled_lights_ := []
    lights_ := fun _ => 1
    vs_cbuffer_ := 10
    lights_cbuffer_ := 11
    ps_cbuffer_ := 12
    vs_creg_cbuffer_ := 13 }

/-- The result of the draw preparation of a triangle list (primitive type 4) of
3 vertices on `drawReady`. -/
def afterDraw : HRESULT × DrawDevice :=
  resultOr (HRESULT.D3DERR_INVALIDCALL, drawReady)
    (DrawDevice.PrepareDrawCall kNumBackBuffers sdkLockBits sdkDraw drawInputs drawReady 4 0 3)

/-! ## What a draw preparation leaves behind, in the words of the specification -/

/-- The part of the draw state that `PrepareDrawCall` reads and never writes. -/
structure DrawBindings where
  current_back_buffer_ : Nat
  bound_depth_target_ : Option Nat
  vertex_shaders_ : Nat → Option VertexShader
  pixel_shaders_ : Nat → Option Nat
  bound_vertex_shader_ : Nat
  bound_pixel_shader_ : Nat
  bound_vertex_streams_ : List (Option Nat)
  bound_textures_ : List (Option BoundTexture)
  texture_stage_states_ : List Nat
  enabled_lights_ : List Nat
  lights_ : Nat → Nat
  vs_cbuffer_ : Nat
  lights_cbuffer_ : Nat
  ps_cbuffer_ : Nat
  vs_creg_cbuffer_ : Nat

/-- The bindings of a draw state. -/
def DrawDevice.bindings (s : DrawDevice) : DrawBindings :=
  { current_back_buffer_ := s.current_back_buffer_
    bound_depth_target_ := s.bound_depth_target_
    vertex_shaders_ := s.vertex_shaders_
    pixel_shaders_ := s.pixel_shaders_
    bound_vertex_shader_ := s.bound_vertex_shader_
    bound_pixel_shader_ := s.bound_pixel_shader_
    bound_vertex_streams_ := s.bound_vertex_streams_
    bound_textures_ := s.bound_textures_
    texture_stage_states_ := s.texture_stage_states_
    enabled_lights_ := s.enabled_lights_
    lights_ := s.lights_
    vs_cbuffer_ := s.vs_cbuffer_
    lights_cbuffer_ := s.lights_cbuffer_
    ps_cbuffer_ := s.ps_cbuffer_
    vs_creg_cbuffer_ := s.vs_creg_cbuffer_ }

/-- The render target of a draw: the bound render target if there is one, the
current back buffer otherwise. -/
def DrawDevice.renderTarget (s : DrawDevice) : Option GpuTexture :=
  match s.bound_render_target_ with
  | some tex => some tex
  | none => s.back_buffers_.get? s.current_back_buffer_

/-- The commands an upload of the output-merger state records: viewport,
scissor rectangle, descriptor heaps, the transition of the render target into
the render-target state if it is not in it, and the render targets. -/
def renderTargetCommands (C : DrawConstants) (s : DrawDevice) : List Command :=
  [Command.RSSetViewports, Command.RSSetScissorRects, Command.SetDescriptorHeaps] ++
    match s.renderTarget with
    | some tex =>
      (if tex.current_state_ = C.D3D12_RESOURCE_STATE_RENDER_TARGET then []
        else [Command.TransitionBarrier tex.this 0 tex.current_state_
          C.D3D12_RESOURCE_STATE_RENDER_TARGET]) ++
        [Command.OMSetRenderTargets tex.this s.bound_depth_target_]
    | none => []

/-- The resources an upload of the output-merger state keeps alive for the
frame: the render target if it was transitioned, the depth target if one is
bound, and the render target. -/
def renderTargetMarks (C : DrawConstants) (s : DrawDevice) : List Nat :=
  match s.renderTarget with
  | some tex =>
    (if tex.current_state_ = C.D3D12_RESOURCE_STATE_RENDER_TARGET then [] else [tex.this]) ++
      s.bound_depth_target_.toList ++ [tex.this]
  | none => []

/-- The vertex buffers a draw keeps alive: the bound stream of every slot whose
stride in the vertex declaration is positive. -/
def streamMarks : List (Option Nat) → List Int → List Nat
  | [], _ => []
  | d3d_buffer :: streams, strides =>
    (if strides.headD 0 > 0 then d3d_buffer.toList else []) ++ streamMarks streams strides.tail

/-- The resources the pipeline part of a draw keeps alive: a vertex shader
created by the application, the bound pixel shader, the vertex buffers. -/
def pipelineMarks (b : DrawBindings) : List Nat :=
  (match b.vertex_shaders_ b.bound_vertex_shader_ with
    | some vertex_shader =>
      (if b.bound_vertex_shader_ ≥ kFirstShaderHandle then [vertex_shader.this] else []) ++
        (if b.bound_pixel_shader_ ≠ 0 then (b.pixel_shaders_ b.bound_pixel_shader_).toList
          else []) ++
        streamMarks b.bound_vertex_streams_ vertex_shader.buffer_strides
    | none => [])

/-- The commands an upload of the textures records: one descriptor table per
bound texture, at the root slot of its stage, stages counted from `i`. -/
def textureCommands (C : DrawConstants) (I : DrawInputs) :
    List (Option BoundTexture) → Nat → List Command
  | [], _ => []
  | none :: textures, i => textureCommands C I textures (i + 1)
  | some texture :: textures, i =>
    Command.SetGraphicsRootDescriptorTable (C.textures_start_bindslot_ + i)
      (I.srv_GetGPUHandleFor texture.srv_handle) :: textureCommands C I textures (i + 1)

/-- The textures an upload of the textures keeps alive: the bound ones. -/
def textureMarks : List (Option BoundTexture) → List Nat
  | [] => []
  | none :: textures => textureMarks textures
  | some texture :: textures => texture.this :: textureMarks textures

/-- The GPU handle of the sampler of a stage with the sampler cache and the free
list after it: the cached handle of `desc`, or on a miss the handle of the last
free descriptor, which is then cached for `desc`. -/
def samplerFor (I : DrawInputs) (desc : Nat) (cache : List (Nat × Nat)) (heap : List Nat) :
    Nat × List (Nat × Nat) × List Nat :=
  match findSampler desc cache with
  | some handle => (handle, cache, heap)
  | none =>
    (I.sampler_GetGPUHandleFor (heap.getLastD 0),
      (desc, I.sampler_GetGPUHandleFor (heap.getLastD 0)) :: cache, heap.dropLast)

/-- The commands an upload of the samplers records, one descriptor table per
stage at the root slot of its sampler, with the sampler cache and the free list
it leaves; stages counted from `i`. -/
def samplerCommands (C : DrawConstants) (I : DrawInputs) :
    List Nat → Nat → List (Nat × Nat) → List Nat →
      List Command × List (Nat × Nat) × List Nat
  | [], _, cache, heap => ([], cache, heap)
  | desc :: descs, i, cache, heap =>
    let found := samplerFor I desc cache heap
    let rest := samplerCommands C I descs (i + 1) found.2.1 found.2.2
    (Command.SetGraphicsRootDescriptorTable (C.textures_start_bindslot_ + kMaxTexStages + i)
        found.1 :: rest.1, rest.2.1, rest.2.2)

/-- A dynamic buffer as the steps of a draw that do not lock it leave it: the
cache, the written ranges, the size and the address are those of before. -/
def KeptBuffer : Option DynamicBuffer → Option DynamicBuffer → Prop
  | none, none => True
  | some before, some after =>
    after.speculative_write_cache_ = before.speculative_write_cache_ ∧
      after.written_ranges_ = before.written_ranges_ ∧ after.size_ = before.size_ ∧
      after.this = before.this
  | _, _ => False

/-- The constant buffer at the address `buffer` was uploaded between the states
`s` and `t`: it is a dynamic buffer, registered for persisting, whose one
written range is that of a Discard lock of `bytes.length` bytes (the whole
buffer for no bytes) and whose cache holds `bytes` as written through the
pointer of that lock. -/
def UploadedBuffer (s t : DrawDevice) (buffer : Nat) (bytes : List Byte) : Prop :=
  ∃ before after, s.buffers buffer = some before ∧ t.buffers buffer = some after ∧
    after.written_ranges_ =
      { ranges := [{ offset := 0, size := lockedSize before bytes.length }] } ∧
    after.speculative_write_cache_ =
      (store s.toDevice (afterDiscard s.toDevice before (lockedSize before bytes.length))
        (BytePtr.cache 0) bytes).2.speculative_write_cache_ ∧
    after.size_ = before.size_ ∧ after.this = before.this ∧
    before.this ∈ t.buffers_to_persist_

/-- What one step of a draw does to the command list, to the resources kept
alive for the current back buffer and to the buffers registered for persisting,
with the bindings untouched. -/
def DrawDevice.Advances (s t : DrawDevice) (commands : List Command) (marks : List Nat) :
    Prop :=
  t.cmd_list_ = s.cmd_list_ ++ commands ∧
  (∀ i, t.frame_resources_to_free_ i =
    if i = s.current_back_buffer_ then s.frame_resources_to_free_ i ++ marks
    else s.frame_resources_to_free_ i) ∧
  t.bindings = s.bindings ∧
  ∀ b, b ∈ s.buffers_to_persist_ → b ∈ t.buffers_to_persist_

/-- No dynamic buffer was locked between the states `s` and `t`. -/
def DrawDevice.BuffersKept (s t : DrawDevice) : Prop :=
  ∀ buffer, KeptBuffer (s.buffers buffer) (t.buffers buffer)

/-- The textures a draw can render to, with their resource states. -/
def DrawDevice.targets (s : DrawDevice) : List GpuTexture × Option GpuTexture :=
  (s.back_buffers_, s.bound_render_target_)

/-- The sampler cache and the free list of the sampler heap. -/
def DrawDevice.samplers (s : DrawDevice) : List (Nat × Nat) × List Nat :=
  (s.sampler_cache_, s.sampler_heap_)

/-- A step of a draw that records `commands` and keeps `marks` alive and
leaves the buffers, the render targets and the samplers as they are. -/
def DrawDevice.Quiet (s t : DrawDevice) (commands : List Command) (marks : List Nat) :
    Prop :=
  DrawDevice.Advances s t commands marks ∧ DrawDevice.BuffersKept s t ∧
    t.targets = s.targets ∧ t.samplers = s.samplers

/-- The constant buffer at the address `buffer` between the states `s` and `t`
of a draw that started with the dirty flags `entry`: uploaded with `bytes` if
the bit `flag` of its category is set in `entry`, kept as it was otherwise. -/
def UploadedIfDirty (entry flag : Nat) (s t : DrawDevice) (buffer : Nat) (bytes : List Byte) :
    Prop :=
  if entry &&& flag ≠ 0 then UploadedBuffer s t buffer bytes
  else KeptBuffer (s.buffers buffer) (t.buffers buffer)

/-! ## Theorems: ring allocator -/

theorem ASSERT_eq_ok {α : Type} {cond : Bool} {rest : Except Fault α} {a : α} :
    ASSERT cond rest = Except.ok a ↔ cond = true ∧ rest = Except.ok a := by
  unfold ASSERT
  cases cond <;> simp

theorem Allocate_ok_history {s s1 : DynamicRingBuffer} {n a : Nat} {alloc : Allocation}
    (h : s.Allocate n a = Except.ok (alloc, s1)) :
    s1.frame_heads_ = s.frame_heads_ ∧ s1.current_frame_ = s.current_frame_ ∧
      s1.head_ = s.head_ ∧ s1.max_size_ = s.max_size_ := by
  unfold DynamicRingBuffer.Allocate at h
  rw [ASSERT_eq_ok] at h
  obtain ⟨-, h⟩ := h
  rw [ASSERT_eq_ok] at h
  obtain ⟨-, h⟩ := h
  simp only at h
  split at h
  · cases h
  · rw [ASSERT_eq_ok] at h
    obtain ⟨-, h⟩ := h
    simp only [Except.ok.injEq, Prod.mk.injEq] at h
    obtain ⟨-, rfl⟩ := h
    simp

theorem popCompleted_suffix (frame : Nat) (l : List (Nat × Nat)) :
    popCompleted frame l <:+ l := by
  induction l with
  | nil => simp [popCompleted]
  | cons e rest ih =>
    unfold popCompleted
    split
    · exact ih.trans (List.suffix_cons e rest)
    · exact List.suffix_refl _

theorem popCompleted_eq_filter (frame : Nat) (l : List (Nat × Nat))
    (h : l.Pairwise (fun a b => a.1 < b.1)) :
    popCompleted frame l = l.filter (fun e => decide (frame < e.1)) := by
  induction l with
  | nil => simp [popCompleted]
  | cons e rest ih =>
    rw [List.pairwise_cons] at h
    unfold popCompleted
    by_cases he : e.1 ≤ frame
    · rw [if_pos he, ih h.2, List.filter_cons_of_neg (by simpa using he)]
    · rw [if_neg he]
      symm
      rw [List.filter_eq_self]
      intro x hx
      rcases List.mem_cons.mp hx with rfl | hx
      · simpa using he
      · have := h.1 x hx
        simp only [decide_eq_true_eq]
        omega

theorem Reachable.historyOrdered {s : DynamicRingBuffer} (h : Reachable s) : HistoryOrdered s := by
  induction h with
  | create placement buffer cpu_ptr size => simp [HistoryOrdered, DynamicRingBuffer.create]
  | allocate _ hok ih =>
    obtain ⟨h1, h2, -, -⟩ := Allocate_ok_history hok
    simpa [HistoryOrdered, h1, h2] using ih
  | @setCurrentFrame s frame _ ih =>
    unfold DynamicRingBuffer.SetCurrentFrame
    split
    · next hgt =>
      refine ⟨?_, ?_⟩
      · simp only [List.pairwise_append, List.pairwise_cons, List.not_mem_nil,
          IsEmpty.forall_iff, implies_true, List.Pairwise.nil, and_self, List.mem_singleton,
          forall_eq, true_and]
        exact ⟨ih.1, fun e he => lt_of_le_of_lt (ih.2 e he) hgt⟩
      · intro e he
        simp only [List.mem_append, List.mem_singleton] at he
        rcases he with he | rfl
        · exact le_of_lt (lt_of_le_of_lt (ih.2 e he) hgt)
        · exact le_refl _
    · exact ih
  | @hasCompletedFrame s frame _ ih =>
    have hsuf := popCompleted_suffix frame s.frame_heads_
    unfold DynamicRingBuffer.HasCompletedFrame
    split
    · simp [HistoryOrdered]
    · next e rest heq =>
      rw [heq] at hsuf
      exact ⟨ih.1.sublist hsuf.sublist, fun x hx => ih.2 x (hsuf.subset hx)⟩

/-- C1, on the code: in the call sequence `wrapCalls` on a 65536-byte ring every
`Allocate` succeeds and the live bytes never exceed `max_size_`, yet the last
allocation (frame 3, bytes 40192 to 41192) overlaps the allocation of frame 2
(bytes 40192 to 60192), which is still live because only frame 1 has completed:
the wrap to offset 0 left `tail_ = head_`, which the next `Allocate` reads as
an empty ring. -/
theorem Allocate_overlaps_live_allocation :
    (match (RingTrace.mk ring64k [] true).run wrapCalls with
      | Except.ok t => some (t.within_budget, t.live, t.ring.head_, t.ring.tail_)
      | Except.error _ => none) =
        some (true, [⟨3, 40192, 1000⟩, ⟨3, 0, 40000⟩, ⟨2, 40192, 20000⟩], 40000, 41192) ∧
      Allocation.overlaps ⟨3, 40192, 1000⟩ ⟨2, 40192, 20000⟩ = true := by
  decide

/-- C2: on every reachable allocator state, `HasCompletedFrame(N)` keeps exactly
the history entries whose frame is greater than `N`, in their order; when an
entry remains, `head_` is the tail recorded for the first (oldest) remaining
entry, whose frame is greater than `N` and smaller than every other remaining
frame, and `tail_` is unchanged; when none remains, `head_` and `tail_` are both
0. -/
theorem HasCompletedFrame_reclaims (s : DynamicRingBuffer) (h : Reachable s) (N : Nat) :
    (s.HasCompletedFrame N).frame_heads_ = s.frame_heads_.filter (fun e => decide (N < e.1)) ∧
    (∀ e rest, (s.HasCompletedFrame N).frame_heads_ = e :: rest →
      (s.HasCompletedFrame N).head_ = e.2 ∧ N < e.1 ∧ (∀ x ∈ rest, e.1 < x.1) ∧
        (s.HasCompletedFrame N).tail_ = s.tail_) ∧
    ((s.HasCompletedFrame N).frame_heads_ = [] →
      (s.HasCompletedFrame N).head_ = 0 ∧ (s.HasCompletedFrame N).tail_ = 0) := by
  have hord := h.historyOrdered
  have hfilter := popCompleted_eq_filter N s.frame_heads_ hord.1
  have hsuf := popCompleted_suffix N s.frame_heads_
  unfold DynamicRingBuffer.HasCompletedFrame
  split
  · next heq =>
    refine ⟨?_, ?_, ?_⟩
    · simp only
      rw [← hfilter, heq]
    · intro e rest hcons
      simp at hcons
    · intro _
      simp
  · next e rest heq =>
    refine ⟨?_, ?_, ?_⟩
    · simp only
      rw [← hfilter, heq]
    · intro e1 rest1 hcons
      simp only [List.cons.injEq] at hcons
      obtain ⟨rfl, rfl⟩ := hcons
      have hmem : e ∈ s.frame_heads_.filter (fun e => decide (N < e.1)) := by
        rw [← hfilter, heq]
        exact List.mem_cons_self _ _
      have hpw : (e :: rest).Pairwise (fun a b => a.1 < b.1) := by
        rw [heq] at hsuf
        exact hord.1.sublist hsuf.sublist
      refine ⟨rfl, ?_, ?_, rfl⟩
      · simpa using (List.mem_filter.mp hmem).2
      · exact (List.pairwise_cons.mp hpw).1
    · intro hnil
      simp at hnil

/-- C2 at a concrete state: frames 1 and 2 recorded with tails 0 and 0, frame 1
completes. -/
theorem HasCompletedFrame_reclaims_witness :
    (((ring64k.SetCurrentFrame 1).SetCurrentFrame 2).HasCompletedFrame 1).frame_heads_ =
      ((ring64k.SetCurrentFrame 1).SetCurrentFrame 2).frame_heads_.filter
        (fun e => decide (1 < e.1)) :=
  (HasCompletedFrame_reclaims ((ring64k.SetCurrentFrame 1).SetCurrentFrame 2)
    (Reachable.setCurrentFrame 2 (Reachable.setCurrentFrame 1
      (Reachable.create 65536 { gpu_va := 4096, mem := fun _ => 0, map_count := 0 } 1000 65536)))
    1).1

theorem toInt32_of_range {x : Int} (h1 : -2 ^ 31 ≤ x) (h2 : x < 2 ^ 31) : toInt32 x = x := by
  unfold toInt32
  omega

theorem testBit_of_pow_le {x k : Nat} (h1 : 2 ^ k ≤ x) (h2 : x < 2 ^ (k + 1)) :
    x.testBit k = true := by
  rw [Nat.testBit_to_div_mod]
  have hdiv : x / 2 ^ k = 1 := by
    apply Nat.div_eq_of_lt_le
    · simpa using h1
    · rw [pow_succ] at h2
      omega
  simp [hdiv]

theorem pow_two_of_and_pred {a : Nat} (ha : 0 < a) (h : a &&& (a - 1) = 0) : ∃ k, a = 2 ^ k := by
  refine ⟨Nat.log 2 a, ?_⟩
  have hle : 2 ^ Nat.log 2 a ≤ a := Nat.pow_log_le_self 2 (by omega)
  have hlt : a < 2 ^ (Nat.log 2 a + 1) := Nat.lt_pow_succ_log_self (by decide) a
  by_contra hne
  have hlt2 : 2 ^ Nat.log 2 a < a := lt_of_le_of_ne hle (Ne.symm hne)
  have hb1 := testBit_of_pow_le hle hlt
  have hb2 : (a - 1).testBit (Nat.log 2 a) = true :=
    testBit_of_pow_le (by omega) (by omega)
  have hb : (a &&& (a - 1)).testBit (Nat.log 2 a) = true := by
    rw [Nat.testBit_and, hb1, hb2]
    rfl
  rw [h] at hb
  simp at hb

theorem and_mask_mod (x j : Nat) (hj : j ≤ 32) : (x &&& (2 ^ 32 - 2 ^ j)) % 2 ^ j = 0 := by
  apply Nat.eq_of_testBit_eq
  intro i
  rw [Nat.testBit_mod_two_pow, Nat.testBit_and, Nat.zero_testBit]
  by_cases hi : i < j
  · have hm : (2 ^ 32 - 2 ^ j).testBit i = false := by
      have : 2 ^ 32 - 2 ^ j = 2 ^ j * (2 ^ (32 - j) - 1) := by
        rw [Nat.mul_sub, ← pow_add, mul_one]
        congr 2
        omega
      rw [this, Nat.testBit_mul_pow_two]
      simp [hi]
    rw [hm]
    simp
  · simp [hi]


theorem toUInt32_natCast_pred {a : Nat} (h1 : 0 < a) (h2 : a < 2 ^ 32) :
    toUInt32 ((a : Int) - 1) = a - 1 := by
  unfold toUInt32
  omega

theorem IsPow2_max {a : Nat} (ha : a < 2 ^ 32) (h : IsPow2 a = true) :
    ∃ j, 8 ≤ j ∧ j ≤ 31 ∧ max a min_align_ = 2 ^ j := by
  unfold min_align_
  rcases Nat.eq_zero_or_pos a with rfl | hpos
  · exact ⟨8, by omega, by omega, by norm_num⟩
  · unfold IsPow2 at h
    rw [toUInt32_natCast_pred hpos ha] at h
    obtain ⟨k, rfl⟩ := pow_two_of_and_pred hpos (by simpa using h)
    have hk : k < 32 := (Nat.pow_lt_pow_iff_right (by decide)).mp ha
    by_cases hk8 : k ≤ 8
    · refine ⟨8, by omega, by omega, ?_⟩
      have : 2 ^ k ≤ 2 ^ 8 := Nat.pow_le_pow_right (by decide) hk8
      omega
    · refine ⟨k, by omega, by omega, ?_⟩
      have : 2 ^ 8 ≤ 2 ^ k := Nat.pow_le_pow_right (by decide) (by omega)
      omega

theorem AlignUp_dvd (x : Int) (j : Nat) (h8 : 8 ≤ j) (h31 : j ≤ 31) :
    ((2 ^ j : Nat) : Int) ∣ AlignUp x (toInt32 ((2 ^ j : Nat) : Int)) := by
  unfold AlignUp
  have hmask : 2 ^ 32 - 1 - toUInt32 (toInt32 ((2 ^ j : Nat) : Int) - 1) = 2 ^ 32 - 2 ^ j := by
    interval_cases j <;> decide
  rw [hmask]
  have hmod := and_mask_mod (toUInt32 (x + toInt32 ((2 ^ j : Nat) : Int) - 1)) j (by omega)
  generalize toUInt32 (x + toInt32 ((2 ^ j : Nat) : Int) - 1) &&& (2 ^ 32 - 2 ^ j) = y at hmod
  apply Int.dvd_of_emod_eq_zero
  unfold toInt32
  interval_cases j <;> simp only [Int.ofNat_eq_coe] <;> omega

theorem place_offset {s : DynamicRingBuffer} {n al : Nat} {off : Int} {t : Nat}
    (h : s.place n al = some (off, t)) :
    off = 0 ∨ off = AlignUp (toInt32 s.tail_) (toInt32 al) := by
  unfold DynamicRingBuffer.place at h
  simp only at h
  split_ifs at h <;> simp only [Option.some.injEq, Prod.mk.injEq] at h
  · exact Or.inr h.1.symm
  · exact Or.inl h.1.symm
  · exact Or.inr h.1.symm

theorem Allocate_ok_inv {s s1 : DynamicRingBuffer} {n a : Nat} {alloc : Allocation}
    (h : s.Allocate n a = Except.ok (alloc, s1)) :
    IsPow2 a = true ∧ ∃ off t, s.place n (max a min_align_) = some (off, t) ∧
      alloc = { frame := s.current_frame_, offset := off, size := toInt32 n } ∧
      s1 = { s with tail_ := t } ∧
      toInt32 (off + toInt32 n) ≤ toInt32 s.max_size_ := by
  unfold DynamicRingBuffer.Allocate at h
  rw [ASSERT_eq_ok] at h
  obtain ⟨-, h⟩ := h
  rw [ASSERT_eq_ok] at h
  obtain ⟨hp, h⟩ := h
  refine ⟨hp, ?_⟩
  simp only at h
  split at h
  · cases h
  · next off t heq =>
    rw [ASSERT_eq_ok] at h
    obtain ⟨hle, h⟩ := h
    simp only [Except.ok.injEq, Prod.mk.injEq] at h
    exact ⟨off, t, heq, h.1.symm, h.2.symm, by simpa using hle⟩

/-- C6: for an allocation whose `offset + size` stays inside the `int` range, on
a ring whose `max_size_` fits an `int`, `GetCpuPtrFor` and `GetGpuPtrFor` return
normally exactly when the frame tag is the current frame and
`offset + size <= max_size_`, and the result is `cpu_ptr_`, respectively
`gpu_ptr_`, plus the offset; once `SetCurrentFrame` has advanced the current
frame past the allocation's frame, both calls fail their assertion. -/
theorem GetPtrFor_frame_tag_check (s : DynamicRingBuffer) (a : Allocation)
    (hlo : -2 ^ 31 ≤ a.offset + a.size) (hhi : a.offset + a.size < 2 ^ 31)
    (hmax : s.max_size_ < 2 ^ 31) :
    (∀ p, s.GetCpuPtrFor a = Except.ok p ↔
      a.frame = s.current_frame_ ∧ a.offset + a.size ≤ s.max_size_ ∧
        p = s.cpu_ptr_ + a.offset) ∧
    (∀ p, s.GetGpuPtrFor a = Except.ok p ↔
      a.frame = s.current_frame_ ∧ a.offset + a.size ≤ s.max_size_ ∧
        p = s.gpu_ptr_ + a.offset) ∧
    (∀ f, a.frame ≤ s.current_frame_ → s.current_frame_ < f →
      (s.SetCurrentFrame f).GetCpuPtrFor a = Except.error Fault.assertion ∧
      (s.SetCurrentFrame f).GetGpuPtrFor a = Except.error Fault.assertion) := by
  have h1 : toInt32 (a.offset + a.size) = a.offset + a.size := toInt32_of_range hlo hhi
  have h2 : toInt32 (s.max_size_ : Int) = s.max_size_ :=
    toInt32_of_range (by omega) (by exact_mod_cast hmax)
  refine ⟨?_, ?_, ?_⟩
  · intro p
    unfold DynamicRingBuffer.GetCpuPtrFor
    rw [ASSERT_eq_ok, ASSERT_eq_ok, h1, h2]
    simp only [decide_eq_true_eq, Except.ok.injEq]
    constructor
    · rintro ⟨hf, hs, rfl⟩
      exact ⟨hf, hs, rfl⟩
    · rintro ⟨hf, hs, rfl⟩
      exact ⟨hf, hs, rfl⟩
  · intro p
    unfold DynamicRingBuffer.GetGpuPtrFor
    rw [ASSERT_eq_ok, ASSERT_eq_ok, h1, h2]
    simp only [decide_eq_true_eq, Except.ok.injEq]
    constructor
    · rintro ⟨hf, hs, rfl⟩
      exact ⟨hf, hs, rfl⟩
    · rintro ⟨hf, hs, rfl⟩
      exact ⟨hf, hs, rfl⟩
  · intro f hle hlt
    have hne : ¬ a.frame = f := by omega
    unfold DynamicRingBuffer.SetCurrentFrame DynamicRingBuffer.GetCpuPtrFor
      DynamicRingBuffer.GetGpuPtrFor
    rw [if_pos hlt]
    simp [ASSERT, hne]

/-- C6 at a concrete allocation: bytes 256 to 356 of `ring64k`, tagged with
frame 0, before and after `SetCurrentFrame(1)`. -/
theorem GetPtrFor_frame_tag_check_witness :
    ring64k.GetCpuPtrFor ⟨0, 256, 100⟩ = Except.ok 1256 ∧
    ring64k.GetGpuPtrFor ⟨0, 256, 100⟩ = Except.ok 4352 ∧
    (ring64k.SetCurrentFrame 1).GetCpuPtrFor ⟨0, 256, 100⟩ = Except.error Fault.assertion := by
  have h := GetPtrFor_frame_tag_check ring64k ⟨0, 256, 100⟩ (by decide) (by decide) (by decide)
  exact ⟨(h.1 1256).mpr (by decide), (h.2.1 4352).mpr (by decide),
    (h.2.2 1 (by decide) (by decide)).1⟩

/-- C7: every offset a successful `Allocate(num_bytes, a)` returns is a multiple
of `max(a, 256)`; 256 is `min_align_`, and the default alignment equals it. -/
theorem Allocate_offset_aligned (s s1 : DynamicRingBuffer) (n a : Nat) (alloc : Allocation)
    (ha : a < 2 ^ 32) (h : s.Allocate n a = Except.ok (alloc, s1)) :
    ((max a 256 : Nat) : Int) ∣ alloc.offset ∧ min_align_ = 256 ∧
      D3D12_CONSTANT_BUFFER_DATA_PLACEMENT_ALIGNMENT = min_align_ := by
  refine ⟨?_, rfl, rfl⟩
  obtain ⟨hp, off, t, hplace, rfl, -, -⟩ := Allocate_ok_inv h
  obtain ⟨j, h8, h31, hj⟩ := IsPow2_max ha hp
  have hj2 : max a 256 = 2 ^ j := hj
  rw [hj] at hplace
  rw [hj2]
  rcases place_offset hplace with h0 | h0
  · simp only [h0]
    exact dvd_zero _
  · simp only [h0]
    exact AlignUp_dvd _ j h8 h31

/-- C7 at a concrete call: 100 bytes at alignment 512 after 40000 bytes. -/
theorem Allocate_offset_aligned_witness :
    ∃ alloc s1, ({ ring64k with tail_ := 40000 } : DynamicRingBuffer).Allocate 100 512 =
        Except.ok (alloc, s1) ∧ alloc.offset = 40448 ∧ ((512 : Nat) : Int) ∣ alloc.offset :=
  ⟨⟨0, 40448, 100⟩, { ring64k with tail_ := 40448 + 100 }, rfl, rfl,
    (Allocate_offset_aligned { ring64k with tail_ := 40000 } { ring64k with tail_ := 40448 + 100 }
      100 512 ⟨0, 40448, 100⟩ (by decide) rfl).1⟩

/-! ## Theorems: memory and conversions -/

theorem toSizeT_of_range {x : Int} (h1 : 0 ≤ x) (h2 : x < 2 ^ 64) : toSizeT x = x.toNat := by
  unfold toSizeT
  rw [Int.emod_eq_of_lt h1 h2]

theorem toSizeT_natCast {n : Nat} (h : n ≤ INT32_MAX) : toSizeT (n : Int) = n := by
  unfold INT32_MAX at h
  unfold toSizeT
  omega

theorem toInt32_natCast {n : Nat} (h : n ≤ INT32_MAX) : toInt32 (n : Int) = n := by
  unfold INT32_MAX at h
  unfold toInt32
  omega

theorem toInt32_toSizeT {x : Int} (h1 : -2 ^ 31 ≤ x) (h2 : x < 2 ^ 31) :
    toInt32 (toSizeT x : Int) = x := by
  unfold toInt32 toSizeT
  omega

theorem memcpy_inside (m : Memory) (dest : Int) (src : List Byte) (i : Nat)
    (h : i < src.length) : memcpy m dest src (dest + i) = src.getD i 0 := by
  unfold memcpy
  have h1 : dest ≤ dest + (i : Int) ∧ dest + (i : Int) < dest + (src.length : Int) := by omega
  rw [if_pos h1]
  congr 1
  omega

theorem memcpy_outside (m : Memory) (dest : Int) (src : List Byte) (j : Int)
    (h : j < dest ∨ dest + src.length ≤ j) : memcpy m dest src j = m j := by
  unfold memcpy
  have h1 : ¬ (dest ≤ j ∧ j < dest + (src.length : Int)) := by omega
  rw [if_neg h1]

theorem readBytes_memcpy_same (m : Memory) (dest : Int) (src : List Byte) :
    readBytes (memcpy m dest src) dest src.length = src := by
  unfold readBytes
  apply List.ext_getElem
  · simp
  · intro i h1 h2
    simp only [List.getElem_map, List.getElem_range]
    rw [memcpy_inside m dest src i h2, List.getD_eq_getElem _ _ h2]

theorem readBytes_memcpy_disjoint (m : Memory) (dest : Int) (src : List Byte) (a : Int) (n : Nat)
    (h : a + n ≤ dest ∨ dest + src.length ≤ a) :
    readBytes (memcpy m dest src) a n = readBytes m a n := by
  unfold readBytes
  apply List.map_congr_left
  intro i hi
  rw [List.mem_range] at hi
  apply memcpy_outside
  omega

theorem store_cache_full (dev : Device) (self : DynamicBuffer) (b : List Byte)
    (h : b.length = self.speculative_write_cache_.length) :
    store dev self (BytePtr.cache 0) b = (dev, { self with speculative_write_cache_ := b }) := by
  unfold store
  simp only [Prod.mk.injEq, true_and]
  congr 1
  apply List.ext_getElem
  · simp [h]
  · intro i h1 h2
    simp only [List.getElem_map, List.getElem_range]
    have := memcpy_inside (fun i => self.speculative_write_cache_.getD i.toNat 0) 0 b i h2
    simp only [zero_add] at this
    rw [this, List.getD_eq_getElem _ _ h2]

/-! ## Theorems: dynamic buffers -/

theorem Allocate_ok_ptrs {s s1 : DynamicRingBuffer} {n a : Nat} {alloc : Allocation}
    (h : s.Allocate n a = Except.ok (alloc, s1)) :
    s1.GetCpuPtrFor alloc = Except.ok (s.cpu_ptr_ + alloc.offset) ∧
    s1.GetGpuPtrFor alloc = Except.ok (s.gpu_ptr_ + alloc.offset) ∧
    s1.cpu_ptr_ = s.cpu_ptr_ ∧ s1.gpu_ptr_ = s.gpu_ptr_ ∧ s1.buffer_ = s.buffer_ ∧
    alloc.frame = s.current_frame_ ∧ alloc.size = toInt32 n := by
  obtain ⟨-, off, t, -, rfl, rfl, hle⟩ := Allocate_ok_inv h
  simp [DynamicRingBuffer.GetCpuPtrFor, DynamicRingBuffer.GetGpuPtrFor, ASSERT, hle]

theorem PersistSpeculativeWrite_eq {dev : Device} {self : DynamicBuffer} {sz : Int}
    {alloc : Allocation} {ring : DynamicRingBuffer}
    (h : dev.dynamic_ring_buffer_.Allocate (toSizeT sz)
      D3D12_CONSTANT_BUFFER_DATA_PLACEMENT_ALIGNMENT = Except.ok (alloc, ring)) :
    DynamicBuffer.PersistSpeculativeWrite dev self sz =
      Except.ok ({ dev with dynamic_ring_buffer_ :=
                    ringWithCopy ring alloc self.speculative_write_cache_ },
        { self with current_ring_alloc_ := alloc
                    prev_lock_frame_ := dev.CurrentFrame
                    is_speculative_write_persisted_ := true }) := by
  obtain ⟨hc, -, hcpu, -, -, -, -⟩ := Allocate_ok_ptrs h
  unfold DynamicBuffer.PersistSpeculativeWrite
  rw [h]
  simp only [hc, ringWithCopy]
  congr 6
  rw [hcpu, add_sub_cancel_left]

theorem PersistSpeculativeWrite_inv {dev dev1 : Device} {self self1 : DynamicBuffer} {sz : Int}
    (h : DynamicBuffer.PersistSpeculativeWrite dev self sz = Except.ok (dev1, self1)) :
    ∃ alloc ring, dev.dynamic_ring_buffer_.Allocate (toSizeT sz)
        D3D12_CONSTANT_BUFFER_DATA_PLACEMENT_ALIGNMENT = Except.ok (alloc, ring) ∧
      dev1 = { dev with dynamic_ring_buffer_ :=
                ringWithCopy ring alloc self.speculative_write_cache_ } ∧
      self1 = { self with current_ring_alloc_ := alloc
                          prev_lock_frame_ := dev.CurrentFrame
                          is_speculative_write_persisted_ := true } := by
  cases hA : dev.dynamic_ring_buffer_.Allocate (toSizeT sz)
      D3D12_CONSTANT_BUFFER_DATA_PLACEMENT_ALIGNMENT with
  | error e =>
    unfold DynamicBuffer.PersistSpeculativeWrite at h
    rw [hA] at h
    cases h
  | ok r =>
    obtain ⟨alloc, ring⟩ := r
    rw [PersistSpeculativeWrite_eq hA] at h
    simp only [Except.ok.injEq, Prod.mk.injEq] at h
    exact ⟨alloc, ring, rfl, h.1.symm, h.2.symm⟩

theorem ringWithCopy_GetGpuPtrFor (ring : DynamicRingBuffer) (alloc a : Allocation)
    (cache : List Byte) :
    (ringWithCopy ring alloc cache).GetGpuPtrFor a = ring.GetGpuPtrFor a := rfl

theorem ringWithCopy_GetCpuPtrFor (ring : DynamicRingBuffer) (alloc a : Allocation)
    (cache : List Byte) :
    (ringWithCopy ring alloc cache).GetCpuPtrFor a = ring.GetCpuPtrFor a := rfl

theorem Buffer_Lock_discard (K : LockFlagBits) (self : Buffer) (Off Size Flags : Nat)
    (hd : HasFlag Flags K.D3DLOCK_DISCARD = Except.ok true) :
    Buffer.Lock K self Off Size Flags = Except.error Fault.assertion := by
  unfold Buffer.Lock ASSERT
  rw [hd]
  split_ifs <;> simp_all

theorem Lock_ok_iff {K : LockFlagBits} {dev : Device} {self : DynamicBuffer}
    {Off Size Flags : Nat} {r : BytePtr × Device × DynamicBuffer} :
    DynamicBuffer.Lock K dev self Off Size Flags = Except.ok r ↔
      Off ≤ INT32_MAX ∧ Size ≤ INT32_MAX ∧ lockedSize self Size ≤ INT32_MAX ∧
      ∃ d n, HasFlag Flags K.D3DLOCK_DISCARD = Except.ok d ∧
        HasFlag Flags K.D3DLOCK_NOOVERWRITE = Except.ok n ∧
        DynamicBuffer.lockWith K dev self Off (lockedSize self Size) Flags d n = Except.ok r := by
  unfold DynamicBuffer.Lock
  rw [ASSERT_eq_ok, ASSERT_eq_ok]
  simp only
  rw [ASSERT_eq_ok, ASSERT_eq_ok]
  simp only [decide_eq_true_eq]
  change _ ∧ _ ∧ _ ∧ lockedSize self Size ≤ INT32_MAX ∧
    (match HasFlag Flags K.D3DLOCK_DISCARD with
      | Except.error e => Except.error e
      | Except.ok is_discard =>
        match HasFlag Flags K.D3DLOCK_NOOVERWRITE with
        | Except.error e => Except.error e
        | Except.ok is_nooverwrite =>
          DynamicBuffer.lockWith K dev self Off (lockedSize self Size) Flags
            is_discard is_nooverwrite) = Except.ok r ↔ _
  cases hd : HasFlag Flags K.D3DLOCK_DISCARD with
  | error e => simp
  | ok d =>
    cases hn : HasFlag Flags K.D3DLOCK_NOOVERWRITE with
    | error e => simp
    | ok n =>
      simp only [Except.ok.injEq, exists_and_left, exists_eq_left']
      tauto

theorem MarkBufferForPersist_frame (dev : Device) (buffer : Nat) :
    (dev.MarkBufferForPersist buffer).CurrentFrame = dev.CurrentFrame := by
  unfold Device.MarkBufferForPersist
  split <;> rfl

theorem MarkBufferForPersist_ring (dev : Device) (buffer : Nat) :
    (dev.MarkBufferForPersist buffer).dynamic_ring_buffer_ = dev.dynamic_ring_buffer_ := by
  unfold Device.MarkBufferForPersist
  split <;> rfl

theorem MarkBufferForPersist_mem (dev : Device) (buffer : Nat) :
    buffer ∈ (dev.MarkBufferForPersist buffer).buffers_to_persist_ := by
  unfold Device.MarkBufferForPersist
  split
  · assumption
  · exact List.mem_cons_self _ _

theorem lockDiscard_eq (dev : Device) (self : DynamicBuffer) (n : Nat) (hn : n ≤ INT32_MAX) :
    DynamicBuffer.lockDiscard (dev.MarkBufferForPersist self.this)
        { self with prev_lock_frame_ := (dev.MarkBufferForPersist self.this).CurrentFrame }
        (toInt32 ((0 : Nat) : Int)) (toInt32 n) =
      Except.ok (BytePtr.cache 0, dev.MarkBufferForPersist self.this, afterDiscard dev self n) := by
  have hz : toInt32 ((0 : Nat) : Int) = 0 := by decide
  have hins : (RangeSet.mk []).insert { offset := 0, size := toInt32 n } =
      Except.ok { ranges := [{ offset := 0, size := toInt32 n }] } := rfl
  unfold DynamicBuffer.lockDiscard
  rw [hz, hins]
  unfold ASSERT
  rw [if_pos (by decide)]
  dsimp only
  rw [toInt32_natCast hn, toSizeT_natCast hn, MarkBufferForPersist_frame]
  rfl

theorem Lock_discard_inv {K : LockFlagBits} {dev dev1 : Device} {self self1 : DynamicBuffer}
    {Off Size Flags : Nat} {p : BytePtr}
    (hd : HasFlag Flags K.D3DLOCK_DISCARD = Except.ok true)
    (h : DynamicBuffer.Lock K dev self Off Size Flags = Except.ok (p, dev1, self1)) :
    Off = 0 ∧ lockedSize self Size ≤ INT32_MAX ∧ p = BytePtr.cache 0 ∧
      dev1 = dev.MarkBufferForPersist self.this ∧
      self1 = afterDiscard dev self (lockedSize self Size) := by
  rw [Lock_ok_iff] at h
  obtain ⟨hoff, -, hsz, d, n, hd1, hn, h⟩ := h
  rw [hd] at hd1
  cases hd1
  unfold DynamicBuffer.lockWith at h
  by_cases hfirst : (n && decide (self.prev_lock_frame_ < dev.CurrentFrame)) = true
  · rw [if_pos hfirst, Buffer_Lock_discard K _ _ _ _ hd] at h
    cases h
  · rw [if_neg hfirst] at h
    simp only [if_true] at h
    have h0 : Off = 0 := by
      unfold DynamicBuffer.lockDiscard at h
      rw [ASSERT_eq_ok, toInt32_natCast hoff] at h
      have := h.1
      simp only [beq_iff_eq] at this
      exact_mod_cast this
    subst h0
    rw [lockDiscard_eq dev self _ hsz] at h
    simp only [Except.ok.injEq, Prod.mk.injEq] at h
    exact ⟨rfl, hsz, h.1.symm, h.2.1.symm, h.2.2.symm⟩

theorem GetGpuPtr_promote_ok (dev : Device) (self : DynamicBuffer) {alloc : Allocation}
    {ring : DynamicRingBuffer} (hp : self.is_speculative_write_persisted_ = false)
    (hc : self.speculative_write_cache_ ≠ [])
    (h : dev.dynamic_ring_buffer_.Allocate
      (toSizeT (toInt32 self.speculative_write_cache_.length))
      D3D12_CONSTANT_BUFFER_DATA_PLACEMENT_ALIGNMENT = Except.ok (alloc, ring)) :
    DynamicBuffer.GetGpuPtr dev self =
      Except.ok (dev.dynamic_ring_buffer_.gpu_ptr_ + alloc.offset,
        { dev with dynamic_ring_buffer_ :=
            ringWithCopy ring alloc self.speculative_write_cache_ },
        { self with current_ring_alloc_ := alloc
                    prev_lock_frame_ := dev.CurrentFrame
                    is_speculative_write_persisted_ := true }) := by
  have hcond : (!self.is_speculative_write_persisted_ &&
      !self.speculative_write_cache_.isEmpty) = true := by
    rw [hp]
    cases hl : self.speculative_write_cache_ with
    | nil => exact absurd hl hc
    | cons a l => rfl
  obtain ⟨-, hg, -, -, -, -, -⟩ := Allocate_ok_ptrs h
  unfold DynamicBuffer.GetGpuPtr
  rw [if_pos hcond, PersistSpeculativeWrite_eq h]
  dsimp only
  rw [ringWithCopy_GetGpuPtrFor, hg]

theorem GetGpuPtr_promote_inv (dev : Device) (self : DynamicBuffer) {dev1 : Device}
    {self1 : DynamicBuffer} {addr : Int}
    (hp : self.is_speculative_write_persisted_ = false)
    (hc : self.speculative_write_cache_ ≠ [])
    (h : DynamicBuffer.GetGpuPtr dev self = Except.ok (addr, dev1, self1)) :
    ∃ alloc ring, dev.dynamic_ring_buffer_.Allocate
        (toSizeT (toInt32 self.speculative_write_cache_.length))
        D3D12_CONSTANT_BUFFER_DATA_PLACEMENT_ALIGNMENT = Except.ok (alloc, ring) ∧
      addr = dev.dynamic_ring_buffer_.gpu_ptr_ + alloc.offset ∧
      dev1 = { dev with dynamic_ring_buffer_ :=
                ringWithCopy ring alloc self.speculative_write_cache_ } ∧
      self1 = { self with current_ring_alloc_ := alloc
                          prev_lock_frame_ := dev.CurrentFrame
                          is_speculative_write_persisted_ := true } := by
  cases hA : dev.dynamic_ring_buffer_.Allocate
      (toSizeT (toInt32 self.speculative_write_cache_.length))
      D3D12_CONSTANT_BUFFER_DATA_PLACEMENT_ALIGNMENT with
  | error e =>
    have hcond : (!self.is_speculative_write_persisted_ &&
        !self.speculative_write_cache_.isEmpty) = true := by
      rw [hp]
      cases hl : self.speculative_write_cache_ with
      | nil => exact absurd hl hc
      | cons a l => rfl
    unfold DynamicBuffer.GetGpuPtr at h
    rw [if_pos hcond] at h
    unfold DynamicBuffer.PersistSpeculativeWrite at h
    rw [hA] at h
    cases h
  | ok r =>
    obtain ⟨alloc, ring⟩ := r
    rw [GetGpuPtr_promote_ok dev self hp hc hA] at h
    simp only [Except.ok.injEq, Prod.mk.injEq] at h
    exact ⟨alloc, ring, rfl, h.1.symm, h.2.1.symm, h.2.2.symm⟩

theorem GetGpuPtr_settled {dev : Device} {self : DynamicBuffer}
    (h : self.is_speculative_write_persisted_ = true ∨ self.speculative_write_cache_ = []) :
    DynamicBuffer.GetGpuPtr dev self =
      if self.prev_lock_frame_ < dev.CurrentFrame then
        Except.ok (self.resource_.gpu_va, dev, self)
      else
        match dev.dynamic_ring_buffer_.GetGpuPtrFor self.current_ring_alloc_ with
        | Except.error e => Except.error e
        | Except.ok ptr => Except.ok (ptr, dev, self) := by
  have hcond : ¬ (!self.is_speculative_write_persisted_ &&
      !self.speculative_write_cache_.isEmpty) = true := by
    rcases h with h | h
    · rw [h]
      simp
    · rw [h]
      simp
  unfold DynamicBuffer.GetGpuPtr
  rw [if_neg hcond]
  rfl

/-- C8: a `Lock` with the Discard flag at offset 0 over `n` bytes (`n` is
`SizeToLock`, or `size_` when 0 is passed), on a path that does not divert a
no-overwrite first touch to the static lock, returns normally with a pointer to
the start of the cache; the ring allocator is untouched, the cache is `n` fresh
zero bytes marked not persisted, `written_ranges_` is the single range
`[0, n)`, there is no current ring allocation, `prev_lock_frame_` is the current
frame and the buffer is in `buffers_to_persist_`. -/
theorem Lock_discard_defers_allocation (K : LockFlagBits) (dev : Device) (self : DynamicBuffer)
    (Size Flags : Nat) (nw : Bool)
    (hd : HasFlag Flags K.D3DLOCK_DISCARD = Except.ok true)
    (hn : HasFlag Flags K.D3DLOCK_NOOVERWRITE = Except.ok nw)
    (hpath : nw = false ∨ ¬ self.prev_lock_frame_ < dev.CurrentFrame)
    (hsize : Size ≤ INT32_MAX) (hlocked : lockedSize self Size ≤ INT32_MAX) :
    ∃ dev1 self1,
      DynamicBuffer.Lock K dev self 0 Size Flags = Except.ok (BytePtr.cache 0, dev1, self1) ∧
      dev1.dynamic_ring_buffer_ = dev.dynamic_ring_buffer_ ∧
      self1.speculative_write_cache_ = List.replicate (lockedSize self Size) 0 ∧
      self1.speculative_write_cache_.length = lockedSize self Size ∧
      self1.is_speculative_write_persisted_ = false ∧
      self1.written_ranges_.ranges = [{ offset := 0, size := lockedSize self Size }] ∧
      self1.current_ring_alloc_ = Allocation.zero ∧
      self1.prev_lock_frame_ = dev.CurrentFrame ∧
      self1.this ∈ dev1.buffers_to_persist_ ∧
      (0 ≤ self.size_ → self.size_ < 2 ^ 31 → (lockedSize self 0 : Int) = self.size_) := by
  refine ⟨dev.MarkBufferForPersist self.this, afterDiscard dev self (lockedSize self Size),
    ?_, MarkBufferForPersist_ring dev self.this, rfl, by simp [afterDiscard], rfl, rfl, rfl, rfl,
    MarkBufferForPersist_mem dev self.this, ?_⟩
  · rw [Lock_ok_iff]
    refine ⟨by decide, hsize, hlocked, true, nw, hd, hn, ?_⟩
    have hfirst : ¬ (nw && decide (self.prev_lock_frame_ < dev.CurrentFrame)) = true := by
      rcases hpath with h | h
      · rw [h]
        simp
      · simp [h]
    unfold DynamicBuffer.lockWith
    rw [if_neg hfirst]
    dsimp only
    rw [if_pos rfl]
    exact lockDiscard_eq dev self _ hlocked
  · intro h0 h1
    unfold lockedSize toUInt32
    rw [if_pos rfl]
    omega

/-- C8 at a concrete lock: 4 bytes of `buffer1k` with the Discard flag in frame 1. -/
theorem Lock_discard_defers_allocation_witness :
    ∃ dev1 self1,
      DynamicBuffer.Lock sdkLockBits device1 buffer1k 0 4 0x2000 =
        Except.ok (BytePtr.cache 0, dev1, self1) ∧
      dev1.dynamic_ring_buffer_ = device1.dynamic_ring_buffer_ ∧
      self1.speculative_write_cache_ = [0, 0, 0, 0] ∧
      self1.written_ranges_.ranges = [{ offset := 0, size := 4 }] ∧
      self1.prev_lock_frame_ = 1 ∧ self1.this ∈ dev1.buffers_to_persist_ := by
  obtain ⟨dev1, self1, h1, h2, h3, -, -, h6, -, h8, h9, -⟩ :=
    Lock_discard_defers_allocation sdkLockBits device1 buffer1k 4 0x2000 false rfl rfl
      (Or.inl rfl) (by decide) (by decide)
  exact ⟨dev1, self1, h1, h2, h3, h6, h8, h9⟩

/-- C3: after a `Lock` with the Discard flag over `n` bytes and a write of the
`n` bytes `b` through the returned pointer, whenever `GetGpuPtr` returns an
address the `n` bytes of ring memory at that address are `b`, whatever the
buffer, the device and the ring held before; and `GetGpuPtr` does return, with
the address of the new allocation, whenever `n > 0` and the ring has room for
`n` bytes. -/
theorem Lock_discard_GetGpuPtr_contents (K : LockFlagBits) (dev dev1 : Device)
    (self self1 : DynamicBuffer) (Off Size Flags : Nat) (b : List Byte) (p : BytePtr)
    (hd : HasFlag Flags K.D3DLOCK_DISCARD = Except.ok true)
    (hlock : DynamicBuffer.Lock K dev self Off Size Flags = Except.ok (p, dev1, self1))
    (hb : b.length = lockedSize self Size) :
    (∀ addr dev3 self3,
      DynamicBuffer.GetGpuPtr (store dev1 self1 p b).1 (store dev1 self1 p b).2 =
        Except.ok (addr, dev3, self3) →
      readBytes dev3.dynamic_ring_buffer_.buffer_.mem
        (addr - dev3.dynamic_ring_buffer_.gpu_ptr_) b.length = b) ∧
    (∀ alloc ring, 0 < b.length →
      dev.dynamic_ring_buffer_.Allocate b.length
        D3D12_CONSTANT_BUFFER_DATA_PLACEMENT_ALIGNMENT = Except.ok (alloc, ring) →
      ∃ dev3 self3,
        DynamicBuffer.GetGpuPtr (store dev1 self1 p b).1 (store dev1 self1 p b).2 =
          Except.ok (dev.dynamic_ring_buffer_.gpu_ptr_ + alloc.offset, dev3, self3)) := by
  obtain ⟨-, hsz, rfl, rfl, rfl⟩ := Lock_discard_inv hd hlock
  have hlen : b.length =
      (afterDiscard dev self (lockedSize self Size)).speculative_write_cache_.length := by
    simp [afterDiscard, hb]
  rw [store_cache_full _ _ b hlen]
  dsimp only
  have hconv : toSizeT (toInt32 (b.length : Int)) = b.length := by
    rw [toInt32_natCast (hb ▸ hsz), toSizeT_natCast (hb ▸ hsz)]
  constructor
  · intro addr dev3 self3 hg
    by_cases hnil : b = []
    · subst hnil
      rfl
    · obtain ⟨alloc, ring, hA, rfl, rfl, -⟩ :=
        GetGpuPtr_promote_inv _ { afterDiscard dev self (lockedSize self Size) with
          speculative_write_cache_ := b } rfl hnil hg
      obtain ⟨-, -, -, hgpu, -, -, -⟩ := Allocate_ok_ptrs hA
      dsimp only [ringWithCopy]
      rw [hgpu, add_sub_cancel_left]
      exact readBytes_memcpy_same _ _ _
  · intro alloc ring hpos hA
    have hnil : b ≠ [] := by
      intro h
      rw [h] at hpos
      exact absurd hpos (by decide)
    have hA2 : (dev.MarkBufferForPersist self.this).dynamic_ring_buffer_.Allocate
        (toSizeT (toInt32 (b.length : Int)))
        D3D12_CONSTANT_BUFFER_DATA_PLACEMENT_ALIGNMENT = Except.ok (alloc, ring) := by
      rw [hconv, MarkBufferForPersist_ring]
      exact hA
    rw [GetGpuPtr_promote_ok _ { afterDiscard dev self (lockedSize self Size) with
      speculative_write_cache_ := b } rfl hnil hA2, MarkBufferForPersist_ring]
    exact ⟨_, _, rfl⟩

/-- C3 at a concrete input: the bytes 1, 2, 3, 4 written after a Discard lock of
4 bytes of `buffer1k` in frame 1. -/
theorem Lock_discard_GetGpuPtr_contents_witness :
    ∃ dev3 self3,
      DynamicBuffer.GetGpuPtr
        (store (device1.MarkBufferForPersist 5) (afterDiscard device1 buffer1k 4)
          (BytePtr.cache 0) [1, 2, 3, 4]).1
        (store (device1.MarkBufferForPersist 5) (afterDiscard device1 buffer1k 4)
          (BytePtr.cache 0) [1, 2, 3, 4]).2 = Except.ok (4096, dev3, self3) ∧
      readBytes dev3.dynamic_ring_buffer_.buffer_.mem
        (4096 - dev3.dynamic_ring_buffer_.gpu_ptr_) 4 = [1, 2, 3, 4] := by
  have T := Lock_discard_GetGpuPtr_contents sdkLockBits device1
    (device1.MarkBufferForPersist 5) buffer1k (afterDiscard device1 buffer1k 4) 0 4 0x2000
    [1, 2, 3, 4] (BytePtr.cache 0) rfl rfl rfl
  obtain ⟨dev3, self3, hg⟩ := T.2 ⟨1, 0, 4⟩ { ring64k.SetCurrentFrame 1 with tail_ := 4 }
    (by decide) rfl
  exact ⟨dev3, self3, hg, T.1 _ dev3 self3 hg⟩

theorem GetGpuPtrFor_ok {s : DynamicRingBuffer} {a : Allocation} {p : Int}
    (h : s.GetGpuPtrFor a = Except.ok p) :
    p = s.gpu_ptr_ + a.offset ∧ a.frame = s.current_frame_ := by
  unfold DynamicRingBuffer.GetGpuPtrFor at h
  rw [ASSERT_eq_ok, ASSERT_eq_ok] at h
  obtain ⟨hf, -, h⟩ := h
  simp only [Except.ok.injEq] at h
  exact ⟨h.symm, by simpa using hf⟩

/-- C9: `GetGpuPtr` resolves the address in three cases. With an unpersisted,
non-empty cache (of a length an `int` holds) a return means that `Allocate` gave
a new allocation of exactly the cache's length, that the cache has been copied
into the ring at its offset and that the result is the ring's device address
plus that offset, and the call does return whenever that `Allocate` succeeds.
Otherwise, with `prev_lock_frame_` before the current frame, the result is the
backing resource's address and nothing changes. Otherwise the result is
`GetGpuPtrFor(current_ring_alloc_)` and nothing changes. In every case a second
call right after a first one that returned gives the same address and leaves
the device, the ring and the buffer as they are. -/
theorem GetGpuPtr_resolution (dev : Device) (self : DynamicBuffer)
    (hlen : self.speculative_write_cache_.length ≤ INT32_MAX) :
    (self.is_speculative_write_persisted_ = false → self.speculative_write_cache_ ≠ [] →
      (∀ addr dev1 self1, DynamicBuffer.GetGpuPtr dev self = Except.ok (addr, dev1, self1) →
        ∃ alloc ring,
          dev.dynamic_ring_buffer_.Allocate self.speculative_write_cache_.length
            D3D12_CONSTANT_BUFFER_DATA_PLACEMENT_ALIGNMENT = Except.ok (alloc, ring) ∧
          alloc.size = self.speculative_write_cache_.length ∧
          addr = dev.dynamic_ring_buffer_.gpu_ptr_ + alloc.offset ∧
          self1.current_ring_alloc_ = alloc ∧
          dev1.dynamic_ring_buffer_ = ringWithCopy ring alloc self.speculative_write_cache_ ∧
          readBytes dev1.dynamic_ring_buffer_.buffer_.mem alloc.offset
            self.speculative_write_cache_.length = self.speculative_write_cache_) ∧
      (∀ alloc ring,
        dev.dynamic_ring_buffer_.Allocate self.speculative_write_cache_.length
          D3D12_CONSTANT_BUFFER_DATA_PLACEMENT_ALIGNMENT = Except.ok (alloc, ring) →
        ∃ dev1 self1, DynamicBuffer.GetGpuPtr dev self =
          Except.ok (dev.dynamic_ring_buffer_.gpu_ptr_ + alloc.offset, dev1, self1))) ∧
    ((self.is_speculative_write_persisted_ = true ∨ self.speculative_write_cache_ = []) →
      self.prev_lock_frame_ < dev.CurrentFrame →
      DynamicBuffer.GetGpuPtr dev self = Except.ok (self.resource_.gpu_va, dev, self)) ∧
    ((self.is_speculative_write_persisted_ = true ∨ self.speculative_write_cache_ = []) →
      ¬ self.prev_lock_frame_ < dev.CurrentFrame →
      ∀ addr dev1 self1, DynamicBuffer.GetGpuPtr dev self = Except.ok (addr, dev1, self1) ↔
        (dev.dynamic_ring_buffer_.GetGpuPtrFor self.current_ring_alloc_ = Except.ok addr ∧
          addr = dev.dynamic_ring_buffer_.gpu_ptr_ + self.current_ring_alloc_.offset ∧
          dev1 = dev ∧ self1 = self)) ∧
    (∀ addr dev1 self1, DynamicBuffer.GetGpuPtr dev self = Except.ok (addr, dev1, self1) →
      DynamicBuffer.GetGpuPtr dev1 self1 = Except.ok (addr, dev1, self1)) := by
  have hconv : toSizeT (toInt32 (self.speculative_write_cache_.length : Int)) =
      self.speculative_write_cache_.length := by
    rw [toInt32_natCast hlen, toSizeT_natCast hlen]
  refine ⟨?_, ?_, ?_, ?_⟩
  · intro hp hc
    constructor
    · intro addr dev1 self1 hg
      obtain ⟨alloc, ring, hA, rfl, rfl, rfl⟩ := GetGpuPtr_promote_inv dev self hp hc hg
      rw [hconv] at hA
      obtain ⟨-, -, -, -, -, -, hsz⟩ := Allocate_ok_ptrs hA
      refine ⟨alloc, ring, hA, ?_, rfl, rfl, rfl, ?_⟩
      · rw [hsz, toInt32_natCast hlen]
      · exact readBytes_memcpy_same _ _ _
    · intro alloc ring hA
      rw [← hconv] at hA
      rw [GetGpuPtr_promote_ok dev self hp hc hA]
      exact ⟨_, _, rfl⟩
  · intro hs hlt
    rw [GetGpuPtr_settled hs, if_pos hlt]
  · intro hs hlt addr dev1 self1
    rw [GetGpuPtr_settled hs, if_neg hlt]
    cases hG : dev.dynamic_ring_buffer_.GetGpuPtrFor self.current_ring_alloc_ with
    | error e => simp
    | ok ptr =>
      simp only [Except.ok.injEq, Prod.mk.injEq]
      constructor
      · rintro ⟨rfl, rfl, rfl⟩
        exact ⟨rfl, (GetGpuPtrFor_ok hG).1, rfl, rfl⟩
      · rintro ⟨rfl, -, rfl, rfl⟩
        exact ⟨rfl, rfl, rfl⟩
  · intro addr dev1 self1 hg
    by_cases hpend : self.is_speculative_write_persisted_ = false ∧
        self.speculative_write_cache_ ≠ []
    · obtain ⟨alloc, ring, hA, rfl, rfl, rfl⟩ := GetGpuPtr_promote_inv dev self hpend.1 hpend.2 hg
      obtain ⟨-, hgpu, -, -, -, -, -⟩ := Allocate_ok_ptrs hA
      rw [GetGpuPtr_settled (Or.inl rfl)]
      have hnlt : ¬ dev.CurrentFrame < dev.CurrentFrame := lt_irrefl _
      change (if dev.CurrentFrame < dev.CurrentFrame then _ else _) = _
      rw [if_neg hnlt]
      dsimp only
      rw [ringWithCopy_GetGpuPtrFor, hgpu]
    · have hs : self.is_speculative_write_persisted_ = true ∨
          self.speculative_write_cache_ = [] := by
        by_cases h1 : self.is_speculative_write_persisted_ = true
        · exact Or.inl h1
        · right
          by_contra h2
          exact hpend ⟨by simpa using h1, h2⟩
      have hg2 := hg
      rw [GetGpuPtr_settled hs] at hg2
      by_cases hlt : self.prev_lock_frame_ < dev.CurrentFrame
      · rw [if_pos hlt] at hg2
        simp only [Except.ok.injEq, Prod.mk.injEq] at hg2
        obtain ⟨rfl, rfl, rfl⟩ := hg2
        exact hg
      · rw [if_neg hlt] at hg2
        cases hG : dev.dynamic_ring_buffer_.GetGpuPtrFor self.current_ring_alloc_ with
        | error e =>
          rw [hG] at hg2
          cases hg2
        | ok ptr =>
          rw [hG] at hg2
          simp only [Except.ok.injEq, Prod.mk.injEq] at hg2
          obtain ⟨rfl, rfl, rfl⟩ := hg2
          exact hg

/-- C9 at a concrete input: `buffer1k` in frame 1 with the pending cache
1, 2, 3, 4; the first call allocates at ring offset 0, the second call returns
the same address and changes nothing. -/
theorem GetGpuPtr_resolution_witness :
    ∃ dev1 self1,
      DynamicBuffer.GetGpuPtr device1
        { afterDiscard device1 buffer1k 4 with speculative_write_cache_ := [1, 2, 3, 4] } =
          Except.ok (4096, dev1, self1) ∧
      DynamicBuffer.GetGpuPtr dev1 self1 = Except.ok (4096, dev1, self1) := by
  have T := GetGpuPtr_resolution device1
    { afterDiscard device1 buffer1k 4 with speculative_write_cache_ := [1, 2, 3, 4] }
    (by decide)
  obtain ⟨dev1, self1, hg⟩ := (T.1 rfl (by decide)).2 ⟨1, 0, 4⟩
    { ring64k.SetCurrentFrame 1 with tail_ := 4 } rfl
  exact ⟨dev1, self1, hg, T.2.2.2 _ dev1 self1 hg⟩

theorem Allocate_ok_bounds {s s1 : DynamicRingBuffer} {n a : Nat} {alloc : Allocation}
    (h : s.Allocate n a = Except.ok (alloc, s1)) :
    s.head_ ≤ s.max_size_ ∧ s.tail_ ≤ s.max_size_ := by
  unfold DynamicRingBuffer.Allocate at h
  rw [ASSERT_eq_ok] at h
  simpa using h.1

theorem AlignUp_256_sign {t : Nat} (ht : t < 2 ^ 31) :
    (0 ≤ AlignUp (toInt32 t) (toInt32 ((256 : Nat) : Int)) ∧
      AlignUp (toInt32 t) (toInt32 ((256 : Nat) : Int)) < 2 ^ 31) ∨
    AlignUp (toInt32 t) (toInt32 ((256 : Nat) : Int)) = -2 ^ 31 := by
  have h1 : toInt32 (t : Int) = t := toInt32_of_range (by omega) (by exact_mod_cast ht)
  have h2 : toInt32 ((256 : Nat) : Int) = 256 := by decide
  have h3 : toUInt32 ((t : Int) + 256 - 1) = t + 255 := by
    unfold toUInt32
    omega
  have h4 : (2 : Nat) ^ 32 - 1 - toUInt32 ((256 : Int) - 1) = 2 ^ 32 - 2 ^ 8 := by decide
  unfold AlignUp
  rw [h1, h2, h3, h4]
  have hle : (t + 255) &&& (2 ^ 32 - 2 ^ 8) ≤ t + 255 := Nat.and_le_left
  have hmod := and_mask_mod (t + 255) 8 (by decide)
  generalize (t + 255) &&& (2 ^ 32 - 2 ^ 8) = y at hle hmod
  unfold toInt32
  simp only [Int.ofNat_eq_coe]
  omega

theorem Allocate_default_offset_range {s s1 : DynamicRingBuffer} {n : Nat} {alloc : Allocation}
    (hmax : s.max_size_ < 2 ^ 31) (hn : n ≤ INT32_MAX)
    (h : s.Allocate n D3D12_CONSTANT_BUFFER_DATA_PLACEMENT_ALIGNMENT = Except.ok (alloc, s1)) :
    0 ≤ alloc.offset ∧ alloc.offset < 2 ^ 31 := by
  obtain ⟨hhead, htail⟩ := Allocate_ok_bounds h
  obtain ⟨-, off, t, hplace, rfl, -, -⟩ := Allocate_ok_inv h
  have hal : max D3D12_CONSTANT_BUFFER_DATA_PLACEMENT_ALIGNMENT min_align_ = 256 := by decide
  rw [hal] at hplace
  have hsign := AlignUp_256_sign (lt_of_le_of_lt htail hmax)
  unfold INT32_MAX at hn
  unfold DynamicRingBuffer.place at hplace
  simp only at hplace
  generalize AlignUp (toInt32 (s.tail_ : Int)) (toInt32 ((256 : Nat) : Int)) = a at hplace hsign
  unfold toSizeT at hplace
  split_ifs at hplace with c1 c2 c3 c4 <;>
    simp only [Option.some.injEq, Prod.mk.injEq] at hplace <;>
    obtain ⟨rfl, -⟩ := hplace <;> dsimp only <;> omega

theorem PersistDynamicChanges_inv {dev dev2 : Device} {self self2 : DynamicBuffer}
    (h : DynamicBuffer.PersistDynamicChanges dev self = Except.ok (dev2, self2)) :
    ∃ addr devG selfG r, DynamicBuffer.GetGpuPtr dev self = Except.ok (addr, devG, selfG) ∧
      selfG.current_ring_alloc_.frame = devG.CurrentFrame ∧
      0 < selfG.current_ring_alloc_.size ∧
      selfG.written_ranges_.ranges = [r] ∧
      dev2 = devG.CopyBuffer (ResourceRef.buffer selfG.this) 0 ResourceRef.ring
        (toInt32 (selfG.current_ring_alloc_.offset + r.offset)) r.size ∧
      self2 = { selfG with written_ranges_ := { ranges := [] }
                           current_ring_alloc_ := Allocation.zero } := by
  unfold DynamicBuffer.PersistDynamicChanges at h
  cases hG : DynamicBuffer.GetGpuPtr dev self with
  | error e =>
    rw [hG] at h
    cases h
  | ok res =>
    obtain ⟨addr, devG, selfG⟩ := res
    rw [hG] at h
    dsimp only at h
    rw [ASSERT_eq_ok, ASSERT_eq_ok, ASSERT_eq_ok] at h
    obtain ⟨hf, hs, hl, h⟩ := h
    simp only [beq_iff_eq, decide_eq_true_eq] at hf hs hl
    obtain ⟨r, hr⟩ := List.length_eq_one.mp hl
    rw [hr] at h
    simp only [List.foldl_cons, List.foldl_nil, Except.ok.injEq, Prod.mk.injEq] at h
    exact ⟨addr, devG, selfG, r, rfl, hf, by omega, hr, h.1.symm, h.2.symm⟩

theorem Buffer_Lock_ok {K : LockFlagBits} {self base : Buffer} {Off Size Flags : Nat}
    {ptr : BytePtr} (h : Buffer.Lock K self Off Size Flags = Except.ok (ptr, base)) :
    ptr = BytePtr.resource Off ∧ base.resource_.mem = self.resource_.mem ∧
      base.resource_.map_count = self.resource_.map_count + 1 ∧ base.size_ = self.size_ ∧
      base.this = self.this := by
  unfold Buffer.Lock at h
  rw [ASSERT_eq_ok, ASSERT_eq_ok] at h
  obtain ⟨-, -, h⟩ := h
  cases hd : HasFlag Flags K.D3DLOCK_DISCARD with
  | error e =>
    rw [hd] at h
    cases h
  | ok d =>
    rw [hd] at h
    dsimp only at h
    rw [ASSERT_eq_ok, ASSERT_eq_ok] at h
    obtain ⟨-, -, h⟩ := h
    simp only [Except.ok.injEq, Prod.mk.injEq] at h
    obtain ⟨rfl, rfl⟩ := h
    exact ⟨rfl, rfl, rfl, rfl, rfl⟩

theorem MarkBufferForPersist_cmd_list (dev : Device) (buffer : Nat) :
    (dev.MarkBufferForPersist buffer).cmd_list_ = dev.cmd_list_ := by
  unfold Device.MarkBufferForPersist
  split <;> rfl

theorem executeCopy_roundtrip (res ringbuf : Resource) (m : Memory) (off : Int) (b : List Byte)
    (h0 : 0 ≤ off) (hm : ringbuf.mem = memcpy m off b) :
    readBytes (executeCopy res 0 ringbuf off.toNat b.length).mem 0 b.length = b := by
  unfold executeCopy
  dsimp only
  rw [hm, Int.toNat_of_nonneg h0, readBytes_memcpy_same, Nat.cast_zero]
  exact readBytes_memcpy_same _ _ _

/-- C5: on a ring whose size fits an `int`, after a `Lock` with the Discard flag
over `n` bytes (the whole buffer when `SizeToLock` is 0 or `size_`), a write of
the `n` bytes `b`, `Unlock` and a `PersistDynamicChanges` that returns, the
command list has grown by exactly one `CopyBufferRegion` of `n` bytes from the
ring into offset 0 of the buffer's resource (and the transition back to
common); executing that copy leaves bytes `[0, n)` of the backing resource equal
to `b`, and a static lock of the resource at offset 0 reads `b` back. -/
theorem Discard_persist_roundtrip (K : LockFlagBits) (dev dev1 dev2 : Device)
    (self self1 self2 : DynamicBuffer) (Off Size Flags : Nat) (b : List Byte) (p : BytePtr)
    (hmax : dev.dynamic_ring_buffer_.max_size_ < 2 ^ 31)
    (hd : HasFlag Flags K.D3DLOCK_DISCARD = Except.ok true)
    (hlock : DynamicBuffer.Lock K dev self Off Size Flags = Except.ok (p, dev1, self1))
    (hb : b.length = lockedSize self Size)
    (hpersist : DynamicBuffer.PersistDynamicChanges (store dev1 self1 p b).1
      (DynamicBuffer.Unlock (store dev1 self1 p b).1 (store dev1 self1 p b).2) =
        Except.ok (dev2, self2)) :
    ∃ src_offset : Nat,
      dev2.cmd_list_ = dev.cmd_list_ ++
        [Command.CopyBufferRegion (ResourceRef.buffer self.this) 0 ResourceRef.ring
           src_offset b.length,
         Command.TransitionToCommon (ResourceRef.buffer self.this)] ∧
      readBytes (executeCopy self2.resource_ 0 dev2.dynamic_ring_buffer_.buffer_
        src_offset b.length).mem 0 b.length = b ∧
      (∀ StaticSize StaticFlags ptr base,
        Buffer.Lock K { self2.toBuffer with
            resource_ := executeCopy self2.resource_ 0 dev2.dynamic_ring_buffer_.buffer_
              src_offset b.length } 0 StaticSize StaticFlags = Except.ok (ptr, base) →
        (List.range b.length).map (load dev2 { self2 with toBuffer := base } ptr) = b) := by
  obtain ⟨-, hsz, rfl, rfl, rfl⟩ := Lock_discard_inv hd hlock
  have hlen : b.length =
      (afterDiscard dev self (lockedSize self Size)).speculative_write_cache_.length := by
    simp [afterDiscard, hb]
  have hbn : b.length ≤ INT32_MAX := hb ▸ hsz
  rw [store_cache_full _ _ b hlen] at hpersist
  dsimp only at hpersist
  have hun : DynamicBuffer.Unlock (dev.MarkBufferForPersist self.this)
      { afterDiscard dev self (lockedSize self Size) with speculative_write_cache_ := b } =
      { afterDiscard dev self (lockedSize self Size) with speculative_write_cache_ := b } := by
    unfold DynamicBuffer.Unlock
    rw [MarkBufferForPersist_frame]
    exact if_neg (lt_irrefl _)
  rw [hun] at hpersist
  obtain ⟨addr, devG, selfG, r, hG, -, hpos, hr, rfl, rfl⟩ := PersistDynamicChanges_inv hpersist
  by_cases hnil : b = []
  · subst hnil
    rw [GetGpuPtr_settled (Or.inr rfl)] at hG
    split_ifs at hG with hlt
    · exact absurd hlt (by rw [MarkBufferForPersist_frame]; exact lt_irrefl _)
    · cases hF : (dev.MarkBufferForPersist self.this).dynamic_ring_buffer_.GetGpuPtrFor
          (Allocation.zero) with
      | error e =>
        change (match (dev.MarkBufferForPersist self.this).dynamic_ring_buffer_.GetGpuPtrFor
          Allocation.zero with
          | Except.error e => Except.error e
          | Except.ok ptr => Except.ok (ptr, _, _)) = _ at hG
        rw [hF] at hG
        cases hG
      | ok ptr =>
        change (match (dev.MarkBufferForPersist self.this).dynamic_ring_buffer_.GetGpuPtrFor
          Allocation.zero with
          | Except.error e => Except.error e
          | Except.ok ptr => Except.ok (ptr, _, _)) = _ at hG
        rw [hF] at hG
        simp only [Except.ok.injEq, Prod.mk.injEq] at hG
        obtain ⟨-, -, rfl⟩ := hG
        exact absurd hpos (lt_irrefl (0 : Int))
  · obtain ⟨alloc, ring, hA, -, rfl, rfl⟩ := GetGpuPtr_promote_inv _ _ rfl hnil hG
    dsimp only at hA hr hpos ⊢
    rw [toInt32_natCast hbn, toSizeT_natCast hbn, MarkBufferForPersist_ring] at hA
    obtain ⟨hoff0, hoff1⟩ := Allocate_default_offset_range hmax hbn hA
    have hr2 : r = { offset := 0, size := (lockedSize self Size : Int) } := by
      have : [({ offset := 0, size := (lockedSize self Size : Int) } : Range)] = [r] := hr
      simpa using this.symm
    subst hr2
    refine ⟨alloc.offset.toNat, ?_, ?_, ?_⟩
    · unfold Device.CopyBuffer
      dsimp only
      rw [MarkBufferForPersist_cmd_list, add_zero, toInt32_of_range (by omega) hoff1,
        toSizeT_of_range hoff0 (by omega), ← hb, toSizeT_natCast hbn]
      rfl
    · exact executeCopy_roundtrip _ _ _ _ _ hoff0 rfl
    · intro StaticSize StaticFlags ptr base hL
      obtain ⟨rfl, hmem, -, -, -⟩ := Buffer_Lock_ok hL
      change readBytes base.resource_.mem 0 b.length = b
      rw [hmem]
      exact executeCopy_roundtrip _ _ _ _ _ hoff0 rfl

/-- C5 at a concrete input: the bytes 1, 2, 3, 4 written to the whole of the
4-byte `buffer4` in frame 1, then unlocked and persisted. -/
theorem Discard_persist_roundtrip_witness :
    ∃ dev2 self2 src_offset,
      DynamicBuffer.PersistDynamicChanges
        (store (device1.MarkBufferForPersist 5) (afterDiscard device1 buffer4 4)
          (BytePtr.cache 0) [1, 2, 3, 4]).1
        (DynamicBuffer.Unlock
          (store (device1.MarkBufferForPersist 5) (afterDiscard device1 buffer4 4)
            (BytePtr.cache 0) [1, 2, 3, 4]).1
          (store (device1.MarkBufferForPersist 5) (afterDiscard device1 buffer4 4)
            (BytePtr.cache 0) [1, 2, 3, 4]).2) = Except.ok (dev2, self2) ∧
      readBytes (executeCopy self2.resource_ 0 dev2.dynamic_ring_buffer_.buffer_
        src_offset 4).mem 0 4 = [1, 2, 3, 4] := by
  cases hP : DynamicBuffer.PersistDynamicChanges
      (store (device1.MarkBufferForPersist 5) (afterDiscard device1 buffer4 4)
        (BytePtr.cache 0) [1, 2, 3, 4]).1
      (DynamicBuffer.Unlock
        (store (device1.MarkBufferForPersist 5) (afterDiscard device1 buffer4 4)
          (BytePtr.cache 0) [1, 2, 3, 4]).1
        (store (device1.MarkBufferForPersist 5) (afterDiscard device1 buffer4 4)
          (BytePtr.cache 0) [1, 2, 3, 4]).2) with
  | error e =>
    have hok : (DynamicBuffer.PersistDynamicChanges
      (store (device1.MarkBufferForPersist 5) (afterDiscard device1 buffer4 4)
        (BytePtr.cache 0) [1, 2, 3, 4]).1
      (DynamicBuffer.Unlock
        (store (device1.MarkBufferForPersist 5) (afterDiscard device1 buffer4 4)
          (BytePtr.cache 0) [1, 2, 3, 4]).1
        (store (device1.MarkBufferForPersist 5) (afterDiscard device1 buffer4 4)
          (BytePtr.cache 0) [1, 2, 3, 4]).2)).toBool = true := rfl
    rw [hP] at hok
    cases hok
  | ok r =>
    obtain ⟨dev2, self2⟩ := r
    obtain ⟨src_offset, -, h2, -⟩ := Discard_persist_roundtrip sdkLockBits device1
      (device1.MarkBufferForPersist 5) dev2 buffer4 (afterDiscard device1 buffer4 4) self2
      0 0 0x2000 [1, 2, 3, 4] (BytePtr.cache 0) (by decide) rfl rfl rfl hP
    exact ⟨dev2, self2, src_offset, rfl, h2⟩

theorem ASSERT_true {α : Type} (rest : Except Fault α) : ASSERT true rest = rest := rfl

theorem ASSERT_false {α : Type} (rest : Except Fault α) :
    ASSERT false rest = Except.error Fault.assertion := rfl

theorem Lock_eq (K : LockFlagBits) (dev : Device) (self : DynamicBuffer)
    (Off Size Flags : Nat) :
    DynamicBuffer.Lock K dev self Off Size Flags =
      if Off ≤ INT32_MAX ∧ Size ≤ INT32_MAX ∧ lockedSize self Size ≤ INT32_MAX then
        match HasFlag Flags K.D3DLOCK_DISCARD with
        | Except.error e => Except.error e
        | Except.ok is_discard =>
          match HasFlag Flags K.D3DLOCK_NOOVERWRITE with
          | Except.error e => Except.error e
          | Except.ok is_nooverwrite =>
            DynamicBuffer.lockWith K dev self Off (lockedSize self Size) Flags
              is_discard is_nooverwrite
      else Except.error Fault.assertion := by
  have hdef : DynamicBuffer.Lock K dev self Off Size Flags =
      ASSERT (decide (Off ≤ INT32_MAX)) (ASSERT (decide (Size ≤ INT32_MAX))
        (ASSERT (decide (Off ≤ INT32_MAX)) (ASSERT (decide (lockedSize self Size ≤ INT32_MAX))
          (match HasFlag Flags K.D3DLOCK_DISCARD with
            | Except.error e => Except.error e
            | Except.ok is_discard =>
              match HasFlag Flags K.D3DLOCK_NOOVERWRITE with
              | Except.error e => Except.error e
              | Except.ok is_nooverwrite =>
                DynamicBuffer.lockWith K dev self Off (lockedSize self Size) Flags
                  is_discard is_nooverwrite)))) := rfl
  rw [hdef]
  by_cases h1 : Off ≤ INT32_MAX
  · by_cases h2 : Size ≤ INT32_MAX
    · by_cases h3 : lockedSize self Size ≤ INT32_MAX
      · rw [decide_eq_true h1, decide_eq_true h2, decide_eq_true h3, if_pos ⟨h1, h2, h3⟩]
        rfl
      · rw [decide_eq_true h1, decide_eq_true h2, decide_eq_false h3,
          if_neg (fun h => h3 h.2.2)]
        rfl
    · rw [decide_eq_true h1, decide_eq_false h2, if_neg (fun h => h2 h.2.1)]
      rfl
  · rw [decide_eq_false h1, if_neg (fun h => h1 h.1)]
    rfl

theorem HasFlag_error {value flag : Nat} {e : Fault} (h : HasFlag value flag = Except.error e) :
    e = Fault.assertion := by
  unfold HasFlag ASSERT at h
  split_ifs at h
  cases h
  rfl

theorem Buffer_Lock_error {K : LockFlagBits} {self : Buffer} {Off Size Flags : Nat} {e : Fault}
    (h : Buffer.Lock K self Off Size Flags = Except.error e) : e = Fault.assertion := by
  unfold Buffer.Lock ASSERT at h
  cases hd : HasFlag Flags K.D3DLOCK_DISCARD with
  | error e1 =>
    rw [hd] at h
    have := HasFlag_error hd
    split_ifs at h <;> simp_all
  | ok d =>
    rw [hd] at h
    dsimp only at h
    split_ifs at h <;> simp_all

theorem Buffer_Lock_size_irrelevant (K : LockFlagBits) (self : Buffer) (Off Flags : Nat)
    (h0 : 0 ≤ self.size_) (h1 : self.size_ ≤ INT32_MAX) :
    Buffer.Lock K self Off (toUInt32 self.size_) Flags = Buffer.Lock K self Off 0 Flags := by
  have hu : toUInt32 self.size_ = self.size_.toNat := by
    unfold INT32_MAX at h1
    unfold toUInt32
    omega
  have hle : self.size_.toNat ≤ INT32_MAX := by
    unfold INT32_MAX at h1 ⊢
    omega
  have hz : (0 : Nat) ≤ INT32_MAX := by decide
  have ht : toInt32 ((self.size_.toNat : Nat) : Int) ≤ self.size_ := by
    rw [toInt32_natCast hle]
    omega
  have ht0 : toInt32 ((0 : Nat) : Int) ≤ self.size_ := by
    have : toInt32 ((0 : Nat) : Int) = 0 := by decide
    rw [this]
    exact h0
  unfold Buffer.Lock
  rw [hu]
  simp only [ASSERT, hle, hz, ht, ht0, decide_True, if_true]

/-- C10, on the code: in frame 1 a lock of `buffer1k` (never locked before)
with no flag fails the assertion `is_nooverwrite`, while the static
`Buffer::Lock` with the same arguments returns the resource pointer at offset 0. -/
theorem plain_Lock_fails_where_static_Lock_returns :
    DynamicBuffer.Lock sdkLockBits device1 buffer1k 0 4 0 = Except.error Fault.assertion ∧
    (match Buffer.Lock sdkLockBits buffer1k.toBuffer 0 4 0 with
      | Except.ok (ptr, _) => some ptr
      | Except.error _ => none) = some (BytePtr.resource 0) := by
  constructor
  · rfl
  · rfl

/-- C10, amended: a `Lock` with the NoOverwrite flag on a buffer whose
`prev_lock_frame_` is before the current frame is the static `Buffer::Lock` with
the same arguments (same pointer, same fault), leaving the device, the ring
allocator and the dynamic fields of the buffer untouched; a `Lock` with neither
the Discard nor the NoOverwrite flag fails an assertion. -/
theorem Lock_nooverwrite_first_touch_is_static (K : LockFlagBits) (dev : Device)
    (self : DynamicBuffer) (Off Size Flags : Nat)
    (hn : HasFlag Flags K.D3DLOCK_NOOVERWRITE = Except.ok true)
    (hprev : self.prev_lock_frame_ < dev.CurrentFrame)
    (h0 : 0 ≤ self.size_) (h1 : self.size_ ≤ INT32_MAX) :
    DynamicBuffer.Lock K dev self Off Size Flags =
      (match Buffer.Lock K self.toBuffer Off Size Flags with
        | Except.error e => Except.error e
        | Except.ok (ptr, base) => Except.ok (ptr, dev, { self with toBuffer := base })) ∧
    (∀ PlainFlags, HasFlag PlainFlags K.D3DLOCK_DISCARD = Except.ok false →
      HasFlag PlainFlags K.D3DLOCK_NOOVERWRITE = Except.ok false →
      DynamicBuffer.Lock K dev self Off Size PlainFlags = Except.error Fault.assertion) := by
  constructor
  · have hsame : Buffer.Lock K self.toBuffer Off (lockedSize self Size) Flags =
        Buffer.Lock K self.toBuffer Off Size Flags := by
      unfold lockedSize
      split_ifs with hz
      · rw [hz]
        exact Buffer_Lock_size_irrelevant K self.toBuffer Off Flags h0 h1
      · rfl
    have hlocked : Size ≤ INT32_MAX → lockedSize self Size ≤ INT32_MAX := by
      intro hs
      unfold lockedSize
      split_ifs
      · unfold INT32_MAX at h1 ⊢
        unfold toUInt32
        omega
      · exact hs
    cases hL : DynamicBuffer.Lock K dev self Off Size Flags with
    | ok r =>
      obtain ⟨-, -, -, d, n, -, hn2, hw⟩ := Lock_ok_iff.mp hL
      rw [hn] at hn2
      cases hn2
      unfold DynamicBuffer.lockWith at hw
      rw [if_pos (by simpa using hprev), hsame] at hw
      exact hw.symm
    | error e =>
      cases hB : Buffer.Lock K self.toBuffer Off Size Flags with
      | error e2 =>
        have he2 := Buffer_Lock_error hB
        have he : e = Fault.assertion := by
          rw [Lock_eq] at hL
          split_ifs at hL with hc
          · cases hd : HasFlag Flags K.D3DLOCK_DISCARD with
            | error e1 =>
              rw [hd] at hL
              simp only [Except.error.injEq] at hL
              rw [← hL]
              exact HasFlag_error hd
            | ok d =>
              rw [hd, hn] at hL
              dsimp only at hL
              unfold DynamicBuffer.lockWith at hL
              rw [if_pos (by simpa using hprev), hsame, hB] at hL
              simp only [Except.error.injEq] at hL
              rw [← hL]
              exact he2
          · simp only [Except.error.injEq] at hL
            exact hL.symm
        rw [he, he2]
      | ok r =>
        exfalso
        obtain ⟨ptr, base⟩ := r
        have hB2 := hB
        unfold Buffer.Lock at hB2
        rw [ASSERT_eq_ok, ASSERT_eq_ok] at hB2
        obtain ⟨ho, hs, hB2⟩ := hB2
        rw [decide_eq_true_eq] at ho hs
        cases hd : HasFlag Flags K.D3DLOCK_DISCARD with
        | error e1 =>
          rw [hd] at hB2
          cases hB2
        | ok d =>
          have : DynamicBuffer.Lock K dev self Off Size Flags =
              Except.ok (ptr, dev, { self with toBuffer := base }) := by
            rw [Lock_ok_iff]
            refine ⟨ho, hs, hlocked hs, d, true, hd, hn, ?_⟩
            unfold DynamicBuffer.lockWith
            rw [if_pos (by simpa using hprev), hsame, hB]
          rw [this] at hL
          cases hL
  · intro PlainFlags hd hn2
    cases hL : DynamicBuffer.Lock K dev self Off Size PlainFlags with
    | ok r =>
      exfalso
      obtain ⟨-, -, -, d, n, hd2, hn3, hw⟩ := Lock_ok_iff.mp hL
      rw [hd] at hd2
      rw [hn2] at hn3
      cases hd2
      cases hn3
      unfold DynamicBuffer.lockWith DynamicBuffer.lockAppend ASSERT at hw
      simp at hw
    | error e =>
      rw [Lock_eq] at hL
      split_ifs at hL with hc
      · rw [hd, hn2] at hL
        dsimp only at hL
        unfold DynamicBuffer.lockWith DynamicBuffer.lockAppend at hL
        rw [if_neg (by simp), if_neg (by simp), ASSERT_false] at hL
        rw [← hL]
      · rw [← hL]

/-- C10, amended, at a concrete lock: `buffer1k` in frame 1 with the
NoOverwrite flag, offset 8, size 4. -/
theorem Lock_nooverwrite_first_touch_is_static_witness :
    (match DynamicBuffer.Lock sdkLockBits device1 buffer1k 8 4 0x1000 with
      | Except.ok (ptr, _, _) => some ptr
      | Except.error _ => none) = some (BytePtr.resource 8) := by
  rw [(Lock_nooverwrite_first_touch_is_static sdkLockBits device1 buffer1k 8 4 0x1000 rfl
    (by decide) (by decide) (by decide)).1]
  rfl

theorem Lock_append_inv {K : LockFlagBits} {dev : Device} {self : DynamicBuffer}
    {Off Size Flags : Nat} {r : BytePtr × Device × DynamicBuffer}
    (hd : HasFlag Flags K.D3DLOCK_DISCARD = Except.ok false)
    (hn : HasFlag Flags K.D3DLOCK_NOOVERWRITE = Except.ok true)
    (hframe : ¬ self.prev_lock_frame_ < dev.CurrentFrame)
    (h : DynamicBuffer.Lock K dev self Off Size Flags = Except.ok r) :
    Off ≤ INT32_MAX ∧
    DynamicBuffer.lockAppend (dev.MarkBufferForPersist self.this)
      { self with prev_lock_frame_ := dev.CurrentFrame } true (Off : Int)
      (toInt32 (lockedSize self Size)) = Except.ok r := by
  obtain ⟨hoff, -, -, d, n, hd2, hn2, hw⟩ := Lock_ok_iff.mp h
  rw [hd] at hd2
  rw [hn] at hn2
  cases hd2
  cases hn2
  refine ⟨hoff, ?_⟩
  unfold DynamicBuffer.lockWith at hw
  rw [if_neg (by simpa using hframe)] at hw
  dsimp only at hw
  rw [if_neg (by simp), toInt32_natCast hoff, MarkBufferForPersist_frame] at hw
  exact hw

theorem lockAppend_inv {dev dev1 : Device} {self self1 : DynamicBuffer} {off sz : Int}
    {p : BytePtr}
    (h : DynamicBuffer.lockAppend dev self true off sz = Except.ok (p, dev1, self1)) :
    ∃ selfP ring_ptr ranges,
      DynamicBuffer.promoteForAppend dev self = Except.ok (dev1, selfP) ∧
      dev1.dynamic_ring_buffer_.GetCpuPtrFor selfP.current_ring_alloc_ = Except.ok ring_ptr ∧
      p = BytePtr.ring (ring_ptr + off) ∧
      self1 = { selfP with written_ranges_ := ranges } := by
  unfold DynamicBuffer.lockAppend at h
  rw [ASSERT_eq_ok, ASSERT_eq_ok] at h
  obtain ⟨-, -, h⟩ := h
  cases hP : DynamicBuffer.promoteForAppend dev self with
  | error e =>
    rw [hP] at h
    cases h
  | ok r =>
    obtain ⟨devP, selfP⟩ := r
    rw [hP] at h
    dsimp only at h
    cases hC : devP.dynamic_ring_buffer_.GetCpuPtrFor selfP.current_ring_alloc_ with
    | error e =>
      rw [hC] at h
      cases h
    | ok ring_ptr =>
      rw [hC] at h
      dsimp only at h
      cases hI : selfP.written_ranges_.insert { offset := off, size := sz } with
      | error e =>
        rw [hI] at h
        cases h
      | ok ranges =>
        rw [hI] at h
        simp only [Except.ok.injEq, Prod.mk.injEq] at h
        obtain ⟨rfl, rfl, rfl⟩ := h
        exact ⟨selfP, ring_ptr, ranges, rfl, hC, rfl, rfl⟩

theorem store_ring_eq (dev : Device) (self : DynamicBuffer) (address : Int) (bytes : List Byte) :
    (store dev self (BytePtr.ring address) bytes).2 = self ∧
    (store dev self (BytePtr.ring address) bytes).1.CurrentFrame = dev.CurrentFrame ∧
    (store dev self (BytePtr.ring address) bytes).1.dynamic_ring_buffer_.buffer_.mem =
      memcpy dev.dynamic_ring_buffer_.buffer_.mem
        (address - dev.dynamic_ring_buffer_.cpu_ptr_) bytes ∧
    (∀ a, (store dev self (BytePtr.ring address) bytes).1.dynamic_ring_buffer_.GetCpuPtrFor a =
      dev.dynamic_ring_buffer_.GetCpuPtrFor a) ∧
    (∀ a, (store dev self (BytePtr.ring address) bytes).1.dynamic_ring_buffer_.GetGpuPtrFor a =
      dev.dynamic_ring_buffer_.GetGpuPtrFor a) ∧
    (store dev self (BytePtr.ring address) bytes).1.dynamic_ring_buffer_.cpu_ptr_ =
      dev.dynamic_ring_buffer_.cpu_ptr_ ∧
    (store dev self (BytePtr.ring address) bytes).1.dynamic_ring_buffer_.tail_ =
      dev.dynamic_ring_buffer_.tail_ :=
  ⟨rfl, rfl, rfl, fun _ => rfl, fun _ => rfl, rfl, rfl⟩

theorem RingBacked_store {cpu0 gpu0 : Int} {tail0 : Nat} {alloc : Allocation} {dev : Device}
    {self : DynamicBuffer} (h : RingBacked cpu0 gpu0 tail0 alloc dev self) (address : Int)
    (bytes : List Byte) :
    RingBacked cpu0 gpu0 tail0 alloc (store dev self (BytePtr.ring address) bytes).1
      (store dev self (BytePtr.ring address) bytes).2 := by
  obtain ⟨h1, h2, h3, h4, h5, h6, h7, h8⟩ := h
  obtain ⟨e1, e2, -, e4, e5, e6, e7⟩ := store_ring_eq dev self address bytes
  rw [e1]
  exact ⟨h1, h2, h3, by rw [e2]; exact h4, by rw [e4]; exact h5, by rw [e5]; exact h6,
    by rw [e6]; exact h7, by rw [e7]; exact h8⟩

theorem promoteForAppend_empty (dev : Device) (self : DynamicBuffer)
    (h : self.speculative_write_cache_ = []) :
    DynamicBuffer.promoteForAppend dev self = Except.ok (dev, self) := by
  unfold DynamicBuffer.promoteForAppend
  rw [h]
  rfl

theorem promoteForAppend_pending (dev : Device) (self : DynamicBuffer) {dev1 : Device}
    {self1 : DynamicBuffer} (hc : self.speculative_write_cache_ ≠ [])
    (h : DynamicBuffer.promoteForAppend dev self = Except.ok (dev1, self1)) :
    ∃ alloc ring, dev.dynamic_ring_buffer_.Allocate (toSizeT self.size_)
        D3D12_CONSTANT_BUFFER_DATA_PLACEMENT_ALIGNMENT = Except.ok (alloc, ring) ∧
      dev1 = { dev with dynamic_ring_buffer_ :=
                ringWithCopy ring alloc self.speculative_write_cache_ } ∧
      self1 = { self with current_ring_alloc_ := alloc
                          prev_lock_frame_ := dev.CurrentFrame
                          is_speculative_write_persisted_ := true
                          speculative_write_cache_ := [] } := by
  have hcond : (!self.speculative_write_cache_.isEmpty) = true := by
    cases hl : self.speculative_write_cache_ with
    | nil => exact absurd hl hc
    | cons a l => rfl
  unfold DynamicBuffer.promoteForAppend at h
  rw [if_pos hcond] at h
  cases hP : DynamicBuffer.PersistSpeculativeWrite dev self self.size_ with
  | error e =>
    rw [hP] at h
    cases h
  | ok r =>
    obtain ⟨devP, selfP⟩ := r
    rw [hP] at h
    obtain ⟨alloc, ring, hA, rfl, rfl⟩ := PersistSpeculativeWrite_inv hP
    simp only [Except.ok.injEq, Prod.mk.injEq] at h
    exact ⟨alloc, ring, hA, h.1.symm, h.2.symm⟩

theorem RingBacked_of_first_append {K : LockFlagBits} {dev dev1 : Device}
    {self self1 : DynamicBuffer} {Off Size Flags : Nat} {p : BytePtr}
    (hcache : self.speculative_write_cache_ ≠ [])
    (hframe : self.prev_lock_frame_ = dev.CurrentFrame)
    (hsize0 : 0 ≤ self.size_) (hsize1 : self.size_ ≤ INT32_MAX)
    (hd : HasFlag Flags K.D3DLOCK_DISCARD = Except.ok false)
    (hn : HasFlag Flags K.D3DLOCK_NOOVERWRITE = Except.ok true)
    (h : DynamicBuffer.Lock K dev self Off Size Flags = Except.ok (p, dev1, self1)) :
    ∃ alloc ring,
      dev.dynamic_ring_buffer_.Allocate self.size_.toNat
        D3D12_CONSTANT_BUFFER_DATA_PLACEMENT_ALIGNMENT = Except.ok (alloc, ring) ∧
      alloc.size = self.size_ ∧
      p = BytePtr.ring (dev.dynamic_ring_buffer_.cpu_ptr_ + alloc.offset + Off) ∧
      RingBacked dev.dynamic_ring_buffer_.cpu_ptr_ dev.dynamic_ring_buffer_.gpu_ptr_
        ring.tail_ alloc dev1 self1 ∧
      dev1.dynamic_ring_buffer_.buffer_.mem =
        memcpy ring.buffer_.mem alloc.offset self.speculative_write_cache_ := by
  obtain ⟨-, hA⟩ := Lock_append_inv hd hn (by rw [hframe]; exact lt_irrefl _) h
  obtain ⟨selfP, ring_ptr, ranges, hP, hC, rfl, rfl⟩ := lockAppend_inv hA
  obtain ⟨alloc, ring, hAl, rfl, rfl⟩ := promoteForAppend_pending
    (dev.MarkBufferForPersist self.this) { self with prev_lock_frame_ := dev.CurrentFrame }
    hcache hP
  have hsz : toSizeT self.size_ = self.size_.toNat :=
    toSizeT_of_range hsize0 (by unfold INT32_MAX at hsize1; omega)
  rw [MarkBufferForPersist_ring, hsz] at hAl
  obtain ⟨hcpu, hgpu, hc0, -, -, -, hsize⟩ := Allocate_ok_ptrs hAl
  dsimp only at hC
  rw [ringWithCopy_GetCpuPtrFor, hcpu] at hC
  simp only [Except.ok.injEq] at hC
  subst hC
  refine ⟨alloc, ring, hAl, ?_, rfl, ?_, rfl⟩
  · rw [hsize]
    have : ((self.size_.toNat : Nat) : Int) = self.size_ := Int.toNat_of_nonneg hsize0
    rw [this]
    exact toInt32_of_range (by omega) (by unfold INT32_MAX at hsize1; omega)
  · exact ⟨rfl, rfl, rfl, rfl, hcpu, hgpu, hc0, rfl⟩

theorem RingBacked_append {K : LockFlagBits} {cpu0 gpu0 : Int} {tail0 : Nat}
    {alloc : Allocation} {dev dev1 : Device} {self self1 : DynamicBuffer}
    {Off Size Flags : Nat} {p : BytePtr}
    (hs : RingBacked cpu0 gpu0 tail0 alloc dev self)
    (hd : HasFlag Flags K.D3DLOCK_DISCARD = Except.ok false)
    (hn : HasFlag Flags K.D3DLOCK_NOOVERWRITE = Except.ok true)
    (h : DynamicBuffer.Lock K dev self Off Size Flags = Except.ok (p, dev1, self1)) :
    p = BytePtr.ring (cpu0 + alloc.offset + Off) ∧
    RingBacked cpu0 gpu0 tail0 alloc dev1 self1 ∧
    dev1.dynamic_ring_buffer_.buffer_.mem = dev.dynamic_ring_buffer_.buffer_.mem := by
  obtain ⟨h1, h2, h3, h4, h5, h6, h7, h8⟩ := hs
  obtain ⟨-, hA⟩ := Lock_append_inv hd hn (by rw [h4]; exact lt_irrefl _) h
  obtain ⟨selfP, ring_ptr, ranges, hP, hC, rfl, rfl⟩ := lockAppend_inv hA
  rw [promoteForAppend_empty (dev.MarkBufferForPersist self.this)
    { self with prev_lock_frame_ := dev.CurrentFrame } h1] at hP
  simp only [Except.ok.injEq, Prod.mk.injEq] at hP
  obtain ⟨rfl, rfl⟩ := hP
  dsimp only at hC
  rw [MarkBufferForPersist_ring, h3, h5] at hC
  simp only [Except.ok.injEq] at hC
  subst hC
  refine ⟨rfl, ⟨h1, h2, h3, ?_, ?_, ?_, ?_, ?_⟩, ?_⟩
  · exact (MarkBufferForPersist_frame dev self.this).symm
  · rw [MarkBufferForPersist_ring]
    exact h5
  · rw [MarkBufferForPersist_ring]
    exact h6
  · rw [MarkBufferForPersist_ring]
    exact h7
  · rw [MarkBufferForPersist_ring]
    exact h8
  · rw [MarkBufferForPersist_ring]

theorem RingBacked_GetGpuPtr {cpu0 gpu0 : Int} {tail0 : Nat} {alloc : Allocation}
    {dev : Device} {self : DynamicBuffer} (hs : RingBacked cpu0 gpu0 tail0 alloc dev self) :
    DynamicBuffer.GetGpuPtr dev self = Except.ok (gpu0 + alloc.offset, dev, self) := by
  obtain ⟨-, h2, h3, h4, -, h6, -, -⟩ := hs
  rw [GetGpuPtr_settled (Or.inl h2), if_neg (by rw [h4]; exact lt_irrefl _), h3, h6]

/-- C4, on the code: two no-overwrite locks of `buffer1k` that are its first
locks of frame 1, at offsets 0 and 4, each followed by a write, then
`GetGpuPtr`: the result is the backing resource's address 900000, the ring
allocator has allocated nothing (`tail_` is 0, no current ring allocation, ring
memory unchanged) and both writes are in the backing resource. -/
theorem NoOverwrite_first_touch_bypasses_ring :
    (match appendOnFirstTouch with
      | Except.ok (addr, dev3, self3) =>
        some (addr, dev3.dynamic_ring_buffer_.tail_, self3.current_ring_alloc_,
          readBytes self3.resource_.mem 0 8,
          readBytes dev3.dynamic_ring_buffer_.buffer_.mem 0 8)
      | Except.error _ => none) =
      some (900000, 0, Allocation.zero, [1, 2, 3, 4, 5, 6, 7, 8], [0, 0, 0, 0, 0, 0, 0, 0]) := by
  decide

/-- C4, amended: on a dynamic buffer already locked in the current frame with a
pending, non-empty Discard cache, two no-overwrite locks at offsets `o1` and
`o2`, followed by writes `w1` and `w2` over disjoint byte ranges, and then
`GetGpuPtr`, make exactly one ring allocation, of the buffer's full size
`size_`; the result of `GetGpuPtr` is the device address of that allocation and
the ring holds `w1` at the allocation's offset plus `o1` and `w2` at the
allocation's offset plus `o2`. -/
theorem NoOverwrite_appends_share_allocation (K : LockFlagBits) (dev dev1 dev2 dev3 : Device)
    (self self1 self2 self3 : DynamicBuffer) (o1 s1 F1 o2 s2 F2 : Nat) (w1 w2 : List Byte)
    (p1 p2 : BytePtr) (addr : Int)
    (hcache : self.speculative_write_cache_ ≠ [])
    (hframe : self.prev_lock_frame_ = dev.CurrentFrame)
    (hsize0 : 0 ≤ self.size_) (hsize1 : self.size_ ≤ INT32_MAX)
    (hd1 : HasFlag F1 K.D3DLOCK_DISCARD = Except.ok false)
    (hn1 : HasFlag F1 K.D3DLOCK_NOOVERWRITE = Except.ok true)
    (hd2 : HasFlag F2 K.D3DLOCK_DISCARD = Except.ok false)
    (hn2 : HasFlag F2 K.D3DLOCK_NOOVERWRITE = Except.ok true)
    (hl1 : DynamicBuffer.Lock K dev self o1 s1 F1 = Except.ok (p1, dev1, self1))
    (hl2 : DynamicBuffer.Lock K (store dev1 self1 p1 w1).1 (store dev1 self1 p1 w1).2 o2 s2 F2 =
      Except.ok (p2, dev2, self2))
    (hdisj : o1 + w1.length ≤ o2 ∨ o2 + w2.length ≤ o1)
    (hg : DynamicBuffer.GetGpuPtr (store dev2 self2 p2 w2).1 (store dev2 self2 p2 w2).2 =
      Except.ok (addr, dev3, self3)) :
    ∃ alloc ring,
      dev.dynamic_ring_buffer_.Allocate self.size_.toNat
        D3D12_CONSTANT_BUFFER_DATA_PLACEMENT_ALIGNMENT = Except.ok (alloc, ring) ∧
      alloc.size = self.size_ ∧
      self3.current_ring_alloc_ = alloc ∧
      addr = dev.dynamic_ring_buffer_.gpu_ptr_ + alloc.offset ∧
      dev3.dynamic_ring_buffer_.tail_ = ring.tail_ ∧
      readBytes dev3.dynamic_ring_buffer_.buffer_.mem (alloc.offset + o1) w1.length = w1 ∧
      readBytes dev3.dynamic_ring_buffer_.buffer_.mem (alloc.offset + o2) w2.length = w2 := by
  obtain ⟨alloc, ring, hAl, hsz, rfl, hRB1, -⟩ :=
    RingBacked_of_first_append hcache hframe hsize0 hsize1 hd1 hn1 hl1
  have hRB1s := RingBacked_store hRB1
    (dev.dynamic_ring_buffer_.cpu_ptr_ + alloc.offset + o1) w1
  obtain ⟨-, -, hm1, -, -, -, -⟩ := store_ring_eq dev1 self1
    (dev.dynamic_ring_buffer_.cpu_ptr_ + alloc.offset + o1) w1
  obtain ⟨rfl, hRB2, hmem2⟩ := RingBacked_append hRB1s hd2 hn2 hl2
  have hRB2s := RingBacked_store hRB2
    (dev.dynamic_ring_buffer_.cpu_ptr_ + alloc.offset + o2) w2
  obtain ⟨-, -, hm2, -, -, -, -⟩ := store_ring_eq dev2 self2
    (dev.dynamic_ring_buffer_.cpu_ptr_ + alloc.offset + o2) w2
  rw [RingBacked_GetGpuPtr hRB2s] at hg
  simp only [Except.ok.injEq, Prod.mk.injEq] at hg
  obtain ⟨rfl, rfl, rfl⟩ := hg
  have hc1 : dev1.dynamic_ring_buffer_.cpu_ptr_ = dev.dynamic_ring_buffer_.cpu_ptr_ :=
    hRB1.2.2.2.2.2.2.1
  have hc2 : dev2.dynamic_ring_buffer_.cpu_ptr_ = dev.dynamic_ring_buffer_.cpu_ptr_ :=
    hRB2.2.2.2.2.2.2.1
  have ha1 : dev.dynamic_ring_buffer_.cpu_ptr_ + alloc.offset + (o1 : Int) -
      dev.dynamic_ring_buffer_.cpu_ptr_ = alloc.offset + o1 := by omega
  have ha2 : dev.dynamic_ring_buffer_.cpu_ptr_ + alloc.offset + (o2 : Int) -
      dev.dynamic_ring_buffer_.cpu_ptr_ = alloc.offset + o2 := by omega
  rw [hc1, ha1] at hm1
  rw [hc2, ha2, hmem2, hm1] at hm2
  refine ⟨alloc, ring, hAl, hsz, hRB2s.2.2.1, rfl, hRB2s.2.2.2.2.2.2.2, ?_, ?_⟩
  · rw [hm2, readBytes_memcpy_disjoint _ _ _ _ _ (by omega)]
    exact readBytes_memcpy_same _ _ _
  · rw [hm2]
    exact readBytes_memcpy_same _ _ _

/-- C4, amended, at a concrete input: after the Discard of 4 bytes of `buffer1k`
in frame 1, appends of 5, 6, 7, 8 at offset 4 and of 9, 10, 11, 12 at offset 8. -/
theorem NoOverwrite_appends_share_allocation_witness :
    append3.1 = 4096 ∧
    ∃ alloc ring,
      (device1.MarkBufferForPersist 5).dynamic_ring_buffer_.Allocate buffer1kDiscarded.size_.toNat
        D3D12_CONSTANT_BUFFER_DATA_PLACEMENT_ALIGNMENT = Except.ok (alloc, ring) ∧
      alloc.size = 1024 ∧
      append3.2.2.current_ring_alloc_ = alloc ∧
      append3.1 = (device1.MarkBufferForPersist 5).dynamic_ring_buffer_.gpu_ptr_ + alloc.offset ∧
      append3.2.1.dynamic_ring_buffer_.tail_ = ring.tail_ ∧
      readBytes append3.2.1.dynamic_ring_buffer_.buffer_.mem (alloc.offset + (4 : Nat))
        [5, 6, 7, 8].length = [5, 6, 7, 8] ∧
      readBytes append3.2.1.dynamic_ring_buffer_.buffer_.mem (alloc.offset + (8 : Nat))
        [9, 10, 11, 12].length = [9, 10, 11, 12] :=
  ⟨by decide,
    NoOverwrite_appends_share_allocation sdkLockBits (device1.MarkBufferForPersist 5)
      append1.2.1 append2.2.1 append3.2.1 buffer1kDiscarded append1.2.2 append2.2.2 append3.2.2
      4 4 0x1000 8 4 0x1000 [5, 6, 7, 8] [9, 10, 11, 12] append1.1 append2.1 append3.1
      (by decide) rfl (by decide) (by decide) rfl rfl rfl rfl rfl rfl (by decide) rfl⟩

/-! ## Theorems: static lock, unlock and the lock frame -/

/-- C12, on the code: a static lock of `buffer1k` with the NoOverwrite flag, at
offset 8 over 4 bytes, fails no assertion: it returns the resource pointer at
offset 8 and maps the resource. -/
theorem static_Lock_accepts_NoOverwrite :
    (match Buffer.Lock sdkLockBits buffer1k.toBuffer 8 4 0x1000 with
      | Except.ok (ptr, base) => some (ptr, base.resource_.map_count)
      | Except.error _ => none) = some (BytePtr.resource 8, 1) := by
  decide

/-- C12, amended: `Buffer::Lock` fails an assertion for every lock whose flags
include Discard; for a lock without the Discard flag, with or without
NoOverwrite, whose offset and size are at most `INT32_MAX` and whose size is at
most `size_`, it returns the mapped base pointer of the backing resource plus
the requested offset and the resource is mapped once more. -/
theorem Buffer_Lock_static (K : LockFlagBits) (self : Buffer) (Off Size Flags : Nat) :
    (HasFlag Flags K.D3DLOCK_DISCARD = Except.ok true →
      Buffer.Lock K self Off Size Flags = Except.error Fault.assertion) ∧
    (HasFlag Flags K.D3DLOCK_DISCARD = Except.ok false → Off ≤ INT32_MAX →
      Size ≤ INT32_MAX → toInt32 Size ≤ self.size_ →
      Buffer.Lock K self Off Size Flags =
        Except.ok (BytePtr.resource Off,
          { self with resource_ :=
              { self.resource_ with map_count := self.resource_.map_count + 1 } })) := by
  constructor
  · intro hd
    exact Buffer_Lock_discard K self Off Size Flags hd
  · intro hd ho hs hle
    unfold Buffer.Lock
    rw [decide_eq_true ho, decide_eq_true hs, ASSERT_true, ASSERT_true, hd]
    dsimp only
    rw [decide_eq_true hle]
    rfl

/-- C12, amended, at a concrete lock: `buffer1k` locked as a static buffer with
no flag at offset 16 over 32 bytes. -/
theorem Buffer_Lock_static_witness :
    Buffer.Lock sdkLockBits buffer1k.toBuffer 16 32 0 =
      Except.ok (BytePtr.resource 16,
        { buffer1k.toBuffer with resource_ :=
            { buffer1k.resource_ with map_count := buffer1k.resource_.map_count + 1 } }) :=
  (Buffer_Lock_static sdkLockBits buffer1k.toBuffer 16 32 0).2 rfl (by decide) (by decide)
    (by decide)

theorem Buffer_Lock_ok_eq {K : LockFlagBits} {self base : Buffer} {Off Size Flags : Nat}
    {ptr : BytePtr} (h : Buffer.Lock K self Off Size Flags = Except.ok (ptr, base)) :
    ptr = BytePtr.resource Off ∧
    base = { self with resource_ :=
      { self.resource_ with map_count := self.resource_.map_count + 1 } } := by
  unfold Buffer.Lock at h
  rw [ASSERT_eq_ok, ASSERT_eq_ok] at h
  obtain ⟨-, -, h⟩ := h
  cases hd : HasFlag Flags K.D3DLOCK_DISCARD with
  | error e =>
    rw [hd] at h
    cases h
  | ok d =>
    rw [hd] at h
    dsimp only at h
    rw [ASSERT_eq_ok, ASSERT_eq_ok] at h
    obtain ⟨-, -, h⟩ := h
    simp only [Except.ok.injEq, Prod.mk.injEq] at h
    exact ⟨h.1.symm, h.2.symm⟩

theorem lockAppend_frame {dev dev1 : Device} {self self1 : DynamicBuffer} {off sz : Int}
    {p : BytePtr} (hf : self.prev_lock_frame_ = dev.CurrentFrame)
    (h : DynamicBuffer.lockAppend dev self true off sz = Except.ok (p, dev1, self1)) :
    self1.prev_lock_frame_ = dev.CurrentFrame ∧ dev1.CurrentFrame = dev.CurrentFrame ∧
      self1.resource_ = self.resource_ ∧ ∃ address, p = BytePtr.ring address := by
  obtain ⟨selfP, ring_ptr, ranges, hP, -, rfl, rfl⟩ := lockAppend_inv h
  by_cases hc : self.speculative_write_cache_ = []
  · rw [promoteForAppend_empty dev self hc] at hP
    simp only [Except.ok.injEq, Prod.mk.injEq] at hP
    obtain ⟨rfl, rfl⟩ := hP
    exact ⟨hf, rfl, rfl, _, rfl⟩
  · obtain ⟨alloc, ring, -, rfl, rfl⟩ := promoteForAppend_pending dev self hc hP
    exact ⟨rfl, rfl, rfl, _, rfl⟩

/-- The two ways a `DynamicBuffer::Lock` returns: through the static lock of
the backing resource, or with `prev_lock_frame_` set to the current frame and
the backing resource untouched. -/
theorem Lock_paths {K : LockFlagBits} {dev dev1 : Device} {self self1 : DynamicBuffer}
    {Off Size Flags : Nat} {p : BytePtr}
    (h : DynamicBuffer.Lock K dev self Off Size Flags = Except.ok (p, dev1, self1)) :
    (HasFlag Flags K.D3DLOCK_NOOVERWRITE = Except.ok true ∧
      self.prev_lock_frame_ < dev.CurrentFrame ∧
      p = BytePtr.resource Off ∧ dev1 = dev ∧
      self1 = { self with resource_ :=
        { self.resource_ with map_count := self.resource_.map_count + 1 } }) ∨
    (¬ (HasFlag Flags K.D3DLOCK_NOOVERWRITE = Except.ok true ∧
        self.prev_lock_frame_ < dev.CurrentFrame) ∧
      self1.prev_lock_frame_ = dev.CurrentFrame ∧ dev1.CurrentFrame = dev.CurrentFrame ∧
      self1.resource_ = self.resource_ ∧ ∀ offset, p ≠ BytePtr.resource offset) := by
  obtain ⟨-, -, -, d, n, hd, hn, hw⟩ := Lock_ok_iff.mp h
  by_cases hfirst : n = true ∧ self.prev_lock_frame_ < dev.CurrentFrame
  · left
    obtain ⟨rfl, hlt⟩ := hfirst
    unfold DynamicBuffer.lockWith at hw
    rw [if_pos (by simpa using hlt)] at hw
    cases hB : Buffer.Lock K self.toBuffer Off (lockedSize self Size) Flags with
    | error e =>
      rw [hB] at hw
      cases hw
    | ok r =>
      obtain ⟨ptr, base⟩ := r
      rw [hB] at hw
      simp only [Except.ok.injEq, Prod.mk.injEq] at hw
      obtain ⟨rfl, rfl, rfl⟩ := hw
      obtain ⟨rfl, rfl⟩ := Buffer_Lock_ok_eq hB
      exact ⟨hn, hlt, rfl, rfl, rfl⟩
  · right
    have hnot : ¬ (HasFlag Flags K.D3DLOCK_NOOVERWRITE = Except.ok true ∧
        self.prev_lock_frame_ < dev.CurrentFrame) := by
      rintro ⟨h1, h2⟩
      rw [hn] at h1
      simp only [Except.ok.injEq] at h1
      exact hfirst ⟨h1, h2⟩
    refine ⟨hnot, ?_⟩
    cases d with
    | true =>
      obtain ⟨-, -, rfl, rfl, rfl⟩ := Lock_discard_inv hd h
      exact ⟨rfl, MarkBufferForPersist_frame dev self.this, rfl, by
        intro offset hp
        cases hp⟩
    | false =>
      cases n with
      | false =>
        unfold DynamicBuffer.lockWith DynamicBuffer.lockAppend at hw
        rw [if_neg (by simp), if_neg (by simp), ASSERT_false] at hw
        cases hw
      | true =>
        have hframe : ¬ self.prev_lock_frame_ < dev.CurrentFrame := fun hlt => hfirst ⟨rfl, hlt⟩
        obtain ⟨-, hA⟩ := Lock_append_inv hd hn hframe h
        obtain ⟨h1, h2, h3, address, rfl⟩ := lockAppend_frame
          (MarkBufferForPersist_frame dev self.this).symm hA
        refine ⟨?_, ?_, h3, ?_⟩
        · rw [h1, MarkBufferForPersist_frame]
        · rw [h2, MarkBufferForPersist_frame]
        · intro offset hp
          cases hp

/-- C20, on the code: a no-overwrite lock of `buffer1k` that is its first lock
of frame 1 returns and leaves `prev_lock_frame_` at 0, while the current frame
is 1. -/
theorem Lock_first_touch_keeps_lock_frame :
    (match DynamicBuffer.Lock sdkLockBits device1 buffer1k 8 4 0x1000 with
      | Except.ok (_, dev1, self1) => some (self1.prev_lock_frame_, dev1.CurrentFrame)
      | Except.error _ => none) = some (0, 1) := by
  decide

/-- C20, amended: after a `DynamicBuffer::Lock` that returns, the current frame
is unchanged and `prev_lock_frame_` equals it, except after a lock with the
NoOverwrite flag on a buffer whose `prev_lock_frame_` was before the current
frame: that lock goes to the static lock and leaves `prev_lock_frame_` as it
was. A lock that returns has the Discard or the NoOverwrite flag: a plain lock
fails its assertion. -/
theorem Lock_sets_lock_frame (K : LockFlagBits) (dev dev1 : Device)
    (self self1 : DynamicBuffer) (Off Size Flags : Nat) (p : BytePtr)
    (h : DynamicBuffer.Lock K dev self Off Size Flags = Except.ok (p, dev1, self1)) :
    dev1.CurrentFrame = dev.CurrentFrame ∧
    ((HasFlag Flags K.D3DLOCK_NOOVERWRITE = Except.ok true ∧
        self.prev_lock_frame_ < dev.CurrentFrame) →
      self1.prev_lock_frame_ = self.prev_lock_frame_ ∧
        self1.prev_lock_frame_ < dev1.CurrentFrame) ∧
    (¬ (HasFlag Flags K.D3DLOCK_NOOVERWRITE = Except.ok true ∧
        self.prev_lock_frame_ < dev.CurrentFrame) →
      self1.prev_lock_frame_ = dev1.CurrentFrame) ∧
    (HasFlag Flags K.D3DLOCK_DISCARD = Except.ok true ∨
      HasFlag Flags K.D3DLOCK_NOOVERWRITE = Except.ok true) := by
  have hflag : HasFlag Flags K.D3DLOCK_DISCARD = Except.ok true ∨
      HasFlag Flags K.D3DLOCK_NOOVERWRITE = Except.ok true := by
    obtain ⟨-, -, -, d, n, hd, hn, hw⟩ := Lock_ok_iff.mp h
    cases d with
    | true => exact Or.inl hd
    | false =>
      cases n with
      | true => exact Or.inr hn
      | false =>
        unfold DynamicBuffer.lockWith DynamicBuffer.lockAppend at hw
        rw [if_neg (by simp), if_neg (by simp), ASSERT_false] at hw
        cases hw
  rcases Lock_paths h with ⟨hn, hlt, -, rfl, rfl⟩ | ⟨hnot, h1, h2, -, -⟩
  · exact ⟨rfl, fun _ => ⟨rfl, hlt⟩, fun hc => absurd ⟨hn, hlt⟩ hc, hflag⟩
  · exact ⟨h2, fun hc => absurd hc hnot, fun _ => by rw [h1, h2], hflag⟩

/-- C20, amended, at a concrete lock: the Discard lock of 4 bytes of `buffer1k`
in frame 1. -/
theorem Lock_sets_lock_frame_witness :
    (afterDiscard device1 buffer1k 4).prev_lock_frame_ =
      (device1.MarkBufferForPersist 5).CurrentFrame :=
  (Lock_sets_lock_frame sdkLockBits device1 (device1.MarkBufferForPersist 5) buffer1k
    (afterDiscard device1 buffer1k 4) 0 4 0x2000 (BytePtr.cache 0) rfl).2.2.1
    (fun hc => Bool.noConfusion (Except.ok.inj hc.1))


/-- C11: after a `DynamicBuffer::Lock` that returns, `DynamicBuffer::Unlock`
unmaps the backing resource exactly when that lock mapped it. If the lock took
the map path (NoOverwrite flag, `prev_lock_frame_` before the current frame) it
raised the count of outstanding maps by one and `Unlock` is `Buffer::Unlock`,
which brings the count back to its value before the lock; otherwise the lock
left the backing resource as it was and `Unlock` changes nothing. -/
theorem Unlock_matches_Lock (K : LockFlagBits) (dev dev1 : Device)
    (self self1 : DynamicBuffer) (Off Size Flags : Nat) (p : BytePtr)
    (h : DynamicBuffer.Lock K dev self Off Size Flags = Except.ok (p, dev1, self1)) :
    ((HasFlag Flags K.D3DLOCK_NOOVERWRITE = Except.ok true ∧
        self.prev_lock_frame_ < dev.CurrentFrame) →
      p = BytePtr.resource Off ∧
      self1.resource_.map_count = self.resource_.map_count + 1 ∧
      DynamicBuffer.Unlock dev1 self1 = { self1 with toBuffer := self1.toBuffer.Unlock } ∧
      (DynamicBuffer.Unlock dev1 self1).resource_.map_count = self.resource_.map_count) ∧
    (¬ (HasFlag Flags K.D3DLOCK_NOOVERWRITE = Except.ok true ∧
        self.prev_lock_frame_ < dev.CurrentFrame) →
      (∀ offset, p ≠ BytePtr.resource offset) ∧
      self1.resource_ = self.resource_ ∧
      DynamicBuffer.Unlock dev1 self1 = self1) := by
  rcases Lock_paths h with ⟨hn, hlt, rfl, rfl, rfl⟩ | ⟨hnot, h1, h2, h3, h4⟩
  · refine ⟨fun _ => ?_, fun hc => absurd ⟨hn, hlt⟩ hc⟩
    have hU : DynamicBuffer.Unlock dev1 { self with resource_ :=
          { self.resource_ with map_count := self.resource_.map_count + 1 } } =
        { self with resource_ := { self.resource_ with map_count :=
          self.resource_.map_count + 1 - 1 } } := by
      unfold DynamicBuffer.Unlock
      rw [if_pos hlt]
      rfl
    refine ⟨rfl, rfl, ?_, ?_⟩
    · rw [hU]
      rfl
    · rw [hU]
      exact Nat.add_sub_cancel (self.resource_.map_count) 1
  · refine ⟨fun hc => absurd hc hnot, fun _ => ⟨h4, h3, ?_⟩⟩
    unfold DynamicBuffer.Unlock
    rw [if_neg]
    rw [h1, h2]
    exact lt_irrefl _

/-- C11 at a concrete lock: the first NoOverwrite lock of `buffer1k` in frame 1
maps the backing resource and the unlock that follows unmaps it. -/
theorem Unlock_matches_Lock_witness :
    (DynamicBuffer.Unlock device1 { buffer1k with resource_ :=
      { buffer1k.resource_ with map_count := 1 } }).resource_.map_count = 0 :=
  ((Unlock_matches_Lock sdkLockBits device1 device1 buffer1k
    { buffer1k with resource_ := { buffer1k.resource_ with map_count := 1 } }
    8 4 0x1000 (BytePtr.resource 8) rfl).1 ⟨rfl, by decide⟩).2.2.2


/-! ## Theorems: the allocation algorithm against its reference -/

theorem and_mask_eq (x j : Nat) (hx : x < 2 ^ 32) (hj : j ≤ 32) :
    x &&& (2 ^ 32 - 2 ^ j) = x / 2 ^ j * 2 ^ j := by
  apply Nat.eq_of_testBit_eq
  intro i
  have hm : 2 ^ 32 - 2 ^ j = 2 ^ j * (2 ^ (32 - j) - 1) := by
    rw [Nat.mul_sub, ← pow_add, mul_one]
    congr 2
    omega
  rw [Nat.testBit_and, hm, Nat.mul_comm (x / 2 ^ j), Nat.testBit_mul_pow_two,
    Nat.testBit_mul_pow_two, ← Nat.shiftRight_eq_div_pow, Nat.testBit_shiftRight,
    Nat.testBit_two_pow_sub_one]
  by_cases hi : j ≤ i
  · by_cases hi2 : i < 32
    · have e1 : j + (i - j) = i := by omega
      have e2 : i - j < 32 - j := by omega
      simp [hi, e1, e2]
    · have hx2 : x < 2 ^ i := lt_of_lt_of_le hx (Nat.pow_le_pow_right (by decide) (by omega))
      have e1 : j + (i - j) = i := by omega
      simp [e1, Nat.testBit_lt_two_pow hx2]
  · simp [hi]

theorem AlignUp_reference_le (t j : Nat) (ht : t ≤ 2 ^ 31) (h31 : j ≤ 31) :
    AlignUp_reference t (2 ^ j) ≤ 2 ^ 31 := by
  unfold AlignUp_reference
  have hpos : 0 < 2 ^ j := Nat.two_pow_pos j
  have hsplit : 2 ^ 31 = 2 ^ j * 2 ^ (31 - j) := by
    rw [← pow_add]
    congr 1
    omega
  have hq : (t + 2 ^ j - 1) / 2 ^ j < 2 ^ (31 - j) + 1 := by
    apply Nat.div_lt_of_lt_mul
    rw [Nat.mul_add, ← hsplit]
    omega
  calc (t + 2 ^ j - 1) / 2 ^ j * 2 ^ j ≤ 2 ^ (31 - j) * 2 ^ j :=
        Nat.mul_le_mul_right _ (by omega)
    _ = 2 ^ 31 := by rw [Nat.mul_comm, ← hsplit]

theorem AlignUp_eq_reference (t j : Nat) (ht : t < 2 ^ 31) (h8 : 8 ≤ j) (h31 : j ≤ 31) :
    AlignUp (toInt32 t) (toInt32 ((2 ^ j : Nat) : Int)) =
      toInt32 ((AlignUp_reference t (2 ^ j) : Nat) : Int) := by
  have hA1 : 2 ^ 8 ≤ 2 ^ j := Nat.pow_le_pow_right (by decide) h8
  have hA2 : 2 ^ j ≤ 2 ^ 31 := Nat.pow_le_pow_right (by decide) h31
  have h3 : toUInt32 (toInt32 (t : Int) + toInt32 ((2 ^ j : Nat) : Int) - 1) = t + 2 ^ j - 1 := by
    generalize 2 ^ j = A at hA1 hA2
    unfold toUInt32 toInt32
    omega
  have h4 : 2 ^ 32 - 1 - toUInt32 (toInt32 ((2 ^ j : Nat) : Int) - 1) = 2 ^ 32 - 2 ^ j := by
    generalize 2 ^ j = A at hA1 hA2
    unfold toUInt32 toInt32
    omega
  unfold AlignUp AlignUp_reference
  rw [h3, h4, and_mask_eq _ j (by omega) (by omega)]
  rfl


theorem aligned_end_fits (r n bound : Nat) (hr : r ≤ 2 ^ 31) (hn : n < 2 ^ 31)
    (hb : bound < 2 ^ 31) :
    (toSizeT (toInt32 (r : Int) + (n : Int)) ≤ bound ↔ r + n ≤ bound) ∧
    (r + n ≤ bound → toInt32 (r : Int) = (r : Int) ∧
      toSizeT (toInt32 (r : Int) + (n : Int)) = r + n) := by
  unfold toSizeT toInt32
  omega

theorem end_assertion_holds (r n bound : Nat) (h : r + n ≤ bound) (hb : bound < 2 ^ 31) :
    toInt32 ((r : Int) + toInt32 (n : Int)) ≤ toInt32 (bound : Int) ∧
      toInt32 (n : Int) = (n : Int) := by
  unfold toInt32
  omega

/-- The code of `Allocate` and the reference algorithm agree on a ring of less
than 2^31 bytes whose cursors are inside it, for a size below 2^31 and a
power-of-two alignment. -/
theorem Allocate_reference_agrees (s : DynamicRingBuffer) (n a : Nat)
    (hmax : s.max_size_ < 2 ^ 31) (hh : s.head_ ≤ s.max_size_) (ht : s.tail_ ≤ s.max_size_)
    (hn : n < 2 ^ 31) (ha : a < 2 ^ 32) (hp : IsPow2 a = true) :
    s.Allocate n a = Allocate_reference s n a := by
  obtain ⟨j, h8, h31, hj⟩ := IsPow2_max ha hp
  have hj2 : max a 256 = 2 ^ j := hj
  have hc1 : (decide (s.head_ ≤ s.max_size_) && decide (s.tail_ ≤ s.max_size_)) = true := by
    rw [decide_eq_true hh, decide_eq_true ht]
    rfl
  unfold DynamicRingBuffer.Allocate Allocate_reference DynamicRingBuffer.place
  rw [hc1, hp, ASSERT_true, ASSERT_true]
  dsimp only
  rw [hj, hj2, AlignUp_eq_reference s.tail_ j (by omega) h8 h31]
  have hr := AlignUp_reference_le s.tail_ j (by omega) h31
  generalize AlignUp_reference s.tail_ (2 ^ j) = r at hr
  by_cases h1 : s.tail_ ≥ s.head_
  · simp only [if_pos h1]
    obtain ⟨hiff, hval⟩ := aligned_end_fits r n s.max_size_ hr hn hmax
    by_cases h2 : r + n ≤ s.max_size_
    · obtain ⟨e1, e2⟩ := hval h2
      obtain ⟨e3, e4⟩ := end_assertion_holds r n s.max_size_ h2 hmax
      simp only [if_pos h2, if_pos (hiff.mpr h2)]
      rw [e2, e1, decide_eq_true e3, ASSERT_true, e4]
    · simp only [if_neg h2, if_neg (fun hc => h2 (hiff.mp hc))]
      by_cases h3 : s.head_ ≥ n
      · obtain ⟨e3, e4⟩ := end_assertion_holds 0 n s.max_size_ (by omega) hmax
        simp only [if_pos h3]
        rw [Nat.cast_zero] at e3
        rw [decide_eq_true e3, ASSERT_true, e4]
      · simp only [if_neg h3]
  · simp only [if_neg h1]
    obtain ⟨hiff, hval⟩ := aligned_end_fits r n s.head_ hr hn (by omega)
    by_cases h2 : r + n ≤ s.head_
    · obtain ⟨e1, e2⟩ := hval h2
      obtain ⟨e3, e4⟩ := end_assertion_holds r n s.max_size_ (le_trans h2 hh) hmax
      simp only [if_pos h2, if_pos (hiff.mpr h2)]
      rw [e2, e1, decide_eq_true e3, ASSERT_true, e4]
    · simp only [if_neg h2, if_neg (fun hc => h2 (hiff.mp hc))]


theorem place_tail_le {s : DynamicRingBuffer} {n al : Nat} {off : Int} {t : Nat}
    (h : s.place n al = some (off, t)) (hh : s.head_ ≤ s.max_size_) : t ≤ s.max_size_ := by
  unfold DynamicRingBuffer.place at h
  simp only at h
  split_ifs at h with h1 h2 h3 h4 <;> simp only [Option.some.injEq, Prod.mk.injEq] at h
  · rw [← h.2]
    exact h2
  · rw [← h.2]
    exact le_trans h3 hh
  · rw [← h.2]
    exact le_trans h4 hh

theorem wrapped_end_le (x : Int) (n bound : Nat) (hx1 : -2 ^ 31 ≤ x) (hx2 : x < 2 ^ 31)
    (hb : bound < 2 ^ 31) (h : toSizeT (x + (n : Int)) ≤ bound) :
    x + toInt32 (n : Int) ≤ (bound : Int) ∧
      toInt32 (x + toInt32 (n : Int)) ≤ toInt32 (bound : Int) := by
  unfold toSizeT at h
  unfold toInt32
  omega

theorem AlignUp_range (x al : Int) : -2 ^ 31 ≤ AlignUp x al ∧ AlignUp x al < 2 ^ 31 := by
  unfold AlignUp toInt32
  omega

theorem place_end_le {s : DynamicRingBuffer} {n al : Nat} {off : Int} {t : Nat}
    (h : s.place n al = some (off, t)) (hh : s.head_ ≤ s.max_size_)
    (hmax : s.max_size_ < 2 ^ 31) :
    off + toInt32 (n : Int) ≤ (s.max_size_ : Int) ∧
      toInt32 (off + toInt32 (n : Int)) ≤ toInt32 (s.max_size_ : Int) := by
  obtain ⟨hx1, hx2⟩ := AlignUp_range (toInt32 s.tail_) (toInt32 al)
  unfold DynamicRingBuffer.place at h
  simp only at h
  split_ifs at h with h1 h2 h3 h4 <;> simp only [Option.some.injEq, Prod.mk.injEq] at h
  · rw [← h.1]
    exact wrapped_end_le _ n s.max_size_ hx1 hx2 hmax h2
  · rw [← h.1]
    obtain ⟨e3, e4⟩ := end_assertion_holds 0 n s.max_size_
      (le_trans (le_of_eq (Nat.zero_add n)) (le_trans h3 hh)) hmax
    rw [Nat.cast_zero] at e3
    refine ⟨?_, e3⟩
    rw [e4, zero_add]
    exact Int.ofNat_le.mpr (le_trans h3 hh)
  · rw [← h.1]
    have hhead : s.head_ < 2 ^ 31 := lt_of_le_of_lt hh hmax
    obtain ⟨h5, h6⟩ := wrapped_end_le _ n s.head_ hx1 hx2 hhead h4
    have hcast : (s.head_ : Int) ≤ (s.max_size_ : Int) := Int.ofNat_le.mpr hh
    have e1 : toInt32 (s.head_ : Int) = s.head_ :=
      toInt32_natCast (Nat.le_pred_of_lt hhead)
    have e2 : toInt32 (s.max_size_ : Int) = s.max_size_ :=
      toInt32_natCast (Nat.le_pred_of_lt hmax)
    rw [e1] at h6
    rw [e2]
    exact ⟨le_trans h5 hcast, le_trans h6 hcast⟩

theorem Reachable.inBounds {s : DynamicRingBuffer} (h : Reachable s) : InBounds s := by
  induction h with
  | create placement buffer cpu_ptr size =>
    refine ⟨Nat.zero_le _, Nat.zero_le _, ?_⟩
    intro e he
    cases he
  | @allocate s s1 num_bytes align alloc _ hok ih =>
    obtain ⟨-, off, t, hplace, -, rfl, -⟩ := Allocate_ok_inv hok
    have htail : t ≤ s.max_size_ := place_tail_le hplace ih.1
    exact ⟨ih.1, htail, ih.2.2⟩
  | @setCurrentFrame s frame _ ih =>
    unfold DynamicRingBuffer.SetCurrentFrame
    split
    · refine ⟨ih.1, ih.2.1, ?_⟩
      intro e he
      simp only [List.mem_append, List.mem_singleton] at he
      rcases he with he | rfl
      · exact ih.2.2 e he
      · exact ih.2.1
    · exact ih
  | @hasCompletedFrame s frame _ ih =>
    have hsuf := popCompleted_suffix frame s.frame_heads_
    unfold DynamicRingBuffer.HasCompletedFrame
    split
    · refine ⟨Nat.zero_le _, Nat.zero_le _, ?_⟩
      intro e he
      cases he
    · next e rest heq =>
      rw [heq] at hsuf
      exact ⟨ih.2.2 e (hsuf.subset (List.mem_cons_self e rest)), ih.2.1,
        fun x hx => ih.2.2 x (hsuf.subset hx)⟩


theorem popCompleted_all (frame : Nat) (l : List (Nat × Nat)) (h : ∀ e ∈ l, e.1 ≤ frame) :
    popCompleted frame l = [] := by
  induction l with
  | nil => rfl
  | cons e rest ih =>
    unfold popCompleted
    rw [if_pos (h e (List.mem_cons_self e rest))]
    exact ih (fun x hx => h x (List.mem_cons_of_mem e hx))

theorem SetCurrentFrame_cursors (s : DynamicRingBuffer) (frame : Nat) :
    (s.SetCurrentFrame frame).head_ = s.head_ ∧ (s.SetCurrentFrame frame).tail_ = s.tail_ ∧
      (s.SetCurrentFrame frame).max_size_ = s.max_size_ := by
  unfold DynamicRingBuffer.SetCurrentFrame
  split
  · exact ⟨rfl, rfl, rfl⟩
  · exact ⟨rfl, rfl, rfl⟩

theorem HasCompletedFrame_all (s : DynamicRingBuffer) (frame : Nat)
    (h : ∀ e ∈ s.frame_heads_, e.1 ≤ frame) :
    s.HasCompletedFrame frame = { s with frame_heads_ := [], head_ := 0, tail_ := 0 } := by
  unfold DynamicRingBuffer.HasCompletedFrame
  rw [popCompleted_all frame s.frame_heads_ h]

theorem Allocate_reference_empty (s : DynamicRingBuffer) (n a : Nat) (hh : s.head_ = 0)
    (ht : s.tail_ = 0) (hn : n ≤ s.max_size_) :
    Allocate_reference s n a =
      Except.ok ({ frame := s.current_frame_, offset := 0, size := (n : Int) },
        { s with tail_ := n }) := by
  have hA : 0 < max a 256 := lt_of_lt_of_le (by decide) (le_max_right a 256)
  have hr : AlignUp_reference 0 (max a 256) = 0 := by
    unfold AlignUp_reference
    rw [Nat.zero_add, Nat.div_eq_of_lt (by omega), Nat.zero_mul]
  unfold Allocate_reference
  dsimp only
  rw [ht, hh, hr, if_pos (le_refl 0), Nat.zero_add, if_pos hn]
  rfl

/-- C16: once every frame recorded in the history has completed
(`HasCompletedFrame(N)` with all recorded frames `<= N`), `head_` is 0, and
after any `SetCurrentFrame` an `Allocate` of at most `max_size_` bytes, with a
power-of-two alignment, succeeds at offset 0. The ring is smaller than 2^31
bytes. -/
theorem Allocate_after_completion (s : DynamicRingBuffer) (N f n a : Nat)
    (hdone : ∀ e ∈ s.frame_heads_, e.1 ≤ N) (hmax : s.max_size_ ≤ INT32_MAX)
    (hn : n ≤ s.max_size_) (ha : a < 2 ^ 32) (hp : IsPow2 a = true) :
    (s.HasCompletedFrame N).head_ = 0 ∧
    ((s.HasCompletedFrame N).SetCurrentFrame f).head_ = 0 ∧
    ((s.HasCompletedFrame N).SetCurrentFrame f).Allocate n a =
      Except.ok ({ frame := ((s.HasCompletedFrame N).SetCurrentFrame f).current_frame_,
                   offset := 0, size := (n : Int) },
        { ((s.HasCompletedFrame N).SetCurrentFrame f) with tail_ := n }) := by
  have hmax2 : s.max_size_ < 2 ^ 31 := by
    unfold INT32_MAX at hmax
    omega
  obtain ⟨c1, c2, c3⟩ := SetCurrentFrame_cursors (s.HasCompletedFrame N) f
  rw [HasCompletedFrame_all s N hdone] at c1 c2 c3 ⊢
  dsimp only at c1 c2 c3
  refine ⟨rfl, c1, ?_⟩
  rw [Allocate_reference_agrees _ n a (by omega) (by omega) (by omega) (by omega) ha hp]
  exact Allocate_reference_empty _ n a c1 c2 (by omega)

/-- C16 on the 1024-byte ring: in frame 1 `Allocate(600)` returns offset 0;
after `HasCompletedFrame(1)` and `SetCurrentFrame(2)` the head is 0 and
`Allocate(500)` returns offset 0 in frame 2. -/
theorem Allocate_after_completion_witness :
    ring1k.max_size_ = 1024 ∧
    (ring1k.SetCurrentFrame 1).Allocate 600 D3D12_CONSTANT_BUFFER_DATA_PLACEMENT_ALIGNMENT =
      Except.ok ({ frame := 1, offset := 0, size := 600 }, ring1kFrame1) ∧
    ((ring1kFrame1.HasCompletedFrame 1).SetCurrentFrame 2).head_ = 0 ∧
    ((ring1kFrame1.HasCompletedFrame 1).SetCurrentFrame 2).Allocate 500
        D3D12_CONSTANT_BUFFER_DATA_PLACEMENT_ALIGNMENT =
      Except.ok ({ frame := 2, offset := 0, size := 500 },
        { ((ring1kFrame1.HasCompletedFrame 1).SetCurrentFrame 2) with tail_ := 500 }) :=
  ⟨by decide, rfl,
    (Allocate_after_completion ring1kFrame1 1 2 500
      D3D12_CONSTANT_BUFFER_DATA_PLACEMENT_ALIGNMENT (by decide) (by decide) (by decide)
      (by decide) (by decide)).2⟩

/-- C17, on the code: the constructor leaves `current_frame_` at 0, the value of
its member initialiser, not at 1; `head_` and `tail_` are 0 and the frame
history is empty. An allocation made before the first `SetCurrentFrame` is
tagged with frame 0. -/
theorem create_current_frame_zero (placement : Nat) (buffer : Resource) (cpu_ptr : Int)
    (size : Nat) :
    (DynamicRingBuffer.create placement buffer cpu_ptr size).current_frame_ = 0 ∧
    (DynamicRingBuffer.create placement buffer cpu_ptr size).head_ = 0 ∧
    (DynamicRingBuffer.create placement buffer cpu_ptr size).tail_ = 0 ∧
    (DynamicRingBuffer.create placement buffer cpu_ptr size).frame_heads_ = [] ∧
    ∀ n a alloc s1,
      (DynamicRingBuffer.create placement buffer cpu_ptr size).Allocate n a =
        Except.ok (alloc, s1) → alloc.frame = 0 := by
  refine ⟨rfl, rfl, rfl, rfl, ?_⟩
  intro n a alloc s1 h
  obtain ⟨-, off, t, -, rfl, -, -⟩ := Allocate_ok_inv h
  rfl


/-- C18: on a ring of less than 2^31 bytes whose cursors are inside it, for a
size below 2^31 and a power-of-two alignment, `Allocate(num_bytes, align)` is
the reference algorithm `Allocate_reference`: same result, same new state, and
the same out-of-space failures. It fails in no other way than out of space, and
a returned allocation carries the current frame and the size `num_bytes`. -/
theorem Allocate_equals_reference (s : DynamicRingBuffer) (n a : Nat)
    (hmax : s.max_size_ < 2 ^ 31) (hh : s.head_ ≤ s.max_size_) (ht : s.tail_ ≤ s.max_size_)
    (hn : n < 2 ^ 31) (ha : a < 2 ^ 32) (hp : IsPow2 a = true) :
    s.Allocate n a = Allocate_reference s n a ∧
    (∀ e, s.Allocate n a = Except.error e → e = Fault.fatal) ∧
    (∀ alloc s1, s.Allocate n a = Except.ok (alloc, s1) →
      alloc.frame = s.current_frame_ ∧ alloc.size = (n : Int)) := by
  have hagree := Allocate_reference_agrees s n a hmax hh ht hn ha hp
  refine ⟨hagree, ?_, ?_⟩
  · intro e he
    rw [hagree] at he
    unfold Allocate_reference at he
    dsimp only at he
    split_ifs at he
    · exact (Except.error.inj he).symm
    · exact (Except.error.inj he).symm
  · intro alloc s1 hok
    obtain ⟨-, off, t, -, rfl, -, -⟩ := Allocate_ok_inv hok
    exact ⟨rfl, toInt32_natCast (Nat.le_pred_of_lt hn)⟩

/-- C18 at a concrete call: 100 bytes with alignment 16 in frame 1 of the
65536-byte ring. -/
theorem Allocate_equals_reference_witness :
    (ring64k.SetCurrentFrame 1).Allocate 100 16 =
      Allocate_reference (ring64k.SetCurrentFrame 1) 100 16 :=
  (Allocate_equals_reference (ring64k.SetCurrentFrame 1) 100 16 (by decide) (by decide)
    (by decide) (by decide) (by decide) (by decide)).1

/-- C19: on every state the allocator reaches from its constructor, `head_` and
`tail_` are at most `max_size_` (they are unsigned, so at least 0). On a ring
of less than 2^31 bytes an `Allocate` with a power-of-two alignment then either
stops as out of space or returns an allocation with
`offset + size <= max_size_` and leaves the cursors inside the ring: neither
the assertion at its start nor the one at its end fails. -/
theorem cursors_stay_in_bounds (s : DynamicRingBuffer) (hr : Reachable s)
    (hmax : s.max_size_ < 2 ^ 31) :
    (s.head_ ≤ s.max_size_ ∧ s.tail_ ≤ s.max_size_) ∧
    ∀ n a, IsPow2 a = true →
      s.Allocate n a = Except.error Fault.fatal ∨
      ∃ alloc s1, s.Allocate n a = Except.ok (alloc, s1) ∧
        alloc.offset + alloc.size ≤ (s.max_size_ : Int) ∧
        s1.head_ ≤ s1.max_size_ ∧ s1.tail_ ≤ s1.max_size_ := by
  obtain ⟨hh, ht, -⟩ := Reachable.inBounds hr
  refine ⟨⟨hh, ht⟩, ?_⟩
  intro n a hp
  have hc1 : (decide (s.head_ ≤ s.max_size_) && decide (s.tail_ ≤ s.max_size_)) = true := by
    rw [decide_eq_true hh, decide_eq_true ht]
    rfl
  unfold DynamicRingBuffer.Allocate
  rw [hc1, hp, ASSERT_true, ASSERT_true]
  dsimp only
  cases hpl : s.place n (max a min_align_) with
  | none => exact Or.inl rfl
  | some r =>
    obtain ⟨off, t⟩ := r
    obtain ⟨e1, e2⟩ := place_end_le hpl hh hmax
    right
    dsimp only
    rw [decide_eq_true e2, ASSERT_true]
    have htail : t ≤ s.max_size_ := place_tail_le hpl hh
    exact ⟨_, _, rfl, e1, hh, htail⟩

/-- C19 on the 65536-byte ring in frame 1. -/
theorem cursors_stay_in_bounds_witness :
    (ring64k.SetCurrentFrame 1).head_ ≤ (ring64k.SetCurrentFrame 1).max_size_ ∧
      (ring64k.SetCurrentFrame 1).tail_ ≤ (ring64k.SetCurrentFrame 1).max_size_ :=
  (cursors_stay_in_bounds (ring64k.SetCurrentFrame 1)
    (Reachable.setCurrentFrame 1
      (Reachable.create 65536 { gpu_va := 4096, mem := fun _ => 0, map_count := 0 } 1000 65536))
    (by decide)).1


/-! ## Theorems: frame submission -/

theorem or_closed_and_closed (x : Nat) :
    (x ||| DIRTY_FLAG_CMD_LIST_CLOSED) &&& DIRTY_FLAG_CMD_LIST_CLOSED = 1 := by
  unfold DIRTY_FLAG_CMD_LIST_CLOSED
  apply Nat.eq_of_testBit_eq
  intro i
  rw [Nat.testBit_and, Nat.testBit_or]
  cases i with
  | zero => simp
  | succ k =>
    have h1 : Nat.testBit 1 (k + 1) = false := by
      rw [Nat.testBit_succ]
      simp
    rw [h1]
    simp

theorem GetGpuPtr_next_fence {dev devG : Device} {self selfG : DynamicBuffer} {addr : Int}
    (h : DynamicBuffer.GetGpuPtr dev self = Except.ok (addr, devG, selfG)) :
    devG.next_fence_ = dev.next_fence_ := by
  by_cases hc : self.is_speculative_write_persisted_ = false ∧ self.speculative_write_cache_ ≠ []
  · obtain ⟨alloc, ring, -, -, rfl, -⟩ := GetGpuPtr_promote_inv dev self hc.1 hc.2 h
    rfl
  · have hs : self.is_speculative_write_persisted_ = true ∨ self.speculative_write_cache_ = [] := by
      by_cases hp : self.is_speculative_write_persisted_ = true
      · exact Or.inl hp
      · right
        by_contra hne
        exact hc ⟨by simpa using hp, hne⟩
    rw [GetGpuPtr_settled hs] at h
    split_ifs at h
    · simp only [Except.ok.injEq, Prod.mk.injEq] at h
      rw [← h.2.1]
    · cases hG : dev.dynamic_ring_buffer_.GetGpuPtrFor self.current_ring_alloc_ with
      | error e =>
        rw [hG] at h
        cases h
      | ok ptr =>
        rw [hG] at h
        simp only [Except.ok.injEq, Prod.mk.injEq] at h
        rw [← h.2.1]

theorem PersistDynamicChanges_next_fence {dev dev2 : Device} {self self2 : DynamicBuffer}
    (h : DynamicBuffer.PersistDynamicChanges dev self = Except.ok (dev2, self2)) :
    dev2.next_fence_ = dev.next_fence_ := by
  obtain ⟨addr, devG, selfG, r, hG, -, -, -, rfl, -⟩ := PersistDynamicChanges_inv h
  have hfence : devG.next_fence_ = dev.next_fence_ := GetGpuPtr_next_fence hG
  exact hfence

theorem persistAll_next_fence (l : List Nat) :
    ∀ (dev dev2 : Device) (buffers buffers2 : Nat → Option DynamicBuffer),
      persistAll dev buffers l = Except.ok (dev2, buffers2) →
      dev2.next_fence_ = dev.next_fence_ := by
  induction l with
  | nil =>
    intro dev dev2 buffers buffers2 h
    unfold persistAll at h
    simp only [Except.ok.injEq, Prod.mk.injEq] at h
    rw [← h.1]
  | cons b rest ih =>
    intro dev dev2 buffers buffers2 h
    unfold persistAll at h
    cases hb : buffers b with
    | none =>
      rw [hb] at h
      cases h
    | some buffer =>
      rw [hb] at h
      dsimp only at h
      cases hP : DynamicBuffer.PersistDynamicChanges dev buffer with
      | error e =>
        rw [hP] at h
        cases h
      | ok r =>
        obtain ⟨dev1, buffer1⟩ := r
        rw [hP] at h
        dsimp only at h
        rw [ih _ _ _ _ h]
        exact PersistDynamicChanges_next_fence hP


theorem MarkResourceAsUsed_ok {K : Nat} {self s1 : FrameScheduler} {resource : Nat}
    (h : FrameScheduler.MarkResourceAsUsed K self resource = Except.ok s1) :
    self.current_back_buffer_ < K ∧
    s1 = { self with frame_resources_to_free_ := fun i =>
      if i = self.current_back_buffer_ then self.frame_resources_to_free_ i ++ [resource]
      else self.frame_resources_to_free_ i } := by
  unfold FrameScheduler.MarkResourceAsUsed at h
  by_cases hc : self.current_back_buffer_ < K
  · rw [if_pos hc] at h
    exact ⟨hc, (Except.ok.inj h).symm⟩
  · rw [if_neg hc] at h
    cases h

theorem TransitionTexture_inv {K : Nat} {self s1 : FrameScheduler} {texture sub state : Nat}
    (h : FrameScheduler.TransitionTexture K self texture sub state = Except.ok s1) :
    s1.next_fence_ = self.next_fence_ ∧ s1.dirty_flags_ = self.dirty_flags_ ∧
    s1.current_back_buffer_ = self.current_back_buffer_ ∧
    s1.fence_values_ = self.fence_values_ ∧
    s1.cmd_list_done_fence_ = self.cmd_list_done_fence_ ∧
    s1.cmd_queue_ = self.cmd_queue_ := by
  unfold FrameScheduler.TransitionTexture at h
  cases hg : self.back_buffers_.get? texture with
  | none =>
    rw [hg] at h
    cases h
  | some tex =>
    rw [hg] at h
    dsimp only at h
    by_cases hs : tex.current_state_ = state
    · rw [if_pos hs] at h
      cases h
      exact ⟨rfl, rfl, rfl, rfl, rfl, rfl⟩
    · rw [if_neg hs] at h
      obtain ⟨-, rfl⟩ := MarkResourceAsUsed_ok h
      exact ⟨rfl, rfl, rfl, rfl, rfl, rfl⟩

theorem submitCommands_inv {K PRESENT : Nat} {self s1 : FrameScheduler} {should_present : Bool}
    (h : FrameScheduler.submitCommands K PRESENT self should_present = Except.ok s1) :
    self.dirty_flags_ &&& DIRTY_FLAG_CMD_LIST_CLOSED = 0 ∧
    self.current_back_buffer_ < K ∧
    s1.next_fence_ = (self.next_fence_ + 1) % 2 ^ 64 ∧
    s1.fence_values_ = (fun i =>
      if i = self.current_back_buffer_ then self.next_fence_ else self.fence_values_ i) ∧
    s1.current_back_buffer_ = self.current_back_buffer_ ∧
    s1.dirty_flags_ = self.dirty_flags_ ||| DIRTY_FLAG_CMD_LIST_CLOSED ∧
    s1.cmd_list_done_fence_ = self.cmd_list_done_fence_ ∧
    (∃ earlier, s1.cmd_queue_ = earlier ++ [QueueOp.Signal self.next_fence_]) ∧
    (should_present = false → s1.frame_resources_to_free_ = self.frame_resources_to_free_) := by
  unfold FrameScheduler.submitCommands at h
  rw [ASSERT_eq_ok] at h
  obtain ⟨hflag, h⟩ := h
  have hflag2 : self.dirty_flags_ &&& DIRTY_FLAG_CMD_LIST_CLOSED = 0 := by simpa using hflag
  generalize hT : (if should_present = true then
      FrameScheduler.TransitionTexture K self self.current_back_buffer_ 0 PRESENT
    else Except.ok self) = t at h
  cases t with
  | error e => cases h
  | ok sT =>
    dsimp only at h
    have hfields : sT.next_fence_ = self.next_fence_ ∧ sT.dirty_flags_ = self.dirty_flags_ ∧
        sT.current_back_buffer_ = self.current_back_buffer_ ∧
        sT.fence_values_ = self.fence_values_ ∧
        sT.cmd_list_done_fence_ = self.cmd_list_done_fence_ ∧
        sT.cmd_queue_ = self.cmd_queue_ ∧
        (should_present = false → sT.frame_resources_to_free_ = self.frame_resources_to_free_) := by
      cases should_present with
      | true =>
        rw [if_pos rfl] at hT
        obtain ⟨a, b, c, d, e, f⟩ := TransitionTexture_inv hT
        exact ⟨a, b, c, d, e, f, fun hc => Bool.noConfusion hc⟩
      | false =>
        rw [if_neg (by simp)] at hT
        cases hT
        exact ⟨rfl, rfl, rfl, rfl, rfl, rfl, fun _ => rfl⟩
    obtain ⟨f1, f2, f3, f4, f5, f6, f7⟩ := hfields
    cases hP : persistAll sT.toDevice sT.buffers sT.buffers_to_persist_ with
    | error e =>
      rw [hP] at h
      cases h
    | ok r =>
      obtain ⟨dev, buffers⟩ := r
      rw [hP] at h
      dsimp only at h
      have hdev : dev.next_fence_ = self.next_fence_ := by
        rw [persistAll_next_fence _ _ _ _ _ hP]
        exact f1
      by_cases hc : sT.current_back_buffer_ < K
      · rw [if_pos hc] at h
        cases h
        refine ⟨hflag2, by rw [← f3]; exact hc, ?_, ?_, f3, ?_, f5, ?_, f7⟩
        · show (dev.next_fence_ + 1) % 2 ^ 64 = _
          rw [hdev]
        · show (fun i => if i = sT.current_back_buffer_ then dev.next_fence_
            else sT.fence_values_ i) = _
          rw [hdev, f3, f4]
        · show sT.dirty_flags_ ||| DIRTY_FLAG_CMD_LIST_CLOSED = _
          rw [f2]
        · rw [← hdev]
          exact ⟨_, rfl⟩
      · rw [if_neg hc] at h
        cases h


theorem afterWait_fields (self : FrameScheduler) (n : Nat) (o : Outside) :
    (self.afterWait n o).toDevice = self.toDevice ∧
    (self.afterWait n o).fence_values_ = self.fence_values_ ∧
    (self.afterWait n o).frame_resources_to_free_ = self.frame_resources_to_free_ ∧
    (self.afterWait n o).current_back_buffer_ = self.current_back_buffer_ ∧
    (self.afterWait n o).dirty_flags_ = self.dirty_flags_ ∧
    (self.afterWait n o).cmd_queue_ = self.cmd_queue_ := by
  unfold FrameScheduler.afterWait FrameScheduler.waitOnFence
  split_ifs <;> exact ⟨rfl, rfl, rfl, rfl, rfl, rfl⟩

theorem afterWait_fence (self : FrameScheduler) (n : Nat) (o : Outside)
    (hw : o.wait_timed_out = false) : n ≤ (self.afterWait n o).cmd_list_done_fence_ := by
  unfold FrameScheduler.afterWait FrameScheduler.waitOnFence
  rw [hw]
  by_cases hc : o.GetCompletedValue < n
  · rw [if_pos hc, if_neg (by simp)]
  · rw [if_neg hc]
    exact Nat.le_of_not_lt hc

theorem WaitForFrame_no_submit (K PRESENT fuel : Nat) (self : FrameScheduler) (n : Nat)
    (o o2 : Outside)
    (hc : ¬ (o.GetCompletedValue < n ∧ (n + 1) % 2 ^ 64 = self.next_fence_ ∧
      self.dirty_flags_ &&& DIRTY_FLAG_CMD_LIST_CLOSED = 0)) :
    FrameScheduler.WaitForFrame K PRESENT (fuel + 1) self n o o2 =
      if n ≤ self.next_fence_ then
        some (Except.ok (FrameScheduler.FreeFrameResources K (self.afterWait n o) n))
      else some (Except.error Fault.assertion) := by
  unfold FrameScheduler.WaitForFrame FrameScheduler.afterWait
  by_cases hn : n ≤ self.next_fence_
  · rw [if_pos hn, if_pos hn]
    dsimp only
    by_cases hlt : o.GetCompletedValue < n
    · rw [if_pos hlt, if_pos hlt, if_neg (fun hx => hc ⟨hlt, hx.1, hx.2⟩)]
    · rw [if_neg hlt, if_neg hlt]
  · rw [if_neg hn, if_neg hn]

theorem SubmitAndWait_inv {K PRESENT fuel : Nat} {self s2 : FrameScheduler}
    {should_present : Bool} {o o2 : Outside}
    (h : FrameScheduler.SubmitAndWait K PRESENT fuel self should_present o o2 =
      some (Except.ok s2)) :
    ∃ s1, FrameScheduler.submitCommands K PRESENT self should_present = Except.ok s1 ∧
      o.GetCurrentBackBufferIndex < K ∧
      s1.fence_values_ o.GetCurrentBackBufferIndex ≤ s1.next_fence_ ∧
      s2 = FrameScheduler.resetCommandList (FrameScheduler.FreeFrameResources K
        (FrameScheduler.afterWait
          { s1 with current_back_buffer_ := o.GetCurrentBackBufferIndex }
          (s1.fence_values_ o.GetCurrentBackBufferIndex) o)
        (s1.fence_values_ o.GetCurrentBackBufferIndex)) := by
  cases fuel with
  | zero =>
    unfold FrameScheduler.SubmitAndWait at h
    cases h
  | succ fuel =>
    unfold FrameScheduler.SubmitAndWait at h
    cases hs : FrameScheduler.submitCommands K PRESENT self should_present with
    | error e =>
      rw [hs] at h
      cases h
    | ok s1 =>
      rw [hs] at h
      dsimp only at h
      refine ⟨s1, rfl, ?_⟩
      by_cases hk : o.GetCurrentBackBufferIndex < K
      · rw [if_pos hk] at h
        cases fuel with
        | zero =>
          unfold FrameScheduler.WaitForFrame at h
          cases h
        | succ fuel =>
          have hclosed : ¬ (o.GetCompletedValue < s1.fence_values_ o.GetCurrentBackBufferIndex ∧
              (s1.fence_values_ o.GetCurrentBackBufferIndex + 1) % 2 ^ 64 = s1.next_fence_ ∧
              s1.dirty_flags_ &&& DIRTY_FLAG_CMD_LIST_CLOSED = 0) := by
            rintro ⟨-, -, hz⟩
            rw [(submitCommands_inv hs).2.2.2.2.2.1, or_closed_and_closed] at hz
            cases hz
          rw [WaitForFrame_no_submit K PRESENT fuel
            { s1 with current_back_buffer_ := o.GetCurrentBackBufferIndex }
            (s1.fence_values_ o.GetCurrentBackBufferIndex) o o2 hclosed] at h
          by_cases hn : s1.fence_values_ o.GetCurrentBackBufferIndex ≤ s1.next_fence_
          · rw [if_pos hn] at h
            dsimp only at h
            simp only [Option.some.injEq, Except.ok.injEq] at h
            exact ⟨hk, hn, h.symm⟩
          · rw [if_neg hn] at h
            cases h
      · rw [if_neg hk] at h
        cases h

theorem SubmitAndWait_enough_fuel (K PRESENT fuel : Nat) (self : FrameScheduler)
    (should_present : Bool) (o o2 : Outside) :
    FrameScheduler.SubmitAndWait K PRESENT (fuel + 2) self should_present o o2 ≠ none := by
  unfold FrameScheduler.SubmitAndWait
  cases hs : FrameScheduler.submitCommands K PRESENT self should_present with
  | error e =>
    dsimp only
    exact fun hc => Option.noConfusion hc
  | ok s1 =>
    dsimp only
    by_cases hk : o.GetCurrentBackBufferIndex < K
    · rw [if_pos hk]
      have hclosed : ¬ (o.GetCompletedValue < s1.fence_values_ o.GetCurrentBackBufferIndex ∧
          (s1.fence_values_ o.GetCurrentBackBufferIndex + 1) % 2 ^ 64 = s1.next_fence_ ∧
          s1.dirty_flags_ &&& DIRTY_FLAG_CMD_LIST_CLOSED = 0) := by
        rintro ⟨-, -, hz⟩
        rw [(submitCommands_inv hs).2.2.2.2.2.1, or_closed_and_closed] at hz
        cases hz
      rw [WaitForFrame_no_submit K PRESENT fuel
            { s1 with current_back_buffer_ := o.GetCurrentBackBufferIndex }
            (s1.fence_values_ o.GetCurrentBackBufferIndex) o o2 hclosed]
      split_ifs <;> exact fun hc => Option.noConfusion hc
    · rw [if_neg hk]
      exact fun hc => Option.noConfusion hc


theorem SubmitAndWait_fields {K PRESENT fuel : Nat} {self s2 : FrameScheduler}
    {should_present : Bool} {o o2 : Outside}
    (h : FrameScheduler.SubmitAndWait K PRESENT fuel self should_present o o2 =
      some (Except.ok s2)) :
    ∃ s1, FrameScheduler.submitCommands K PRESENT self should_present = Except.ok s1 ∧
      o.GetCurrentBackBufferIndex < K ∧
      s2.next_fence_ = s1.next_fence_ ∧
      s2.fence_values_ = s1.fence_values_ ∧
      s2.current_back_buffer_ = o.GetCurrentBackBufferIndex ∧
      s2.cmd_queue_ = s1.cmd_queue_ ∧
      (o.wait_timed_out = false →
        s1.fence_values_ o.GetCurrentBackBufferIndex ≤ s2.cmd_list_done_fence_) ∧
      s2.frame_resources_to_free_ = (fun i =>
        if i < K ∧ s1.fence_values_ i ≤ s1.fence_values_ o.GetCurrentBackBufferIndex then []
        else s1.frame_resources_to_free_ i) := by
  obtain ⟨s1, hs, hk, -, rfl⟩ := SubmitAndWait_inv h
  obtain ⟨a1, a2, a3, a4, -, a6⟩ := afterWait_fields
    { s1 with current_back_buffer_ := o.GetCurrentBackBufferIndex }
    (s1.fence_values_ o.GetCurrentBackBufferIndex) o
  refine ⟨s1, hs, hk, ?_, ?_, ?_, ?_, ?_, ?_⟩
  · show (FrameScheduler.afterWait _ _ o).toDevice.next_fence_ = _
    rw [a1]
  · show (FrameScheduler.afterWait _ _ o).fence_values_ = _
    rw [a2]
  · show (FrameScheduler.afterWait _ _ o).current_back_buffer_ = _
    rw [a4]
  · show (FrameScheduler.afterWait _ _ o).cmd_queue_ = _
    rw [a6]
  · intro hw
    exact afterWait_fence _ _ o hw
  · show (fun i => if i < K ∧ (FrameScheduler.afterWait _ _ o).fence_values_ i ≤ _ then []
      else (FrameScheduler.afterWait _ _ o).frame_resources_to_free_ i) = _
    rw [a2, a3]

theorem WaitForFrame_inv {K PRESENT fuel : Nat} {self w : FrameScheduler} {n : Nat}
    {o o2 : Outside}
    (h : FrameScheduler.WaitForFrame K PRESENT fuel self n o o2 = some (Except.ok w)) :
    n ≤ self.next_fence_ ∧ ∃ pre, w = FrameScheduler.FreeFrameResources K pre n ∧
      (((o.GetCompletedValue < n ∧ (n + 1) % 2 ^ 64 = self.next_fence_ ∧
          self.dirty_flags_ &&& DIRTY_FLAG_CMD_LIST_CLOSED = 0) ∧
        FrameScheduler.SubmitAndWait K PRESENT (fuel - 1)
          { self with cmd_list_done_fence_ := o.GetCompletedValue } false o2 o2 =
            some (Except.ok pre)) ∨
      (¬ (o.GetCompletedValue < n ∧ (n + 1) % 2 ^ 64 = self.next_fence_ ∧
          self.dirty_flags_ &&& DIRTY_FLAG_CMD_LIST_CLOSED = 0) ∧
        pre = self.afterWait n o)) := by
  cases fuel with
  | zero =>
    unfold FrameScheduler.WaitForFrame at h
    cases h
  | succ fuel =>
    by_cases hc : o.GetCompletedValue < n ∧ (n + 1) % 2 ^ 64 = self.next_fence_ ∧
        self.dirty_flags_ &&& DIRTY_FLAG_CMD_LIST_CLOSED = 0
    · unfold FrameScheduler.WaitForFrame at h
      by_cases hn : n ≤ self.next_fence_
      · rw [if_pos hn] at h
        dsimp only at h
        rw [if_pos hc.1, if_pos hc.2] at h
        refine ⟨hn, ?_⟩
        cases hS : FrameScheduler.SubmitAndWait K PRESENT fuel
            { self with cmd_list_done_fence_ := o.GetCompletedValue } false o2 o2 with
        | none =>
          rw [hS] at h
          cases h
        | some r =>
          cases r with
          | error e =>
            rw [hS] at h
            cases h
          | ok pre =>
            rw [hS] at h
            dsimp only at h
            simp only [Option.some.injEq, Except.ok.injEq] at h
            exact ⟨pre, h.symm, Or.inl ⟨hc, hS⟩⟩
      · rw [if_neg hn] at h
        cases h
    · rw [WaitForFrame_no_submit K PRESENT fuel self n o o2 hc] at h
      by_cases hn : n ≤ self.next_fence_
      · rw [if_pos hn] at h
        simp only [Option.some.injEq, Except.ok.injEq] at h
        exact ⟨hn, _, h.symm, Or.inr ⟨hc, rfl⟩⟩
      · rw [if_neg hn] at h
        cases h


theorem SubmitAndWait_next_fence {K PRESENT fuel : Nat} {self s2 : FrameScheduler}
    {should_present : Bool} {o o2 : Outside} (hnext : self.next_fence_ + 1 < 2 ^ 64)
    (h : FrameScheduler.SubmitAndWait K PRESENT fuel self should_present o o2 =
      some (Except.ok s2)) :
    s2.next_fence_ = self.next_fence_ + 1 ∧
    s2.fence_values_ = (fun i =>
      if i = self.current_back_buffer_ then self.next_fence_ else self.fence_values_ i) ∧
    ∃ earlier, s2.cmd_queue_ = earlier ++ [QueueOp.Signal self.next_fence_] := by
  obtain ⟨s1, hs, -, b1, b2, -, b4, -, -⟩ := SubmitAndWait_fields h
  obtain ⟨-, -, c1, c2, -, -, -, c3, -⟩ := submitCommands_inv hs
  refine ⟨?_, ?_, ?_⟩
  · rw [b1, c1]
    exact Nat.mod_eq_of_lt hnext
  · rw [b2, c2]
  · rw [b4]
    exact c3

/-- C13: a `SubmitAndWait` that returns leaves `CurrentFrame()`, which is
`next_fence_`, exactly one above its value before the call; that earlier value
is what the call stored in `fence_values_` for the back buffer it submitted and
what it passed to `Signal` last, so `CurrentFrame()` is one past it; the other
slots keep their values. `WaitForFrame` leaves `CurrentFrame()` as it was or
one higher, `MarkResourceAsUsed` and `FreeFrameResources` leave it as it was.
With two levels of nesting allowed the call does not run out of them. The
counter is below its 64-bit limit. -/
theorem SubmitAndWait_advances_frame (K PRESENT fuel : Nat) (self : FrameScheduler)
    (should_present : Bool) (o o2 : Outside) (hnext : self.next_fence_ + 1 < 2 ^ 64) :
    FrameScheduler.SubmitAndWait K PRESENT (fuel + 2) self should_present o o2 ≠ none ∧
    (∀ s2, FrameScheduler.SubmitAndWait K PRESENT fuel self should_present o o2 =
        some (Except.ok s2) →
      s2.toDevice.CurrentFrame = self.toDevice.CurrentFrame + 1 ∧
      s2.fence_values_ self.current_back_buffer_ = self.toDevice.CurrentFrame ∧
      s2.toDevice.CurrentFrame = s2.fence_values_ self.current_back_buffer_ + 1 ∧
      (∃ earlier, s2.cmd_queue_ = earlier ++ [QueueOp.Signal self.toDevice.CurrentFrame]) ∧
      ∀ i, i ≠ self.current_back_buffer_ → s2.fence_values_ i = self.fence_values_ i) ∧
    (∀ n w, FrameScheduler.WaitForFrame K PRESENT fuel self n o o2 = some (Except.ok w) →
      w.toDevice.CurrentFrame = self.toDevice.CurrentFrame ∨
        w.toDevice.CurrentFrame = self.toDevice.CurrentFrame + 1) ∧
    (∀ r s1, FrameScheduler.MarkResourceAsUsed K self r = Except.ok s1 →
      s1.toDevice.CurrentFrame = self.toDevice.CurrentFrame) ∧
    ∀ n, (FrameScheduler.FreeFrameResources K self n).toDevice.CurrentFrame =
      self.toDevice.CurrentFrame := by
  refine ⟨SubmitAndWait_enough_fuel K PRESENT fuel self should_present o o2, ?_, ?_, ?_, ?_⟩
  · intro s2 h
    obtain ⟨a1, a2, a3⟩ := SubmitAndWait_next_fence hnext h
    have hrec : s2.fence_values_ self.current_back_buffer_ = self.next_fence_ := by
      rw [a2]
      exact if_pos rfl
    refine ⟨a1, hrec, ?_, a3, ?_⟩
    · show s2.next_fence_ = _
      rw [a1, hrec]
    · intro i hi
      rw [a2]
      exact if_neg hi
  · intro n w h
    obtain ⟨-, pre, rfl, hcase⟩ := WaitForFrame_inv h
    rcases hcase with ⟨-, hS⟩ | ⟨-, rfl⟩
    · right
      have hpre : pre.next_fence_ = self.next_fence_ + 1 :=
        (@SubmitAndWait_next_fence K PRESENT (fuel - 1)
          { self with cmd_list_done_fence_ := o.GetCompletedValue } pre false o2 o2
          hnext hS).1
      exact hpre
    · left
      show (self.afterWait n o).toDevice.next_fence_ = _
      rw [(afterWait_fields self n o).1]
      rfl
  · intro r s1 h
    obtain ⟨-, rfl⟩ := MarkResourceAsUsed_ok h
    rfl
  · intro n
    rfl

/-- C13 on the state `schedulerInit`: a presenting `SubmitAndWait` returns,
with frame 1 recorded for back buffer 0 and signalled, and `CurrentFrame()`
at 2. -/
theorem SubmitAndWait_advances_frame_witness :
    ∃ s2, FrameScheduler.SubmitAndWait kNumBackBuffers 0 2 schedulerInit true
        ⟨1, 0, false⟩ ⟨1, 0, false⟩ = some (Except.ok s2) ∧
      s2.toDevice.CurrentFrame = 2 ∧ s2.fence_values_ 0 = 1 :=
  ⟨_, rfl,
    ((SubmitAndWait_advances_frame kNumBackBuffers 0 2 schedulerInit true ⟨1, 0, false⟩
      ⟨1, 0, false⟩ (by decide)).2.1 _ rfl).1,
    ((SubmitAndWait_advances_frame kNumBackBuffers 0 2 schedulerInit true ⟨1, 0, false⟩
      ⟨1, 0, false⟩ (by decide)).2.1 _ rfl).2.1⟩


/-- C14, on the code: on the device as `Device::Init` leaves it, frame 2 is
being recorded and back buffer 0 still carries fence value 1 of the submission
made by `Reset`. A resource marked as used now sits in the list of slot 0, and
`WaitForFrame(1)`, the call `~Device` makes (`next_fence_ - 1`), finds the
fence at 1, submits nothing and empties that list: the resource of frame 2 is
released on the confirmation of frame 1. -/
theorem WaitForFrame_releases_unsubmitted_frame :
    afterReset.toDevice.CurrentFrame = 2 ∧ afterReset.current_back_buffer_ = 0 ∧
    afterReset.fence_values_ 0 = 1 ∧
    frame2Marked.frame_resources_to_free_ 0 = [77] ∧
    (match FrameScheduler.WaitForFrame kNumBackBuffers 0 3 frame2Marked 1
        ⟨0, 1, false⟩ ⟨0, 1, false⟩ with
      | some (Except.ok w) =>
        some (w.frame_resources_to_free_ 0, w.toDevice.CurrentFrame, w.cmd_queue_.length)
      | _ => none) = some ([], 2, 2) := by
  refine ⟨rfl, rfl, rfl, rfl, rfl⟩

/-- C14, amended: `MarkResourceAsUsed` appends the resource to the keep-alive
list of the current back buffer and leaves the other lists and the recorded
fence values alone. `FreeFrameResources(n)` empties exactly the lists of the
slots whose recorded fence value is at most `n`, leaves the other lists as they
are, and sets the ring to `HasCompletedFrame(n)` followed by
`SetCurrentFrame(CurrentFrame())`. A `WaitForFrame(n)` that returns ends with
`FreeFrameResources(n)`: on the state it was called in (lists, fence values,
ring and current frame untouched) unless the fence is below `n`, `n + 1` is
`next_fence_` and the command list is open, in which case on the state the
nested `SubmitAndWait(false)` returned. -/
theorem keep_alive_lists_release (K PRESENT fuel : Nat) (self : FrameScheduler) (n : Nat)
    (o o2 : Outside) :
    (∀ r s1, FrameScheduler.MarkResourceAsUsed K self r = Except.ok s1 →
      s1.frame_resources_to_free_ self.current_back_buffer_ =
        self.frame_resources_to_free_ self.current_back_buffer_ ++ [r] ∧
      (∀ i, i ≠ self.current_back_buffer_ →
        s1.frame_resources_to_free_ i = self.frame_resources_to_free_ i) ∧
      s1.fence_values_ = self.fence_values_) ∧
    (∀ i, (FrameScheduler.FreeFrameResources K self n).frame_resources_to_free_ i =
      if i < K ∧ self.fence_values_ i ≤ n then [] else self.frame_resources_to_free_ i) ∧
    (FrameScheduler.FreeFrameResources K self n).dynamic_ring_buffer_ =
      (self.dynamic_ring_buffer_.HasCompletedFrame n).SetCurrentFrame
        self.toDevice.CurrentFrame ∧
    (FrameScheduler.FreeFrameResources K self n).fence_values_ = self.fence_values_ ∧
    ∀ w, FrameScheduler.WaitForFrame K PRESENT fuel self n o o2 = some (Except.ok w) →
      ∃ pre, w = FrameScheduler.FreeFrameResources K pre n ∧
        (¬ (o.GetCompletedValue < n ∧ (n + 1) % 2 ^ 64 = self.next_fence_ ∧
            self.dirty_flags_ &&& DIRTY_FLAG_CMD_LIST_CLOSED = 0) →
          pre.frame_resources_to_free_ = self.frame_resources_to_free_ ∧
          pre.fence_values_ = self.fence_values_ ∧
          pre.dynamic_ring_buffer_ = self.dynamic_ring_buffer_ ∧
          pre.toDevice.CurrentFrame = self.toDevice.CurrentFrame) ∧
        ((o.GetCompletedValue < n ∧ (n + 1) % 2 ^ 64 = self.next_fence_ ∧
            self.dirty_flags_ &&& DIRTY_FLAG_CMD_LIST_CLOSED = 0) →
          FrameScheduler.SubmitAndWait K PRESENT (fuel - 1)
            { self with cmd_list_done_fence_ := o.GetCompletedValue } false o2 o2 =
              some (Except.ok pre)) := by
  refine ⟨?_, fun i => rfl, rfl, rfl, ?_⟩
  · intro r s1 h
    obtain ⟨-, rfl⟩ := MarkResourceAsUsed_ok h
    refine ⟨?_, ?_, rfl⟩
    · show (if self.current_back_buffer_ = self.current_back_buffer_ then _ else _) = _
      rw [if_pos rfl]
    · intro i hi
      show (if i = self.current_back_buffer_ then _ else _) = _
      rw [if_neg hi]
  · intro w h
    obtain ⟨-, pre, rfl, hcase⟩ := WaitForFrame_inv h
    refine ⟨pre, rfl, ?_, ?_⟩
    · intro hc
      rcases hcase with ⟨hyes, -⟩ | ⟨-, rfl⟩
      · exact absurd hyes hc
      · obtain ⟨a1, a2, a3, -, -, -⟩ := afterWait_fields self n o
        refine ⟨a3, a2, ?_, ?_⟩
        · rw [a1]
        · rw [a1]
    · intro hc
      rcases hcase with ⟨-, hS⟩ | ⟨hno, -⟩
      · exact hS
      · exact absurd hc hno

/-- C14, amended, at a concrete call: `WaitForFrame(0)` on the device
`frame2Marked`, whose slot 0 carries fence value 1, returns and keeps the
resource marked in slot 0. -/
theorem keep_alive_lists_release_witness :
    ∃ w pre, FrameScheduler.WaitForFrame kNumBackBuffers 0 3 frame2Marked 0
        ⟨0, 1, false⟩ ⟨0, 1, false⟩ = some (Except.ok w) ∧
      w = FrameScheduler.FreeFrameResources kNumBackBuffers pre 0 ∧
      pre.frame_resources_to_free_ = frame2Marked.frame_resources_to_free_ ∧
      w.frame_resources_to_free_ 0 = [77] := by
  obtain ⟨pre, h1, h2, -⟩ := (keep_alive_lists_release kNumBackBuffers 0 3 frame2Marked 0
    ⟨0, 1, false⟩ ⟨0, 1, false⟩).2.2.2.2 _ rfl
  exact ⟨_, pre, rfl, h1, (h2 (fun hc => absurd hc.1 (by decide))).1, rfl⟩

theorem or_and_self (b m : Nat) : (b ||| m) &&& m = m := by
  apply Nat.eq_of_testBit_eq
  intro i
  rw [Nat.testBit_and, Nat.testBit_or]
  cases b.testBit i <;> cases m.testBit i <;> rfl

theorem and_of_submask {x m flag : Nat} (hx : x &&& m = m) (hf : m &&& flag = flag) :
    x &&& flag = flag := by
  rw [← hf, ← Nat.and_assoc, hx]

theorem closed_bit_cleared (f m : Nat) (hm : m &&& 1 = 0) :
    (((f ||| 1) ^^^ 1) ||| m) &&& 1 = 0 := by
  apply Nat.eq_of_testBit_eq
  intro i
  have hmi := congrArg (fun x => Nat.testBit x i) hm
  simp only [Nat.testBit_and, Nat.zero_testBit] at hmi
  rw [Nat.testBit_and, Nat.testBit_or, Nat.testBit_xor, Nat.testBit_or, Nat.zero_testBit]
  cases h1 : Nat.testBit 1 i
  · simp
  · rw [h1] at hmi
    simp only [Bool.and_true] at hmi
    rw [hmi]
    simp

theorem SubmitAndWait_dirty_flags {K PRESENT fuel : Nat} {self s2 : FrameScheduler}
    {should_present : Bool} {o o2 : Outside}
    (h : FrameScheduler.SubmitAndWait K PRESENT fuel self should_present o o2 =
      some (Except.ok s2)) :
    s2.dirty_flags_ =
      ((self.dirty_flags_ ||| DIRTY_FLAG_CMD_LIST_CLOSED) ^^^ DIRTY_FLAG_CMD_LIST_CLOSED) |||
        DIRTY_FLAG_ALL_RESOURCES := by
  obtain ⟨s1, hs, -, -, rfl⟩ := SubmitAndWait_inv h
  obtain ⟨-, -, -, -, -, c6, -, -, -⟩ := submitCommands_inv hs
  obtain ⟨-, -, -, -, d5, -⟩ := afterWait_fields
    { s1 with current_back_buffer_ := o.GetCurrentBackBufferIndex }
    (s1.fence_values_ o.GetCurrentBackBufferIndex) o
  show ((FrameScheduler.afterWait _ _ o).dirty_flags_ ^^^ DIRTY_FLAG_CMD_LIST_CLOSED) |||
    DIRTY_FLAG_ALL_RESOURCES = _
  rw [d5]
  show (s1.dirty_flags_ ^^^ DIRTY_FLAG_CMD_LIST_CLOSED) ||| DIRTY_FLAG_ALL_RESOURCES = _
  rw [c6]

/-- C29: when `SubmitAndWait` returns, `DIRTY_FLAG_CMD_LIST_CLOSED` is clear in
`dirty_flags_` and all of `DIRTY_FLAG_ALL_RESOURCES` is set: each of the seven
category flags (output merger, transforms, vertex constants, pixel constants,
textures, samplers, lights) tests as set. -/
theorem SubmitAndWait_leaves_all_dirty (K PRESENT fuel : Nat) (self s2 : FrameScheduler)
    (should_present : Bool) (o o2 : Outside)
    (h : FrameScheduler.SubmitAndWait K PRESENT fuel self should_present o o2 =
      some (Except.ok s2)) :
    s2.dirty_flags_ &&& DIRTY_FLAG_CMD_LIST_CLOSED = 0 ∧
    s2.dirty_flags_ &&& DIRTY_FLAG_ALL_RESOURCES = DIRTY_FLAG_ALL_RESOURCES ∧
    ∀ flag ∈ resourceFlags, s2.dirty_flags_ &&& flag = flag ∧ s2.dirty_flags_ &&& flag ≠ 0 := by
  have hf := SubmitAndWait_dirty_flags h
  have hall : s2.dirty_flags_ &&& DIRTY_FLAG_ALL_RESOURCES = DIRTY_FLAG_ALL_RESOURCES := by
    rw [hf]
    exact or_and_self _ _
  refine ⟨?_, hall, ?_⟩
  · rw [hf]
    exact closed_bit_cleared self.dirty_flags_ DIRTY_FLAG_ALL_RESOURCES (by decide)
  · intro flag hflag
    have hsub : DIRTY_FLAG_ALL_RESOURCES &&& flag = flag ∧ flag ≠ 0 := by
      simp only [resourceFlags, List.mem_cons, List.mem_singleton, List.not_mem_nil,
        or_false] at hflag
      rcases hflag with rfl | rfl | rfl | rfl | rfl | rfl | rfl <;> decide
    have hset := and_of_submask hall hsub.1
    exact ⟨hset, by rw [hset]; exact hsub.2⟩

/-- C29 on the device as `Device::Init` leaves it: after the first `Present`
the flags are `0xFE`. -/
theorem SubmitAndWait_leaves_all_dirty_witness :
    ∃ s2, FrameScheduler.SubmitAndWait kNumBackBuffers 0 2 afterReset true
        ⟨1, 1, false⟩ ⟨1, 1, false⟩ = some (Except.ok s2) ∧
      s2.dirty_flags_ = 0xFE ∧
      s2.dirty_flags_ &&& DIRTY_FLAG_CMD_LIST_CLOSED = 0 :=
  ⟨_, rfl, rfl,
    (SubmitAndWait_leaves_all_dirty kNumBackBuffers 0 2 afterReset _ true ⟨1, 1, false⟩
      ⟨1, 1, false⟩ rfl).1⟩


theorem HasCompletedFrame_current_frame (s : DynamicRingBuffer) (n : Nat) :
    (s.HasCompletedFrame n).current_frame_ = s.current_frame_ := by
  unfold DynamicRingBuffer.HasCompletedFrame
  split <;> rfl

theorem SetCurrentFrame_current_frame (s : DynamicRingBuffer) (f : Nat)
    (h : s.current_frame_ ≤ f) : (s.SetCurrentFrame f).current_frame_ = f := by
  unfold DynamicRingBuffer.SetCurrentFrame
  by_cases hgt : f > s.current_frame_
  · rw [if_pos hgt]
  · rw [if_neg hgt]
    exact le_antisymm h (Nat.le_of_not_lt hgt)

theorem GetGpuPtr_ring_frame {dev devG : Device} {self selfG : DynamicBuffer} {addr : Int}
    (h : DynamicBuffer.GetGpuPtr dev self = Except.ok (addr, devG, selfG)) :
    devG.dynamic_ring_buffer_.current_frame_ = dev.dynamic_ring_buffer_.current_frame_ := by
  by_cases hc : self.is_speculative_write_persisted_ = false ∧ self.speculative_write_cache_ ≠ []
  · obtain ⟨alloc, ring, hA, -, rfl, -⟩ := GetGpuPtr_promote_inv dev self hc.1 hc.2 h
    obtain ⟨-, off, t, -, -, rfl, -⟩ := Allocate_ok_inv hA
    rfl
  · have hs : self.is_speculative_write_persisted_ = true ∨ self.speculative_write_cache_ = [] := by
      by_cases hp : self.is_speculative_write_persisted_ = true
      · exact Or.inl hp
      · right
        by_contra hne
        exact hc ⟨by simpa using hp, hne⟩
    rw [GetGpuPtr_settled hs] at h
    split_ifs at h
    · simp only [Except.ok.injEq, Prod.mk.injEq] at h
      rw [← h.2.1]
    · cases hG : dev.dynamic_ring_buffer_.GetGpuPtrFor self.current_ring_alloc_ with
      | error e =>
        rw [hG] at h
        cases h
      | ok ptr =>
        rw [hG] at h
        simp only [Except.ok.injEq, Prod.mk.injEq] at h
        rw [← h.2.1]

theorem PersistDynamicChanges_ring_frame {dev dev2 : Device} {self self2 : DynamicBuffer}
    (h : DynamicBuffer.PersistDynamicChanges dev self = Except.ok (dev2, self2)) :
    dev2.dynamic_ring_buffer_.current_frame_ = dev.dynamic_ring_buffer_.current_frame_ := by
  obtain ⟨addr, devG, selfG, r, hG, -, -, -, rfl, -⟩ := PersistDynamicChanges_inv h
  have hframe : devG.dynamic_ring_buffer_.current_frame_ =
      dev.dynamic_ring_buffer_.current_frame_ := GetGpuPtr_ring_frame hG
  exact hframe

theorem persistAll_ring_frame (l : List Nat) :
    ∀ (dev dev2 : Device) (buffers buffers2 : Nat → Option DynamicBuffer),
      persistAll dev buffers l = Except.ok (dev2, buffers2) →
      dev2.dynamic_ring_buffer_.current_frame_ = dev.dynamic_ring_buffer_.current_frame_ := by
  induction l with
  | nil =>
    intro dev dev2 buffers buffers2 h
    unfold persistAll at h
    simp only [Except.ok.injEq, Prod.mk.injEq] at h
    rw [← h.1]
  | cons b rest ih =>
    intro dev dev2 buffers buffers2 h
    unfold persistAll at h
    cases hb : buffers b with
    | none =>
      rw [hb] at h
      cases h
    | some buffer =>
      rw [hb] at h
      dsimp only at h
      cases hP : DynamicBuffer.PersistDynamicChanges dev buffer with
      | error e =>
        rw [hP] at h
        cases h
      | ok r =>
        obtain ⟨dev1, buffer1⟩ := r
        rw [hP] at h
        dsimp only at h
        rw [ih _ _ _ _ h]
        exact PersistDynamicChanges_ring_frame hP

theorem TransitionTexture_ring {K : Nat} {self s1 : FrameScheduler} {texture sub state : Nat}
    (h : FrameScheduler.TransitionTexture K self texture sub state = Except.ok s1) :
    s1.dynamic_ring_buffer_ = self.dynamic_ring_buffer_ := by
  unfold FrameScheduler.TransitionTexture at h
  cases hg : self.back_buffers_.get? texture with
  | none =>
    rw [hg] at h
    cases h
  | some tex =>
    rw [hg] at h
    dsimp only at h
    by_cases hs : tex.current_state_ = state
    · rw [if_pos hs] at h
      cases h
      rfl
    · rw [if_neg hs] at h
      obtain ⟨-, rfl⟩ := MarkResourceAsUsed_ok h
      rfl

theorem submitCommands_ring_frame {K PRESENT : Nat} {self s1 : FrameScheduler}
    {should_present : Bool}
    (h : FrameScheduler.submitCommands K PRESENT self should_present = Except.ok s1) :
    s1.dynamic_ring_buffer_.current_frame_ = self.dynamic_ring_buffer_.current_frame_ := by
  unfold FrameScheduler.submitCommands at h
  rw [ASSERT_eq_ok] at h
  obtain ⟨-, h⟩ := h
  generalize hT : (if should_present = true then
      FrameScheduler.TransitionTexture K self self.current_back_buffer_ 0 PRESENT
    else Except.ok self) = t at h
  cases t with
  | error e => cases h
  | ok sT =>
    dsimp only at h
    have hring : sT.dynamic_ring_buffer_ = self.dynamic_ring_buffer_ := by
      cases should_present with
      | true =>
        rw [if_pos rfl] at hT
        exact TransitionTexture_ring hT
      | false =>
        rw [if_neg (by simp)] at hT
        cases hT
        rfl
    cases hP : persistAll sT.toDevice sT.buffers sT.buffers_to_persist_ with
    | error e =>
      rw [hP] at h
      cases h
    | ok r =>
      obtain ⟨dev, buffers⟩ := r
      rw [hP] at h
      dsimp only at h
      have hdev := persistAll_ring_frame _ _ _ _ _ hP
      by_cases hc : sT.current_back_buffer_ < K
      · rw [if_pos hc] at h
        cases h
        show dev.dynamic_ring_buffer_.current_frame_ = _
        rw [hdev, hring]
      · rw [if_neg hc] at h
        cases h

theorem FreeFrameResources_ring_frame (K : Nat) (s : FrameScheduler) (n : Nat)
    (h : s.dynamic_ring_buffer_.current_frame_ ≤ s.next_fence_) :
    RingInStep (FrameScheduler.FreeFrameResources K s n).toDevice := by
  show ((s.dynamic_ring_buffer_.HasCompletedFrame n).SetCurrentFrame
    s.next_fence_).current_frame_ = s.next_fence_
  apply SetCurrentFrame_current_frame
  rw [HasCompletedFrame_current_frame]
  exact h

theorem SubmitAndWait_ring_in_step {K PRESENT fuel : Nat} {self s2 : FrameScheduler}
    {should_present : Bool} {o o2 : Outside} (hnext : self.next_fence_ + 1 < 2 ^ 64)
    (hstep : self.dynamic_ring_buffer_.current_frame_ ≤ self.next_fence_)
    (h : FrameScheduler.SubmitAndWait K PRESENT fuel self should_present o o2 =
      some (Except.ok s2)) :
    RingInStep s2.toDevice := by
  obtain ⟨s1, hs, -, -, rfl⟩ := SubmitAndWait_inv h
  obtain ⟨-, -, c1, -⟩ := submitCommands_inv hs
  have hr := submitCommands_ring_frame hs
  obtain ⟨d1, -⟩ := afterWait_fields
    { s1 with current_back_buffer_ := o.GetCurrentBackBufferIndex }
    (s1.fence_values_ o.GetCurrentBackBufferIndex) o
  have hpre : (FrameScheduler.afterWait
      { s1 with current_back_buffer_ := o.GetCurrentBackBufferIndex }
      (s1.fence_values_ o.GetCurrentBackBufferIndex) o).dynamic_ring_buffer_.current_frame_ ≤
      (FrameScheduler.afterWait
      { s1 with current_back_buffer_ := o.GetCurrentBackBufferIndex }
      (s1.fence_values_ o.GetCurrentBackBufferIndex) o).next_fence_ := by
    rw [d1]
    show s1.dynamic_ring_buffer_.current_frame_ ≤ s1.next_fence_
    rw [hr, c1, Nat.mod_eq_of_lt hnext]
    exact Nat.le_succ_of_le hstep
  exact FreeFrameResources_ring_frame K _ _ hpre


/-- C27: on a device whose ring allocator is in the frame the device records
(`current_frame_` equal to `CurrentFrame()`), this is again so when
`SubmitAndWait` or `WaitForFrame` returns. In such a state an allocation is
tagged with `CurrentFrame()` and passes the checks of `GetCpuPtrFor` and
`GetGpuPtrFor` on the ring it leaves, and a `GetGpuPtr` that promotes a cache
leaves `current_ring_alloc_.frame` equal to `CurrentFrame()`, which is what
`PersistDynamicChanges` asserts. `Device::Init` starts in such a state: it sets
`next_fence_` to 1 and calls `SetCurrentFrame(CurrentFrame())` on the ring it
has just constructed. The frame counter is below its 64-bit limit. -/
theorem ring_frame_follows_device (K PRESENT fuel : Nat) (self : FrameScheduler)
    (should_present : Bool) (o o2 : Outside) (hnext : self.next_fence_ + 1 < 2 ^ 64)
    (hstep : RingInStep self.toDevice) :
    (∀ s2, FrameScheduler.SubmitAndWait K PRESENT fuel self should_present o o2 =
        some (Except.ok s2) → RingInStep s2.toDevice) ∧
    (∀ n w, FrameScheduler.WaitForFrame K PRESENT fuel self n o o2 = some (Except.ok w) →
      RingInStep w.toDevice) ∧
    (∀ n a alloc ring1, self.dynamic_ring_buffer_.Allocate n a = Except.ok (alloc, ring1) →
      alloc.frame = self.toDevice.CurrentFrame ∧
      ring1.GetCpuPtrFor alloc = Except.ok (self.dynamic_ring_buffer_.cpu_ptr_ + alloc.offset) ∧
      ring1.GetGpuPtrFor alloc = Except.ok (self.dynamic_ring_buffer_.gpu_ptr_ + alloc.offset)) ∧
    (∀ buffer addr devG bufferG, buffer.is_speculative_write_persisted_ = false →
      buffer.speculative_write_cache_ ≠ [] →
      DynamicBuffer.GetGpuPtr self.toDevice buffer = Except.ok (addr, devG, bufferG) →
      bufferG.current_ring_alloc_.frame = devG.CurrentFrame) ∧
    ∀ placement buffer cpu_ptr size,
      ((DynamicRingBuffer.create placement buffer cpu_ptr size).SetCurrentFrame
        1).current_frame_ = 1 := by
  have hle : self.dynamic_ring_buffer_.current_frame_ ≤ self.next_fence_ := le_of_eq hstep
  refine ⟨fun s2 h => SubmitAndWait_ring_in_step hnext hle h, ?_, ?_, ?_,
    fun placement buffer cpu_ptr size => rfl⟩
  · intro n w h
    obtain ⟨-, pre, rfl, hcase⟩ := WaitForFrame_inv h
    apply FreeFrameResources_ring_frame
    rcases hcase with ⟨-, hS⟩ | ⟨-, rfl⟩
    · have hpre : RingInStep pre.toDevice :=
        @SubmitAndWait_ring_in_step K PRESENT (fuel - 1)
          { self with cmd_list_done_fence_ := o.GetCompletedValue } pre false o2 o2
          hnext hle hS
      exact le_of_eq hpre
    · rw [(afterWait_fields self n o).1]
      exact hle
  · intro n a alloc ring1 h
    obtain ⟨h1, h2, -, -, -, h6, -⟩ := Allocate_ok_ptrs h
    exact ⟨h6.trans hstep, h1, h2⟩
  · intro buffer addr devG bufferG hp hc h
    obtain ⟨alloc, ring, hA, -, rfl, rfl⟩ := GetGpuPtr_promote_inv self.toDevice buffer hp hc h
    obtain ⟨-, -, -, -, -, h6, -⟩ := Allocate_ok_ptrs hA
    exact h6.trans hstep

/-- C27 on the device as `Device::Init` leaves it: the ring is in frame 2, the
frame being recorded, and still follows the device after the first `Present`. -/
theorem ring_frame_follows_device_witness :
    RingInStep schedulerInit.toDevice ∧ RingInStep afterReset.toDevice ∧
    ∃ s2, FrameScheduler.SubmitAndWait kNumBackBuffers 0 2 afterReset true
        ⟨1, 1, false⟩ ⟨1, 1, false⟩ = some (Except.ok s2) ∧
      s2.dynamic_ring_buffer_.current_frame_ = 3 ∧ RingInStep s2.toDevice :=
  ⟨rfl, rfl, _, rfl, rfl,
    (ring_frame_follows_device kNumBackBuffers 0 2 afterReset true ⟨1, 1, false⟩
      ⟨1, 1, false⟩ (by decide) rfl).1 _ rfl⟩


/-! ## Theorems: which frame `WaitForFrame` submits for -/

/-- A `WaitForFrame` for the frame being recorded, `CurrentFrame()`, never
submits: whatever the fence reads and whether or not the wait times out, it
returns with `FreeFrameResources` applied to the state as waited for. -/
theorem WaitForFrame_current_frame_waits (K PRESENT fuel : Nat) (self : FrameScheduler)
    (o o2 : Outside) (hnext : self.next_fence_ + 1 < 2 ^ 64) :
    FrameScheduler.WaitForFrame K PRESENT (fuel + 1) self self.toDevice.CurrentFrame o o2 =
      some (Except.ok (FrameScheduler.FreeFrameResources K
        (self.afterWait self.toDevice.CurrentFrame o) self.toDevice.CurrentFrame)) := by
  have hc : ¬ (o.GetCompletedValue < self.toDevice.CurrentFrame ∧
      (self.toDevice.CurrentFrame + 1) % 2 ^ 64 = self.next_fence_ ∧
      self.dirty_flags_ &&& DIRTY_FLAG_CMD_LIST_CLOSED = 0) := by
    rintro ⟨-, h2, -⟩
    have h3 : (self.next_fence_ + 1) % 2 ^ 64 = self.next_fence_ := h2
    rw [Nat.mod_eq_of_lt hnext] at h3
    omega
  rw [WaitForFrame_no_submit K PRESENT fuel self _ o o2 hc]
  exact if_pos (le_refl _)

/-- C24, on the code: the device as `Device::Init` leaves it records frame 2
with the command list open. `WaitForFrame(2)`, for the frame being recorded,
with the fence at 1 and a wait that times out, submits nothing: the queue is as
before, `CurrentFrame()` is still 2, the fence is still at 1, and the call
returns. `WaitForFrame(1)`, for the frame already submitted, with the fence
read as 0, does run `SubmitAndWait(false)`: two more entries on the queue and
`CurrentFrame()` 3. -/
theorem WaitForFrame_submits_for_previous_frame :
    afterReset.toDevice.CurrentFrame = 2 ∧
    afterReset.dirty_flags_ &&& DIRTY_FLAG_CMD_LIST_CLOSED = 0 ∧
    afterReset.cmd_queue_ = [QueueOp.ExecuteCommandLists [], QueueOp.Signal 1] ∧
    (match FrameScheduler.WaitForFrame kNumBackBuffers 0 3 afterReset 2
        ⟨0, 1, true⟩ ⟨0, 1, true⟩ with
      | some (Except.ok w) =>
        some (w.cmd_queue_, w.toDevice.CurrentFrame, w.cmd_list_done_fence_)
      | _ => none) =
      some ([QueueOp.ExecuteCommandLists [], QueueOp.Signal 1], 2, 1) ∧
    (match FrameScheduler.WaitForFrame kNumBackBuffers 0 3 afterReset 1
        ⟨0, 0, false⟩ ⟨0, 0, false⟩ with
      | some (Except.ok w) => some (w.cmd_queue_, w.toDevice.CurrentFrame)
      | _ => none) =
      some ([QueueOp.ExecuteCommandLists [], QueueOp.Signal 1,
        QueueOp.ExecuteCommandLists [], QueueOp.Signal 2], 3) := by
  refine ⟨rfl, rfl, rfl, rfl, rfl⟩


/-! ## Theorems: promotion on a no-overwrite lock -/

theorem promoteForAppend_ranges {dev dev1 : Device} {self self1 : DynamicBuffer}
    (h : DynamicBuffer.promoteForAppend dev self = Except.ok (dev1, self1)) :
    self1.written_ranges_ = self.written_ranges_ ∧ self1.speculative_write_cache_ = [] := by
  by_cases hc : self.speculative_write_cache_ = []
  · rw [promoteForAppend_empty dev self hc] at h
    simp only [Except.ok.injEq, Prod.mk.injEq] at h
    obtain ⟨-, rfl⟩ := h
    exact ⟨rfl, hc⟩
  · obtain ⟨alloc, ring, -, -, rfl⟩ := promoteForAppend_pending dev self hc h
    exact ⟨rfl, rfl⟩

theorem lockAppend_ranges {dev dev1 : Device} {self self1 : DynamicBuffer} {off sz : Int}
    {p : BytePtr}
    (h : DynamicBuffer.lockAppend dev self true off sz = Except.ok (p, dev1, self1)) :
    self.written_ranges_.insert { offset := off, size := sz } =
      Except.ok self1.written_ranges_ ∧
    self1.speculative_write_cache_ = [] := by
  unfold DynamicBuffer.lockAppend at h
  rw [ASSERT_eq_ok, ASSERT_eq_ok] at h
  obtain ⟨-, -, h⟩ := h
  cases hP : DynamicBuffer.promoteForAppend dev self with
  | error e =>
    rw [hP] at h
    cases h
  | ok r =>
    obtain ⟨devP, selfP⟩ := r
    rw [hP] at h
    dsimp only at h
    obtain ⟨hr, hc⟩ := promoteForAppend_ranges hP
    cases hC : devP.dynamic_ring_buffer_.GetCpuPtrFor selfP.current_ring_alloc_ with
    | error e =>
      rw [hC] at h
      cases h
    | ok ring_ptr =>
      rw [hC] at h
      dsimp only at h
      cases hI : selfP.written_ranges_.insert { offset := off, size := sz } with
      | error e =>
        rw [hI] at h
        cases h
      | ok ranges =>
        rw [hI] at h
        simp only [Except.ok.injEq, Prod.mk.injEq] at h
        obtain ⟨-, -, rfl⟩ := h
        rw [hr] at hI
        exact ⟨hI, hc⟩

/-- C21: a no-overwrite lock at `(Off, Size)` of a dynamic buffer already locked
in the current frame whose speculative cache is pending makes one ring
allocation of the buffer's full size `size_`, copies the cache to the start of
it, empties the cache, returns the allocation's CPU address plus `Off` and
inserts the locked range into `written_ranges_`; after the application wrote
`w` through the pointer, a further no-overwrite lock in the same frame leaves
the ring as it is (no allocation, same memory) and returns a pointer into the
same allocation. -/
theorem NoOverwrite_lock_promotes_once (K : LockFlagBits) (dev dev1 dev2 : Device)
    (self self1 self2 : DynamicBuffer) (Off Size Flags Off2 Size2 Flags2 : Nat)
    (p p2 : BytePtr) (w : List Byte)
    (hcache : self.speculative_write_cache_ ≠ [])
    (hframe : self.prev_lock_frame_ = dev.CurrentFrame)
    (hsize0 : 0 ≤ self.size_) (hsize1 : self.size_ ≤ INT32_MAX)
    (hd : HasFlag Flags K.D3DLOCK_DISCARD = Except.ok false)
    (hn : HasFlag Flags K.D3DLOCK_NOOVERWRITE = Except.ok true)
    (h : DynamicBuffer.Lock K dev self Off Size Flags = Except.ok (p, dev1, self1))
    (hd2 : HasFlag Flags2 K.D3DLOCK_DISCARD = Except.ok false)
    (hn2 : HasFlag Flags2 K.D3DLOCK_NOOVERWRITE = Except.ok true)
    (h2 : DynamicBuffer.Lock K (store dev1 self1 p w).1 (store dev1 self1 p w).2
      Off2 Size2 Flags2 = Except.ok (p2, dev2, self2)) :
    ∃ alloc ring,
      dev.dynamic_ring_buffer_.Allocate self.size_.toNat
        D3D12_CONSTANT_BUFFER_DATA_PLACEMENT_ALIGNMENT = Except.ok (alloc, ring) ∧
      alloc.size = self.size_ ∧
      dev1.dynamic_ring_buffer_.tail_ = ring.tail_ ∧
      dev1.dynamic_ring_buffer_.buffer_.mem =
        memcpy ring.buffer_.mem alloc.offset self.speculative_write_cache_ ∧
      readBytes dev1.dynamic_ring_buffer_.buffer_.mem alloc.offset
        self.speculative_write_cache_.length = self.speculative_write_cache_ ∧
      self1.speculative_write_cache_ = [] ∧
      self1.current_ring_alloc_ = alloc ∧
      p = BytePtr.ring (dev.dynamic_ring_buffer_.cpu_ptr_ + alloc.offset + Off) ∧
      self.written_ranges_.insert
        { offset := (Off : Int), size := toInt32 (lockedSize self Size) } =
        Except.ok self1.written_ranges_ ∧
      dev2.dynamic_ring_buffer_.tail_ = ring.tail_ ∧
      dev2.dynamic_ring_buffer_.buffer_.mem =
        (store dev1 self1 p w).1.dynamic_ring_buffer_.buffer_.mem ∧
      self2.current_ring_alloc_ = alloc ∧
      p2 = BytePtr.ring (dev.dynamic_ring_buffer_.cpu_ptr_ + alloc.offset + Off2) := by
  obtain ⟨alloc, ring, hAl, hsz, hp, hRB, hmem⟩ :=
    RingBacked_of_first_append hcache hframe hsize0 hsize1 hd hn h
  obtain ⟨-, hA⟩ := Lock_append_inv hd hn (by rw [hframe]; exact lt_irrefl _) h
  obtain ⟨hI, hc⟩ := lockAppend_ranges hA
  subst hp
  obtain ⟨hp2, hRB2, hmem2⟩ := RingBacked_append (RingBacked_store hRB _ w) hd2 hn2 h2
  refine ⟨alloc, ring, hAl, hsz, hRB.2.2.2.2.2.2.2, hmem, ?_, hc, hRB.2.2.1, rfl, hI,
    hRB2.2.2.2.2.2.2.2, hmem2, hRB2.2.2.1, hp2⟩
  rw [hmem]
  exact readBytes_memcpy_same _ _ _

theorem NoOverwrite_lock_promotes_once_witness :
    ∃ alloc ring,
      (device1.MarkBufferForPersist 5).dynamic_ring_buffer_.Allocate buffer1kDiscarded.size_.toNat
        D3D12_CONSTANT_BUFFER_DATA_PLACEMENT_ALIGNMENT = Except.ok (alloc, ring) ∧
      alloc.size = buffer1kDiscarded.size_ ∧
      append1.2.1.dynamic_ring_buffer_.tail_ = ring.tail_ ∧
      append1.2.1.dynamic_ring_buffer_.buffer_.mem =
        memcpy ring.buffer_.mem alloc.offset buffer1kDiscarded.speculative_write_cache_ ∧
      readBytes append1.2.1.dynamic_ring_buffer_.buffer_.mem alloc.offset
        buffer1kDiscarded.speculative_write_cache_.length =
        buffer1kDiscarded.speculative_write_cache_ ∧
      append1.2.2.speculative_write_cache_ = [] ∧
      append1.2.2.current_ring_alloc_ = alloc ∧
      append1.1 = BytePtr.ring ((device1.MarkBufferForPersist 5).dynamic_ring_buffer_.cpu_ptr_ +
        alloc.offset + (4 : Nat)) ∧
      buffer1kDiscarded.written_ranges_.insert
        { offset := ((4 : Nat) : Int), size := toInt32 (lockedSize buffer1kDiscarded 4) } =
        Except.ok append1.2.2.written_ranges_ ∧
      append2.2.1.dynamic_ring_buffer_.tail_ = ring.tail_ ∧
      append2.2.1.dynamic_ring_buffer_.buffer_.mem =
        (store append1.2.1 append1.2.2 append1.1 [5, 6, 7, 8]).1.dynamic_ring_buffer_.buffer_.mem ∧
      append2.2.2.current_ring_alloc_ = alloc ∧
      append2.1 = BytePtr.ring ((device1.MarkBufferForPersist 5).dynamic_ring_buffer_.cpu_ptr_ +
        alloc.offset + (8 : Nat)) :=
  NoOverwrite_lock_promotes_once sdkLockBits (device1.MarkBufferForPersist 5)
    append1.2.1 append2.2.1 buffer1kDiscarded append1.2.2 append2.2.2
    4 4 0x1000 8 4 0x1000 append1.1 append2.1 [5, 6, 7, 8]
    (by decide) rfl (by decide) (by decide) rfl rfl rfl rfl rfl rfl


/-! ## Theorems: persisting the written range -/

theorem insert_starts_at_zero {ranges : List Range} {range : Range} {out : RangeSet}
    (hz : ∃ r rest, ranges = r :: rest ∧ r.offset = 0) (hoff : 0 ≤ range.offset)
    (h : RangeSet.insert { ranges := ranges } range = Except.ok out) :
    ∃ r rest, out.ranges = r :: rest ∧ r.offset = 0 := by
  obtain ⟨r, rest, rfl, hr⟩ := hz
  unfold RangeSet.insert at h
  dsimp only at h
  by_cases hlt : r.offset < range.offset
  · have hiter : lower_bound (r :: rest) range = lower_bound rest range + 1 := by
      simp [lower_bound, hlt]
    rw [hiter] at h
    generalize lower_bound rest range = k at h
    split at h
    · rename_i prev hprev
      rw [ASSERT_eq_ok] at h
      obtain ⟨-, h⟩ := h
      simp only [Except.ok.injEq] at h
      subst h
      cases k with
      | zero =>
        simp only [Nat.zero_add, ne_eq, one_ne_zero, not_false_eq_true, if_true,
          Nat.sub_self, List.get?_cons_zero, Option.filter] at hprev
        split_ifs at hprev
        · simp only [Option.some.injEq] at hprev
          subst hprev
          exact ⟨_, _, rfl, hr⟩
      | succ k =>
        exact ⟨r, _, rfl, hr⟩
    · split at h
      · split_ifs at h
        · simp only [Except.ok.injEq] at h
          subst h
          exact ⟨r, rest, rfl, hr⟩
        · rw [ASSERT_eq_ok] at h
          obtain ⟨-, h⟩ := h
          simp only [Except.ok.injEq] at h
          subst h
          exact ⟨r, _, rfl, hr⟩
        · simp only [Except.ok.injEq] at h
          subst h
          exact ⟨r, _, rfl, hr⟩
      · simp only [Except.ok.injEq] at h
        subst h
        exact ⟨r, _, rfl, hr⟩
  · have hiter : lower_bound (r :: rest) range = 0 := by
      simp [lower_bound, hlt]
    have h0 : range.offset = 0 := by omega
    rw [hiter] at h
    simp only [ne_eq, not_true_eq_false, if_false, List.get?_cons_zero] at h
    split_ifs at h
    · simp only [Except.ok.injEq] at h
      subst h
      exact ⟨r, rest, rfl, hr⟩
    · rw [ASSERT_eq_ok] at h
      obtain ⟨-, h⟩ := h
      simp only [Except.ok.injEq] at h
      subst h
      exact ⟨_, _, rfl, h0⟩
    · simp only [Except.ok.injEq] at h
      subst h
      exact ⟨range, r :: rest, rfl, h0⟩


theorem Lock_written_from_zero {K : LockFlagBits} {dev dev1 : Device}
    {self self1 : DynamicBuffer} {Off Size Flags : Nat} {p : BytePtr}
    (hz : WrittenFromZero dev self)
    (h : DynamicBuffer.Lock K dev self Off Size Flags = Except.ok (p, dev1, self1)) :
    WrittenFromZero dev1 self1 := by
  obtain ⟨hle, hz⟩ := hz
  obtain ⟨-, -, -, d, n, hd, hn, hw⟩ := Lock_ok_iff.mp h
  rcases Lock_paths h with ⟨-, hlt, -, rfl, rfl⟩ | ⟨hnot, hprev, hcur, -, -⟩
  · exact ⟨hle, hz⟩
  · unfold WrittenFromZero
    rw [hprev, hcur]
    refine ⟨le_refl _, Or.inr ?_⟩
    cases d with
    | true =>
      obtain ⟨-, -, -, -, rfl⟩ := Lock_discard_inv hd h
      exact ⟨_, _, rfl, rfl⟩
    | false =>
      cases n with
      | false =>
        unfold DynamicBuffer.lockWith DynamicBuffer.lockAppend at hw
        rw [if_neg (by simp), if_neg (by simp), ASSERT_false] at hw
        cases hw
      | true =>
        have hframe : ¬ self.prev_lock_frame_ < dev.CurrentFrame := fun hlt => hnot ⟨hn, hlt⟩
        obtain ⟨-, hA⟩ := Lock_append_inv hd hn hframe h
        obtain ⟨hI, -⟩ := lockAppend_ranges hA
        have hs : ∃ r rest, self.written_ranges_.ranges = r :: rest ∧ r.offset = 0 := by
          rcases hz with ⟨hlt, -, -⟩ | hs
          · exact absurd hlt hframe
          · exact hs
        exact insert_starts_at_zero hs (Int.natCast_nonneg _) hI

theorem GetGpuPtr_written_from_zero {dev devG : Device} {self selfG : DynamicBuffer}
    {addr : Int} (hz : WrittenFromZero dev self)
    (h : DynamicBuffer.GetGpuPtr dev self = Except.ok (addr, devG, selfG)) :
    WrittenFromZero devG selfG ∧ selfG.written_ranges_ = self.written_ranges_ ∧
      selfG.this = self.this ∧ devG.CurrentFrame = dev.CurrentFrame ∧
      selfG.prev_lock_frame_ ≤ dev.CurrentFrame ∧
      (selfG.is_speculative_write_persisted_ = true ∨ selfG.speculative_write_cache_ = []) := by
  obtain ⟨hle, hz⟩ := hz
  by_cases hpc : self.is_speculative_write_persisted_ = false ∧
      self.speculative_write_cache_ ≠ []
  · obtain ⟨alloc, ring, -, -, rfl, rfl⟩ := GetGpuPtr_promote_inv dev self hpc.1 hpc.2 h
    refine ⟨⟨le_refl _, Or.inr ?_⟩, rfl, rfl, rfl, le_refl _, Or.inl rfl⟩
    rcases hz with ⟨-, -, hs⟩ | hs
    · rcases hs with hs | hs
      · rw [hpc.1] at hs
        cases hs
      · exact absurd hs hpc.2
    · exact hs
  · have hs : self.is_speculative_write_persisted_ = true ∨
        self.speculative_write_cache_ = [] := by
      by_cases hp : self.is_speculative_write_persisted_ = true
      · exact Or.inl hp
      · right
        by_contra hc
        exact hpc ⟨by simpa using hp, hc⟩
    rw [GetGpuPtr_settled hs] at h
    split_ifs at h
    · simp only [Except.ok.injEq, Prod.mk.injEq] at h
      obtain ⟨-, rfl, rfl⟩ := h
      exact ⟨⟨hle, hz⟩, rfl, rfl, rfl, hle, hs⟩
    · split at h
      · cases h
      · simp only [Except.ok.injEq, Prod.mk.injEq] at h
        obtain ⟨-, rfl, rfl⟩ := h
        exact ⟨⟨hle, hz⟩, rfl, rfl, rfl, hle, hs⟩

theorem store_written_from_zero {dev : Device} {self : DynamicBuffer}
    (hz : WrittenFromZero dev self) (ptr : BytePtr) (bytes : List Byte) :
    WrittenFromZero (store dev self ptr bytes).1 (store dev self ptr bytes).2 := by
  obtain ⟨hle, hz⟩ := hz
  cases ptr with
  | cache index =>
    refine ⟨hle, ?_⟩
    rcases hz with ⟨hlt, hr, hs⟩ | hs
    · refine Or.inl ⟨hlt, hr, ?_⟩
      rcases hs with hs | hs
      · exact Or.inl hs
      · right
        unfold store
        dsimp only
        rw [hs]
        rfl
    · exact Or.inr hs
  | ring address => exact ⟨hle, hz⟩
  | resource offset => exact ⟨hle, hz⟩

theorem Unlock_written_from_zero {dev : Device} {self : DynamicBuffer}
    (hz : WrittenFromZero dev self) : WrittenFromZero dev (DynamicBuffer.Unlock dev self) := by
  unfold DynamicBuffer.Unlock
  split
  · exact hz
  · exact hz


theorem GetGpuPtr_cmd_list {dev devG : Device} {self selfG : DynamicBuffer} {addr : Int}
    (h : DynamicBuffer.GetGpuPtr dev self = Except.ok (addr, devG, selfG)) :
    devG.cmd_list_ = dev.cmd_list_ := by
  by_cases hc : self.is_speculative_write_persisted_ = false ∧ self.speculative_write_cache_ ≠ []
  · obtain ⟨alloc, ring, -, -, rfl, -⟩ := GetGpuPtr_promote_inv dev self hc.1 hc.2 h
    rfl
  · have hs : self.is_speculative_write_persisted_ = true ∨ self.speculative_write_cache_ = [] := by
      by_cases hp : self.is_speculative_write_persisted_ = true
      · exact Or.inl hp
      · right
        by_contra hne
        exact hc ⟨by simpa using hp, hne⟩
    rw [GetGpuPtr_settled hs] at h
    split_ifs at h
    · simp only [Except.ok.injEq, Prod.mk.injEq] at h
      rw [← h.2.1]
    · cases hG : dev.dynamic_ring_buffer_.GetGpuPtrFor self.current_ring_alloc_ with
      | error e =>
        rw [hG] at h
        cases h
      | ok ptr =>
        rw [hG] at h
        simp only [Except.ok.injEq, Prod.mk.injEq] at h
        rw [← h.2.1]

/-- C22: on a dynamic buffer whose written ranges are as the lock paths leave
them (`WrittenFromZero`), a `DynamicBuffer::PersistDynamicChanges` that returns
has first called `GetGpuPtr` (which resolves a pending speculative write), found
exactly one written range `(o, s)`, and appended to the command list one
`CopyBufferRegion` of `s` bytes from ring offset `alloc.offset + o` to offset `o`
of the backing resource (the code passes the literal 0, which is `o` on these
states), followed by the transition back to common; it leaves `written_ranges_`
empty and the current ring allocation cleared. The state `WrittenFromZero` holds
again once the frame has advanced, and `Lock`, `GetGpuPtr`, `Unlock` and writes
through a lock pointer preserve it. -/
theorem PersistDynamicChanges_copies_written_range (dev dev2 : Device)
    (self self2 : DynamicBuffer) (hz : WrittenFromZero dev self)
    (h : DynamicBuffer.PersistDynamicChanges dev self = Except.ok (dev2, self2)) :
    (∃ addr devG selfG o s,
      DynamicBuffer.GetGpuPtr dev self = Except.ok (addr, devG, selfG) ∧
      self.written_ranges_.ranges = [{ offset := o, size := s }] ∧
      dev2 = devG.CopyBuffer (ResourceRef.buffer self.this) o ResourceRef.ring
        (toInt32 (selfG.current_ring_alloc_.offset + o)) s ∧
      dev2.cmd_list_ = dev.cmd_list_ ++
        [Command.CopyBufferRegion (ResourceRef.buffer self.this) (toSizeT o) ResourceRef.ring
           (toSizeT (toInt32 (selfG.current_ring_alloc_.offset + o))) (toSizeT s),
         Command.TransitionToCommon (ResourceRef.buffer self.this)] ∧
      o = 0 ∧
      self2.written_ranges_.ranges = [] ∧
      self2.current_ring_alloc_ = Allocation.zero) ∧
    (∀ dev3 : Device, dev.CurrentFrame < dev3.CurrentFrame → WrittenFromZero dev3 self2) ∧
    (∀ (K : LockFlagBits) (devL dev1 : Device) (selfL self1 : DynamicBuffer)
        (Off Size Flags : Nat) (p : BytePtr), WrittenFromZero devL selfL →
      DynamicBuffer.Lock K devL selfL Off Size Flags = Except.ok (p, dev1, self1) →
      WrittenFromZero dev1 self1) ∧
    (∀ (devL devG : Device) (selfL selfG : DynamicBuffer) (addr : Int),
      WrittenFromZero devL selfL →
      DynamicBuffer.GetGpuPtr devL selfL = Except.ok (addr, devG, selfG) →
      WrittenFromZero devG selfG) ∧
    (∀ (devL : Device) (selfL : DynamicBuffer) (ptr : BytePtr) (bytes : List Byte),
      WrittenFromZero devL selfL →
      WrittenFromZero (store devL selfL ptr bytes).1 (store devL selfL ptr bytes).2 ∧
      WrittenFromZero devL (DynamicBuffer.Unlock devL selfL)) := by
  obtain ⟨addr, devG, selfG, r, hG, -, -, hr, rfl, rfl⟩ := PersistDynamicChanges_inv h
  obtain ⟨hzG, hranges, hthis, hcur, hprev, hs⟩ := GetGpuPtr_written_from_zero hz hG
  have hcmd : devG.cmd_list_ = dev.cmd_list_ := GetGpuPtr_cmd_list hG
  have h0 : r.offset = 0 := by
    rcases hzG.2 with ⟨-, hnil, -⟩ | ⟨r2, rest, hcons, hoff⟩
    · rw [hnil] at hr
      cases hr
    · rw [hcons] at hr
      simp only [List.cons.injEq] at hr
      rw [← hr.1]
      exact hoff
  refine ⟨⟨addr, devG, selfG, r.offset, r.size, hG, ?_, ?_, ?_, h0, rfl, rfl⟩, ?_, ?_, ?_, ?_⟩
  · rw [← hranges]
    exact hr
  · rw [← hthis, h0]
  · rw [← hthis, ← hcmd, h0]
    rfl
  · intro dev3 hlt
    exact ⟨le_of_lt (lt_of_le_of_lt hprev hlt),
      Or.inl ⟨lt_of_le_of_lt hprev hlt, rfl, hs⟩⟩
  · intro K devL dev1 selfL self1 Off Size Flags p hzL hL
    exact Lock_written_from_zero hzL hL
  · intro devL devG2 selfL selfG2 addr2 hzL hGL
    exact (GetGpuPtr_written_from_zero hzL hGL).1
  · intro devL selfL ptr bytes hzL
    exact ⟨store_written_from_zero hzL ptr bytes, Unlock_written_from_zero hzL⟩


/-- C22 at a concrete input: `buffer1kDiscarded` (a Discard lock of 4 bytes in
frame 1, the bytes 1, 2, 3, 4 written) is persisted. -/
theorem PersistDynamicChanges_copies_written_range_witness :
    WrittenFromZero (device1.MarkBufferForPersist 5) buffer1kDiscarded ∧
    ∃ dev2 self2,
      DynamicBuffer.PersistDynamicChanges (device1.MarkBufferForPersist 5) buffer1kDiscarded =
        Except.ok (dev2, self2) ∧
      (∃ o s, buffer1kDiscarded.written_ranges_.ranges = [{ offset := o, size := s }] ∧ o = 0) ∧
      self2.written_ranges_.ranges = [] ∧
      self2.current_ring_alloc_ = Allocation.zero := by
  have hz : WrittenFromZero (device1.MarkBufferForPersist 5) buffer1kDiscarded :=
    ⟨by decide, Or.inr ⟨_, _, rfl, rfl⟩⟩
  refine ⟨hz, ?_⟩
  cases hP : DynamicBuffer.PersistDynamicChanges (device1.MarkBufferForPersist 5)
      buffer1kDiscarded with
  | error e =>
    have hok : (DynamicBuffer.PersistDynamicChanges (device1.MarkBufferForPersist 5)
      buffer1kDiscarded).toBool = true := rfl
    rw [hP] at hok
    cases hok
  | ok r =>
    obtain ⟨dev2, self2⟩ := r
    obtain ⟨⟨addr, devG, selfG, o, s, -, hr, -, -, h0, hnil, hzero⟩, -⟩ :=
      PersistDynamicChanges_copies_written_range (device1.MarkBufferForPersist 5) dev2
        buffer1kDiscarded self2 hz hP
    exact ⟨dev2, self2, rfl, ⟨o, s, hr, h0⟩, hnil, hzero⟩


/-! ## Theorems: the promoted cache fits its ring allocation -/

theorem Lock_cache_size {K : LockFlagBits} {dev dev1 : Device} {self self1 : DynamicBuffer}
    {Off Size Flags : Nat} {p : BytePtr}
    (h : DynamicBuffer.Lock K dev self Off Size Flags = Except.ok (p, dev1, self1)) :
    self1.size_ = self.size_ ∧
    ((HasFlag Flags K.D3DLOCK_DISCARD = Except.ok true ∧
        self1.speculative_write_cache_.length = lockedSize self Size) ∨
      (HasFlag Flags K.D3DLOCK_DISCARD = Except.ok false ∧
        (self1.speculative_write_cache_ = self.speculative_write_cache_ ∨
          self1.speculative_write_cache_ = []))) := by
  obtain ⟨-, -, -, d, n, hd, hn, hw⟩ := Lock_ok_iff.mp h
  cases d with
  | true =>
    obtain ⟨-, -, -, -, rfl⟩ := Lock_discard_inv hd h
    exact ⟨rfl, Or.inl ⟨hd, by simp [afterDiscard]⟩⟩
  | false =>
    rcases Lock_paths h with ⟨-, hlt, -, rfl, rfl⟩ | ⟨hnot, hprev, hcur, -, -⟩
    · exact ⟨rfl, Or.inr ⟨hd, Or.inl rfl⟩⟩
    · cases n with
      | false =>
        unfold DynamicBuffer.lockWith DynamicBuffer.lockAppend at hw
        rw [if_neg (by simp), if_neg (by simp), ASSERT_false] at hw
        cases hw
      | true =>
        have hframe : ¬ self.prev_lock_frame_ < dev.CurrentFrame := fun hlt => hnot ⟨hn, hlt⟩
        obtain ⟨-, hA⟩ := Lock_append_inv hd hn hframe h
        obtain ⟨-, hc⟩ := lockAppend_ranges hA
        obtain ⟨selfP, ring_ptr, ranges, hP, -, -, rfl⟩ := lockAppend_inv hA
        refine ⟨?_, Or.inr ⟨hd, Or.inr hc⟩⟩
        by_cases hce : self.speculative_write_cache_ = []
        · rw [promoteForAppend_empty (dev.MarkBufferForPersist self.this)
            { self with prev_lock_frame_ := dev.CurrentFrame } hce] at hP
          simp only [Except.ok.injEq, Prod.mk.injEq] at hP
          obtain ⟨-, rfl⟩ := hP
          rfl
        · obtain ⟨alloc, ring, -, -, rfl⟩ := promoteForAppend_pending
            (dev.MarkBufferForPersist self.this)
            { self with prev_lock_frame_ := dev.CurrentFrame } hce hP
          rfl

theorem GetGpuPtr_cache_size {dev devG : Device} {self selfG : DynamicBuffer} {addr : Int}
    (h : DynamicBuffer.GetGpuPtr dev self = Except.ok (addr, devG, selfG)) :
    selfG.size_ = self.size_ ∧ selfG.speculative_write_cache_ = self.speculative_write_cache_ := by
  by_cases hc : self.is_speculative_write_persisted_ = false ∧ self.speculative_write_cache_ ≠ []
  · obtain ⟨alloc, ring, -, -, -, rfl⟩ := GetGpuPtr_promote_inv dev self hc.1 hc.2 h
    exact ⟨rfl, rfl⟩
  · have hs : self.is_speculative_write_persisted_ = true ∨ self.speculative_write_cache_ = [] := by
      by_cases hp : self.is_speculative_write_persisted_ = true
      · exact Or.inl hp
      · right
        by_contra hne
        exact hc ⟨by simpa using hp, hne⟩
    rw [GetGpuPtr_settled hs] at h
    split_ifs at h
    · simp only [Except.ok.injEq, Prod.mk.injEq] at h
      rw [← h.2.2]
      exact ⟨rfl, rfl⟩
    · cases hG : dev.dynamic_ring_buffer_.GetGpuPtrFor self.current_ring_alloc_ with
      | error e =>
        rw [hG] at h
        cases h
      | ok ptr =>
        rw [hG] at h
        simp only [Except.ok.injEq, Prod.mk.injEq] at h
        rw [← h.2.2]
        exact ⟨rfl, rfl⟩

theorem store_cache_size (dev : Device) (self : DynamicBuffer) (ptr : BytePtr)
    (bytes : List Byte) :
    (store dev self ptr bytes).2.size_ = self.size_ ∧
    (store dev self ptr bytes).2.speculative_write_cache_.length =
      self.speculative_write_cache_.length := by
  cases ptr with
  | cache index => exact ⟨rfl, by simp [store]⟩
  | ring address => exact ⟨rfl, rfl⟩
  | resource offset => exact ⟨rfl, rfl⟩

/-- C28: on a dynamic buffer whose cache holds at most `size_` bytes
(`CacheFits`), a promotion of a pending cache into the ring copies no more bytes
than the ring allocation just made holds, both from `GetGpuPtr` (allocation of
the cache's length) and from a no-overwrite lock in the current frame
(allocation of `size_` bytes). A Discard lock that requests at most `size_`
bytes establishes `CacheFits`, and the other lock paths, `GetGpuPtr`, `Unlock`,
`PersistDynamicChanges` and writes through a lock pointer preserve it. -/
theorem promoted_cache_fits_allocation (dev dev1 : Device) (self self1 : DynamicBuffer)
    (hint : self.size_ ≤ INT32_MAX) (hfit : CacheFits self)
    (hc : self.speculative_write_cache_ ≠ []) :
    (∀ addr : Int, self.is_speculative_write_persisted_ = false →
      DynamicBuffer.GetGpuPtr dev self = Except.ok (addr, dev1, self1) →
      ∃ alloc ring,
        dev.dynamic_ring_buffer_.Allocate self.speculative_write_cache_.length
          D3D12_CONSTANT_BUFFER_DATA_PLACEMENT_ALIGNMENT = Except.ok (alloc, ring) ∧
        dev1.dynamic_ring_buffer_ = ringWithCopy ring alloc self.speculative_write_cache_ ∧
        self1.current_ring_alloc_ = alloc ∧
        (self.speculative_write_cache_.length : Int) ≤ alloc.size) ∧
    (∀ (K : LockFlagBits) (Off Size Flags : Nat) (p : BytePtr),
      HasFlag Flags K.D3DLOCK_DISCARD = Except.ok false →
      HasFlag Flags K.D3DLOCK_NOOVERWRITE = Except.ok true →
      self.prev_lock_frame_ = dev.CurrentFrame →
      DynamicBuffer.Lock K dev self Off Size Flags = Except.ok (p, dev1, self1) →
      ∃ alloc ring,
        dev.dynamic_ring_buffer_.Allocate self.size_.toNat
          D3D12_CONSTANT_BUFFER_DATA_PLACEMENT_ALIGNMENT = Except.ok (alloc, ring) ∧
        dev1.dynamic_ring_buffer_ = ringWithCopy ring alloc self.speculative_write_cache_ ∧
        self1.current_ring_alloc_ = alloc ∧
        (self.speculative_write_cache_.length : Int) ≤ alloc.size) ∧
    (∀ (K : LockFlagBits) (devL devM : Device) (selfL selfM : DynamicBuffer)
        (Off Size Flags : Nat) (p : BytePtr),
      DynamicBuffer.Lock K devL selfL Off Size Flags = Except.ok (p, devM, selfM) →
      (HasFlag Flags K.D3DLOCK_DISCARD = Except.ok true →
        (lockedSize selfL Size : Int) ≤ selfL.size_) →
      (HasFlag Flags K.D3DLOCK_DISCARD = Except.ok false → CacheFits selfL) →
      CacheFits selfM) ∧
    (∀ (devL devM : Device) (selfL selfM : DynamicBuffer) (addr : Int), CacheFits selfL →
      DynamicBuffer.GetGpuPtr devL selfL = Except.ok (addr, devM, selfM) → CacheFits selfM) ∧
    (∀ (devL devM : Device) (selfL selfM : DynamicBuffer), CacheFits selfL →
      DynamicBuffer.PersistDynamicChanges devL selfL = Except.ok (devM, selfM) →
      CacheFits selfM) ∧
    (∀ (devL : Device) (selfL : DynamicBuffer) (ptr : BytePtr) (bytes : List Byte),
      CacheFits selfL →
      CacheFits (store devL selfL ptr bytes).2 ∧ CacheFits (DynamicBuffer.Unlock devL selfL)) := by
  have hlen0 : 0 < self.speculative_write_cache_.length := List.length_pos.mpr hc
  have hlen : self.speculative_write_cache_.length ≤ INT32_MAX := by
    unfold CacheFits at hfit
    unfold INT32_MAX at hint ⊢
    omega
  have hsize0 : 0 ≤ self.size_ := by
    unfold CacheFits at hfit
    omega
  refine ⟨?_, ?_, ?_, ?_, ?_, ?_⟩
  · intro addr hp hG
    obtain ⟨alloc, ring, hA, -, rfl, rfl⟩ := GetGpuPtr_promote_inv dev self hp hc hG
    rw [toInt32_natCast hlen, toSizeT_natCast hlen] at hA
    obtain ⟨-, -, -, -, -, -, hsize⟩ := Allocate_ok_ptrs hA
    refine ⟨alloc, ring, hA, rfl, rfl, ?_⟩
    rw [hsize, toInt32_natCast hlen]
  · intro K Off Size Flags p hd hn hframe h
    obtain ⟨-, hA⟩ := Lock_append_inv hd hn (by rw [hframe]; exact lt_irrefl _) h
    obtain ⟨selfP, ring_ptr, ranges, hP, -, -, rfl⟩ := lockAppend_inv hA
    obtain ⟨alloc, ring, hAl, rfl, rfl⟩ := promoteForAppend_pending
      (dev.MarkBufferForPersist self.this) { self with prev_lock_frame_ := dev.CurrentFrame }
      hc hP
    have hsz : toSizeT self.size_ = self.size_.toNat :=
      toSizeT_of_range hsize0 (by unfold INT32_MAX at hint; omega)
    rw [MarkBufferForPersist_ring, hsz] at hAl
    obtain ⟨-, -, -, -, -, -, hsize⟩ := Allocate_ok_ptrs hAl
    refine ⟨alloc, ring, hAl, rfl, rfl, ?_⟩
    have hcast : ((self.size_.toNat : Nat) : Int) = self.size_ := Int.toNat_of_nonneg hsize0
    rw [hsize, hcast, toInt32_of_range (by omega) (by unfold INT32_MAX at hint; omega)]
    exact hfit
  · intro K devL devM selfL selfM Off Size Flags p hL hdis hkeep
    obtain ⟨hs, hcase⟩ := Lock_cache_size hL
    unfold CacheFits
    rcases hcase with ⟨hd, hl⟩ | ⟨hd, hl | hl⟩
    · rw [hs, hl]
      exact hdis hd
    · rw [hs, hl]
      exact hkeep hd
    · rw [hs, hl]
      have := hkeep hd
      unfold CacheFits at this
      simp only [List.length_nil, Nat.cast_zero]
      omega
  · intro devL devM selfL selfM addr hf hG
    obtain ⟨hs, hl⟩ := GetGpuPtr_cache_size hG
    unfold CacheFits
    rw [hs, hl]
    exact hf
  · intro devL devM selfL selfM hf hP
    obtain ⟨addr, devG, selfG, r, hG, -, -, -, -, rfl⟩ := PersistDynamicChanges_inv hP
    obtain ⟨hs, hl⟩ := GetGpuPtr_cache_size hG
    unfold CacheFits
    change (selfG.speculative_write_cache_.length : Int) ≤ selfG.size_
    rw [hs, hl]
    exact hf
  · intro devL selfL ptr bytes hf
    obtain ⟨hs, hl⟩ := store_cache_size devL selfL ptr bytes
    refine ⟨?_, ?_⟩
    · unfold CacheFits
      rw [hs, hl]
      exact hf
    · unfold DynamicBuffer.Unlock
      split
      · exact hf
      · exact hf


/-- C28 at a concrete input: the no-overwrite lock `append1` promotes the four
cached bytes of `buffer1kDiscarded` into an allocation of 1024 bytes. -/
theorem promoted_cache_fits_allocation_witness :
    CacheFits buffer1kDiscarded ∧
    ∃ alloc ring,
      (device1.MarkBufferForPersist 5).dynamic_ring_buffer_.Allocate
        buffer1kDiscarded.size_.toNat D3D12_CONSTANT_BUFFER_DATA_PLACEMENT_ALIGNMENT =
        Except.ok (alloc, ring) ∧
      append1.2.1.dynamic_ring_buffer_ =
        ringWithCopy ring alloc buffer1kDiscarded.speculative_write_cache_ ∧
      append1.2.2.current_ring_alloc_ = alloc ∧
      (buffer1kDiscarded.speculative_write_cache_.length : Int) ≤ alloc.size :=
  ⟨by unfold CacheFits; decide,
    (promoted_cache_fits_allocation (device1.MarkBufferForPersist 5) append1.2.1
      buffer1kDiscarded append1.2.2 (by decide) (by unfold CacheFits; decide)
      (by decide)).2.1 sdkLockBits 4 4 0x1000 append1.1 rfl rfl rfl rfl⟩


/-! ## Theorems: the range set -/

/-- C23, on the code: the inserts `(0, 4)`, `(8, 4)`, `(4, 4)` on an empty set
pass every assertion and leave the two ranges `(0, 8)` and `(8, 4)`: the first
ends exactly where the second begins, because the range that fills the gap is
merged into its predecessor only. One more insert of `(8, 4)`, a range equal to
a stored one, leaves `(0, 12)` and `(8, 4)`, which overlap. -/
theorem insert_leaves_adjacent_ranges :
    RangeSet.insertAll { ranges := [] }
      [{ offset := 0, size := 4 }, { offset := 8, size := 4 }, { offset := 4, size := 4 }] =
      Except.ok { ranges := [{ offset := 0, size := 8 }, { offset := 8, size := 4 }] } ∧
    RangeSet.insertAll { ranges := [] }
      [{ offset := 0, size := 4 }, { offset := 8, size := 4 }, { offset := 4, size := 4 },
        { offset := 8, size := 4 }] =
      Except.ok { ranges := [{ offset := 0, size := 12 }, { offset := 8, size := 4 }] } :=
  ⟨rfl, rfl⟩

/-- C30, on the code: after the insert of `(5, 1)` on an empty set, the insert
of `(5, 2147483647)` has `range.offset + range.size` past `INT32_MAX`; the sum
wraps below the stored offset 5, the range is inserted in front of the stored
one, and two stored ranges have the same offset 5. -/
theorem insert_duplicates_offset_on_overflow :
    RangeSet.insertAll { ranges := [] }
      [{ offset := 5, size := 1 }, { offset := 5, size := 2147483647 }] =
      Except.ok { ranges := [{ offset := 5, size := 2147483647 }, { offset := 5, size := 1 }] } ∧
    ¬ OffsetsIncreasing [{ offset := 5, size := 2147483647 }, { offset := 5, size := 1 }] := by
  refine ⟨rfl, ?_⟩
  unfold OffsetsIncreasing
  simp

theorem offset_lt_of_end_lt {o s n : Int} (hs : 0 ≤ s) (h : ¬ o + s ≥ n) : o < n := by
  omega

theorem pairwise_set_same_offset (x : Range) :
    ∀ (l : List Range) (j : Nat) (prev : Range), OffsetsIncreasing l → l.get? j = some prev →
      x.offset = prev.offset → OffsetsIncreasing (l.set j x) := by
  intro l
  induction l with
  | nil =>
    intro j prev hs hg hx
    cases hg
  | cons a t ih =>
    intro j prev hs hg hx
    unfold OffsetsIncreasing at hs ⊢
    rw [List.pairwise_cons] at hs
    cases j with
    | zero =>
      simp only [List.get?_cons_zero, Option.some.injEq] at hg
      subst hg
      rw [List.set_cons_zero, List.pairwise_cons]
      exact ⟨fun b hb => by rw [hx]; exact hs.1 b hb, hs.2⟩
    | succ j =>
      simp only [List.get?_cons_succ] at hg
      rw [List.set_cons_succ, List.pairwise_cons]
      refine ⟨fun b hb => ?_, ih j prev hs.2 hg hx⟩
      rcases List.mem_or_eq_of_mem_set hb with hb | rfl
      · exact hs.1 b hb
      · rw [hx]
        exact hs.1 prev (List.get?_mem hg)

theorem pairwise_set_lower_bound (v x : Range) (hx : x.offset = v.offset) :
    ∀ (l : List Range) (next : Range), OffsetsIncreasing l →
      l.get? (lower_bound l v) = some next → OffsetsIncreasing (l.set (lower_bound l v) x) := by
  intro l
  induction l with
  | nil =>
    intro next hs hg
    cases hg
  | cons a t ih =>
    intro next hs hg
    unfold OffsetsIncreasing at hs ⊢
    rw [List.pairwise_cons] at hs
    by_cases hlt : a.offset < v.offset
    · have hiter : lower_bound (a :: t) v = lower_bound t v + 1 := by
        simp [lower_bound, hlt]
      rw [hiter] at hg ⊢
      simp only [List.get?_cons_succ] at hg
      rw [List.set_cons_succ, List.pairwise_cons]
      refine ⟨fun b hb => ?_, ih next hs.2 hg⟩
      rcases List.mem_or_eq_of_mem_set hb with hb | rfl
      · exact hs.1 b hb
      · rw [hx]
        exact hlt
    · have hiter : lower_bound (a :: t) v = 0 := by
        simp [lower_bound, hlt]
      rw [hiter]
      rw [List.set_cons_zero, List.pairwise_cons]
      refine ⟨fun b hb => ?_, hs.2⟩
      rw [hx]
      exact lt_of_le_of_lt (not_lt.mp hlt) (hs.1 b hb)

theorem pairwise_insert_lower_bound (v : Range) :
    ∀ (l : List Range), OffsetsIncreasing l →
      (∀ next, l.get? (lower_bound l v) = some next → v.offset < next.offset) →
      OffsetsIncreasing (l.take (lower_bound l v) ++ v :: l.drop (lower_bound l v)) := by
  intro l
  induction l with
  | nil =>
    intro hs hn
    unfold OffsetsIncreasing
    simp [lower_bound]
  | cons a t ih =>
    intro hs hn
    unfold OffsetsIncreasing at hs ⊢
    rw [List.pairwise_cons] at hs
    by_cases hlt : a.offset < v.offset
    · have hiter : lower_bound (a :: t) v = lower_bound t v + 1 := by
        simp [lower_bound, hlt]
      rw [hiter] at hn ⊢
      simp only [List.get?_cons_succ] at hn
      rw [List.take_succ_cons, List.drop_succ_cons, List.cons_append, List.pairwise_cons]
      refine ⟨fun b hb => ?_, ih hs.2 hn⟩
      rcases List.mem_append.mp hb with hb | hb
      · exact hs.1 b (List.mem_of_mem_take hb)
      · rcases List.mem_cons.mp hb with rfl | hb
        · exact hlt
        · exact hs.1 b (List.mem_of_mem_drop hb)
    · have hiter : lower_bound (a :: t) v = 0 := by
        simp [lower_bound, hlt]
      rw [hiter] at hn ⊢
      have hva : v.offset < a.offset := hn a rfl
      rw [List.take_zero, List.drop_zero, List.nil_append, List.pairwise_cons, List.pairwise_cons]
      refine ⟨fun b hb => ?_, hs⟩
      rcases List.mem_cons.mp hb with rfl | hb
      · exact hva
      · exact lt_trans hva (hs.1 b hb)

theorem insert_offsets_increasing {self out : RangeSet} {range : Range}
    (hs : OffsetsIncreasing self.ranges) (hsize : 0 ≤ range.size)
    (hlo : -2 ^ 31 ≤ range.offset) (hend : range.offset + range.size ≤ INT32_MAX)
    (h : self.insert range = Except.ok out) : OffsetsIncreasing out.ranges := by
  have hwrap : toInt32 (range.offset + range.size) = range.offset + range.size :=
    toInt32_of_range (by omega) (by unfold INT32_MAX at hend; omega)
  unfold RangeSet.insert at h
  dsimp only at h
  rw [hwrap] at h
  split at h
  · rename_i prev hprev
    rw [ASSERT_eq_ok] at h
    obtain ⟨-, h⟩ := h
    simp only [Except.ok.injEq] at h
    subst h
    split_ifs at hprev
    rw [Option.filter_eq_some] at hprev
    exact pairwise_set_same_offset _ _ _ prev hs hprev.1 rfl
  · split at h
    · rename_i next hnext
      split_ifs at h with hge heq
      · simp only [Except.ok.injEq] at h
        subst h
        exact hs
      · rw [ASSERT_eq_ok] at h
        obtain ⟨-, h⟩ := h
        simp only [Except.ok.injEq] at h
        subst h
        exact pairwise_set_lower_bound range
          { offset := range.offset, size := toInt32 (next.size + range.size) } rfl _ next hs hnext
      · simp only [Except.ok.injEq] at h
        subst h
        refine pairwise_insert_lower_bound range _ hs ?_
        intro next2 hnext2
        rw [hnext] at hnext2
        simp only [Option.some.injEq] at hnext2
        subst hnext2
        exact offset_lt_of_end_lt hsize hge
    · rename_i hnone
      simp only [Except.ok.injEq] at h
      subst h
      refine pairwise_insert_lower_bound range _ hs ?_
      intro next2 hnext2
      rw [hnone] at hnext2
      cases hnext2


theorem insertAll_offsets_increasing_from (l : List Range) :
    ∀ (self out : RangeSet), OffsetsIncreasing self.ranges →
      (∀ r ∈ l, 0 ≤ r.size ∧ -2 ^ 31 ≤ r.offset ∧ r.offset + r.size ≤ INT32_MAX) →
      self.insertAll l = Except.ok out → OffsetsIncreasing out.ranges := by
  induction l with
  | nil =>
    intro self out hs hr h
    unfold RangeSet.insertAll at h
    simp only [Except.ok.injEq] at h
    subst h
    exact hs
  | cons r rest ih =>
    intro self out hs hr h
    unfold RangeSet.insertAll at h
    cases hI : self.insert r with
    | error e =>
      rw [hI] at h
      cases h
    | ok next =>
      rw [hI] at h
      obtain ⟨h1, h2, h3⟩ := hr r (List.mem_cons_self r rest)
      exact ih next out (insert_offsets_increasing hs h1 h2 h3 hI)
        (fun x hx => hr x (List.mem_cons_of_mem r hx)) h

theorem insertAll_append (pre post : List Range) :
    ∀ (self out : RangeSet), self.insertAll (pre ++ post) = Except.ok out →
      ∃ mid, self.insertAll pre = Except.ok mid ∧ mid.insertAll post = Except.ok out := by
  induction pre with
  | nil =>
    intro self out h
    exact ⟨self, rfl, h⟩
  | cons r rest ih =>
    intro self out h
    rw [List.cons_append] at h
    unfold RangeSet.insertAll at h
    cases hI : self.insert r with
    | error e =>
      rw [hI] at h
      cases h
    | ok next =>
      rw [hI] at h
      obtain ⟨mid, h1, h2⟩ := ih next out h
      refine ⟨mid, ?_, h2⟩
      rw [RangeSet.insertAll, hI]
      exact h1

/-- C30, amended: after any sequence of `RangeSet::insert` calls on an initially
empty set in which every range has a non-negative size and an end
`offset + size` of at most `INT32_MAX`, and every assertion passed, the stored
ranges have strictly increasing offsets; the same holds after every prefix of
the sequence, so each `std::lower_bound` ran on a sorted vector. -/
theorem insertAll_offsets_increasing (inserted : List Range) (out : RangeSet)
    (hr : ∀ r ∈ inserted, 0 ≤ r.size ∧ -2 ^ 31 ≤ r.offset ∧ r.offset + r.size ≤ INT32_MAX)
    (h : RangeSet.insertAll { ranges := [] } inserted = Except.ok out) :
    OffsetsIncreasing out.ranges ∧
    ∀ pre post, inserted = pre ++ post →
      ∃ mid, RangeSet.insertAll { ranges := [] } pre = Except.ok mid ∧
        OffsetsIncreasing mid.ranges ∧ mid.insertAll post = Except.ok out := by
  have hnil : OffsetsIncreasing ({ ranges := [] } : RangeSet).ranges := List.Pairwise.nil
  refine ⟨insertAll_offsets_increasing_from inserted _ out hnil hr h, ?_⟩
  intro pre post hsplit
  subst hsplit
  obtain ⟨mid, hpre, hpost⟩ := insertAll_append pre post _ out h
  exact ⟨mid, hpre, insertAll_offsets_increasing_from pre _ mid hnil
    (fun r hx => hr r (List.mem_append_left post hx)) hpre, hpost⟩

theorem insertAll_offsets_increasing_witness :
    OffsetsIncreasing [{ offset := 0, size := 8 }, { offset := 8, size := 4 }] :=
  (insertAll_offsets_increasing
    [{ offset := 0, size := 4 }, { offset := 8, size := 4 }, { offset := 4, size := 4 }]
    { ranges := [{ offset := 0, size := 8 }, { offset := 8, size := 4 }] }
    (by decide) rfl).1


/-! ## Theorems: the pipeline-state cache key -/

/-- C26, on the code: `PSOState::operator==` compares the shaders, the render
state, the input layout and the depth format and never reads `prim_type`, for
any render state and any two keys; the hash does read it. The keys
`psoKeyPoints` and `psoKeyTriangles` differ in the primitive type only (1 and 4),
compare equal, have different fifth hash elements and different hashes
(3858439135 and 1274671273). -/
theorem PSOState_equality_ignores_prim_type :
    (∀ (RenderState : Type) (R : RenderStateOps RenderState) (a b : PSOState RenderState),
      (PSOState.operator_eq R a b = true ↔
        a.vs = b.vs ∧ a.ps = b.ps ∧ R.operator_eq a.rs b.rs = true ∧
        a.input_elements.length = b.input_elements.length ∧ a.dsv_format = b.dsv_format ∧
        a.input_elements.flatten = b.input_elements.flatten) ∧
      ∀ p q : Nat, PSOState.operator_eq R { a with prim_type := p } { b with prim_type := q } =
        PSOState.operator_eq R a b) ∧
    psoKeyPoints.prim_type = 1 ∧ psoKeyTriangles.prim_type = 4 ∧
    PSOState.operator_eq bytesRenderState psoKeyPoints psoKeyTriangles = true ∧
    PSOState.hash_elements bytesRenderState zeroBlobs psoKeyPoints =
      [4226891818, 407949976, 1669671676, 1669671676, 4226891818, 40] ∧
    PSOState.hash_elements bytesRenderState zeroBlobs psoKeyTriangles =
      [4226891818, 407949976, 1669671676, 1669671676, 1889779975, 40] ∧
    PSOState.hash bytesRenderState zeroBlobs psoKeyPoints = 3858439135 ∧
    PSOState.hash bytesRenderState zeroBlobs psoKeyTriangles = 1274671273 := by
  refine ⟨?_, rfl, rfl, by decide, by decide, by decide, by decide, by decide⟩
  intro RenderState R a b
  refine ⟨?_, fun p q => rfl⟩
  unfold PSOState.operator_eq
  simp only [Bool.and_eq_true, beq_iff_eq, decide_eq_true_eq]
  constructor
  · rintro ⟨⟨⟨⟨⟨h1, h2⟩, h3⟩, h4⟩, h5⟩, h6⟩
    refine ⟨h1, h2, h3, h4, h5, ?_⟩
    rw [h6, h4, List.take_length]
  · rintro ⟨h1, h2, h3, h4, h5, h6⟩
    refine ⟨⟨⟨⟨⟨h1, h2⟩, h3⟩, h4⟩, h5⟩, ?_⟩
    rw [h6, h4, List.take_length]


/-! ## Theorems: the dirty flags in `PrepareDrawCall` -/

theorem DrawDevice_MarkResourceAsUsed_flags {K : Nat} {self s1 : DrawDevice} {resource : Nat}
    (h : DrawDevice.MarkResourceAsUsed K self resource = Except.ok s1) :
    s1.dirty_flags_ = self.dirty_flags_ := by
  unfold DrawDevice.MarkResourceAsUsed at h
  cases hM : FrameScheduler.MarkResourceAsUsed K self.toFrameScheduler resource with
  | error e =>
    rw [hM] at h
    cases h
  | ok scheduler =>
    rw [hM] at h
    obtain ⟨-, rfl⟩ := MarkResourceAsUsed_ok hM
    simp only [Except.ok.injEq] at h
    subst h
    rfl

theorem transitionRenderTarget_flags {K : Nat} {C : DrawConstants} {self s1 : DrawDevice}
    {target : Nat} (h : DrawDevice.transitionRenderTarget K C self = Except.ok (s1, target)) :
    s1.dirty_flags_ = self.dirty_flags_ := by
  unfold DrawDevice.transitionRenderTarget at h
  split at h
  · split_ifs at h
    · simp only [Except.ok.injEq, Prod.mk.injEq] at h
      rw [← h.1]
    · dsimp only at h
      split at h
      · cases h
      · rename_i s2 hM
        simp only [Except.ok.injEq, Prod.mk.injEq] at h
        rw [← h.1]
        have e1 := DrawDevice_MarkResourceAsUsed_flags hM
        exact e1
  · split at h
    · cases h
    · split at h
      · cases h
      · rename_i scheduler hT
        simp only [Except.ok.injEq, Prod.mk.injEq] at h
        rw [← h.1]
        exact (TransitionTexture_inv hT).2.1

theorem setRenderTargets_flags {K : Nat} {C : DrawConstants} {self s1 : DrawDevice}
    (h : DrawDevice.setRenderTargets K C self = Except.ok s1) :
    s1.dirty_flags_ = self.dirty_flags_ := by
  unfold DrawDevice.setRenderTargets at h
  dsimp only at h
  split at h
  · cases h
  · rename_i s2 target hT
    have h2 := transitionRenderTarget_flags hT
    split at h
    · cases h
    · rename_i s3 hD
      have h3 : s3.dirty_flags_ = s2.dirty_flags_ := by
        split at hD
        · have e1 := DrawDevice_MarkResourceAsUsed_flags hD
          exact e1
        · simp only [Except.ok.injEq] at hD
          rw [← hD]
      have e1 := DrawDevice_MarkResourceAsUsed_flags h
      exact e1.trans (h3.trans h2)

theorem DrawDevice_GetGpuPtr_flags {self s1 : DrawDevice} {buffer : Nat} {address : Int}
    (h : DrawDevice.GetGpuPtr self buffer = Except.ok (address, s1)) :
    s1.dirty_flags_ = self.dirty_flags_ := by
  unfold DrawDevice.GetGpuPtr at h
  split at h
  · split at h
    · cases h
    · simp only [Except.ok.injEq, Prod.mk.injEq] at h
      rw [← h.2]
  · split at h
    · simp only [Except.ok.injEq, Prod.mk.injEq] at h
      rw [← h.2]
    · cases h

theorem bindVertexStreams_flags (K : Nat) (start_vertex num_vertices : Int) :
    ∀ (streams : List (Option Nat)) (strides : List Int) (i : Nat) (self s1 : DrawDevice)
      (views out : List D3D12_VERTEX_BUFFER_VIEW) (max_index m : Nat),
      DrawDevice.bindVertexStreams K start_vertex num_vertices streams strides i self views
        max_index = Except.ok (s1, out, m) → s1.dirty_flags_ = self.dirty_flags_ := by
  intro streams
  induction streams with
  | nil =>
    intro strides i self s1 views out max_index m h
    unfold DrawDevice.bindVertexStreams at h
    simp only [Except.ok.injEq, Prod.mk.injEq] at h
    rw [← h.1]
  | cons d3d_buffer streams ih =>
    intro strides i self s1 views out max_index m h
    unfold DrawDevice.bindVertexStreams at h
    split at h
    · split at h
      · cases h
      · rename_i address s2 hG
        dsimp only at h
        split at h
        · cases h
        · rename_i s3 hM
          have e1 := ih _ _ _ _ _ _ _ _ h
          have e2 := DrawDevice_MarkResourceAsUsed_flags hM
          have e3 := DrawDevice_GetGpuPtr_flags hG
          exact e1.trans (e2.trans e3)
    · exact ih _ _ _ _ _ _ _ _ h

theorem bindPipeline_flags {K : Nat} {I : DrawInputs} {self s1 : DrawDevice}
    {PrimitiveType : Nat} {start_vertex num_vertices : Int}
    (h : DrawDevice.bindPipeline K I self PrimitiveType start_vertex num_vertices =
      Except.ok s1) : s1.dirty_flags_ = self.dirty_flags_ := by
  unfold DrawDevice.bindPipeline at h
  dsimp only at h
  rw [ASSERT_eq_ok] at h
  obtain ⟨-, h⟩ := h
  split at h
  · cases h
  · rename_i vertex_shader hV
    split at h
    · cases h
    · rename_i s2 hVS
      have h2 : s2.dirty_flags_ = self.dirty_flags_ := by
        split_ifs at hVS
        · have e1 := DrawDevice_MarkResourceAsUsed_flags hVS
          exact e1
        · simp only [Except.ok.injEq] at hVS
          rw [← hVS]
          rfl
      split at h
      · cases h
      · rename_i s3 hPS
        have h3 : s3.dirty_flags_ = s2.dirty_flags_ := by
          split_ifs at hPS
          · split at hPS
            · cases hPS
            · have e1 := DrawDevice_MarkResourceAsUsed_flags hPS
              exact e1
          · simp only [Except.ok.injEq] at hPS
            rw [← hPS]
        split at h
        · cases h
        · rename_i s4 views max_index hB
          have h4 := bindVertexStreams_flags K start_vertex num_vertices _ _ _ _ _ _ _ _ _ hB
          split at h
          · cases h
          · simp only [Except.ok.injEq] at h
            rw [← h]
            exact h4.trans (h3.trans h2)

theorem uploadConstants_flags {L : LockFlagBits} {self s1 : DrawDevice} {buffer : Nat}
    {bytes : List Byte} {checks : Bool}
    (h : DrawDevice.uploadConstants L self buffer bytes checks = Except.ok s1) :
    s1.dirty_flags_ = self.dirty_flags_ := by
  unfold DrawDevice.uploadConstants at h
  split at h
  · cases h
  · split at h
    · cases h
    · rw [ASSERT_eq_ok] at h
      obtain ⟨-, h⟩ := h
      simp only [Except.ok.injEq] at h
      rw [← h]

theorem setConstantBufferViews_flags :
    ∀ (views : List (Nat × Nat)) (self s1 : DrawDevice),
      DrawDevice.setConstantBufferViews views self = Except.ok s1 →
      s1.dirty_flags_ = self.dirty_flags_ := by
  intro views
  induction views with
  | nil =>
    intro self s1 h
    unfold DrawDevice.setConstantBufferViews at h
    simp only [Except.ok.injEq] at h
    rw [← h]
  | cons view views ih =>
    intro self s1 h
    obtain ⟨slot, buffer⟩ := view
    unfold DrawDevice.setConstantBufferViews at h
    split at h
    · cases h
    · rename_i address s2 hG
      have e1 := ih _ _ h
      have e2 := DrawDevice_GetGpuPtr_flags hG
      exact e1.trans e2

theorem setRoots_flags {self s1 : DrawDevice} (h : DrawDevice.setRoots self = Except.ok s1) :
    s1.dirty_flags_ = self.dirty_flags_ := by
  unfold DrawDevice.setRoots at h
  have e1 := setConstantBufferViews_flags _ _ _ h
  exact e1

theorem setTextures_flags (K : Nat) (C : DrawConstants) (I : DrawInputs) :
    ∀ (textures : List (Option BoundTexture)) (i : Nat) (self s1 : DrawDevice),
      DrawDevice.setTextures K C I textures i self = Except.ok s1 →
      s1.dirty_flags_ = self.dirty_flags_ := by
  intro textures
  induction textures with
  | nil =>
    intro i self s1 h
    unfold DrawDevice.setTextures at h
    simp only [Except.ok.injEq] at h
    rw [← h]
  | cons texture textures ih =>
    intro i self s1 h
    cases texture with
    | none =>
      unfold DrawDevice.setTextures at h
      exact ih _ _ _ h
    | some texture =>
      unfold DrawDevice.setTextures at h
      split at h
      · cases h
      · rename_i s2 hM
        have e1 := ih _ _ _ h
        have e2 := DrawDevice_MarkResourceAsUsed_flags hM
        exact e1.trans e2

theorem setSamplers_flags (C : DrawConstants) (I : DrawInputs) :
    ∀ (descs : List Nat) (i : Nat) (self s1 : DrawDevice),
      DrawDevice.setSamplers C I descs i self = Except.ok s1 →
      s1.dirty_flags_ = self.dirty_flags_ := by
  intro descs
  induction descs with
  | nil =>
    intro i self s1 h
    unfold DrawDevice.setSamplers at h
    simp only [Except.ok.injEq] at h
    rw [← h]
  | cons desc descs ih =>
    intro i self s1 h
    unfold DrawDevice.setSamplers at h
    split at h
    · cases h
    · rename_i handle s2 hS
      have h2 : s2.dirty_flags_ = self.dirty_flags_ := by
        split at hS
        · simp only [Except.ok.injEq, Prod.mk.injEq] at hS
          rw [← hS.2]
        · split at hS
          · cases hS
          · simp only [Except.ok.injEq, Prod.mk.injEq] at hS
            rw [← hS.2]
      rw [ASSERT_eq_ok] at h
      obtain ⟨-, h⟩ := h
      have e1 := ih _ _ _ h
      exact e1.trans h2


theorem clear_then_and {x f g : Nat} (hfg : f &&& g = 0) :
    (x ^^^ (x &&& f)) &&& g = x &&& g := by
  apply Nat.eq_of_testBit_eq
  intro i
  have h := congrArg (fun n => n.testBit i) hfg
  simp only [Nat.testBit_and, Nat.zero_testBit] at h
  simp only [Nat.testBit_and, Nat.testBit_xor]
  cases hx : x.testBit i <;> cases hf : f.testBit i <;> cases hg : g.testBit i <;> simp_all

theorem clear_clear (x a b : Nat) :
    (x ^^^ (x &&& a)) ^^^ ((x ^^^ (x &&& a)) &&& b) = x ^^^ (x &&& (a ||| b)) := by
  apply Nat.eq_of_testBit_eq
  intro i
  simp only [Nat.testBit_and, Nat.testBit_xor, Nat.testBit_or]
  cases x.testBit i <;> cases a.testBit i <;> cases b.testBit i <;> rfl

theorem clear_and_self (x m : Nat) : (x ^^^ (x &&& m)) &&& m = 0 := by
  apply Nat.eq_of_testBit_eq
  intro i
  simp only [Nat.testBit_and, Nat.testBit_xor, Nat.zero_testBit]
  cases x.testBit i <;> cases m.testBit i <;> rfl

theorem and_two_pow_of_ne_zero {x k : Nat} (h : x &&& 2 ^ k ≠ 0) : x &&& 2 ^ k = 2 ^ k := by
  rw [Nat.and_two_pow] at h ⊢
  cases hx : x.testBit k <;> simp_all

theorem dirtyBlock_flags {flag k : Nat} {body : DrawDevice → Except Fault DrawDevice}
    {self s1 : DrawDevice} (hpow : flag = 2 ^ k)
    (hbody : ∀ s t, body s = Except.ok t → t.dirty_flags_ = s.dirty_flags_)
    (h : DrawDevice.dirtyBlock flag body self = Except.ok s1) :
    s1.dirty_flags_ = self.dirty_flags_ ^^^ (self.dirty_flags_ &&& flag) := by
  unfold DrawDevice.dirtyBlock at h
  by_cases ht : self.dirty_flags_ &&& flag ≠ 0
  · rw [if_pos ht] at h
    cases hb : body self with
    | error e =>
      rw [hb] at h
      cases h
    | ok t =>
      rw [hb] at h
      simp only [Except.ok.injEq] at h
      rw [← h]
      have hset : self.dirty_flags_ &&& flag = flag := by
        rw [hpow] at ht ⊢
        exact and_two_pow_of_ne_zero ht
      rw [hset]
      change t.dirty_flags_ ^^^ flag = _
      rw [hbody self t hb]
  · rw [if_neg ht] at h
    simp only [Except.ok.injEq] at h
    rw [← h, not_not.mp ht, Nat.xor_zero]

theorem dirtyBlock_eq_clearBlock {entry flag k : Nat}
    {body : DrawDevice → Except Fault DrawDevice} {self : DrawDevice} (hpow : flag = 2 ^ k)
    (hbody : ∀ s t, body s = Except.ok t → t.dirty_flags_ = s.dirty_flags_)
    (hsame : self.dirty_flags_ &&& flag = entry &&& flag) :
    DrawDevice.dirtyBlock flag body self = DrawDevice.clearBlock entry flag body self := by
  unfold DrawDevice.dirtyBlock DrawDevice.clearBlock
  rw [hsame]
  by_cases ht : entry &&& flag ≠ 0
  · rw [if_pos ht, if_pos ht]
    cases hb : body self with
    | error e => rfl
    | ok t =>
      have hset : t.dirty_flags_ &&& flag = flag := by
        rw [hbody self t hb, hsame]
        rw [hpow] at ht ⊢
        exact and_two_pow_of_ne_zero ht
      simp only [hset]
  · rw [if_neg ht, if_neg ht]

theorem BeginScene_eq_dirtyBlock (K : Nat) (C : DrawConstants) (self : DrawDevice) :
    (if self.dirty_flags_ &&& DIRTY_FLAG_OM ≠ 0 then DrawDevice.BeginScene K C self
      else Except.ok self) =
      DrawDevice.dirtyBlock DIRTY_FLAG_OM (DrawDevice.setRenderTargets K C) self := rfl


theorem PrepareDrawCall_eq_runSteps (K : Nat) (L : LockFlagBits) (C : DrawConstants)
    (I : DrawInputs) (self : DrawDevice) (PrimitiveType : Nat) (start_vertex num_vertices : Int) :
    DrawDevice.PrepareDrawCall K L C I self PrimitiveType start_vertex num_vertices =
      if PrimitiveType > C.D3DPT_TRIANGLEFAN then Except.ok (HRESULT.D3DERR_INVALIDCALL, self)
      else
        ASSERT (PrimitiveType != C.D3DPT_TRIANGLEFAN) <|
        match DrawDevice.runSteps
            (DrawDevice.drawSteps K L C I PrimitiveType start_vertex num_vertices) self with
        | Except.error e => Except.error e
        | Except.ok s => Except.ok (HRESULT.S_OK, s) := by
  unfold DrawDevice.PrepareDrawCall DrawDevice.drawSteps
  rw [BeginScene_eq_dirtyBlock]
  simp only [DrawDevice.runSteps]
  by_cases hP : PrimitiveType > C.D3DPT_TRIANGLEFAN
  · rw [if_pos hP, if_pos hP]
  · rw [if_neg hP, if_neg hP]
    congr 1
    repeat' split
    all_goals rfl

theorem PrepareDrawCall_reference_eq_runSteps (K : Nat) (L : LockFlagBits) (C : DrawConstants)
    (I : DrawInputs) (entry : Nat) (self : DrawDevice) (PrimitiveType : Nat)
    (start_vertex num_vertices : Int) :
    DrawDevice.PrepareDrawCall_reference K L C I entry self PrimitiveType start_vertex
        num_vertices =
      if PrimitiveType > C.D3DPT_TRIANGLEFAN then Except.ok (HRESULT.D3DERR_INVALIDCALL, self)
      else
        ASSERT (PrimitiveType != C.D3DPT_TRIANGLEFAN) <|
        match DrawDevice.runSteps_reference entry
            (DrawDevice.drawSteps K L C I PrimitiveType start_vertex num_vertices) self with
        | Except.error e => Except.error e
        | Except.ok s => Except.ok (HRESULT.S_OK, s) := by
  unfold DrawDevice.PrepareDrawCall_reference DrawDevice.drawSteps
  simp only [DrawDevice.runSteps_reference]
  by_cases hP : PrimitiveType > C.D3DPT_TRIANGLEFAN
  · rw [if_pos hP, if_pos hP]
  · rw [if_neg hP, if_neg hP]
    congr 1
    repeat' split
    all_goals rfl


theorem runSteps_eq_reference (entry : Nat) :
    ∀ (steps : List (Option Nat × (DrawDevice → Except Fault DrawDevice))) (self : DrawDevice),
      (∀ st ∈ steps, ∀ s t, st.2 s = Except.ok t → t.dirty_flags_ = s.dirty_flags_) →
      (∀ st ∈ steps, ∀ flag, st.1 = some flag → ∃ k, flag = 2 ^ k) →
      steps.Pairwise (fun a b => ∀ f g, a.1 = some f → b.1 = some g → f &&& g = 0) →
      (∀ st ∈ steps, ∀ flag, st.1 = some flag →
        self.dirty_flags_ &&& flag = entry &&& flag) →
      DrawDevice.runSteps steps self = DrawDevice.runSteps_reference entry steps self := by
  intro steps
  induction steps with
  | nil =>
    intro self _ _ _ _
    rfl
  | cons st steps ih =>
    intro self hkeep hpow hpair hsame
    obtain ⟨guard, step⟩ := st
    rw [List.pairwise_cons] at hpair
    have hkeep2 : ∀ st ∈ steps, ∀ s t, st.2 s = Except.ok t → t.dirty_flags_ = s.dirty_flags_ :=
      fun st hst => hkeep st (List.mem_cons_of_mem _ hst)
    have hpow2 : ∀ st ∈ steps, ∀ flag, st.1 = some flag → ∃ k, flag = 2 ^ k :=
      fun st hst => hpow st (List.mem_cons_of_mem _ hst)
    have hstep : ∀ s t, step s = Except.ok t → t.dirty_flags_ = s.dirty_flags_ :=
      hkeep (guard, step) (List.mem_cons_self _ _)
    cases guard with
    | none =>
      unfold DrawDevice.runSteps DrawDevice.runSteps_reference
      cases hs : step self with
      | error e => rfl
      | ok t =>
        refine ih t hkeep2 hpow2 hpair.2 ?_
        intro st hst flag hflag
        rw [hstep self t hs]
        exact hsame st (List.mem_cons_of_mem _ hst) flag hflag
    | some f =>
      obtain ⟨k, hk⟩ := hpow (some f, step) (List.mem_cons_self _ _) f rfl
      have hf : self.dirty_flags_ &&& f = entry &&& f :=
        hsame (some f, step) (List.mem_cons_self _ _) f rfl
      unfold DrawDevice.runSteps DrawDevice.runSteps_reference
      rw [← dirtyBlock_eq_clearBlock hk hstep hf]
      cases hs : DrawDevice.dirtyBlock f step self with
      | error e => rfl
      | ok t =>
        refine ih t hkeep2 hpow2 hpair.2 ?_
        intro st hst flag hflag
        rw [dirtyBlock_flags hk hstep hs,
          clear_then_and (hpair.1 st hst f flag rfl hflag)]
        exact hsame st (List.mem_cons_of_mem _ hst) flag hflag

theorem runSteps_flags :
    ∀ (steps : List (Option Nat × (DrawDevice → Except Fault DrawDevice))) (self t : DrawDevice),
      (∀ st ∈ steps, ∀ s t, st.2 s = Except.ok t → t.dirty_flags_ = s.dirty_flags_) →
      (∀ st ∈ steps, ∀ flag, st.1 = some flag → ∃ k, flag = 2 ^ k) →
      DrawDevice.runSteps steps self = Except.ok t →
      t.dirty_flags_ = self.dirty_flags_ ^^^ (self.dirty_flags_ &&& stepsMask steps) := by
  intro steps
  induction steps with
  | nil =>
    intro self t _ _ h
    unfold DrawDevice.runSteps at h
    simp only [Except.ok.injEq] at h
    rw [← h]
    simp [stepsMask]
  | cons st steps ih =>
    intro self t hkeep hpow h
    obtain ⟨guard, step⟩ := st
    have hkeep2 : ∀ st ∈ steps, ∀ s t, st.2 s = Except.ok t → t.dirty_flags_ = s.dirty_flags_ :=
      fun st hst => hkeep st (List.mem_cons_of_mem _ hst)
    have hpow2 : ∀ st ∈ steps, ∀ flag, st.1 = some flag → ∃ k, flag = 2 ^ k :=
      fun st hst => hpow st (List.mem_cons_of_mem _ hst)
    have hstep : ∀ s t, step s = Except.ok t → t.dirty_flags_ = s.dirty_flags_ :=
      hkeep (guard, step) (List.mem_cons_self _ _)
    cases guard with
    | none =>
      unfold DrawDevice.runSteps at h
      cases hs : step self with
      | error e =>
        rw [hs] at h
        cases h
      | ok s1 =>
        rw [hs] at h
        rw [ih s1 t hkeep2 hpow2 h, hstep self s1 hs]
        rfl
    | some f =>
      obtain ⟨k, hk⟩ := hpow (some f, step) (List.mem_cons_self _ _) f rfl
      unfold DrawDevice.runSteps at h
      cases hs : DrawDevice.dirtyBlock f step self with
      | error e =>
        rw [hs] at h
        cases h
      | ok s1 =>
        rw [hs] at h
        rw [ih s1 t hkeep2 hpow2 h, dirtyBlock_flags hk hstep hs, clear_clear]
        rfl

theorem drawSteps_keep (K : Nat) (L : LockFlagBits) (C : DrawConstants) (I : DrawInputs)
    (PrimitiveType : Nat) (start_vertex num_vertices : Int) :
    ∀ st ∈ DrawDevice.drawSteps K L C I PrimitiveType start_vertex num_vertices,
      ∀ s t, st.2 s = Except.ok t → t.dirty_flags_ = s.dirty_flags_ := by
  intro st hst s t h
  unfold DrawDevice.drawSteps at hst
  simp only [List.mem_cons, List.mem_singleton, List.not_mem_nil, or_false] at hst
  rcases hst with rfl | rfl | rfl | rfl | rfl | rfl | rfl | rfl | rfl
  · exact setRenderTargets_flags h
  · exact bindPipeline_flags h
  · exact uploadConstants_flags h
  · exact uploadConstants_flags h
  · exact uploadConstants_flags h
  · exact uploadConstants_flags h
  · exact setRoots_flags h
  · exact setTextures_flags K C I _ _ _ _ h
  · exact setSamplers_flags C I _ _ _ _ h

theorem drawSteps_pow (K : Nat) (L : LockFlagBits) (C : DrawConstants) (I : DrawInputs)
    (PrimitiveType : Nat) (start_vertex num_vertices : Int) :
    ∀ st ∈ DrawDevice.drawSteps K L C I PrimitiveType start_vertex num_vertices,
      ∀ flag, st.1 = some flag → ∃ k, flag = 2 ^ k := by
  intro st hst flag hflag
  unfold DrawDevice.drawSteps at hst
  simp only [List.mem_cons, List.mem_singleton, List.not_mem_nil, or_false] at hst
  rcases hst with rfl | rfl | rfl | rfl | rfl | rfl | rfl | rfl | rfl
  · cases hflag
    exact ⟨1, rfl⟩
  · cases hflag
  · cases hflag
    exact ⟨2, rfl⟩
  · cases hflag
    exact ⟨3, rfl⟩
  · cases hflag
    exact ⟨7, rfl⟩
  · cases hflag
    exact ⟨4, rfl⟩
  · cases hflag
  · cases hflag
    exact ⟨5, rfl⟩
  · cases hflag
    exact ⟨6, rfl⟩

theorem drawSteps_disjoint (K : Nat) (L : LockFlagBits) (C : DrawConstants) (I : DrawInputs)
    (PrimitiveType : Nat) (start_vertex num_vertices : Int) :
    (DrawDevice.drawSteps K L C I PrimitiveType start_vertex num_vertices).Pairwise
      (fun a b => ∀ f g, a.1 = some f → b.1 = some g → f &&& g = 0) := by
  unfold DrawDevice.drawSteps
  simp only [List.pairwise_cons, List.mem_cons, List.mem_singleton, List.not_mem_nil,
    forall_eq_or_imp, forall_eq, Option.some.injEq, IsEmpty.forall_iff, implies_true,
    and_true, List.Pairwise.nil, false_implies, forall_const, reduceCtorEq]
  repeat' constructor
  all_goals
    intro f g hf hg
    subst hf
    subst hg
    rfl

theorem drawSteps_mask (K : Nat) (L : LockFlagBits) (C : DrawConstants) (I : DrawInputs)
    (PrimitiveType : Nat) (start_vertex num_vertices : Int) :
    stepsMask (DrawDevice.drawSteps K L C I PrimitiveType start_vertex num_vertices) =
      DIRTY_FLAG_ALL_RESOURCES := by
  unfold DrawDevice.drawSteps
  simp only [stepsMask]
  decide


theorem uploadConstants_discard {L : LockFlagBits} {self s1 : DrawDevice} {buffer : Nat}
    {bytes : List Byte} {checks : Bool}
    (h : DrawDevice.uploadConstants L self buffer bytes checks = Except.ok s1) :
    ∃ cbuffer, self.buffers buffer = some cbuffer ∧ checks = true ∧
      HasFlag L.D3DLOCK_DISCARD L.D3DLOCK_DISCARD = Except.ok true ∧
      DynamicBuffer.Lock L self.toDevice cbuffer 0 bytes.length L.D3DLOCK_DISCARD =
        Except.ok (BytePtr.cache 0, self.toDevice.MarkBufferForPersist cbuffer.this,
          afterDiscard self.toDevice cbuffer (lockedSize cbuffer bytes.length)) ∧
      s1.buffers buffer = some (DynamicBuffer.Unlock
        (store (self.toDevice.MarkBufferForPersist cbuffer.this)
          (afterDiscard self.toDevice cbuffer (lockedSize cbuffer bytes.length))
          (BytePtr.cache 0) bytes).1
        (store (self.toDevice.MarkBufferForPersist cbuffer.this)
          (afterDiscard self.toDevice cbuffer (lockedSize cbuffer bytes.length))
          (BytePtr.cache 0) bytes).2) := by
  unfold DrawDevice.uploadConstants at h
  cases hb : self.buffers buffer with
  | none =>
    rw [hb] at h
    cases h
  | some cbuffer =>
    rw [hb] at h
    dsimp only at h
    cases hL : DynamicBuffer.Lock L self.toDevice cbuffer 0 bytes.length L.D3DLOCK_DISCARD with
    | error e =>
      rw [hL] at h
      cases h
    | ok r =>
      obtain ⟨ptr, dev, locked⟩ := r
      rw [hL] at h
      dsimp only at h
      rw [ASSERT_eq_ok] at h
      obtain ⟨hchecks, h⟩ := h
      obtain ⟨-, -, -, d, n, hd, -, -⟩ := Lock_ok_iff.mp hL
      have hd2 : HasFlag L.D3DLOCK_DISCARD L.D3DLOCK_DISCARD = Except.ok true := by
        unfold HasFlag at hd ⊢
        rw [ASSERT_eq_ok] at hd
        rw [hd.1, ASSERT_true, Nat.and_self, beq_self_eq_true]
      obtain ⟨-, -, rfl, rfl, rfl⟩ := Lock_discard_inv hd2 hL
      simp only [Except.ok.injEq] at h
      refine ⟨cbuffer, rfl, hchecks, hd2, hL, ?_⟩
      rw [← h]
      simp


/-! ## Theorems: what `PrepareDrawCall` records and uploads -/

theorem KeptBuffer_refl (a : Option DynamicBuffer) : KeptBuffer a a := by
  cases a with
  | none => exact True.intro
  | some x => exact ⟨rfl, rfl, rfl, rfl⟩

theorem KeptBuffer_trans {a b c : Option DynamicBuffer} (h1 : KeptBuffer a b)
    (h2 : KeptBuffer b c) : KeptBuffer a c := by
  cases a with
  | none =>
    cases b with
    | none => exact h2
    | some y => exact h1.elim
  | some x =>
    cases b with
    | none => exact h1.elim
    | some y =>
      cases c with
      | none => exact h2.elim
      | some z =>
        obtain ⟨a1, a2, a3, a4⟩ := h1
        obtain ⟨b1, b2, b3, b4⟩ := h2
        exact ⟨b1.trans a1, b2.trans a2, b3.trans a3, b4.trans a4⟩

theorem Advances_refl (s : DrawDevice) : DrawDevice.Advances s s [] [] := by
  refine ⟨(List.append_nil _).symm, fun i => ?_, rfl, fun b hb => hb⟩
  split
  · exact (List.append_nil _).symm
  · rfl

theorem Advances_trans {s t u : DrawDevice} {c1 c2 : List Command} {m1 m2 : List Nat}
    (h1 : DrawDevice.Advances s t c1 m1) (h2 : DrawDevice.Advances t u c2 m2) :
    DrawDevice.Advances s u (c1 ++ c2) (m1 ++ m2) := by
  obtain ⟨a1, a2, a3, a4⟩ := h1
  obtain ⟨b1, b2, b3, b4⟩ := h2
  have hcur : t.current_back_buffer_ = s.current_back_buffer_ :=
    congrArg DrawBindings.current_back_buffer_ a3
  refine ⟨?_, fun i => ?_, b3.trans a3, fun b hb => b4 b (a4 b hb)⟩
  · rw [b1, a1, List.append_assoc]
  · rw [b2 i, a2 i, hcur]
    split
    · rw [List.append_assoc]
    · rfl

theorem Quiet_refl (s : DrawDevice) : DrawDevice.Quiet s s [] [] :=
  ⟨Advances_refl s, fun _ => KeptBuffer_refl _, rfl, rfl⟩

theorem Quiet_trans {s t u : DrawDevice} {c1 c2 : List Command} {m1 m2 : List Nat}
    (h1 : DrawDevice.Quiet s t c1 m1) (h2 : DrawDevice.Quiet t u c2 m2) :
    DrawDevice.Quiet s u (c1 ++ c2) (m1 ++ m2) :=
  ⟨Advances_trans h1.1 h2.1, fun b => KeptBuffer_trans (h1.2.1 b) (h2.2.1 b),
    h2.2.2.1.trans h1.2.2.1, h2.2.2.2.trans h1.2.2.2⟩

theorem Quiet_record (s : DrawDevice) (c : Command) : DrawDevice.Quiet s (s.record c) [c] [] := by
  refine ⟨⟨rfl, fun i => ?_, rfl, fun b hb => hb⟩, fun b => KeptBuffer_refl _, rfl, rfl⟩
  change s.frame_resources_to_free_ i = _
  split
  · exact (List.append_nil _).symm
  · rfl

theorem Quiet_mark {K : Nat} {s t : DrawDevice} {resource : Nat}
    (h : DrawDevice.MarkResourceAsUsed K s resource = Except.ok t) :
    DrawDevice.Quiet s t [] [resource] := by
  unfold DrawDevice.MarkResourceAsUsed at h
  cases hM : FrameScheduler.MarkResourceAsUsed K s.toFrameScheduler resource with
  | error e =>
    rw [hM] at h
    cases h
  | ok scheduler =>
    rw [hM] at h
    obtain ⟨-, rfl⟩ := MarkResourceAsUsed_ok hM
    simp only [Except.ok.injEq] at h
    subst h
    exact ⟨⟨(List.append_nil _).symm, fun i => rfl, rfl, fun b hb => hb⟩,
      fun b => KeptBuffer_refl _, rfl, rfl⟩


theorem GetGpuPtr_kept {dev devG : Device} {self selfG : DynamicBuffer} {addr : Int}
    (h : DynamicBuffer.GetGpuPtr dev self = Except.ok (addr, devG, selfG)) :
    KeptBuffer (some self) (some selfG) ∧ devG.cmd_list_ = dev.cmd_list_ ∧
      devG.buffers_to_persist_ = dev.buffers_to_persist_ := by
  by_cases hc : self.is_speculative_write_persisted_ = false ∧ self.speculative_write_cache_ ≠ []
  · obtain ⟨alloc, ring, -, -, rfl, rfl⟩ := GetGpuPtr_promote_inv dev self hc.1 hc.2 h
    exact ⟨⟨rfl, rfl, rfl, rfl⟩, rfl, rfl⟩
  · have hs : self.is_speculative_write_persisted_ = true ∨ self.speculative_write_cache_ = [] := by
      by_cases hp : self.is_speculative_write_persisted_ = true
      · exact Or.inl hp
      · right
        by_contra hne
        exact hc ⟨by simpa using hp, hne⟩
    rw [GetGpuPtr_settled hs] at h
    split_ifs at h
    · simp only [Except.ok.injEq, Prod.mk.injEq] at h
      obtain ⟨-, rfl, rfl⟩ := h
      exact ⟨⟨rfl, rfl, rfl, rfl⟩, rfl, rfl⟩
    · cases hG : dev.dynamic_ring_buffer_.GetGpuPtrFor self.current_ring_alloc_ with
      | error e =>
        rw [hG] at h
        cases h
      | ok ptr =>
        rw [hG] at h
        simp only [Except.ok.injEq, Prod.mk.injEq] at h
        obtain ⟨-, rfl, rfl⟩ := h
        exact ⟨⟨rfl, rfl, rfl, rfl⟩, rfl, rfl⟩

theorem Quiet_GetGpuPtr {s t : DrawDevice} {buffer : Nat} {address : Int}
    (h : DrawDevice.GetGpuPtr s buffer = Except.ok (address, t)) :
    DrawDevice.Quiet s t [] [] := by
  unfold DrawDevice.GetGpuPtr at h
  cases hb : s.buffers buffer with
  | some dynamic =>
    rw [hb] at h
    dsimp only at h
    cases hG : DynamicBuffer.GetGpuPtr s.toDevice dynamic with
    | error e =>
      rw [hG] at h
      cases h
    | ok r =>
      obtain ⟨addr, dev, dynamic2⟩ := r
      rw [hG] at h
      simp only [Except.ok.injEq, Prod.mk.injEq] at h
      obtain ⟨-, rfl⟩ := h
      obtain ⟨hk, hcmd, hpersist⟩ := GetGpuPtr_kept hG
      refine ⟨⟨?_, fun i => ?_, rfl, fun b hb2 => ?_⟩, fun a => ?_, rfl, rfl⟩
      · change dev.cmd_list_ = s.cmd_list_ ++ []
        rw [hcmd, List.append_nil]
      · change s.frame_resources_to_free_ i = _
        split
        · exact (List.append_nil _).symm
        · rfl
      · change b ∈ dev.buffers_to_persist_
        rw [hpersist]
        exact hb2
      · change KeptBuffer (s.buffers a) (if a = buffer then some dynamic2 else s.buffers a)
        by_cases ha : a = buffer
        · rw [if_pos ha, ha, hb]
          exact hk
        · rw [if_neg ha]
          exact KeptBuffer_refl _
  | none =>
    rw [hb] at h
    dsimp only at h
    cases hs : s.static_buffers buffer with
    | some static =>
      rw [hs] at h
      simp only [Except.ok.injEq, Prod.mk.injEq] at h
      obtain ⟨-, rfl⟩ := h
      exact Quiet_refl s
    | none =>
      rw [hs] at h
      cases h


theorem Quiet_of_eq {s t : DrawDevice} {c1 c2 : List Command} {m1 m2 : List Nat}
    (h : DrawDevice.Quiet s t c1 m1) (hc : c1 = c2) (hm : m1 = m2) :
    DrawDevice.Quiet s t c2 m2 := by
  subst hc
  subst hm
  exact h

theorem setTextures_quiet (K : Nat) (C : DrawConstants) (I : DrawInputs) :
    ∀ (textures : List (Option BoundTexture)) (i : Nat) (s t : DrawDevice),
      DrawDevice.setTextures K C I textures i s = Except.ok t →
      DrawDevice.Quiet s t (textureCommands C I textures i) (textureMarks textures) := by
  intro textures
  induction textures with
  | nil =>
    intro i s t h
    unfold DrawDevice.setTextures at h
    simp only [Except.ok.injEq] at h
    subst h
    exact Quiet_refl s
  | cons texture textures ih =>
    intro i s t h
    cases texture with
    | none =>
      unfold DrawDevice.setTextures at h
      exact ih _ _ _ h
    | some texture =>
      unfold DrawDevice.setTextures at h
      split at h
      · cases h
      · rename_i s2 hM
        have q1 := Quiet_record s (Command.SetGraphicsRootDescriptorTable
          (C.textures_start_bindslot_ + i) (I.srv_GetGPUHandleFor texture.srv_handle))
        have q2 := Quiet_mark hM
        have q3 := ih _ _ _ h
        exact Quiet_of_eq (Quiet_trans (Quiet_trans q1 q2) q3) rfl rfl

theorem streamMarks_cons (d3d_buffer : Option Nat) (streams : List (Option Nat))
    (strides : List Int) :
    streamMarks (d3d_buffer :: streams) strides =
      (if strides.headD 0 > 0 then d3d_buffer.toList else []) ++
        streamMarks streams strides.tail := rfl

theorem guarded_toList {c : Prop} [Decidable c] {d : Option Nat} {o : Option Nat}
    (h : (if c then d else none) = o) : (if c then d.toList else []) = o.toList := by
  subst h
  split <;> rfl

theorem bindVertexStreams_quiet (K : Nat) (start_vertex num_vertices : Int) :
    ∀ (streams : List (Option Nat)) (strides : List Int) (i : Nat) (s t : DrawDevice)
      (views out : List D3D12_VERTEX_BUFFER_VIEW) (max_index m : Nat),
      DrawDevice.bindVertexStreams K start_vertex num_vertices streams strides i s views
        max_index = Except.ok (t, out, m) →
      DrawDevice.Quiet s t [] (streamMarks streams strides) := by
  intro streams
  induction streams with
  | nil =>
    intro strides i s t views out max_index m h
    unfold DrawDevice.bindVertexStreams at h
    simp only [Except.ok.injEq, Prod.mk.injEq] at h
    obtain ⟨rfl, -, -⟩ := h
    exact Quiet_refl s
  | cons d3d_buffer streams ih =>
    intro strides i s t views out max_index m h
    unfold DrawDevice.bindVertexStreams at h
    split at h
    · rename_i buffer hb
      split at h
      · cases h
      · rename_i address s2 hG
        dsimp only at h
        split at h
        · cases h
        · rename_i s3 hM
          have q1 := Quiet_GetGpuPtr hG
          have q2 := Quiet_mark hM
          have q3 := ih _ _ _ _ _ _ _ _ h
          refine Quiet_of_eq (Quiet_trans (Quiet_trans q1 q2) q3) rfl ?_
          rw [streamMarks_cons, guarded_toList hb]
          rfl
    · rename_i hb
      have q3 := ih _ _ _ _ _ _ _ _ h
      refine Quiet_of_eq q3 rfl ?_
      rw [streamMarks_cons, guarded_toList hb]
      rfl


theorem bindPipeline_quiet {K : Nat} {I : DrawInputs} {s t : DrawDevice}
    {PrimitiveType : Nat} {start_vertex num_vertices : Int}
    (h : DrawDevice.bindPipeline K I s PrimitiveType start_vertex num_vertices =
      Except.ok t) :
    ∃ views pso, I.CreatePSO PrimitiveType = Except.ok pso ∧
      DrawDevice.Quiet s t
        [Command.IASetPrimitiveTopology PrimitiveType, Command.IASetVertexBuffers views,
          Command.SetPipelineState pso]
        (pipelineMarks s.bindings) := by
  unfold DrawDevice.bindPipeline at h
  dsimp only at h
  rw [ASSERT_eq_ok] at h
  obtain ⟨-, h⟩ := h
  have q0 := Quiet_record s (Command.IASetPrimitiveTopology PrimitiveType)
  cases hV : s.vertex_shaders_ s.bound_vertex_shader_ with
  | none =>
    have hV2 : (s.record (Command.IASetPrimitiveTopology PrimitiveType)).vertex_shaders_
        (s.record (Command.IASetPrimitiveTopology PrimitiveType)).bound_vertex_shader_ = none := hV
    rw [hV2] at h
    cases h
  | some vertex_shader =>
    have hV2 : (s.record (Command.IASetPrimitiveTopology PrimitiveType)).vertex_shaders_
        (s.record (Command.IASetPrimitiveTopology PrimitiveType)).bound_vertex_shader_ =
        some vertex_shader := hV
    rw [hV2] at h
    dsimp only at h
    split at h
    · cases h
    · rename_i s2 hVS
      have q1 : DrawDevice.Quiet (s.record (Command.IASetPrimitiveTopology PrimitiveType)) s2 []
          (if s.bound_vertex_shader_ ≥ kFirstShaderHandle then [vertex_shader.this] else []) := by
        by_cases hk : s.bound_vertex_shader_ ≥ kFirstShaderHandle
        · rw [if_pos hk]
          have hk2 : (s.record (Command.IASetPrimitiveTopology
              PrimitiveType)).bound_vertex_shader_ ≥ kFirstShaderHandle := hk
          rw [if_pos hk2] at hVS
          exact Quiet_mark hVS
        · rw [if_neg hk]
          have hk2 : ¬ (s.record (Command.IASetPrimitiveTopology
              PrimitiveType)).bound_vertex_shader_ ≥ kFirstShaderHandle := hk
          rw [if_neg hk2] at hVS
          simp only [Except.ok.injEq] at hVS
          subst hVS
          exact Quiet_refl _
      have hb2 : s2.bindings = s.bindings := q1.1.2.2.1
      split at h
      · cases h
      · rename_i s3 hPS
        have hbps : s2.bound_pixel_shader_ = s.bound_pixel_shader_ :=
          congrArg DrawBindings.bound_pixel_shader_ hb2
        have hpsh : s2.pixel_shaders_ = s.pixel_shaders_ :=
          congrArg DrawBindings.pixel_shaders_ hb2
        have q2 : DrawDevice.Quiet s2 s3 []
            (if s.bound_pixel_shader_ ≠ 0 then (s.pixel_shaders_ s.bound_pixel_shader_).toList
              else []) := by
          rw [hbps, hpsh] at hPS
          by_cases hp : s.bound_pixel_shader_ ≠ 0
          · rw [if_pos hp] at hPS ⊢
            cases hps : s.pixel_shaders_ s.bound_pixel_shader_ with
            | none =>
              rw [hps] at hPS
              cases hPS
            | some pixel_shader =>
              rw [hps] at hPS
              exact Quiet_mark hPS
          · rw [if_neg hp] at hPS ⊢
            simp only [Except.ok.injEq] at hPS
            subst hPS
            exact Quiet_refl _
        have hb3 : s3.bindings = s.bindings := q2.1.2.2.1.trans hb2
        split at h
        · cases h
        · rename_i s4 views max_index hB
          have hstreams : s3.bound_vertex_streams_ = s.bound_vertex_streams_ :=
            congrArg DrawBindings.bound_vertex_streams_ hb3
          rw [hstreams] at hB
          have q3 := bindVertexStreams_quiet K start_vertex num_vertices _ _ _ _ _ _ _ _ _ hB
          cases hpso : I.CreatePSO PrimitiveType with
          | error e =>
            rw [hpso] at h
            cases h
          | ok pso =>
            rw [hpso] at h
            simp only [Except.ok.injEq] at h
            subst h
            have q4 := Quiet_record s4
              (Command.IASetVertexBuffers (views.take (max_index + 1)))
            have q5 := Quiet_record
              (s4.record (Command.IASetVertexBuffers (views.take (max_index + 1))))
              (Command.SetPipelineState pso)
            refine ⟨views.take (max_index + 1), pso, rfl, ?_⟩
            refine Quiet_of_eq
              (Quiet_trans (Quiet_trans (Quiet_trans (Quiet_trans (Quiet_trans q0 q1) q2) q3) q4)
                q5) rfl ?_
            unfold pipelineMarks
            change _ = (match s.vertex_shaders_ s.bound_vertex_shader_ with
              | some vertex_shader =>
                (if s.bound_vertex_shader_ ≥ kFirstShaderHandle then [vertex_shader.this]
                  else []) ++
                  (if s.bound_pixel_shader_ ≠ 0 then
                    (s.pixel_shaders_ s.bound_pixel_shader_).toList else []) ++
                  streamMarks s.bound_vertex_streams_ vertex_shader.buffer_strides
              | none => [])
            rw [hV]
            simp only [List.append_nil, List.nil_append, List.append_assoc]

theorem setRoots_quiet {s t : DrawDevice} (h : DrawDevice.setRoots s = Except.ok t) :
    ∃ a0 a1 a2 a3 : Int,
      DrawDevice.Quiet s t
        [Command.SetGraphicsRootSignature, Command.SetGraphicsRootConstantBufferView 0 a0,
          Command.SetGraphicsRootConstantBufferView 1 a1,
          Command.SetGraphicsRootConstantBufferView 2 a2,
          Command.SetGraphicsRootConstantBufferView 3 a3] [] := by
  unfold DrawDevice.setRoots at h
  have q0 := Quiet_record s Command.SetGraphicsRootSignature
  unfold DrawDevice.setConstantBufferViews at h
  split at h
  · cases h
  · rename_i a0 s1 hG0
    have q1 := Quiet_trans (Quiet_GetGpuPtr hG0)
      (Quiet_record s1 (Command.SetGraphicsRootConstantBufferView 0 a0))
    unfold DrawDevice.setConstantBufferViews at h
    split at h
    · cases h
    · rename_i a1 s2 hG1
      have q2 := Quiet_trans (Quiet_GetGpuPtr hG1)
        (Quiet_record s2 (Command.SetGraphicsRootConstantBufferView 1 a1))
      unfold DrawDevice.setConstantBufferViews at h
      split at h
      · cases h
      · rename_i a2 s3 hG2
        have q3 := Quiet_trans (Quiet_GetGpuPtr hG2)
          (Quiet_record s3 (Command.SetGraphicsRootConstantBufferView 2 a2))
        unfold DrawDevice.setConstantBufferViews at h
        split at h
        · cases h
        · rename_i a3 s4 hG3
          have q4 := Quiet_trans (Quiet_GetGpuPtr hG3)
            (Quiet_record s4 (Command.SetGraphicsRootConstantBufferView 3 a3))
          unfold DrawDevice.setConstantBufferViews at h
          simp only [Except.ok.injEq] at h
          subst h
          exact ⟨a0, a1, a2, a3, Quiet_of_eq
            (Quiet_trans (Quiet_trans (Quiet_trans (Quiet_trans q0 q1) q2) q3) q4) rfl rfl⟩


theorem getLastD_of_getLast? {l : List Nat} {a : Nat} (h : l.getLast? = some a) :
    l.getLastD 0 = a := by
  rw [List.getLastD_eq_getLast?, h]
  rfl

theorem setSamplers_effect (C : DrawConstants) (I : DrawInputs) :
    ∀ (descs : List Nat) (i : Nat) (s t : DrawDevice),
      DrawDevice.setSamplers C I descs i s = Except.ok t →
      DrawDevice.Advances s t
        (samplerCommands C I descs i s.sampler_cache_ s.sampler_heap_).1 [] ∧
      DrawDevice.BuffersKept s t ∧ t.targets = s.targets ∧
      t.samplers = (samplerCommands C I descs i s.sampler_cache_ s.sampler_heap_).2 := by
  intro descs
  induction descs with
  | nil =>
    intro i s t h
    unfold DrawDevice.setSamplers at h
    simp only [Except.ok.injEq] at h
    subst h
    exact ⟨Advances_refl s, fun _ => KeptBuffer_refl _, rfl, rfl⟩
  | cons desc descs ih =>
    intro i s t h
    unfold DrawDevice.setSamplers at h
    split at h
    · cases h
    · rename_i handle s2 hS
      rw [ASSERT_eq_ok] at h
      obtain ⟨-, h⟩ := h
      have hfound : handle = (samplerFor I desc s.sampler_cache_ s.sampler_heap_).1 ∧
          DrawDevice.Advances s s2 [] [] ∧ DrawDevice.BuffersKept s s2 ∧
          s2.targets = s.targets ∧
          s2.samplers = (samplerFor I desc s.sampler_cache_ s.sampler_heap_).2 := by
        unfold samplerFor
        cases hf : findSampler desc s.sampler_cache_ with
        | some found =>
          rw [hf] at hS
          simp only [Except.ok.injEq, Prod.mk.injEq] at hS
          obtain ⟨rfl, rfl⟩ := hS
          exact ⟨rfl, Advances_refl s, fun _ => KeptBuffer_refl _, rfl, rfl⟩
        | none =>
          rw [hf] at hS
          dsimp only at hS
          cases hl : s.sampler_heap_.getLast? with
          | none =>
            rw [hl] at hS
            cases hS
          | some cpu_handle =>
            rw [hl] at hS
            simp only [Except.ok.injEq, Prod.mk.injEq] at hS
            obtain ⟨rfl, rfl⟩ := hS
            rw [getLastD_of_getLast? hl]
            refine ⟨rfl, ⟨(List.append_nil _).symm, fun j => ?_, rfl, fun b hb => hb⟩,
              fun _ => KeptBuffer_refl _, rfl, rfl⟩
            change s.frame_resources_to_free_ j = _
            split
            · exact (List.append_nil _).symm
            · rfl
      obtain ⟨hh, a1, k1, t1, sm1⟩ := hfound
      obtain ⟨a2, k2, t2, sm2⟩ := ih _ _ _ h
      have a15 : DrawDevice.Advances s2
          (s2.record (Command.SetGraphicsRootDescriptorTable
            (C.textures_start_bindslot_ + kMaxTexStages + i) handle))
          [Command.SetGraphicsRootDescriptorTable
            (C.textures_start_bindslot_ + kMaxTexStages + i) handle] [] :=
        (Quiet_record s2 _).1
      have hcache : s2.sampler_cache_ =
          (samplerFor I desc s.sampler_cache_ s.sampler_heap_).2.1 :=
        congrArg Prod.fst sm1
      have hheap : s2.sampler_heap_ =
          (samplerFor I desc s.sampler_cache_ s.sampler_heap_).2.2 :=
        congrArg Prod.snd sm1
      have hcache2 : (s2.record (Command.SetGraphicsRootDescriptorTable
          (C.textures_start_bindslot_ + kMaxTexStages + i) handle)).sampler_cache_ =
          (samplerFor I desc s.sampler_cache_ s.sampler_heap_).2.1 := hcache
      have hheap2 : (s2.record (Command.SetGraphicsRootDescriptorTable
          (C.textures_start_bindslot_ + kMaxTexStages + i) handle)).sampler_heap_ =
          (samplerFor I desc s.sampler_cache_ s.sampler_heap_).2.2 := hheap
      rw [hcache2, hheap2] at a2 sm2
      have hall := Advances_trans (Advances_trans a1 a15) a2
      refine ⟨?_, fun b => KeptBuffer_trans (k1 b) (k2 b), ?_, ?_⟩
      · rw [hh] at hall
        exact hall
      · exact t2.trans t1
      · exact sm2


theorem TransitionTexture_effect {K : Nat} {self s1 : FrameScheduler} {texture sub state : Nat}
    (h : FrameScheduler.TransitionTexture K self texture sub state = Except.ok s1) :
    ∃ tex, self.back_buffers_.get? texture = some tex ∧
      ((tex.current_state_ = state ∧ s1 = self) ∨
        (tex.current_state_ ≠ state ∧
          s1 = { self with
            cmd_list_ := self.cmd_list_ ++
              [Command.TransitionBarrier tex.this sub tex.current_state_ state]
            back_buffers_ := self.back_buffers_.set texture { tex with current_state_ := state }
            frame_resources_to_free_ := fun i =>
              if i = self.current_back_buffer_ then self.frame_resources_to_free_ i ++ [tex.this]
              else self.frame_resources_to_free_ i })) := by
  unfold FrameScheduler.TransitionTexture at h
  cases hg : self.back_buffers_.get? texture with
  | none =>
    rw [hg] at h
    cases h
  | some tex =>
    rw [hg] at h
    dsimp only at h
    refine ⟨tex, rfl, ?_⟩
    by_cases hs : tex.current_state_ = state
    · rw [if_pos hs] at h
      simp only [Except.ok.injEq] at h
      exact Or.inl ⟨hs, h.symm⟩
    · rw [if_neg hs] at h
      obtain ⟨-, rfl⟩ := MarkResourceAsUsed_ok h
      exact Or.inr ⟨hs, rfl⟩

theorem get?_set_self {l : List GpuTexture} {n : Nat} {tex new : GpuTexture}
    (h : l.get? n = some tex) : (l.set n new).get? n = some new := by
  induction l generalizing n with
  | nil => cases h
  | cons a l ih =>
    cases n with
    | zero => rfl
    | succ n => exact ih h

theorem transitionRenderTarget_effect {K : Nat} {C : DrawConstants} {s t : DrawDevice}
    {target : Nat} (h : DrawDevice.transitionRenderTarget K C s = Except.ok (t, target)) :
    ∃ tex, s.renderTarget = some tex ∧ target = tex.this ∧
      DrawDevice.Advances s t
        (if tex.current_state_ = C.D3D12_RESOURCE_STATE_RENDER_TARGET then []
          else [Command.TransitionBarrier tex.this 0 tex.current_state_
            C.D3D12_RESOURCE_STATE_RENDER_TARGET])
        (if tex.current_state_ = C.D3D12_RESOURCE_STATE_RENDER_TARGET then []
          else [tex.this]) ∧
      DrawDevice.BuffersKept s t ∧ t.samplers = s.samplers ∧
      t.renderTarget =
        some { tex with current_state_ := C.D3D12_RESOURCE_STATE_RENDER_TARGET } := by
  unfold DrawDevice.transitionRenderTarget at h
  cases hb : s.bound_render_target_ with
  | some tex =>
    rw [hb] at h
    dsimp only at h
    have hrt : s.renderTarget = some tex := by
      unfold DrawDevice.renderTarget
      rw [hb]
    refine ⟨tex, hrt, ?_⟩
    by_cases hs : tex.current_state_ = C.D3D12_RESOURCE_STATE_RENDER_TARGET
    · rw [if_pos hs] at h
      simp only [Except.ok.injEq, Prod.mk.injEq] at h
      obtain ⟨rfl, rfl⟩ := h
      rw [if_pos hs, if_pos hs]
      refine ⟨rfl, Advances_refl s, fun _ => KeptBuffer_refl _, rfl, ?_⟩
      rw [hrt, ← hs]
    · rw [if_neg hs] at h
      split at h
      · cases h
      · rename_i s2 hM
        simp only [Except.ok.injEq, Prod.mk.injEq] at h
        obtain ⟨rfl, rfl⟩ := h
        rw [if_neg hs, if_neg hs]
        have q := Quiet_mark hM
        obtain ⟨⟨q1, q2, q3, q4⟩, qk, qt, qs⟩ := q
        refine ⟨rfl, ⟨?_, ?_, ?_, ?_⟩, ?_, ?_, ?_⟩
        · rw [q1]
          exact List.append_nil _
        · intro i
          rw [q2 i]
          rfl
        · exact q3
        · exact q4
        · exact qk
        · exact qs
        · unfold DrawDevice.renderTarget
          have hbt : s2.bound_render_target_ =
              some { tex with current_state_ := C.D3D12_RESOURCE_STATE_RENDER_TARGET } :=
            congrArg Prod.snd qt
          rw [hbt]
  | none =>
    rw [hb] at h
    dsimp only at h
    cases hg : s.back_buffers_.get? s.current_back_buffer_ with
    | none =>
      rw [hg] at h
      cases h
    | some tex =>
      rw [hg] at h
      dsimp only at h
      have hrt : s.renderTarget = some tex := by
        unfold DrawDevice.renderTarget
        rw [hb]
        exact hg
      refine ⟨tex, hrt, ?_⟩
      cases hT : FrameScheduler.TransitionTexture K s.toFrameScheduler s.current_back_buffer_ 0
          C.D3D12_RESOURCE_STATE_RENDER_TARGET with
      | error e =>
        rw [hT] at h
        cases h
      | ok scheduler =>
        rw [hT] at h
        simp only [Except.ok.injEq, Prod.mk.injEq] at h
        obtain ⟨rfl, rfl⟩ := h
        obtain ⟨tex2, hg2, hcase⟩ := TransitionTexture_effect hT
        have hg3 : s.back_buffers_.get? s.current_back_buffer_ = some tex2 := hg2
        rw [hg] at hg3
        simp only [Option.some.injEq] at hg3
        subst hg3
        rcases hcase with ⟨hs, rfl⟩ | ⟨hs, rfl⟩
        · rw [if_pos hs, if_pos hs]
          refine ⟨rfl, Advances_refl _, fun _ => KeptBuffer_refl _, rfl, ?_⟩
          unfold DrawDevice.renderTarget
          dsimp only
          rw [hg, ← hs]
        · rw [if_neg hs, if_neg hs]
          refine ⟨rfl, ⟨rfl, fun i => rfl, rfl, fun b hb2 => hb2⟩,
            fun _ => KeptBuffer_refl _, rfl, ?_⟩
          unfold DrawDevice.renderTarget
          dsimp only
          exact get?_set_self hg


theorem renderTarget_congr {s t : DrawDevice} (ht : t.targets = s.targets)
    (hb : t.bindings = s.bindings) : t.renderTarget = s.renderTarget := by
  unfold DrawDevice.renderTarget
  have h1 : t.back_buffers_ = s.back_buffers_ := congrArg Prod.fst ht
  have h2 : t.bound_render_target_ = s.bound_render_target_ := congrArg Prod.snd ht
  have h3 : t.current_back_buffer_ = s.current_back_buffer_ :=
    congrArg DrawBindings.current_back_buffer_ hb
  rw [h1, h2, h3]

theorem setRenderTargets_effect {K : Nat} {C : DrawConstants} {s t : DrawDevice}
    (h : DrawDevice.setRenderTargets K C s = Except.ok t) :
    ∃ tex, s.renderTarget = some tex ∧
      DrawDevice.Advances s t (renderTargetCommands C s) (renderTargetMarks C s) ∧
      DrawDevice.BuffersKept s t ∧ t.samplers = s.samplers ∧
      t.renderTarget =
        some { tex with current_state_ := C.D3D12_RESOURCE_STATE_RENDER_TARGET } := by
  unfold DrawDevice.setRenderTargets at h
  dsimp only at h
  have q0 := Quiet_trans (Quiet_trans (Quiet_record s Command.RSSetViewports)
    (Quiet_record _ Command.RSSetScissorRects)) (Quiet_record _ Command.SetDescriptorHeaps)
  split at h
  · cases h
  · rename_i s2 target hT
    obtain ⟨tex, hrt, rfl, a1, k1, sm1, hrt1⟩ := transitionRenderTarget_effect hT
    have hrt0 : s.renderTarget = some tex := hrt
    have hb2 : s2.bindings = s.bindings := a1.2.2.1
    have hdepth : s2.bound_depth_target_ = s.bound_depth_target_ :=
      congrArg DrawBindings.bound_depth_target_ hb2
    split at h
    · cases h
    · rename_i s3 hD
      have q2 : DrawDevice.Quiet s2 s3 [] s.bound_depth_target_.toList := by
        rw [hdepth] at hD
        cases hd : s.bound_depth_target_ with
        | some depth =>
          rw [hd] at hD
          exact Quiet_mark hD
        | none =>
          rw [hd] at hD
          simp only [Except.ok.injEq] at hD
          subst hD
          exact Quiet_refl _
      have hdepth3 : s3.bound_depth_target_ = s.bound_depth_target_ :=
        (congrArg DrawBindings.bound_depth_target_ q2.1.2.2.1).trans hdepth
      rw [hdepth3] at h
      have q3 := Quiet_trans (Quiet_record s3
        (Command.OMSetRenderTargets tex.this s.bound_depth_target_)) (Quiet_mark h)
      have q23 := Quiet_trans q2 q3
      have hall := Advances_trans (Advances_trans q0.1 a1) q23.1
      refine ⟨tex, hrt0, ?_, ?_, ?_, ?_⟩
      · unfold renderTargetCommands renderTargetMarks
        rw [hrt0]
        dsimp only
        obtain ⟨c1, c2, c3, c4⟩ := hall
        refine ⟨?_, fun i => ?_, c3, c4⟩
        · rw [c1]
          simp only [List.append_assoc, List.nil_append, List.append_nil, List.cons_append]
        · rw [c2 i]
          simp only [List.append_assoc, List.nil_append, List.append_nil, List.cons_append]
      · intro b
        exact KeptBuffer_trans (KeptBuffer_trans (q0.2.1 b) (k1 b)) (q23.2.1 b)
      · exact q23.2.2.2.trans (sm1.trans q0.2.2.2)
      · rw [renderTarget_congr q23.2.2.1 q23.1.2.2.1]
        exact hrt1


theorem MarkBufferForPersist_mono (dev : Device) (buffer b : Nat)
    (h : b ∈ dev.buffers_to_persist_) : b ∈ (dev.MarkBufferForPersist buffer).buffers_to_persist_ := by
  unfold Device.MarkBufferForPersist
  split
  · exact h
  · exact List.mem_cons_of_mem _ h

theorem Unlock_kept (dev : Device) (self : DynamicBuffer) :
    KeptBuffer (some self) (some (DynamicBuffer.Unlock dev self)) := by
  unfold DynamicBuffer.Unlock
  split
  · exact ⟨rfl, rfl, rfl, rfl⟩
  · exact ⟨rfl, rfl, rfl, rfl⟩

theorem uploadConstants_effect {L : LockFlagBits} {s t : DrawDevice} {buffer : Nat}
    {bytes : List Byte} {checks : Bool}
    (h : DrawDevice.uploadConstants L s buffer bytes checks = Except.ok t) :
    checks = true ∧ DrawDevice.Advances s t [] [] ∧ t.targets = s.targets ∧
      t.samplers = s.samplers ∧ (∀ a, a ≠ buffer → t.buffers a = s.buffers a) ∧
      UploadedBuffer s t buffer bytes := by
  unfold DrawDevice.uploadConstants at h
  cases hb : s.buffers buffer with
  | none =>
    rw [hb] at h
    cases h
  | some cbuffer =>
    rw [hb] at h
    dsimp only at h
    cases hL : DynamicBuffer.Lock L s.toDevice cbuffer 0 bytes.length L.D3DLOCK_DISCARD with
    | error e =>
      rw [hL] at h
      cases h
    | ok r =>
      obtain ⟨ptr, dev, locked⟩ := r
      rw [hL] at h
      dsimp only at h
      rw [ASSERT_eq_ok] at h
      obtain ⟨hchecks, h⟩ := h
      obtain ⟨-, -, -, d, n, hd, -, -⟩ := Lock_ok_iff.mp hL
      have hd2 : HasFlag L.D3DLOCK_DISCARD L.D3DLOCK_DISCARD = Except.ok true := by
        unfold HasFlag at hd ⊢
        rw [ASSERT_eq_ok] at hd
        rw [hd.1, ASSERT_true, Nat.and_self, beq_self_eq_true]
      obtain ⟨-, -, rfl, rfl, rfl⟩ := Lock_discard_inv hd2 hL
      simp only [Except.ok.injEq] at h
      subst h
      have hk := Unlock_kept
        (store (s.toDevice.MarkBufferForPersist cbuffer.this)
          (afterDiscard s.toDevice cbuffer (lockedSize cbuffer bytes.length))
          (BytePtr.cache 0) bytes).1
        (store (s.toDevice.MarkBufferForPersist cbuffer.this)
          (afterDiscard s.toDevice cbuffer (lockedSize cbuffer bytes.length))
          (BytePtr.cache 0) bytes).2
      obtain ⟨k1, k2, k3, k4⟩ := hk
      refine ⟨hchecks, ⟨?_, fun i => ?_, rfl, fun b hb2 => ?_⟩, rfl, rfl, fun a ha => ?_, ?_⟩
      · change (s.toDevice.MarkBufferForPersist cbuffer.this).cmd_list_ = s.cmd_list_ ++ []
        rw [MarkBufferForPersist_cmd_list, List.append_nil]
      · change s.frame_resources_to_free_ i = _
        split
        · exact (List.append_nil _).symm
        · rfl
      · exact MarkBufferForPersist_mono s.toDevice cbuffer.this b hb2
      · change (if a = buffer then _ else s.buffers a) = s.buffers a
        rw [if_neg ha]
      · refine ⟨cbuffer, DynamicBuffer.Unlock
          (store (s.toDevice.MarkBufferForPersist cbuffer.this)
            (afterDiscard s.toDevice cbuffer (lockedSize cbuffer bytes.length))
            (BytePtr.cache 0) bytes).1
          (store (s.toDevice.MarkBufferForPersist cbuffer.this)
            (afterDiscard s.toDevice cbuffer (lockedSize cbuffer bytes.length))
            (BytePtr.cache 0) bytes).2, hb, ?_, ?_, ?_, ?_, ?_, ?_⟩
        · change (if buffer = buffer then _ else s.buffers buffer) = _
          rw [if_pos rfl]
        · rw [k2]
          rfl
        · rw [k1]
          rfl
        · rw [k3]
          rfl
        · rw [k4]
          rfl
        · exact MarkBufferForPersist_mem s.toDevice cbuffer.this


theorem clearBlock_cases {entry flag : Nat} {body : DrawDevice → Except Fault DrawDevice}
    {s t : DrawDevice} (h : DrawDevice.clearBlock entry flag body s = Except.ok t) :
    (entry &&& flag ≠ 0 ∧ ∃ u, body s = Except.ok u ∧
        t = { u with dirty_flags_ := u.dirty_flags_ ^^^ (u.dirty_flags_ &&& flag) }) ∨
      (entry &&& flag = 0 ∧ t = s) := by
  unfold DrawDevice.clearBlock at h
  by_cases hf : entry &&& flag ≠ 0
  · rw [if_pos hf] at h
    cases hb : body s with
    | error e =>
      rw [hb] at h
      cases h
    | ok u =>
      rw [hb] at h
      simp only [Except.ok.injEq] at h
      exact Or.inl ⟨hf, u, rfl, h.symm⟩
  · rw [if_neg hf] at h
    simp only [Except.ok.injEq] at h
    exact Or.inr ⟨not_not.mp hf, h.symm⟩

theorem lockedSize_congr {a b : DynamicBuffer} (h : a.size_ = b.size_) (n : Nat) :
    lockedSize a n = lockedSize b n := by
  unfold lockedSize
  rw [h]

theorem UploadedBuffer_frame {s0 s t u : DrawDevice} {a : Nat} {bytes : List Byte}
    (h0 : KeptBuffer (s0.buffers a) (s.buffers a)) (h : UploadedBuffer s t a bytes)
    (h1 : KeptBuffer (t.buffers a) (u.buffers a))
    (hp : ∀ b, b ∈ t.buffers_to_persist_ → b ∈ u.buffers_to_persist_) :
    UploadedBuffer s0 u a bytes := by
  obtain ⟨before, after, hb, ha, hw, hc, hs, ht, hm⟩ := h
  rw [hb] at h0
  rw [ha] at h1
  cases hb0 : s0.buffers a with
  | none =>
    rw [hb0] at h0
    exact h0.elim
  | some before0 =>
    rw [hb0] at h0
    cases hau : u.buffers a with
    | none =>
      rw [hau] at h1
      exact h1.elim
    | some afterU =>
      rw [hau] at h1
      obtain ⟨c0, w0, z0, t0⟩ := h0
      obtain ⟨c1, w1, z1, t1⟩ := h1
      have hl : lockedSize before bytes.length = lockedSize before0 bytes.length :=
        lockedSize_congr z0 _
      refine ⟨before0, afterU, hb0, hau, ?_, ?_, ?_, ?_, ?_⟩
      · rw [w1, hw, hl]
      · rw [c1, hc, hl]
        rfl
      · rw [z1, hs, z0]
      · rw [t1, ht, t0]
      · rw [← t0]
        exact hp _ hm

theorem UploadedIfDirty_frame {entry flag : Nat} {s0 s t u : DrawDevice} {a : Nat}
    {bytes : List Byte}
    (h0 : KeptBuffer (s0.buffers a) (s.buffers a)) (h : UploadedIfDirty entry flag s t a bytes)
    (h1 : KeptBuffer (t.buffers a) (u.buffers a))
    (hp : ∀ b, b ∈ t.buffers_to_persist_ → b ∈ u.buffers_to_persist_) :
    UploadedIfDirty entry flag s0 u a bytes := by
  unfold UploadedIfDirty at h ⊢
  by_cases hf : entry &&& flag ≠ 0
  · rw [if_pos hf] at h ⊢
    exact UploadedBuffer_frame h0 h h1 hp
  · rw [if_neg hf] at h ⊢
    exact KeptBuffer_trans h0 (KeptBuffer_trans h h1)

theorem KeptBuffer_of_eq {a b : Option DynamicBuffer} (h : b = a) : KeptBuffer a b := by
  rw [h]
  exact KeptBuffer_refl a

theorem uploadBlock_effect {L : LockFlagBits} {entry flag : Nat} (sel : DrawDevice → Nat)
    (bytes : List Byte) (chk : DrawDevice → Bool) {s t : DrawDevice}
    (h : DrawDevice.clearBlock entry flag
      (fun s => DrawDevice.uploadConstants L s (sel s) bytes (chk s)) s = Except.ok t) :
    DrawDevice.Advances s t [] [] ∧ t.targets = s.targets ∧ t.samplers = s.samplers ∧
      (∀ a, a ≠ sel s → t.buffers a = s.buffers a) ∧
      UploadedIfDirty entry flag s t (sel s) bytes ∧ (entry &&& flag ≠ 0 → chk s = true) := by
  rcases clearBlock_cases h with ⟨hf, u, hu, rfl⟩ | ⟨hf, rfl⟩
  · obtain ⟨hc, hA, hT, hS, hO, hU⟩ := uploadConstants_effect hu
    refine ⟨hA, hT, hS, hO, ?_, fun _ => hc⟩
    unfold UploadedIfDirty
    rw [if_pos hf]
    exact hU
  · refine ⟨Advances_refl _, rfl, rfl, fun _ _ => rfl, ?_, fun hne => (hne hf).elim⟩
    unfold UploadedIfDirty
    rw [if_neg (not_not.mpr hf)]
    exact KeptBuffer_refl _

theorem renderTargetBlock_effect {K : Nat} {C : DrawConstants} {entry : Nat} {s t : DrawDevice}
    (h : DrawDevice.clearBlock entry DIRTY_FLAG_OM (DrawDevice.setRenderTargets K C) s =
      Except.ok t) :
    DrawDevice.Advances s t
        (if entry &&& DIRTY_FLAG_OM ≠ 0 then renderTargetCommands C s else [])
        (if entry &&& DIRTY_FLAG_OM ≠ 0 then renderTargetMarks C s else []) ∧
      DrawDevice.BuffersKept s t ∧ t.samplers = s.samplers ∧
      (if entry &&& DIRTY_FLAG_OM ≠ 0 then
        ∃ tex, s.renderTarget = some tex ∧
          t.renderTarget =
            some { tex with current_state_ := C.D3D12_RESOURCE_STATE_RENDER_TARGET }
      else t.targets = s.targets) := by
  rcases clearBlock_cases h with ⟨hf, u, hu, rfl⟩ | ⟨hf, rfl⟩
  · obtain ⟨tex, hr, hA, hB, hS, hT⟩ := setRenderTargets_effect hu
    rw [if_pos hf, if_pos hf, if_pos hf]
    exact ⟨hA, hB, hS, tex, hr, hT⟩
  · rw [if_neg (not_not.mpr hf), if_neg (not_not.mpr hf), if_neg (not_not.mpr hf)]
    exact ⟨Advances_refl _, fun _ => KeptBuffer_refl _, rfl, rfl⟩

theorem textureBlock_effect {K : Nat} {C : DrawConstants} {I : DrawInputs} {entry : Nat}
    {s t : DrawDevice}
    (h : DrawDevice.clearBlock entry DIRTY_FLAG_PS_TEXTURES
      (fun s => DrawDevice.setTextures K C I (s.bound_textures_.take kMaxTexStages) 0 s) s =
      Except.ok t) :
    DrawDevice.Quiet s t
      (if entry &&& DIRTY_FLAG_PS_TEXTURES ≠ 0 then
        textureCommands C I (s.bound_textures_.take kMaxTexStages) 0 else [])
      (if entry &&& DIRTY_FLAG_PS_TEXTURES ≠ 0 then
        textureMarks (s.bound_textures_.take kMaxTexStages) else []) := by
  rcases clearBlock_cases h with ⟨hf, u, hu, rfl⟩ | ⟨hf, rfl⟩
  · rw [if_pos hf, if_pos hf]
    have q := setTextures_quiet K C I _ _ _ _ hu
    exact q
  · rw [if_neg (not_not.mpr hf), if_neg (not_not.mpr hf)]
    exact Quiet_refl _

theorem samplerBlock_effect {C : DrawConstants} {I : DrawInputs} {entry : Nat}
    {s t : DrawDevice}
    (h : DrawDevice.clearBlock entry DIRTY_FLAG_PS_SAMPLERS
      (fun s => DrawDevice.setSamplers C I (s.texture_stage_states_.take kMaxTexStages) 0 s) s =
      Except.ok t) :
    DrawDevice.Advances s t
        (if entry &&& DIRTY_FLAG_PS_SAMPLERS ≠ 0 then
          (samplerCommands C I (s.texture_stage_states_.take kMaxTexStages) 0
            s.sampler_cache_ s.sampler_heap_).1 else []) [] ∧
      DrawDevice.BuffersKept s t ∧ t.targets = s.targets ∧
      t.samplers =
        (if entry &&& DIRTY_FLAG_PS_SAMPLERS ≠ 0 then
          (samplerCommands C I (s.texture_stage_states_.take kMaxTexStages) 0
            s.sampler_cache_ s.sampler_heap_).2 else s.samplers) := by
  rcases clearBlock_cases h with ⟨hf, u, hu, rfl⟩ | ⟨hf, rfl⟩
  · rw [if_pos hf, if_pos hf]
    have q := setSamplers_effect C I _ _ _ _ hu
    exact q
  · rw [if_neg (not_not.mpr hf), if_neg (not_not.mpr hf)]
    exact ⟨Advances_refl _, fun _ => KeptBuffer_refl _, rfl, rfl⟩


theorem PrepareDrawCall_chain {K : Nat} {L : LockFlagBits} {C : DrawConstants} {I : DrawInputs}
    {self s9 : DrawDevice} {PrimitiveType : Nat} {start_vertex num_vertices : Int}
    (h : DrawDevice.PrepareDrawCall K L C I self PrimitiveType start_vertex num_vertices =
      Except.ok (HRESULT.S_OK, s9)) :
    ∃ s1 s2 s3 s4 s5 s6 s7 s8,
      DrawDevice.clearBlock self.dirty_flags_ DIRTY_FLAG_OM (DrawDevice.setRenderTargets K C)
        self = Except.ok s1 ∧
      DrawDevice.bindPipeline K I s1 PrimitiveType start_vertex num_vertices = Except.ok s2 ∧
      DrawDevice.clearBlock self.dirty_flags_ DIRTY_FLAG_TRANSFORMS
        (fun s => DrawDevice.uploadConstants L s s.vs_cbuffer_ I.VertexCBuffer true) s2 =
        Except.ok s3 ∧
      DrawDevice.clearBlock self.dirty_flags_ DIRTY_FLAG_VS_CBUFFER
        (fun s => DrawDevice.uploadConstants L s s.vs_creg_cbuffer_ I.bound_vs_cregs_ true) s3 =
        Except.ok s4 ∧
      DrawDevice.clearBlock self.dirty_flags_ DIRTY_FLAG_LIGHTS
        (fun s => DrawDevice.uploadConstants L s s.lights_cbuffer_ I.LightsCBuffer
          (DrawDevice.lightsChecks C s)) s4 = Except.ok s5 ∧
      DrawDevice.clearBlock self.dirty_flags_ DIRTY_FLAG_PS_CBUFFER
        (fun s => DrawDevice.uploadConstants L s s.ps_cbuffer_ I.PixelCBuffer true) s5 =
        Except.ok s6 ∧
      DrawDevice.setRoots s6 = Except.ok s7 ∧
      DrawDevice.clearBlock self.dirty_flags_ DIRTY_FLAG_PS_TEXTURES
        (fun s => DrawDevice.setTextures K C I (s.bound_textures_.take kMaxTexStages) 0 s) s7 =
        Except.ok s8 ∧
      DrawDevice.clearBlock self.dirty_flags_ DIRTY_FLAG_PS_SAMPLERS
        (fun s => DrawDevice.setSamplers C I (s.texture_stage_states_.take kMaxTexStages) 0 s)
        s8 = Except.ok s9 := by
  rw [PrepareDrawCall_eq_runSteps,
    runSteps_eq_reference self.dirty_flags_ _ self
      (drawSteps_keep K L C I PrimitiveType start_vertex num_vertices)
      (drawSteps_pow K L C I PrimitiveType start_vertex num_vertices)
      (drawSteps_disjoint K L C I PrimitiveType start_vertex num_vertices)
      (fun _ _ _ _ => rfl),
    ← PrepareDrawCall_reference_eq_runSteps] at h
  unfold DrawDevice.PrepareDrawCall_reference at h
  by_cases hP : PrimitiveType > C.D3DPT_TRIANGLEFAN
  · rw [if_pos hP] at h
    simp only [Except.ok.injEq, Prod.mk.injEq, reduceCtorEq, false_and] at h
  · rw [if_neg hP, ASSERT_eq_ok] at h
    obtain ⟨-, h⟩ := h
    split at h
    · cases h
    rename_i s1 h1
    split at h
    · cases h
    rename_i s2 h2
    split at h
    · cases h
    rename_i s3 h3
    split at h
    · cases h
    rename_i s4 h4
    split at h
    · cases h
    rename_i s5 h5
    split at h
    · cases h
    rename_i s6 h6
    split at h
    · cases h
    rename_i s7 h7
    split at h
    · cases h
    rename_i s8 h8
    split at h
    · cases h
    rename_i s9b h9
    simp only [Except.ok.injEq, Prod.mk.injEq, true_and] at h
    subst h
    exact ⟨s1, s2, s3, s4, s5, s6, s7, s8, h1, h2, h3, h4, h5, h6, h7, h8, h9⟩


theorem Advances_of_eq {s t : DrawDevice} {c1 c2 : List Command} {m1 m2 : List Nat}
    (h : DrawDevice.Advances s t c1 m1) (hc : c1 = c2) (hm : m1 = m2) :
    DrawDevice.Advances s t c2 m2 := by
  subst hc
  subst hm
  exact h

theorem PrepareDrawCall_effect {K : Nat} {L : LockFlagBits} {C : DrawConstants}
    {I : DrawInputs} {self s9 : DrawDevice} {PrimitiveType : Nat}
    {start_vertex num_vertices : Int}
    (h : DrawDevice.PrepareDrawCall K L C I self PrimitiveType start_vertex num_vertices =
      Except.ok (HRESULT.S_OK, s9)) :
    (∃ views pso a0 a1 a2 a3, I.CreatePSO PrimitiveType = Except.ok pso ∧
      DrawDevice.Advances self s9
        ((if self.dirty_flags_ &&& DIRTY_FLAG_OM ≠ 0 then renderTargetCommands C self else []) ++
          [Command.IASetPrimitiveTopology PrimitiveType, Command.IASetVertexBuffers views,
            Command.SetPipelineState pso] ++
          [Command.SetGraphicsRootSignature, Command.SetGraphicsRootConstantBufferView 0 a0,
            Command.SetGraphicsRootConstantBufferView 1 a1,
            Command.SetGraphicsRootConstantBufferView 2 a2,
            Command.SetGraphicsRootConstantBufferView 3 a3] ++
          (if self.dirty_flags_ &&& DIRTY_FLAG_PS_TEXTURES ≠ 0 then
            textureCommands C I (self.bound_textures_.take kMaxTexStages) 0 else []) ++
          (if self.dirty_flags_ &&& DIRTY_FLAG_PS_SAMPLERS ≠ 0 then
            (samplerCommands C I (self.texture_stage_states_.take kMaxTexStages) 0
              self.sampler_cache_ self.sampler_heap_).1 else []))
        ((if self.dirty_flags_ &&& DIRTY_FLAG_OM ≠ 0 then renderTargetMarks C self else []) ++
          pipelineMarks self.bindings ++
          (if self.dirty_flags_ &&& DIRTY_FLAG_PS_TEXTURES ≠ 0 then
            textureMarks (self.bound_textures_.take kMaxTexStages) else []))) ∧
    s9.samplers =
      (if self.dirty_flags_ &&& DIRTY_FLAG_PS_SAMPLERS ≠ 0 then
        (samplerCommands C I (self.texture_stage_states_.take kMaxTexStages) 0
          self.sampler_cache_ self.sampler_heap_).2 else self.samplers) ∧
    (if self.dirty_flags_ &&& DIRTY_FLAG_OM ≠ 0 then
      ∃ tex, self.renderTarget = some tex ∧
        s9.renderTarget =
          some { tex with current_state_ := C.D3D12_RESOURCE_STATE_RENDER_TARGET }
    else s9.targets = self.targets) ∧
    (self.dirty_flags_ &&& DIRTY_FLAG_LIGHTS ≠ 0 → DrawDevice.lightsChecks C self = true) ∧
    ([self.vs_cbuffer_, self.vs_creg_cbuffer_, self.lights_cbuffer_, self.ps_cbuffer_].Nodup →
      UploadedIfDirty self.dirty_flags_ DIRTY_FLAG_TRANSFORMS self s9 self.vs_cbuffer_
        I.VertexCBuffer ∧
      UploadedIfDirty self.dirty_flags_ DIRTY_FLAG_VS_CBUFFER self s9 self.vs_creg_cbuffer_
        I.bound_vs_cregs_ ∧
      UploadedIfDirty self.dirty_flags_ DIRTY_FLAG_LIGHTS self s9 self.lights_cbuffer_
        I.LightsCBuffer ∧
      UploadedIfDirty self.dirty_flags_ DIRTY_FLAG_PS_CBUFFER self s9 self.ps_cbuffer_
        I.PixelCBuffer) := by
  obtain ⟨s1, s2, s3, s4, s5, s6, s7, s8, h1, h2, h3, h4, h5, h6, h7, h8, h9⟩ :=
    PrepareDrawCall_chain h
  obtain ⟨A1, K1, S1, T1⟩ := renderTargetBlock_effect h1
  obtain ⟨views, pso, hpso, A2, K2, T2, S2⟩ := bindPipeline_quiet h2
  obtain ⟨A3, T3, S3, O3, U3, -⟩ :=
    uploadBlock_effect (fun s => s.vs_cbuffer_) I.VertexCBuffer (fun _ => true) h3
  obtain ⟨A4, T4, S4, O4, U4, -⟩ :=
    uploadBlock_effect (fun s => s.vs_creg_cbuffer_) I.bound_vs_cregs_ (fun _ => true) h4
  obtain ⟨A5, T5, S5, O5, U5, C5⟩ :=
    uploadBlock_effect (fun s => s.lights_cbuffer_) I.LightsCBuffer
      (fun s => DrawDevice.lightsChecks C s) h5
  obtain ⟨A6, T6, S6, O6, U6, -⟩ :=
    uploadBlock_effect (fun s => s.ps_cbuffer_) I.PixelCBuffer (fun _ => true) h6
  obtain ⟨a0, a1, a2, a3, A7, K7, T7, S7⟩ := setRoots_quiet h7
  obtain ⟨A8, K8, T8, S8⟩ := textureBlock_effect h8
  obtain ⟨A9, K9, T9, S9⟩ := samplerBlock_effect h9
  have A02 := Advances_trans A1 A2
  have A03 := Advances_trans A02 A3
  have A04 := Advances_trans A03 A4
  have A05 := Advances_trans A04 A5
  have A06 := Advances_trans A05 A6
  have A07 := Advances_trans A06 A7
  have A08 := Advances_trans A07 A8
  have A09 := Advances_trans A08 A9
  have A79 := Advances_trans A8 A9
  have A69 := Advances_trans A7 A79
  have A59 := Advances_trans A6 A69
  have A49 := Advances_trans A5 A59
  have A39 := Advances_trans A4 A49
  have b1 : s1.bindings = self.bindings := A1.2.2.1
  have b2 : s2.bindings = self.bindings := A02.2.2.1
  have b3 : s3.bindings = self.bindings := A03.2.2.1
  have b4 : s4.bindings = self.bindings := A04.2.2.1
  have b5 : s5.bindings = self.bindings := A05.2.2.1
  have b7 : s7.bindings = self.bindings := A07.2.2.1
  have b8 : s8.bindings = self.bindings := A08.2.2.1
  have b9 : s9.bindings = self.bindings := A09.2.2.1
  have hv2 : s2.vs_cbuffer_ = self.vs_cbuffer_ := congrArg DrawBindings.vs_cbuffer_ b2
  have hr3 : s3.vs_creg_cbuffer_ = self.vs_creg_cbuffer_ :=
    congrArg DrawBindings.vs_creg_cbuffer_ b3
  have hl4 : s4.lights_cbuffer_ = self.lights_cbuffer_ :=
    congrArg DrawBindings.lights_cbuffer_ b4
  have hp5 : s5.ps_cbuffer_ = self.ps_cbuffer_ := congrArg DrawBindings.ps_cbuffer_ b5
  have ht7 : s7.bound_textures_ = self.bound_textures_ :=
    congrArg DrawBindings.bound_textures_ b7
  have hs8 : s8.texture_stage_states_ = self.texture_stage_states_ :=
    congrArg DrawBindings.texture_stage_states_ b8
  have he4 : s4.enabled_lights_ = self.enabled_lights_ :=
    congrArg DrawBindings.enabled_lights_ b4
  have hg4 : s4.lights_ = self.lights_ := congrArg DrawBindings.lights_ b4
  have S08 : s8.samplers = self.samplers :=
    S8.trans (S7.trans (S6.trans (S5.trans (S4.trans (S3.trans (S2.trans S1))))))
  have hc8 : s8.sampler_cache_ = self.sampler_cache_ := congrArg Prod.fst S08
  have hh8 : s8.sampler_heap_ = self.sampler_heap_ := congrArg Prod.snd S08
  have T19 : s9.targets = s1.targets :=
    T9.trans (T8.trans (T7.trans (T6.trans (T5.trans (T4.trans (T3.trans T2))))))
  have K02 : DrawDevice.BuffersKept self s2 := fun b => KeptBuffer_trans (K1 b) (K2 b)
  have K69 : DrawDevice.BuffersKept s6 s9 :=
    fun b => KeptBuffer_trans (K7 b) (KeptBuffer_trans (K8 b) (K9 b))
  rw [hv2] at O3 U3
  rw [hr3] at O4 U4
  rw [hl4] at O5 U5
  rw [hp5] at O6 U6
  rw [ht7] at A09
  rw [hs8, hc8, hh8] at A09 S9
  rw [S08] at S9
  rw [b1] at A09
  refine ⟨⟨views, pso, a0, a1, a2, a3, hpso, ?_⟩, S9, ?_, ?_, ?_⟩
  · refine Advances_of_eq A09 ?_ ?_
    · simp only [List.append_nil]
    · simp only [List.append_nil]
  · by_cases hf : self.dirty_flags_ &&& DIRTY_FLAG_OM ≠ 0
    · rw [if_pos hf] at T1 ⊢
      obtain ⟨tex, hr, ht⟩ := T1
      exact ⟨tex, hr, (renderTarget_congr T19 (b9.trans b1.symm)).trans ht⟩
    · rw [if_neg hf] at T1 ⊢
      exact T19.trans T1
  · intro hf
    have c := C5 hf
    unfold DrawDevice.lightsChecks at c ⊢
    rw [he4, hg4] at c
    exact c
  · intro hd
    simp only [List.nodup_cons, List.mem_cons, List.mem_singleton, List.not_mem_nil,
      not_or, or_false, not_false_eq_true, List.nodup_nil, and_true] at hd
    obtain ⟨⟨hvr, hvl, hvp⟩, ⟨hrl, hrp⟩, hlp⟩ := hd
    refine ⟨?_, ?_, ?_, ?_⟩
    · exact UploadedIfDirty_frame (K02 _) U3
        (KeptBuffer_trans (KeptBuffer_of_eq (O4 _ hvr))
          (KeptBuffer_trans (KeptBuffer_of_eq (O5 _ hvl))
            (KeptBuffer_trans (KeptBuffer_of_eq (O6 _ hvp)) (K69 _))))
        A39.2.2.2
    · exact UploadedIfDirty_frame
        (KeptBuffer_trans (K02 _) (KeptBuffer_of_eq (O3 _ (Ne.symm hvr)))) U4
        (KeptBuffer_trans (KeptBuffer_of_eq (O5 _ hrl))
          (KeptBuffer_trans (KeptBuffer_of_eq (O6 _ hrp)) (K69 _)))
        A49.2.2.2
    · exact UploadedIfDirty_frame
        (KeptBuffer_trans (K02 _)
          (KeptBuffer_trans (KeptBuffer_of_eq (O3 _ (Ne.symm hvl)))
            (KeptBuffer_of_eq (O4 _ (Ne.symm hrl))))) U5
        (KeptBuffer_trans (KeptBuffer_of_eq (O6 _ hlp)) (K69 _))
        A59.2.2.2
    · exact UploadedIfDirty_frame
        (KeptBuffer_trans (K02 _)
          (KeptBuffer_trans (KeptBuffer_of_eq (O3 _ (Ne.symm hvp)))
            (KeptBuffer_trans (KeptBuffer_of_eq (O4 _ (Ne.symm hrp)))
              (KeptBuffer_of_eq (O5 _ (Ne.symm hlp)))))) U6
        (K69 _)
        A69.2.2.2


/-- C25: a `PrepareDrawCall` that returns `S_OK` behaves as the reference that
reads the dirty flags once, on entry: each of the seven state categories
(output-merger targets, transforms, vertex shader constants, lights, pixel
constants, textures, samplers) is uploaded if and only if its bit was set on
entry. On return the seven bits are clear and no other bit has changed. Each
constant-buffer upload locks its `DynamicBuffer` with `D3DLOCK_DISCARD`, which
takes the Discard path (pointer into a fresh cache, buffer registered for
persisting), writes the bytes and unlocks.

What the call leaves behind is a function of the state on entry. The command
list grows by exactly: the render-target commands if the output-merger bit was
set, the topology, the vertex buffers and the pipeline state, the root
signature and the four constant-buffer views, one descriptor table per bound
texture if the texture bit was set, and one descriptor table per stage sampler
if the sampler bit was set. The resources kept alive for the current back
buffer grow by the render target and depth target (output-merger bit), the
shaders and vertex buffers, and the bound textures (texture bit). The sampler
cache and free list are those the sampler upload computes if the sampler bit
was set, and unchanged otherwise. The render target is in the render-target
state if the output-merger bit was set, and the targets are unchanged
otherwise. The lights block runs only with the assertions on the lights
holding. With the four constant buffers at distinct addresses, each one is
uploaded (Discard range, cache holding the bytes of its category, registered
for persisting) if its bit was set and kept as it was otherwise. -/
theorem PrepareDrawCall_uploads_dirty_categories (K : Nat) (L : LockFlagBits)
    (C : DrawConstants) (I : DrawInputs) (self s2 : DrawDevice) (PrimitiveType : Nat)
    (start_vertex num_vertices : Int)
    (h : DrawDevice.PrepareDrawCall K L C I self PrimitiveType start_vertex num_vertices =
      Except.ok (HRESULT.S_OK, s2)) :
    DrawDevice.PrepareDrawCall K L C I self PrimitiveType start_vertex num_vertices =
      DrawDevice.PrepareDrawCall_reference K L C I self.dirty_flags_ self PrimitiveType
        start_vertex num_vertices ∧
    s2.dirty_flags_ = self.dirty_flags_ ^^^ (self.dirty_flags_ &&& DIRTY_FLAG_ALL_RESOURCES) ∧
    s2.dirty_flags_ &&& DIRTY_FLAG_ALL_RESOURCES = 0 ∧
    (∀ flag ∈ resourceFlags, s2.dirty_flags_ &&& flag = 0) ∧
    s2.dirty_flags_ &&& DIRTY_FLAG_CMD_LIST_CLOSED =
      self.dirty_flags_ &&& DIRTY_FLAG_CMD_LIST_CLOSED ∧
    (∀ (s s1 : DrawDevice) (buffer : Nat) (bytes : List Byte) (checks : Bool),
      DrawDevice.uploadConstants L s buffer bytes checks = Except.ok s1 →
      ∃ cbuffer, s.buffers buffer = some cbuffer ∧ checks = true ∧
        HasFlag L.D3DLOCK_DISCARD L.D3DLOCK_DISCARD = Except.ok true ∧
        DynamicBuffer.Lock L s.toDevice cbuffer 0 bytes.length L.D3DLOCK_DISCARD =
          Except.ok (BytePtr.cache 0, s.toDevice.MarkBufferForPersist cbuffer.this,
            afterDiscard s.toDevice cbuffer (lockedSize cbuffer bytes.length)) ∧
        s1.buffers buffer = some (DynamicBuffer.Unlock
          (store (s.toDevice.MarkBufferForPersist cbuffer.this)
            (afterDiscard s.toDevice cbuffer (lockedSize cbuffer bytes.length))
            (BytePtr.cache 0) bytes).1
          (store (s.toDevice.MarkBufferForPersist cbuffer.this)
            (afterDiscard s.toDevice cbuffer (lockedSize cbuffer bytes.length))
            (BytePtr.cache 0) bytes).2)) ∧
    (∃ views pso a0 a1 a2 a3, I.CreatePSO PrimitiveType = Except.ok pso ∧
      DrawDevice.Advances self s2
        ((if self.dirty_flags_ &&& DIRTY_FLAG_OM ≠ 0 then renderTargetCommands C self else []) ++
          [Command.IASetPrimitiveTopology PrimitiveType, Command.IASetVertexBuffers views,
            Command.SetPipelineState pso] ++
          [Command.SetGraphicsRootSignature, Command.SetGraphicsRootConstantBufferView 0 a0,
            Command.SetGraphicsRootConstantBufferView 1 a1,
            Command.SetGraphicsRootConstantBufferView 2 a2,
            Command.SetGraphicsRootConstantBufferView 3 a3] ++
          (if self.dirty_flags_ &&& DIRTY_FLAG_PS_TEXTURES ≠ 0 then
            textureCommands C I (self.bound_textures_.take kMaxTexStages) 0 else []) ++
          (if self.dirty_flags_ &&& DIRTY_FLAG_PS_SAMPLERS ≠ 0 then
            (samplerCommands C I (self.texture_stage_states_.take kMaxTexStages) 0
              self.sampler_cache_ self.sampler_heap_).1 else []))
        ((if self.dirty_flags_ &&& DIRTY_FLAG_OM ≠ 0 then renderTargetMarks C self else []) ++
          pipelineMarks self.bindings ++
          (if self.dirty_flags_ &&& DIRTY_FLAG_PS_TEXTURES ≠ 0 then
            textureMarks (self.bound_textures_.take kMaxTexStages) else []))) ∧
    s2.samplers =
      (if self.dirty_flags_ &&& DIRTY_FLAG_PS_SAMPLERS ≠ 0 then
        (samplerCommands C I (self.texture_stage_states_.take kMaxTexStages) 0
          self.sampler_cache_ self.sampler_heap_).2 else self.samplers) ∧
    (if self.dirty_flags_ &&& DIRTY_FLAG_OM ≠ 0 then
      ∃ tex, self.renderTarget = some tex ∧
        s2.renderTarget =
          some { tex with current_state_ := C.D3D12_RESOURCE_STATE_RENDER_TARGET }
    else s2.targets = self.targets) ∧
    (self.dirty_flags_ &&& DIRTY_FLAG_LIGHTS ≠ 0 → DrawDevice.lightsChecks C self = true) ∧
    ([self.vs_cbuffer_, self.vs_creg_cbuffer_, self.lights_cbuffer_, self.ps_cbuffer_].Nodup →
      UploadedIfDirty self.dirty_flags_ DIRTY_FLAG_TRANSFORMS self s2 self.vs_cbuffer_
        I.VertexCBuffer ∧
      UploadedIfDirty self.dirty_flags_ DIRTY_FLAG_VS_CBUFFER self s2 self.vs_creg_cbuffer_
        I.bound_vs_cregs_ ∧
      UploadedIfDirty self.dirty_flags_ DIRTY_FLAG_LIGHTS self s2 self.lights_cbuffer_
        I.LightsCBuffer ∧
      UploadedIfDirty self.dirty_flags_ DIRTY_FLAG_PS_CBUFFER self s2 self.ps_cbuffer_
        I.PixelCBuffer) := by
  have hkeep := drawSteps_keep K L C I PrimitiveType start_vertex num_vertices
  have hpow := drawSteps_pow K L C I PrimitiveType start_vertex num_vertices
  have hflags : s2.dirty_flags_ =
      self.dirty_flags_ ^^^ (self.dirty_flags_ &&& DIRTY_FLAG_ALL_RESOURCES) := by
    rw [PrepareDrawCall_eq_runSteps] at h
    by_cases hP : PrimitiveType > C.D3DPT_TRIANGLEFAN
    · rw [if_pos hP] at h
      simp only [Except.ok.injEq, Prod.mk.injEq, reduceCtorEq, false_and] at h
    · rw [if_neg hP, ASSERT_eq_ok] at h
      obtain ⟨-, h⟩ := h
      cases hr : DrawDevice.runSteps
          (DrawDevice.drawSteps K L C I PrimitiveType start_vertex num_vertices) self with
      | error e =>
        rw [hr] at h
        cases h
      | ok t =>
        rw [hr] at h
        simp only [Except.ok.injEq, Prod.mk.injEq, true_and] at h
        subst h
        rw [runSteps_flags _ _ _ hkeep hpow hr, drawSteps_mask]
  have hclear : s2.dirty_flags_ &&& DIRTY_FLAG_ALL_RESOURCES = 0 := by
    rw [hflags]
    exact clear_and_self _ _
  refine ⟨?_, hflags, hclear, ?_, ?_, ?_, PrepareDrawCall_effect h⟩
  · rw [PrepareDrawCall_eq_runSteps, PrepareDrawCall_reference_eq_runSteps,
      runSteps_eq_reference self.dirty_flags_ _ self hkeep hpow
        (drawSteps_disjoint K L C I PrimitiveType start_vertex num_vertices)
        (fun _ _ _ _ => rfl)]
  · intro flag hflag
    have hsub : DIRTY_FLAG_ALL_RESOURCES &&& flag = flag := by
      unfold resourceFlags at hflag
      simp only [List.mem_cons, List.mem_singleton, List.not_mem_nil, or_false] at hflag
      rcases hflag with rfl | rfl | rfl | rfl | rfl | rfl | rfl <;> rfl
    rw [← hsub, ← Nat.and_assoc, hclear, Nat.zero_and]
  · rw [hflags]
    exact clear_then_and (by decide)
  · intro s s1 buffer bytes checks hu
    exact uploadConstants_discard hu

/-- C25 at a concrete input: on `drawReady`, whose seven category bits are all
set (flags 254), whose command list is empty and whose four constant buffers
are at the addresses 10 to 13, the draw preparation of a triangle list returns
`S_OK` with every category bit clear. It has recorded the fourteen commands of
the seven uploads in order, keeps the back buffer 100, the depth target 30, the
vertex buffer 20 and the texture 60 alive, has taken the sampler descriptor 6
from the free list and cached it for the stage, and each constant buffer holds
the bytes of its category. -/
theorem PrepareDrawCall_uploads_dirty_categories_witness :
    drawReady.dirty_flags_ = 254 ∧ afterDraw.1 = HRESULT.S_OK ∧
    afterDraw.2.dirty_flags_ =
      drawReady.dirty_flags_ ^^^ (drawReady.dirty_flags_ &&& DIRTY_FLAG_ALL_RESOURCES) ∧
    afterDraw.2.dirty_flags_ &&& DIRTY_FLAG_ALL_RESOURCES = 0 ∧
    (drawReady.cmd_list_ = [] ∧ drawReady.frame_resources_to_free_ 0 = [] ∧
      drawReady.current_back_buffer_ = 0 ∧ drawReady.samplers = ([], [5, 6])) ∧
    afterDraw.2.cmd_list_ =
      [Command.RSSetViewports, Command.RSSetScissorRects, Command.SetDescriptorHeaps,
        Command.OMSetRenderTargets 100 (some 30), Command.IASetPrimitiveTopology 4,
        Command.IASetVertexBuffers
          [{ BufferLocation := 800000, SizeInBytes := 36, StrideInBytes := 12 }],
        Command.SetPipelineState 900, Command.SetGraphicsRootSignature,
        Command.SetGraphicsRootConstantBufferView 0 4096,
        Command.SetGraphicsRootConstantBufferView 1 4352,
        Command.SetGraphicsRootConstantBufferView 2 4608,
        Command.SetGraphicsRootConstantBufferView 3 4864,
        Command.SetGraphicsRootDescriptorTable 4 5007,
        Command.SetGraphicsRootDescriptorTable 12 7006] ∧
    afterDraw.2.frame_resources_to_free_ 0 = [30, 100, 20, 60] ∧
    afterDraw.2.samplers = ([(3, 7006)], [5]) ∧
    afterDraw.2.buffers_to_persist_ = [12, 11, 13, 10] ∧
    [10, 13, 11, 12].map
        (fun a => (afterDraw.2.buffers a).map (fun b => b.speculative_write_cache_)) =
      [some [1, 2, 3, 4], some [5, 6, 7, 8], some [9, 10, 11, 12], some [13, 14, 15, 16]] ∧
    afterDraw.2.samplers =
      (if drawReady.dirty_flags_ &&& DIRTY_FLAG_PS_SAMPLERS ≠ 0 then
        (samplerCommands sdkDraw drawInputs (drawReady.texture_stage_states_.take kMaxTexStages)
          0 drawReady.sampler_cache_ drawReady.sampler_heap_).2 else drawReady.samplers) ∧
    [drawReady.vs_cbuffer_, drawReady.vs_creg_cbuffer_, drawReady.lights_cbuffer_,
      drawReady.ps_cbuffer_].Nodup ∧
    (UploadedIfDirty drawReady.dirty_flags_ DIRTY_FLAG_TRANSFORMS drawReady afterDraw.2
        drawReady.vs_cbuffer_ drawInputs.VertexCBuffer ∧
      UploadedIfDirty drawReady.dirty_flags_ DIRTY_FLAG_VS_CBUFFER drawReady afterDraw.2
        drawReady.vs_creg_cbuffer_ drawInputs.bound_vs_cregs_ ∧
      UploadedIfDirty drawReady.dirty_flags_ DIRTY_FLAG_LIGHTS drawReady afterDraw.2
        drawReady.lights_cbuffer_ drawInputs.LightsCBuffer ∧
      UploadedIfDirty drawReady.dirty_flags_ DIRTY_FLAG_PS_CBUFFER drawReady afterDraw.2
        drawReady.ps_cbuffer_ drawInputs.PixelCBuffer) :=
  ⟨rfl, rfl,
    (PrepareDrawCall_uploads_dirty_categories kNumBackBuffers sdkLockBits sdkDraw drawInputs
      drawReady afterDraw.2 4 0 3 rfl).2.1,
    (PrepareDrawCall_uploads_dirty_categories kNumBackBuffers sdkLockBits sdkDraw drawInputs
      drawReady afterDraw.2 4 0 3 rfl).2.2.1,
    ⟨rfl, rfl, rfl, rfl⟩, rfl, rfl, rfl, rfl, rfl,
    (PrepareDrawCall_uploads_dirty_categories kNumBackBuffers sdkLockBits sdkDraw drawInputs
      drawReady afterDraw.2 4 0 3 rfl).2.2.2.2.2.2.2.1,
    by decide,
    (PrepareDrawCall_uploads_dirty_categories kNumBackBuffers sdkLockBits sdkDraw drawInputs
      drawReady afterDraw.2 4 0 3 rfl).2.2.2.2.2.2.2.2.2.2 (by decide)⟩

end Dx8to12
